import Mathlib

/-!
Distribution indexing, local copies, pairwise exchange and redistribution.

A shallow embedding of the redistribution core (`ElementalMatrix` index queries,
`[VR,*] = [VC,*]`, `CopyImpl`, `Exchange_impl`, the `LaunchCopy` dispatch, the reference
redistribution between two distributions, the conformance assertions, the dispatcher of
`Copy` on `BaseDistMatrix` operands, the assignment operators of `[*,MD]`, `[MC,MR]` and
`[VR,*]`, `copy::Exchange` and the vector exchanges, the realignment and attachment
functions, `MakeConsistent` and `CopyFromRoot`, `RelativeIndices` and `Find`, the
sequential and the distributed `ldl::Inertia`, `SyncInfoPool`, `ReportException`, the
partner ranks of the exchanges, `DiagonalRoot` and `DiagonalAlign`) together with the
properties established for it.

Conventions.  The C++ type `Int` is embedded as Lean `Int`; the C++ operators `/` and
`%` are `Int.tdiv` and `Int.tmod` (truncation toward zero).  Buffers are functions from
an element offset to the stored element, so pointer arithmetic `&buf[k]` is an offset
shift.  Counted `for` loops run over `List.range`.  Statements inside `DEBUG_ONLY(...)`
or `EL_DEBUG_ONLY(...)` run when the flag `debug` is set.  A member function that can
raise after it changed the matrix returns a `MemberOutcome`: the matrix at the end of the
call and the message raised, if any.
-/

namespace El

/-! ## Index helpers (El/core/indexing) -/

/-- Modelled from the spec: `Shift` (El/core/indexing) is not part of the embedded
sources.  The first global index owned by the process of rank `rank` under alignment
`align` and stride `stride`: `(rank - align + stride) mod stride`. -/
def Shift (rank align stride : Int) : Int :=
  Int.tmod (rank - align + stride) stride

/-- Whether global index `k` is one of the indices `shift, shift + stride, ...` stored
by a process with the given shift and stride. -/
def ownsIndex (shift stride : Int) (k : Int) : Bool :=
  decide (shift ≤ k ∧ Int.tmod (k - shift) stride = 0)

/-- Modelled from the spec: `Length_` (El/core/indexing) is not part of the embedded
sources.  The number of locally owned indices with global index below `n`, for a process
with the given shift and stride. -/
def Length_ (n shift stride : Int) : Int :=
  (((List.range n.toNat).filter (fun (k : Nat) => ownsIndex shift stride (k : Int))).length : Int)

/-- Modelled from the spec: `Length` (El/core/indexing) is not part of the embedded
sources.  The local extent of a global extent `n`: the number of owned indices in
`[0,n)`; it is `Length_` behind argument checks that are compiled only in debug builds. -/
def Length (n shift stride : Int) : Int :=
  Length_ n shift stride

/-- Modelled from the spec: `MaxLength` (El/core/indexing) is not part of the embedded
sources.  The largest local extent over all processes, attained at shift zero. -/
def MaxLength (n stride : Int) : Int :=
  Length n 0 stride

/-! ## Process grid -/

/-- Modelled from the spec: the `Grid` class is not part of the embedded sources.  An
`height_ x width_` process grid as seen by the process at grid row `mcRank` and grid column
`mrRank`; the column-major linear rank is `row + col*height` and the row-major linear rank
is `col + row*width`.  `inGrid` is false on a process that only views the grid. -/
structure Grid where
  height_ : Int
  width_ : Int
  mcRank : Int
  mrRank : Int
  inGrid : Bool := true
  deriving DecidableEq

namespace Grid

def Height (g : Grid) : Int := g.height_
def Width (g : Grid) : Int := g.width_
def Size (g : Grid) : Int := g.height_ * g.width_
def VCRank (g : Grid) : Int := g.mcRank + g.mrRank * g.height_
def VRRank (g : Grid) : Int := g.mrRank + g.mcRank * g.width_
def VCSize (g : Grid) : Int := g.Size
def VRSize (g : Grid) : Int := g.Size
def InGrid (g : Grid) : Bool := g.inGrid

/-- The grid object of the process whose row-major rank is `rank`. -/
def ofVRRank (r c rank : Int) : Grid :=
  { height_ := r, width_ := c, mcRank := Int.tdiv rank c, mrRank := Int.tmod rank c }

end Grid

/-! ## View types -/

/-- Modelled from the spec: the enumeration `ViewType` is not part of the embedded sources.
Whether a matrix owns its buffer or is a view of another matrix's storage, whether its size
is fixed, and whether the view is locked (read-only). -/
inductive ViewType where
  | OWNER
  | VIEW
  | OWNER_FIXED
  | VIEW_FIXED
  | LOCKED_OWNER
  | LOCKED_VIEW
  | LOCKED_OWNER_FIXED
  | LOCKED_VIEW_FIXED
  deriving DecidableEq

namespace ViewType

/-- The integer value of an enumerator (the implicit conversion `Int(viewType)`). -/
def toInt : ViewType → Int
  | OWNER => 0
  | VIEW => 1
  | OWNER_FIXED => 2
  | VIEW_FIXED => 3
  | LOCKED_OWNER => 4
  | LOCKED_VIEW => 5
  | LOCKED_OWNER_FIXED => 6
  | LOCKED_VIEW_FIXED => 7

/-- The conversion `static_cast<ViewType>(n)`; an integer that is the value of no enumerator
is mapped to `OWNER`. -/
def ofInt (n : Int) : ViewType :=
  if n = 1 then VIEW
  else if n = 2 then OWNER_FIXED
  else if n = 3 then VIEW_FIXED
  else if n = 4 then LOCKED_OWNER
  else if n = 5 then LOCKED_VIEW
  else if n = 6 then LOCKED_OWNER_FIXED
  else if n = 7 then LOCKED_VIEW_FIXED
  else OWNER

end ViewType

/-- Modelled from the spec: `IsViewing` is not part of the embedded sources.  The view bit
`v & 0x1` of a view type. -/
def IsViewing (v : ViewType) : Bool := decide (Int.tmod v.toInt 2 ≠ 0)

/-- Modelled from the spec: `IsLocked` is not part of the embedded sources.  The lock bit
`v & 0x4` of a view type. -/
def IsLocked (v : ViewType) : Bool := decide (Int.tmod (Int.tdiv v.toInt 4) 2 ≠ 0)

/-! ## Local matrices and the distribution descriptor -/

/-- Modelled from the spec: the `Matrix` class is not part of the embedded sources.  A
local matrix handle: logical extents, leading dimension and the cells of its buffer,
entry `(i,j)` living at offset `i + j*ldim`. -/
structure Matrix (α : Type) where
  height_ : Int
  width_ : Int
  ldim_ : Int
  data_ : Int → α

namespace Matrix

variable {α : Type}

def Height (A : Matrix α) : Int := A.height_
def Width (A : Matrix α) : Int := A.width_
def LDim (A : Matrix α) : Int := A.ldim_
def LockedBuffer (A : Matrix α) : Int → α := A.data_
def Buffer (A : Matrix α) : Int → α := A.data_

/-- Entry `(i,j)` of the local matrix. -/
def Get (A : Matrix α) (i j : Int) : α := A.data_ (i + j * A.ldim_)

/-- Modelled from the spec: `Matrix::Resize` is not part of the embedded sources.  The
logical extents become `(height, width)`; the leading dimension stays when it already
holds a column of the new height and the width does not grow, and otherwise the buffer is
reallocated with leading dimension `max(height,1)`, its cells being those of the fresh
storage `mem`. -/
def Resize (A : Matrix α) (mem : Int → α) (height width : Int) : Matrix α :=
  if height > A.ldim_ ∨ width > A.width_ then
    { height_ := height, width_ := width, ldim_ := max height 1, data_ := mem }
  else
    { A with height_ := height, width_ := width }

end Matrix

/-- The data members of `ElementalMatrix` (declared in `AbstractDistMatrix`) together with
what the virtual queries of the concrete distribution return on this process: `colStride`,
`rowStride`, `colRank`, `rowRank` and `crossRank` hold the results of `ColStride()`,
`RowStride()`, `ColRank()`, `RowRank()` and `CrossRank()`, and `participating` that of
`Participating()`, which is `InGrid() && CrossRank() == Root()`.  `grid_` is the grid object
the matrix references.  The view type, the constraint flags and the root have the values the
constructor gives unless stated. -/
structure ElementalMatrix (α : Type) where
  grid_ : Grid
  viewType_ : ViewType := ViewType.OWNER
  height_ : Int
  width_ : Int
  colConstrained_ : Bool := false
  rowConstrained_ : Bool := false
  rootConstrained_ : Bool := false
  colAlign_ : Int
  rowAlign_ : Int
  colShift_ : Int
  rowShift_ : Int
  root_ : Int := 0
  colStride : Int
  rowStride : Int
  colRank : Int
  rowRank : Int
  crossRank : Int := 0
  participating : Bool
  matrix_ : Matrix α

namespace ElementalMatrix

variable {α : Type}

def Grid (A : ElementalMatrix α) : El.Grid := A.grid_
def ViewType (A : ElementalMatrix α) : El.ViewType := A.viewType_
def Viewing (A : ElementalMatrix α) : Bool := IsViewing A.viewType_
def Locked (A : ElementalMatrix α) : Bool := IsLocked A.viewType_
def ColConstrained (A : ElementalMatrix α) : Bool := A.colConstrained_
def RowConstrained (A : ElementalMatrix α) : Bool := A.rowConstrained_
def RootConstrained (A : ElementalMatrix α) : Bool := A.rootConstrained_
def Root (A : ElementalMatrix α) : Int := A.root_
def ColRank (A : ElementalMatrix α) : Int := A.colRank
def RowRank (A : ElementalMatrix α) : Int := A.rowRank
def CrossRank (A : ElementalMatrix α) : Int := A.crossRank
def Height (A : ElementalMatrix α) : Int := A.height_
def Width (A : ElementalMatrix α) : Int := A.width_
def ColAlign (A : ElementalMatrix α) : Int := A.colAlign_
def RowAlign (A : ElementalMatrix α) : Int := A.rowAlign_
def ColShift (A : ElementalMatrix α) : Int := A.colShift_
def RowShift (A : ElementalMatrix α) : Int := A.rowShift_
def ColStride (A : ElementalMatrix α) : Int := A.colStride
def RowStride (A : ElementalMatrix α) : Int := A.rowStride
def Participating (A : ElementalMatrix α) : Bool := A.participating
def LocalHeight (A : ElementalMatrix α) : Int := A.matrix_.Height
def LocalWidth (A : ElementalMatrix α) : Int := A.matrix_.Width
def LDim (A : ElementalMatrix α) : Int := A.matrix_.LDim
def LockedBuffer (A : ElementalMatrix α) : Int → α := A.matrix_.LockedBuffer
def Buffer (A : ElementalMatrix α) : Int → α := A.matrix_.Buffer

end ElementalMatrix

/-- Modelled from the spec: `AssertNotLocked` is not part of the embedded sources.  Writing
through a locked view is a `LogicError`. -/
def AssertNotLocked {α : Type} (A : ElementalMatrix α) : Except String Unit :=
  if A.Locked then Except.error "Assertion that matrix not be a locked view failed"
  else Except.ok ()

namespace ElementalMatrix

variable {α : Type}

/-- Embeds `ElementalMatrix::Resize(height, width)` (Elemental.cpp), the statements after
its `DEBUG_ONLY` block: the global extents are stored and, on a participating process, the
local matrix is resized to the local lengths.  `mem` is the storage a reallocation would hand
out. -/
def Resize (A : ElementalMatrix α) (mem : Int → α) (height width : Int) :
    ElementalMatrix α :=
  let A1 := { A with height_ := height, width_ := width }
  if A1.Participating then
    let localHeight := Length height A1.ColShift A1.ColStride
    let localWidth := Length width A1.RowShift A1.RowStride
    { A1 with matrix_ := Matrix.Resize A1.matrix_ mem localHeight localWidth }
  else A1

/-- Embeds the `DEBUG_ONLY` block of `ElementalMatrix::Resize(height, width)`
(Elemental.cpp): the matrix must not be locked, and a view must not grow. -/
def Resize_DEBUG_ONLY (A : ElementalMatrix α) (height width : Int) : Except String Unit := do
  AssertNotLocked A
  if A.Viewing ∧ (height > A.height_ ∨ width > A.width_) then
    throw "Tried to increase the size of a view"

/-- The assertions of `Resize(height, width)` pass in this build: in a debug build the matrix
is not locked and, when it is a view, does not grow. -/
def ResizeAllowed (debug : Bool) (A : ElementalMatrix α) (height width : Int) : Prop :=
  debug = true →
    A.Locked = false ∧ (A.Viewing = true → height ≤ A.height_ ∧ width ≤ A.width_)

/-- Embeds `ElementalMatrix::Resize(height, width)` (Elemental.cpp) in a debug build
(`debug = true`, the `DEBUG_ONLY` block is compiled) or a release build. -/
def Resize_checked (debug : Bool) (A : ElementalMatrix α) (mem : Int → α)
    (height width : Int) : Except String (ElementalMatrix α) := do
  if debug then
    A.Resize_DEBUG_ONLY height width
  return A.Resize mem height width

/-- Embeds `ElementalMatrix::RowOwner` (Elemental.cpp).  `END` is the sentinel index constant,
declared outside the embedded sources. -/
def RowOwner (END : Int) (A : ElementalMatrix α) (i : Int) : Int :=
  let i := if i = END then A.height_ - 1 else i
  Int.tmod (i + A.ColAlign) A.ColStride

/-- Embeds `ElementalMatrix::ColOwner` (Elemental.cpp). -/
def ColOwner (END : Int) (A : ElementalMatrix α) (j : Int) : Int :=
  let j := if j = END then A.width_ - 1 else j
  Int.tmod (j + A.RowAlign) A.RowStride

/-- Embeds `ElementalMatrix::LocalRowOffset` (Elemental.cpp). -/
def LocalRowOffset (END : Int) (A : ElementalMatrix α) (i : Int) : Int :=
  let i := if i = END then A.height_ - 1 else i
  Length_ i A.ColShift A.ColStride

/-- Embeds `ElementalMatrix::LocalColOffset` (Elemental.cpp). -/
def LocalColOffset (END : Int) (A : ElementalMatrix α) (j : Int) : Int :=
  let j := if j = END then A.width_ - 1 else j
  Length_ j A.RowShift A.RowStride

/-- Embeds `ElementalMatrix::GlobalRow` (Elemental.cpp). -/
def GlobalRow (END : Int) (A : ElementalMatrix α) (iLoc : Int) : Int :=
  let iLoc := if iLoc = END then A.LocalHeight - 1 else iLoc
  A.ColShift + iLoc * A.ColStride

/-- Embeds `ElementalMatrix::GlobalCol` (Elemental.cpp). -/
def GlobalCol (END : Int) (A : ElementalMatrix α) (jLoc : Int) : Int :=
  let jLoc := if jLoc = END then A.LocalWidth - 1 else jLoc
  A.RowShift + jLoc * A.RowStride

/-- Modelled from the spec: the constructor and `SetShifts` of `AbstractDistMatrix` are not
part of the embedded sources.  The descriptor of an `[MC,MR]` matrix on the
`colStride x rowStride` grid held by the process whose ranks in the column and row
communicators are `colRank` and `rowRank` (MC_MR.cpp: `ColStride() = MCSize()`,
`RowStride() = MRSize()`, `ColRank() = MCRank()`, `RowRank() = MRRank()`): the shifts are
`(rank - align + stride) mod stride`, the global extents start at zero and `loc` is the
local matrix. -/
def onProcess (colStride rowStride colAlign rowAlign colRank rowRank : Int)
    (loc : Matrix α) : ElementalMatrix α :=
  { grid_ := { height_ := colStride, width_ := rowStride, mcRank := colRank, mrRank := rowRank }
    height_ := 0
    width_ := 0
    colAlign_ := colAlign
    rowAlign_ := rowAlign
    colShift_ := Shift colRank colAlign colStride
    rowShift_ := Shift rowRank rowAlign rowStride
    colStride := colStride
    rowStride := rowStride
    colRank := colRank
    rowRank := rowRank
    participating := true
    matrix_ := loc }

end ElementalMatrix


/-! ## Memory primitives -/

/-- Modelled from the spec: `MemCopy` is not part of the embedded sources.
`MemCopy(&dst[dOff], &src[sOff], n)` copies `n` consecutive elements; the two regions do
not overlap. -/
def MemCopy {α : Type} (dst : Int → α) (dOff : Int) (src : Int → α) (sOff : Int) (n : Int) :
    Int → α :=
  fun k => if dOff ≤ k ∧ k < dOff + n then src (sOff + (k - dOff)) else dst k

/-- The loop `for (Int j = 0; j < n; ++j) body(j)` acting on a state. -/
def forLoop {σ : Type} (n : Int) (body : Int → σ → σ) (init : σ) : σ :=
  (List.range n.toNat).foldl (fun st (j : Nat) => body (j : Int) st) init

/-! ## `[VR,*] = [VC,*]` (VR_STAR.cpp) -/

/-- What `DistMatrix<T,VC,STAR>` fixes for its `ElementalMatrix` base on the grid `g`: the
column distribution runs over the column-major communicator, the row distribution is
trivial, the shifts are those of this process and the local matrix has the local
lengths with a leading dimension that holds a column. -/
def IsVC_STAR {α : Type} (g : Grid) (A : ElementalMatrix α) : Prop :=
  A.grid_ = g ∧ A.colStride = g.VCSize ∧ A.rowStride = 1 ∧
  A.colShift_ = Shift g.VCRank A.colAlign_ g.VCSize ∧ A.rowShift_ = 0 ∧
  A.rowAlign_ = 0 ∧ A.participating = true ∧
  A.matrix_.height_ = Length A.height_ A.colShift_ A.colStride ∧
  A.matrix_.width_ = Length A.width_ A.rowShift_ A.rowStride ∧
  A.matrix_.height_ ≤ A.matrix_.ldim_

/-- What `DistMatrix<T,VR,STAR>` fixes for its `ElementalMatrix` base on the grid `g`
(`ColStride() = VRSize()`, `RowStride() = 1` in VR_STAR.cpp), for a destination that owns
its data (neither a locked matrix nor a view). -/
def IsVR_STAR {α : Type} (g : Grid) (B : ElementalMatrix α) : Prop :=
  B.grid_ = g ∧ B.Locked = false ∧ B.colStride = g.VRSize ∧ B.rowStride = 1 ∧
  B.colShift_ = Shift g.VRRank B.colAlign_ g.VRSize ∧ B.rowShift_ = 0 ∧
  B.rowAlign_ = 0 ∧ B.participating = true ∧ B.Viewing = false

/-- The state of one process when it reaches `mpi::SendRecv` in `[VR,*] = [VC,*]`:
the resized destination, the two partner ranks and the auxiliary buffer, whose first
`portionSize` cells are `sendBuf` and whose next `portionSize` cells are `recvBuf`. -/
structure VRFromVCState (α : Type) where
  B : ElementalMatrix α
  width : Int
  localHeight : Int
  portionSize : Int
  sendRankRM : Int
  recvRankRM : Int
  buffer : Int → α

/-- How a call ends: it returns a result, it raises `LogicError`, it does not complete its
communication (a receive that is never matched or cannot hold the message), it does not
compile because no overload can be chosen, or the evaluation ran out of fuel. -/
inductive CallResult (β : Type) where
  | returned (b : β)
  | logicError (msg : String)
  | blocked
  | illFormed
  | outOfFuel

/-- Modelled from the spec: `AssertSameGrids` is not part of the embedded sources.
Operands that reference different process grids are a `LogicError`. -/
def AssertSameGrids {α : Type} (A B : ElementalMatrix α) : Except String Unit :=
  if A.Grid ≠ B.Grid then Except.error "Grids did not match" else Except.ok ()

/-- The part of `DistMatrix<T,VR,STAR>::operator=(const DistMatrix<T,VC,STAR>&)` before
`mpi::SendRecv`: the assertions of a debug build (`debug`), resize, the early return of a
process outside the grid (`Sum.inl`), the rank computation and the pack loop.  `mem` is the
storage a reallocation of the local matrix would hand out and `aux` the cells of
`auxMemory_` before packing. -/
def VR_STAR_assign_pack {α : Type} (debug : Bool) (B A : ElementalMatrix α)
    (mem aux : Int → α) : Except String (ElementalMatrix α ⊕ VRFromVCState α) := do
  if debug then
    AssertSameGrids B A
    AssertNotLocked B
  let g := B.Grid
  let B ← B.Resize_checked debug mem A.Height A.Width
  if !B.Participating then return Sum.inl B
  let r := g.Height
  let c := g.Width
  let p := g.Size
  let rankCM := g.VCRank
  let rankRM := g.VRRank
  let height := B.Height
  let width := B.Width
  let localHeight := B.LocalHeight
  let localHeightOfA := A.LocalHeight
  let maxLocalHeight := MaxLength height p
  let portionSize := maxLocalHeight * width
  let colShift := B.ColShift
  let colShiftOfA := A.ColShift
  let sendRankRM := Int.tmod (rankRM + (p + colShiftOfA - colShift)) p
  let recvRankCM := Int.tmod (rankCM + (p + colShift - colShiftOfA)) p
  let recvRankRM := Int.tdiv recvRankCM r + c * Int.tmod recvRankCM r
  let buffer := aux
  let sendBuf := (0 : Int)
  let ALDim := A.LDim
  let ABuf := A.LockedBuffer
  let buffer := forLoop width
    (fun j buf => MemCopy buf (sendBuf + j * localHeightOfA) ABuf (j * ALDim) localHeightOfA)
    buffer
  return Sum.inr { B := B, width := width, localHeight := localHeight,
                   portionSize := portionSize, sendRankRM := sendRankRM,
                   recvRankRM := recvRankRM, buffer := buffer }

/-- The part of `[VR,*] = [VC,*]` after `mpi::SendRecv`: the unpack loop from `recvBuf`
(the second half of the auxiliary buffer) into the local matrix. -/
def VR_STAR_assign_unpack {α : Type} (st : VRFromVCState α) (buffer : Int → α) :
    ElementalMatrix α :=
  let recvBuf := st.portionSize
  let thisLDim := st.B.LDim
  let thisBuf := forLoop st.width
    (fun j buf => MemCopy buf (j * thisLDim) buffer (recvBuf + j * st.localHeight)
      st.localHeight)
    st.B.Buffer
  { st.B with matrix_ := { st.B.matrix_ with data_ := thisBuf } }

/-- Modelled from the spec: the messaging layer is not part of the embedded sources.  All
processes of the `r x c` grid run `[VR,*] = [VC,*]`, the process at `(row, col)` on its parts
`B row col` and `A row col`.  `mpi::SendRecv` over the row-major communicator blocks until
the message of the process named as source arrives, so the call of the process at
`(row, col)` returns only when that source reached its own `SendRecv` and addressed its send
to this process with at most `portionSize` elements; the first `portionSize` cells of the
source's buffer are then in `recvBuf`. -/
def VR_STAR_assign_all {α : Type} (debug : Bool) (r c : Int)
    (B A : Int → Int → ElementalMatrix α)
    (mem aux : Int → Int → Int → α) (row col : Int) : CallResult (ElementalMatrix α) :=
  let g : Grid := { height_ := r, width_ := c, mcRank := row, mrRank := col }
  match VR_STAR_assign_pack debug (B row col) (A row col) (mem row col) (aux row col) with
  | Except.error msg => CallResult.logicError msg
  | Except.ok (Sum.inl B1) => CallResult.returned B1
  | Except.ok (Sum.inr st) =>
    let gs := Grid.ofVRRank r c st.recvRankRM
    match VR_STAR_assign_pack debug (B gs.mcRank gs.mrRank) (A gs.mcRank gs.mrRank)
        (mem gs.mcRank gs.mrRank) (aux gs.mcRank gs.mrRank) with
    | Except.ok (Sum.inr src) =>
      if src.sendRankRM = g.VRRank ∧ src.portionSize ≤ st.portionSize then
        CallResult.returned (VR_STAR_assign_unpack st
          (MemCopy st.buffer st.portionSize src.buffer 0 src.portionSize))
      else CallResult.blocked
    | _ => CallResult.blocked

/-! ## Sample data -/

/-- A value of the sentinel index constant for the examples. -/
def sampleEND : Int := -100

/-- A `5 x 2` matrix `[VC,*]` with column alignment 1 on the `2 x 2` grid: the part stored
at grid position `(row, col)`.  Global entry `(i,j)` holds `10*i + j` and every stored
column is followed by one unused cell. -/
def sampleA (row col : Int) : ElementalMatrix Int :=
  let sh := Shift (row + col * 2) 1 4
  let lh := Length 5 sh 4
  { grid_ := { height_ := 2, width_ := 2, mcRank := row, mrRank := col }
    height_ := 5
    width_ := 2
    colAlign_ := 1
    rowAlign_ := 0
    colShift_ := sh
    rowShift_ := 0
    colStride := 4
    rowStride := 1
    colRank := row + col * 2
    rowRank := 0
    participating := true
    matrix_ :=
      { height_ := lh
        width_ := 2
        ldim_ := lh + 1
        data_ := fun k => 10 * (sh + Int.tmod k (lh + 1) * 4) + Int.tdiv k (lh + 1) } }

/-- An empty matrix `[VR,*]` with column alignment 2 on the `2 x 2` grid: the part stored at
grid position `(row, col)`. -/
def sampleB (row col : Int) : ElementalMatrix Int :=
  { grid_ := { height_ := 2, width_ := 2, mcRank := row, mrRank := col }
    height_ := 0
    width_ := 0
    colAlign_ := 2
    rowAlign_ := 0
    colShift_ := Shift (col + row * 2) 2 4
    rowShift_ := 0
    colStride := 4
    rowStride := 1
    colRank := col + row * 2
    rowRank := 0
    participating := true
    matrix_ := { height_ := 0, width_ := 0, ldim_ := 1, data_ := fun _ => 0 } }

/-- An empty local matrix. -/
def sampleLocal : Matrix Int :=
  { height_ := 0, width_ := 0, ldim_ := 1, data_ := fun _ => 0 }

/-- Storage whose cells all hold zero. -/
def sampleMem : Int → Int := fun _ => 0

/-! ## Local copy: `CopyImpl` (CopyLocal.hpp) -/

/-- The memory spaces (`Device`). -/
inductive Device where
  | CPU
  | GPU
  deriving DecidableEq

/-- The element types named in the embedded sources (Copy.cpp, Copy.hpp, the test), and
`other n` for any further C++ type. -/
inductive ElemType where
  | float
  | double
  | cpu_half_type
  | gpu_half_type
  | complexFloat
  | complexDouble
  | uint8_t
  | int
  | other (n : Nat)
  deriving DecidableEq

/-- The preprocessor switches the copy layer is compiled under. -/
structure BuildConfig where
  HYDROGEN_HAVE_GPU : Bool
  HYDROGEN_HAVE_CUDA : Bool
  HYDROGEN_HAVE_HALF : Bool
  HYDROGEN_GPU_USE_FP16 : Bool

/-- The type predicates the enabling conditions consult.  `IsStorageType`,
`IsDeviceValidType`, `CanCast` and `Caster<S,T>::Cast` are declared outside the embedded
sources and are parameters of the embedding; element values of all types live in one
value domain `α`. -/
structure TypeTraits (α : Type) where
  IsStorageType : ElemType → Device → Bool
  IsDeviceValidType : ElemType → Device → Bool
  CanCast : ElemType → ElemType → Bool
  Cast : ElemType → ElemType → α → α

/-- Embeds `details::CompatibleStorageType<T,D>` (Copy.hpp): the type itself, except that with
both half-precision switches on `cpu_half_type` is held on the GPU as `gpu_half_type`. -/
def CompatibleStorageType (cfg : BuildConfig) (T : ElemType) (D : Device) : ElemType :=
  if cfg.HYDROGEN_HAVE_HALF ∧ cfg.HYDROGEN_GPU_USE_FP16 ∧
      T = ElemType.cpu_half_type ∧ D = Device.GPU then
    ElemType.gpu_half_type
  else T

/-- Embeds `details::GPUStorageType<T>` (Copy.hpp). -/
def GPUStorageType (cfg : BuildConfig) (T : ElemType) : ElemType :=
  CompatibleStorageType cfg T Device.GPU

/-- The overloads of `CopyImpl`, in the order of CopyLocal.hpp. -/
inductive CopyCase where
  | case1_CPU
  | case4_CPU
  | case4_GPU
  | case1_GPU
  | case2_CPU_GPU
  | case2_GPU_CPU
  | case3_CPU_GPU
  | case3_GPU_CPU
  | case5
  | case0
  deriving DecidableEq

/-- All overloads. -/
def CopyCase.all : List CopyCase :=
  [CopyCase.case1_CPU, CopyCase.case4_CPU, CopyCase.case4_GPU, CopyCase.case1_GPU,
   CopyCase.case2_CPU_GPU, CopyCase.case2_GPU_CPU, CopyCase.case3_CPU_GPU,
   CopyCase.case3_GPU_CPU, CopyCase.case5, CopyCase.case0]

/-- Whether the overload is compiled in: the GPU overloads sit inside
`#ifdef HYDROGEN_HAVE_GPU`, the `cudaMemcpy2DAsync` one inside `#ifdef HYDROGEN_HAVE_CUDA`
within it. -/
def CopyCase.declared (cfg : BuildConfig) : CopyCase → Bool
  | CopyCase.case1_CPU => true
  | CopyCase.case4_CPU => true
  | CopyCase.case4_GPU => cfg.HYDROGEN_HAVE_GPU
  | CopyCase.case1_GPU => cfg.HYDROGEN_HAVE_GPU && cfg.HYDROGEN_HAVE_CUDA
  | CopyCase.case2_CPU_GPU => cfg.HYDROGEN_HAVE_GPU
  | CopyCase.case2_GPU_CPU => cfg.HYDROGEN_HAVE_GPU
  | CopyCase.case3_CPU_GPU => cfg.HYDROGEN_HAVE_GPU
  | CopyCase.case3_GPU_CPU => cfg.HYDROGEN_HAVE_GPU
  | CopyCase.case5 => true
  | CopyCase.case0 => true

/-- Whether the parameter types of the overload match a call with a source
`Matrix<S,D1>` and a target `Matrix<U,D2>` (template argument deduction succeeds). -/
def CopyCase.matchesSignature (cfg : BuildConfig) (S : ElemType) (D1 : Device)
    (U : ElemType) (D2 : Device) : CopyCase → Bool
  | CopyCase.case1_CPU => decide (D1 = Device.CPU ∧ D2 = Device.CPU ∧ S = U)
  | CopyCase.case4_CPU => decide (D1 = Device.CPU ∧ D2 = Device.CPU)
  | CopyCase.case4_GPU => decide (D1 = Device.GPU ∧ D2 = Device.GPU)
  | CopyCase.case1_GPU => decide (D1 = Device.GPU ∧ D2 = Device.GPU ∧ S = U)
  | CopyCase.case2_CPU_GPU => decide (D1 = Device.CPU ∧ D2 = Device.GPU ∧ S = U)
  | CopyCase.case2_GPU_CPU => decide (D1 = Device.GPU ∧ D2 = Device.CPU ∧ S = U)
  | CopyCase.case3_CPU_GPU =>
      decide (D1 = Device.CPU ∧ D2 = Device.GPU ∧ U = GPUStorageType cfg S)
  | CopyCase.case3_GPU_CPU =>
      decide (D1 = Device.GPU ∧ D2 = Device.CPU ∧ S = GPUStorageType cfg U)
  | CopyCase.case5 => true
  | CopyCase.case0 => true

/-- The `EnableWhen` condition of the overload, as written in CopyLocal.hpp, for a call
with a source `Matrix<S,D1>` and a target `Matrix<U,D2>` that matches its signature. -/
def CopyCase.enablingCondition {α : Type} (cfg : BuildConfig) (tr : TypeTraits α)
    (S : ElemType) (D1 : Device) (U : ElemType) (D2 : Device) : CopyCase → Bool
  | CopyCase.case1_CPU => tr.IsStorageType S Device.CPU
  | CopyCase.case4_CPU =>
      tr.CanCast S U && tr.IsStorageType S Device.CPU && tr.IsStorageType U Device.CPU
  | CopyCase.case4_GPU => tr.IsStorageType S Device.GPU && tr.IsStorageType U Device.GPU
  | CopyCase.case1_GPU => tr.IsStorageType S Device.CPU
  | CopyCase.case2_CPU_GPU => tr.IsStorageType S Device.CPU && tr.IsStorageType S Device.GPU
  | CopyCase.case2_GPU_CPU => tr.IsStorageType S Device.GPU && tr.IsStorageType S Device.CPU
  | CopyCase.case3_CPU_GPU =>
      tr.IsStorageType S Device.CPU && !decide (S = GPUStorageType cfg S)
  | CopyCase.case3_GPU_CPU =>
      tr.IsStorageType U Device.CPU && !decide (U = GPUStorageType cfg U)
  | CopyCase.case5 => decide (D1 ≠ D2) && tr.IsStorageType S D1 && tr.IsStorageType U D2
  | CopyCase.case0 => !tr.IsStorageType S D1 || !tr.IsStorageType U D2

/-- An overload takes part in the resolution of a call when it is compiled in, its
signature matches and its enabling condition holds. -/
def CopyCase.viable {α : Type} (cfg : BuildConfig) (tr : TypeTraits α)
    (S : ElemType) (D1 : Device) (U : ElemType) (D2 : Device) (k : CopyCase) : Bool :=
  k.declared cfg && k.matchesSignature cfg S D1 U D2 && k.enablingCondition cfg tr S D1 U D2

/-- The partial ordering of the function templates by their parameter types:
`moreSpecialized a b` when every call matching `a` matches `b` and not conversely. -/
def CopyCase.moreSpecialized : CopyCase → CopyCase → Bool
  | CopyCase.case1_CPU, CopyCase.case4_CPU => true
  | CopyCase.case1_CPU, CopyCase.case5 => true
  | CopyCase.case1_CPU, CopyCase.case0 => true
  | CopyCase.case4_CPU, CopyCase.case5 => true
  | CopyCase.case4_CPU, CopyCase.case0 => true
  | CopyCase.case1_GPU, CopyCase.case4_GPU => true
  | CopyCase.case1_GPU, CopyCase.case5 => true
  | CopyCase.case1_GPU, CopyCase.case0 => true
  | CopyCase.case4_GPU, CopyCase.case5 => true
  | CopyCase.case4_GPU, CopyCase.case0 => true
  | CopyCase.case2_CPU_GPU, CopyCase.case5 => true
  | CopyCase.case2_CPU_GPU, CopyCase.case0 => true
  | CopyCase.case2_GPU_CPU, CopyCase.case5 => true
  | CopyCase.case2_GPU_CPU, CopyCase.case0 => true
  | CopyCase.case3_CPU_GPU, CopyCase.case5 => true
  | CopyCase.case3_CPU_GPU, CopyCase.case0 => true
  | CopyCase.case3_GPU_CPU, CopyCase.case5 => true
  | CopyCase.case3_GPU_CPU, CopyCase.case0 => true
  | _, _ => false

/-- C++ overload resolution for the call `CopyImpl(src, tgt)`: among the viable overloads
the one more specialized than every other viable one; `none` when no overload is viable
or no single best one exists (the call does not compile). -/
def CopyImpl_select {α : Type} (cfg : BuildConfig) (tr : TypeTraits α)
    (S : ElemType) (D1 : Device) (U : ElemType) (D2 : Device) : Option CopyCase :=
  let viable := CopyCase.all.filter (fun k => k.viable cfg tr S D1 U D2)
  match viable.filter (fun k => viable.all (fun k' => k' = k || k.moreSpecialized k')) with
  | [k] => some k
  | _ => none

/-- The two buffers a local copy works on: the source is only read through a pointer to
`const`, the destination is written; the pointers are `restrict`-qualified, so the
regions are distinct. -/
structure CopyStore (α : Type) where
  ABuf : Int → α
  BBuf : Int → α

/-- Embeds `MemCopy(&BBuf[dOff], &ABuf[sOff], n)` on the two buffers of a copy. -/
def CopyStore.MemCopy {α : Type} (s : CopyStore α) (dOff sOff n : Int) : CopyStore α :=
  { s with BBuf := El.MemCopy s.BBuf dOff s.ABuf sOff n }

/-- Embeds `CopyImpl(Matrix<T,Device::CPU> const& A, Matrix<T,Device::CPU>& B)` (case 1, CPU):
resize, then one linear copy when both leading dimensions equal the height and a copy
column by column otherwise.  Returns the source as the call leaves it and the new
destination. -/
def CopyImpl_case1_CPU {α : Type} (A B : Matrix α) (mem : Int → α) : Matrix α × Matrix α :=
  let height := A.Height
  let width := A.Width
  let size := height * width
  let B := B.Resize mem height width
  let ldA := A.LDim
  let ldB := B.LDim
  let st : CopyStore α := { ABuf := A.LockedBuffer, BBuf := B.Buffer }
  let st :=
    if ldA = height ∧ ldB = height then
      st.MemCopy 0 0 size
    else
      forLoop width (fun j st => st.MemCopy (j * ldB) (j * ldA) height) st
  ({ A with data_ := st.ABuf }, { B with data_ := st.BBuf })

/-- Modelled from the spec: the vendor 2-D transfers (`cudaMemcpy2DAsync`,
`InterDeviceCopy::MemCopy2DAsync`) are not part of the embedded sources.  A 2-D strided
transfer of `height x width` elements between buffers with leading dimensions `ldA` and
`ldB`, taken at its completion. -/
def MemCopy2D {α : Type} (BBuf : Int → α) (ldB : Int) (ABuf : Int → α) (ldA : Int)
    (height width : Int) : Int → α :=
  forLoop width (fun j buf => MemCopy buf (j * ldB) ABuf (j * ldA) height) BBuf

/-- Modelled from the spec: `EntrywiseMap` and `gpu_blas::Copy` are not part of the embedded
sources.  The element-wise casting copy of a `height x width` block: every entry of
the source block is converted by `f` and stored at the same position of the target. -/
def castCopy2D {α : Type} (f : α → α) (BBuf : Int → α) (ldB : Int) (ABuf : Int → α)
    (ldA : Int) (height width : Int) : Int → α :=
  forLoop width
    (fun j buf => MemCopy buf (j * ldB) (fun k => f (ABuf k)) (j * ldA) height) BBuf

/-- The body shared by the transfer overloads (case 1 on the GPU, cases 2 and 3): resize the
target, then one 2-D strided transfer. -/
def CopyImpl_transfer {α : Type} (A B : Matrix α) (mem : Int → α) : Matrix α :=
  let height := A.Height
  let width := A.Width
  let B := B.Resize mem height width
  let ldA := A.LDim
  let ldB := B.LDim
  { B with data_ := MemCopy2D B.Buffer ldB A.LockedBuffer ldA height width }

/-- The body of the casting overloads (case 4): resize the target, then the element-wise
casting copy with conversion `f`. -/
def CopyImpl_cast {α : Type} (f : α → α) (A B : Matrix α) (mem : Int → α) : Matrix α :=
  let height := A.Height
  let width := A.Width
  let B := B.Resize mem height width
  let ldA := A.LDim
  let ldB := B.LDim
  { B with data_ := castCopy2D f B.Buffer ldB A.LockedBuffer ldA height width }

/-- How a call of `Copy` ends. -/
abbrev CopyResult (α : Type) : Type := CallResult (Matrix α)

/-- A default-constructed matrix (`Matrix<T,D> tmp;`): no entries, leading dimension 1. -/
def Matrix.empty {α : Type} (mem : Int → α) : Matrix α :=
  { height_ := 0, width_ := 0, ldim_ := 1, data_ := mem }

/-- Embeds the overload set `CopyImpl(Matrix<S,D1> const& src, Matrix<U,D2>& tgt)` of
CopyLocal.hpp: the overload chosen by `CopyImpl_select` runs.  The staged case 5 calls
`CopyImpl` again on a temporary `Matrix<CompatibleStorageType<S,D2>,D2>`; `fuel` bounds the
depth of these calls. -/
def CopyImpl {α : Type} (cfg : BuildConfig) (tr : TypeTraits α) (mem : Int → α) :
    Nat → ElemType → Device → ElemType → Device → Matrix α → Matrix α → CopyResult α
  | 0, _, _, _, _, _, _ => CallResult.outOfFuel
  | fuel + 1, S, D1, U, D2, src, tgt =>
    match CopyImpl_select cfg tr S D1 U D2 with
    | none => CallResult.illFormed
    | some CopyCase.case1_CPU => CallResult.returned (CopyImpl_case1_CPU src tgt mem).2
    | some CopyCase.case4_CPU => CallResult.returned (CopyImpl_cast (tr.Cast S U) src tgt mem)
    | some CopyCase.case4_GPU => CallResult.returned (CopyImpl_cast (tr.Cast S U) src tgt mem)
    | some CopyCase.case1_GPU => CallResult.returned (CopyImpl_transfer src tgt mem)
    | some CopyCase.case2_CPU_GPU => CallResult.returned (CopyImpl_transfer src tgt mem)
    | some CopyCase.case2_GPU_CPU => CallResult.returned (CopyImpl_transfer src tgt mem)
    | some CopyCase.case3_CPU_GPU => CallResult.returned (CopyImpl_transfer src tgt mem)
    | some CopyCase.case3_GPU_CPU => CallResult.returned (CopyImpl_transfer src tgt mem)
    | some CopyCase.case5 =>
      let T_on_D2 := CompatibleStorageType cfg S D2
      let tmp := Matrix.empty mem
      match CopyImpl cfg tr mem fuel S D1 T_on_D2 D2 src tmp with
      | CallResult.returned tmp => CopyImpl cfg tr mem fuel T_on_D2 D2 U D2 tmp tgt
      | CallResult.logicError msg => CallResult.logicError msg
      | CallResult.blocked => CallResult.blocked
      | CallResult.illFormed => CallResult.illFormed
      | CallResult.outOfFuel => CallResult.outOfFuel
    | some CopyCase.case0 => CallResult.logicError "Cannot dispatch Copy."

/-- Embeds `Copy(Matrix<T,D1> const& src, Matrix<U,D2>& tgt)` (CopyLocal.hpp). -/
def Copy {α : Type} (cfg : BuildConfig) (tr : TypeTraits α) (mem : Int → α) (fuel : Nat)
    (T : ElemType) (D1 : Device) (U : ElemType) (D2 : Device) (src tgt : Matrix α) :
    CopyResult α :=
  CopyImpl cfg tr mem fuel T D1 U D2 src tgt

/-- Embeds `LaunchCopy(Matrix<T,D1> const&, Matrix<U,D2>&, CopyFunctor const&)` (Copy.cpp):
the functor runs when `T` is a storage type on `D1`, and the call is a `LogicError`
otherwise. -/
def LaunchCopy_Matrix {α : Type} (cfg : BuildConfig) (tr : TypeTraits α) (mem : Int → α)
    (fuel : Nat) (T : ElemType) (D1 : Device) (U : ElemType) (D2 : Device)
    (src tgt : Matrix α) : CopyResult α :=
  if tr.IsStorageType T D1 then Copy cfg tr mem fuel T D1 U D2 src tgt
  else CallResult.logicError "The combination is not supported."

/-- Embeds `LaunchCopy(AbstractMatrix<T> const&, Matrix<U,D2>&, CopyFunctor const&)`
(Copy.cpp): when `U` is a storage type on `D2` the source is downcast by its run-time
device `srcDevice`, the GPU branch being compiled only with `HYDROGEN_HAVE_GPU`. -/
def LaunchCopy_AbstractMatrix {α : Type} (cfg : BuildConfig) (tr : TypeTraits α)
    (mem : Int → α) (fuel : Nat) (T : ElemType) (srcDevice : Device) (U : ElemType)
    (D2 : Device) (src tgt : Matrix α) : CopyResult α :=
  if tr.IsStorageType U D2 then
    match srcDevice with
    | Device.CPU => LaunchCopy_Matrix cfg tr mem fuel T Device.CPU U D2 src tgt
    | Device.GPU =>
      if cfg.HYDROGEN_HAVE_GPU then
        LaunchCopy_Matrix cfg tr mem fuel T Device.GPU U D2 src tgt
      else CallResult.logicError "Copy: Bad device."
  else CallResult.logicError "The combination is not supported."

/-- Embeds `Copy(AbstractMatrix<T> const& Source, AbstractMatrix<U>& Target)` (Copy.cpp): the
target is downcast by its run-time device. -/
def Copy_AbstractMatrix {α : Type} (cfg : BuildConfig) (tr : TypeTraits α) (mem : Int → α)
    (fuel : Nat) (T : ElemType) (srcDevice : Device) (U : ElemType) (tgtDevice : Device)
    (Source Target : Matrix α) : CopyResult α :=
  match tgtDevice with
  | Device.CPU =>
    LaunchCopy_AbstractMatrix cfg tr mem fuel T srcDevice U Device.CPU Source Target
  | Device.GPU =>
    if cfg.HYDROGEN_HAVE_GPU then
      LaunchCopy_AbstractMatrix cfg tr mem fuel T srcDevice U Device.GPU Source Target
    else CallResult.logicError "Copy: Bad device."

/-- The state of the destination `tgt` after a call of `CopyImpl`, following the same
overloads: cases 1 to 4 resize and fill `tgt`; case 0 raises before touching it; the staged
case 5 fills a temporary first and hands `tgt` only to its second inner call. -/
def CopyImpl_target {α : Type} (cfg : BuildConfig) (tr : TypeTraits α) (mem : Int → α) :
    Nat → ElemType → Device → ElemType → Device → Matrix α → Matrix α → Matrix α
  | 0, _, _, _, _, _, tgt => tgt
  | fuel + 1, S, D1, U, D2, src, tgt =>
    match CopyImpl_select cfg tr S D1 U D2 with
    | none => tgt
    | some CopyCase.case1_CPU => (CopyImpl_case1_CPU src tgt mem).2
    | some CopyCase.case4_CPU => CopyImpl_cast (tr.Cast S U) src tgt mem
    | some CopyCase.case4_GPU => CopyImpl_cast (tr.Cast S U) src tgt mem
    | some CopyCase.case1_GPU => CopyImpl_transfer src tgt mem
    | some CopyCase.case2_CPU_GPU => CopyImpl_transfer src tgt mem
    | some CopyCase.case2_GPU_CPU => CopyImpl_transfer src tgt mem
    | some CopyCase.case3_CPU_GPU => CopyImpl_transfer src tgt mem
    | some CopyCase.case3_GPU_CPU => CopyImpl_transfer src tgt mem
    | some CopyCase.case5 =>
      let T_on_D2 := CompatibleStorageType cfg S D2
      let tmp := Matrix.empty mem
      match CopyImpl cfg tr mem fuel S D1 T_on_D2 D2 src tmp with
      | CallResult.returned tmp => CopyImpl_target cfg tr mem fuel T_on_D2 D2 U D2 tmp tgt
      | _ => tgt
    | some CopyCase.case0 => tgt

/-- The state of the destination after `LaunchCopy(Matrix, Matrix, CopyFunctor)`. -/
def LaunchCopy_Matrix_target {α : Type} (cfg : BuildConfig) (tr : TypeTraits α)
    (mem : Int → α) (fuel : Nat) (T : ElemType) (D1 : Device) (U : ElemType) (D2 : Device)
    (src tgt : Matrix α) : Matrix α :=
  if tr.IsStorageType T D1 then CopyImpl_target cfg tr mem fuel T D1 U D2 src tgt
  else tgt

/-- The state of the destination after `LaunchCopy(AbstractMatrix, Matrix, CopyFunctor)`. -/
def LaunchCopy_AbstractMatrix_target {α : Type} (cfg : BuildConfig) (tr : TypeTraits α)
    (mem : Int → α) (fuel : Nat) (T : ElemType) (srcDevice : Device) (U : ElemType)
    (D2 : Device) (src tgt : Matrix α) : Matrix α :=
  if tr.IsStorageType U D2 then
    match srcDevice with
    | Device.CPU => LaunchCopy_Matrix_target cfg tr mem fuel T Device.CPU U D2 src tgt
    | Device.GPU =>
      if cfg.HYDROGEN_HAVE_GPU then
        LaunchCopy_Matrix_target cfg tr mem fuel T Device.GPU U D2 src tgt
      else tgt
  else tgt

/-- The state of the destination after `Copy(AbstractMatrix, AbstractMatrix)`. -/
def Copy_AbstractMatrix_target {α : Type} (cfg : BuildConfig) (tr : TypeTraits α)
    (mem : Int → α) (fuel : Nat) (T : ElemType) (srcDevice : Device) (U : ElemType)
    (tgtDevice : Device) (Source Target : Matrix α) : Matrix α :=
  match tgtDevice with
  | Device.CPU =>
    LaunchCopy_AbstractMatrix_target cfg tr mem fuel T srcDevice U Device.CPU Source Target
  | Device.GPU =>
    if cfg.HYDROGEN_HAVE_GPU then
      LaunchCopy_AbstractMatrix_target cfg tr mem fuel T srcDevice U Device.GPU Source Target
    else Target

/-! ## Pairwise exchange: `copy::Exchange_impl` (Exchange.hpp) -/

/-- Writing one cell of a buffer. -/
def setCell {α : Type} (buf : Int → α) (k : Int) (v : α) : Int → α :=
  fun k' => if k' = k then v else buf k'

/-- Modelled from the spec: `copy::util::InterleaveMatrix` is not part of the embedded
sources.  It copies a `height x width` block entry by entry, entry `(i,j)` from offset
`i*colStrideA + j*rowStrideA` of `A` to offset `i*colStrideB + j*rowStrideB` of `B`
(packing into or unpacking from a contiguous scratch buffer). -/
def InterleaveMatrix {α : Type} (height width : Int) (A : Int → α)
    (colStrideA rowStrideA : Int) (B : Int → α) (colStrideB rowStrideB : Int) : Int → α :=
  forLoop width
    (fun j buf => forLoop height
      (fun i buf => setCell buf (i * colStrideB + j * rowStrideB)
        (A (i * colStrideA + j * rowStrideA))) buf) B

/-- Modelled from the spec: the messaging layer is not part of the embedded sources.  The
receiving half of `mpi::SendRecv(sendBuf, sendSize, sendRank, recvBuf, recvSize, recvRank,
comm)`: the message `msg` of `msgLen` elements that arrives from `recvRank` is stored at the
start of `recvBuf`; a message longer than `recvSize` cannot be received. -/
def SendRecv_receive {α : Type} (recvBuf : Int → α) (recvSize : Int) (msg : Int → α)
    (msgLen : Int) : Option (Int → α) :=
  if msgLen ≤ recvSize then some (MemCopy recvBuf 0 msg 0 msgLen) else none

/-- The arguments of the sending half of an `mpi::SendRecv` call. -/
structure SentMessage (α : Type) where
  buf : Int → α
  count : Int
  dest : Int

/-- What `Exchange_impl` leaves behind on one process: the destination, and the message it
handed to `mpi::SendRecv` (none on the purely local path). -/
structure ExchangeOutcome (α : Type) where
  B : ElementalMatrix α
  sent : Option (SentMessage α)

/-- Embeds `copy::Exchange_impl<T,D>(A, B, sendRank, recvRank, comm)` (Exchange.hpp) on the
process of rank `myRank` in `comm`.  `debug` switches the `EL_DEBUG_ONLY` assertions on;
`mem` is the storage a reallocation of `B` would hand out, `sendScratch` and `recvScratch`
the cells of the `simple_buffer` objects, and `msg`, `msgLen` the message that arrives from
`recvRank`.  Timing and progress output are left out. -/
def Exchange_impl {α : Type} (debug : Bool) (cfg : BuildConfig) (tr : TypeTraits α)
    (fuel : Nat) (T : ElemType) (D : Device) (A B : ElementalMatrix α)
    (sendRank recvRank myRank : Int) (mem sendScratch recvScratch : Int → α)
    (msg : Int → α) (msgLen : Int) : CallResult (ExchangeOutcome α) :=
  if !tr.IsDeviceValidType T D then
    CallResult.logicError "Exchange: Bad Device/type combo."
  else
  match (if debug then AssertSameGrids A B else Except.ok ()) with
  | Except.error m => CallResult.logicError m
  | Except.ok _ =>
  if debug ∧ myRank = sendRank ∧ myRank ≠ recvRank then
    CallResult.logicError "Sending to self but receiving from someone else"
  else if debug ∧ myRank ≠ sendRank ∧ myRank = recvRank then
    CallResult.logicError "Receiving from self but sending to someone else"
  else
    match B.Resize_checked debug mem A.Height A.Width with
    | Except.error m => CallResult.logicError m
    | Except.ok B =>
    if myRank = sendRank then
      match Copy_AbstractMatrix cfg tr mem fuel T D T D A.matrix_ B.matrix_ with
      | CallResult.returned M => CallResult.returned { B := { B with matrix_ := M }, sent := none }
      | CallResult.logicError m => CallResult.logicError m
      | CallResult.blocked => CallResult.blocked
      | CallResult.illFormed => CallResult.illFormed
      | CallResult.outOfFuel => CallResult.outOfFuel
    else
      let localHeightA := A.LocalHeight
      let localHeightB := B.LocalHeight
      let localWidthA := A.LocalWidth
      let localWidthB := B.LocalWidth
      let sendSize := localHeightA * localWidthA
      let recvSize := localHeightB * localWidthB
      let contigA := decide (A.LocalHeight = A.LDim)
      let contigB := decide (B.LocalHeight = B.LDim)
      if contigA && contigB then
        match SendRecv_receive B.Buffer recvSize msg msgLen with
        | none => CallResult.blocked
        | some BBuf =>
          CallResult.returned
            { B := { B with matrix_ := { B.matrix_ with data_ := BBuf } }
              sent := some { buf := A.LockedBuffer, count := sendSize, dest := sendRank } }
      else if contigB then
        let buf := InterleaveMatrix localHeightA localWidthA A.LockedBuffer 1 A.LDim
          sendScratch 1 localHeightA
        match SendRecv_receive B.Buffer recvSize msg msgLen with
        | none => CallResult.blocked
        | some BBuf =>
          CallResult.returned
            { B := { B with matrix_ := { B.matrix_ with data_ := BBuf } }
              sent := some { buf := buf, count := sendSize, dest := sendRank } }
      else if contigA then
        match SendRecv_receive recvScratch recvSize msg msgLen with
        | none => CallResult.blocked
        | some buf =>
          let BBuf := InterleaveMatrix localHeightB localWidthB buf 1 localHeightB
            B.Buffer 1 B.LDim
          CallResult.returned
            { B := { B with matrix_ := { B.matrix_ with data_ := BBuf } }
              sent := some { buf := A.LockedBuffer, count := sendSize, dest := sendRank } }
      else
        let sendBuf := InterleaveMatrix localHeightA localWidthA A.LockedBuffer 1 A.LDim
          sendScratch 1 localHeightA
        match SendRecv_receive recvScratch recvSize msg msgLen with
        | none => CallResult.blocked
        | some recvBuf =>
          let BBuf := InterleaveMatrix localHeightB localWidthB recvBuf 1 localHeightB
            B.Buffer 1 B.LDim
          CallResult.returned
            { B := { B with matrix_ := { B.matrix_ with data_ := BBuf } }
              sent := some { buf := sendBuf, count := sendSize, dest := sendRank } }

/-- The message a process hands to `mpi::SendRecv` in `Exchange_impl`; it does not depend
on the message the process receives. -/
def Exchange_impl_sent {α : Type} (debug : Bool) (cfg : BuildConfig) (tr : TypeTraits α)
    (fuel : Nat) (T : ElemType) (D : Device) (A B : ElementalMatrix α)
    (sendRank recvRank myRank : Int) (mem sendScratch recvScratch : Int → α) :
    Option (SentMessage α) :=
  match Exchange_impl debug cfg tr fuel T D A B sendRank recvRank myRank mem sendScratch
      recvScratch recvScratch 0 with
  | CallResult.returned out => out.sent
  | _ => none

/-- Modelled from the spec: the messaging layer is not part of the embedded sources.  Two
processes of ranks `rank` and `partner` call `Exchange_impl`, each naming the other as send
and receive partner; `A`, `B`, `mem`, `sendScratch`, `recvScratch` give the arguments of
the two calls by rank.  The call of `rank` completes with the message `partner` addressed
to it, and blocks when there is none. -/
def Exchange_pair {α : Type} (debug : Bool) (cfg : BuildConfig) (tr : TypeTraits α)
    (fuel : Nat) (T : ElemType) (D : Device) (A B : Int → ElementalMatrix α)
    (mem sendScratch recvScratch : Int → Int → α) (rank partner : Int) :
    CallResult (ExchangeOutcome α) :=
  match Exchange_impl_sent debug cfg tr fuel T D (A partner) (B partner) rank rank partner
      (mem partner) (sendScratch partner) (recvScratch partner) with
  | some m =>
    if m.dest = rank then
      Exchange_impl debug cfg tr fuel T D (A rank) (B rank) partner partner rank
        (mem rank) (sendScratch rank) (recvScratch rank) m.buf m.count
    else CallResult.blocked
  | none => CallResult.blocked

/-- A `6 x 5` matrix distributed with column stride 2 over two ranks, so that each rank holds
a `3 x 5` local block: contiguous (leading dimension 3) on rank 0 and with leading
dimension 7 on rank 1.  Local entry `(i,j)` on rank `k` holds `1000*(k+1) + 10*i + j`. -/
def sampleExA (rank : Int) : ElementalMatrix Int :=
  { grid_ := { height_ := 2, width_ := 1, mcRank := rank, mrRank := 0 }
    height_ := 6
    width_ := 5
    colAlign_ := 0
    rowAlign_ := 0
    colShift_ := rank
    rowShift_ := 0
    colStride := 2
    rowStride := 1
    colRank := rank
    rowRank := 0
    participating := true
    matrix_ :=
      { height_ := 3
        width_ := 5
        ldim_ := if rank = 0 then 3 else 7
        data_ := fun k =>
          1000 * (rank + 1) + 10 * Int.tmod k (if rank = 0 then 3 else 7)
            + Int.tdiv k (if rank = 0 then 3 else 7) } }

/-- The destination of the exchange on the two ranks: empty on rank 0 (it is reallocated
contiguously) and a `3 x 5` block with leading dimension 7 on rank 1. -/
def sampleExB (rank : Int) : ElementalMatrix Int :=
  { grid_ := { height_ := 2, width_ := 1, mcRank := rank, mrRank := 0 }
    height_ := if rank = 0 then 0 else 6
    width_ := if rank = 0 then 0 else 5
    colAlign_ := 0
    rowAlign_ := 0
    colShift_ := rank
    rowShift_ := 0
    colStride := 2
    rowStride := 1
    colRank := rank
    rowRank := 0
    participating := true
    matrix_ :=
      { height_ := if rank = 0 then 0 else 3
        width_ := if rank = 0 then 0 else 5
        ldim_ := if rank = 0 then 1 else 7
        data_ := fun _ => 0 } }

/-- A build with GPU and CUDA support and without the half-precision types. -/
def sampleConfig : BuildConfig :=
  { HYDROGEN_HAVE_GPU := true
    HYDROGEN_HAVE_CUDA := true
    HYDROGEN_HAVE_HALF := false
    HYDROGEN_GPU_USE_FP16 := false }

/-- Type predicates for the examples: `float` and `double` are stored on both devices, every
other type on the CPU only; every conversion exists and `Cast` adds one to tell a
converted value from a copied one. -/
def sampleTraits : TypeTraits Int :=
  { IsStorageType := fun T D =>
      match D with
      | Device.CPU => true
      | Device.GPU => decide (T = ElemType.float ∨ T = ElemType.double)
    IsDeviceValidType := fun T D =>
      match D with
      | Device.CPU => true
      | Device.GPU => decide (T = ElemType.float ∨ T = ElemType.double)
    CanCast := fun _ _ => true
    Cast := fun _ _ x => x + 1 }

/-- The overload that `CopyImpl_select` chooses, in closed form. -/
def CopyImpl_table {α : Type} (cfg : BuildConfig) (tr : TypeTraits α)
    (S : ElemType) (D1 : Device) (U : ElemType) (D2 : Device) : Option CopyCase :=
  match D1, D2 with
  | Device.CPU, Device.CPU =>
    if S = U ∧ tr.IsStorageType S Device.CPU = true then some CopyCase.case1_CPU
    else if tr.CanCast S U = true ∧ tr.IsStorageType S Device.CPU = true ∧
        tr.IsStorageType U Device.CPU = true then some CopyCase.case4_CPU
    else if tr.IsStorageType S Device.CPU = true ∧ tr.IsStorageType U Device.CPU = true then
      none
    else some CopyCase.case0
  | Device.GPU, Device.GPU =>
    if cfg.HYDROGEN_HAVE_GPU = true ∧ cfg.HYDROGEN_HAVE_CUDA = true ∧ S = U ∧
        tr.IsStorageType S Device.CPU = true then some CopyCase.case1_GPU
    else if tr.IsStorageType S Device.GPU = true ∧ tr.IsStorageType U Device.GPU = true then
      if cfg.HYDROGEN_HAVE_GPU = true then some CopyCase.case4_GPU else none
    else some CopyCase.case0
  | Device.CPU, Device.GPU =>
    if cfg.HYDROGEN_HAVE_GPU = true ∧ S = U ∧ tr.IsStorageType S Device.CPU = true ∧
        tr.IsStorageType S Device.GPU = true then some CopyCase.case2_CPU_GPU
    else if cfg.HYDROGEN_HAVE_GPU = true ∧ U = GPUStorageType cfg S ∧
        tr.IsStorageType S Device.CPU = true ∧ S ≠ GPUStorageType cfg S then
      some CopyCase.case3_CPU_GPU
    else if tr.IsStorageType S Device.CPU = true ∧ tr.IsStorageType U Device.GPU = true then
      some CopyCase.case5
    else some CopyCase.case0
  | Device.GPU, Device.CPU =>
    if cfg.HYDROGEN_HAVE_GPU = true ∧ S = U ∧ tr.IsStorageType S Device.GPU = true ∧
        tr.IsStorageType S Device.CPU = true then some CopyCase.case2_GPU_CPU
    else if cfg.HYDROGEN_HAVE_GPU = true ∧ S = GPUStorageType cfg U ∧
        tr.IsStorageType U Device.CPU = true ∧ U ≠ GPUStorageType cfg U then
      some CopyCase.case3_GPU_CPU
    else if tr.IsStorageType S Device.GPU = true ∧ tr.IsStorageType U Device.CPU = true then
      some CopyCase.case5
    else some CopyCase.case0

/-- A `2 x 2` local matrix with leading dimension 3; entry `(i,j)` holds `10*i + j`. -/
def sampleSrc : Matrix Int :=
  { height_ := 2, width_ := 2, ldim_ := 3, data_ := fun k => 10 * Int.tmod k 3 + Int.tdiv k 3 }

/-! ## Redistribution between two distributions on one grid -/

/-- Modelled from the spec: the distribution kinds other than `[MC,MR]`, `[VR,*]` and
`[*,MD]` are not part of the embedded sources.  What a pair of distribution kinds fixes on an
`r x c` grid: the two strides, the ranks of the process at grid position `(row, col)` in the
column and the row communicator, and whether that process takes part (its cross rank is the
root). -/
structure Distribution where
  colStride : Int
  rowStride : Int
  colRank : Int → Int → Int
  rowRank : Int → Int → Int
  participating : Int → Int → Bool

/-- A distribution is supported on the `r x c` grid when the ranks lie below the strides and
every pair of ranks is taken by a participating process. -/
def Distribution.Supported (r c : Int) (D : Distribution) : Prop :=
  1 ≤ D.colStride ∧ 1 ≤ D.rowStride ∧
  (∀ row col : Int, 0 ≤ row → row < r → 0 ≤ col → col < c →
    (0 ≤ D.colRank row col ∧ D.colRank row col < D.colStride) ∧
    (0 ≤ D.rowRank row col ∧ D.rowRank row col < D.rowStride)) ∧
  (∀ a b : Int, 0 ≤ a → a < D.colStride → 0 ≤ b → b < D.rowStride →
    ∃ row col : Int, (0 ≤ row ∧ row < r) ∧ (0 ≤ col ∧ col < c) ∧
      D.participating row col = true ∧ D.colRank row col = a ∧ D.rowRank row col = b)

/-- Modelled from the spec: `DistMatrix<T,VC,STAR>` is not part of the embedded sources.  The
distribution `[VC,*]` on the `r x c` grid: the column-major rank over all processes, no
distribution of the columns. -/
def Distribution.VC_STAR (r c : Int) : Distribution :=
  { colStride := r * c
    rowStride := 1
    colRank := fun row col =>
      Grid.VCRank { height_ := r, width_ := c, mcRank := row, mrRank := col }
    rowRank := fun _ _ => 0
    participating := fun _ _ => true }

/-- The distribution `[VR,*]` on the `r x c` grid (VR_STAR.cpp: `ColStride() = VRSize()`,
`RowStride() = 1`): the row-major rank over all processes. -/
def Distribution.VR_STAR (r c : Int) : Distribution :=
  { colStride := r * c
    rowStride := 1
    colRank := fun row col =>
      Grid.VRRank { height_ := r, width_ := c, mcRank := row, mrRank := col }
    rowRank := fun _ _ => 0
    participating := fun _ _ => true }

/-- Modelled from the spec: the constructor and `SetShifts` of `AbstractDistMatrix` are not
part of the embedded sources.  The descriptor that the process at grid position `(row, col)`
holds for a matrix distributed by `D` with the given alignments: the strides of `D`, the
shifts `Shift(rank, align, stride)` of its own ranks, and a local matrix that is empty on a
process that does not take part. -/
def Distribution.Describes {α : Type} (D : Distribution) (colAlign rowAlign row col : Int)
    (A : ElementalMatrix α) : Prop :=
  A.colStride = D.colStride ∧ A.rowStride = D.rowStride ∧
  A.colAlign_ = colAlign ∧ A.rowAlign_ = rowAlign ∧
  A.colShift_ = Shift (D.colRank row col) colAlign D.colStride ∧
  A.rowShift_ = Shift (D.rowRank row col) rowAlign D.rowStride ∧
  A.participating = D.participating row col ∧
  (A.participating = false → A.matrix_.height_ = 0 ∧ A.matrix_.width_ = 0)

/-- Modelled from the spec: `IsLocal` of `AbstractDistMatrix` is not part of the embedded
sources.  Whether a process stores global entry `(i,j)`: it takes part and `i`, `j` are among
the rows and columns `shift, shift + stride, ...` that it stores. -/
def holdsEntry {α : Type} (A : ElementalMatrix α) (i j : Int) : Bool :=
  A.Participating && ownsIndex A.ColShift A.ColStride i && ownsIndex A.RowShift A.RowStride j

/-- Modelled from the spec: the redistribution helpers `copy::*` are not part of the embedded
sources.  The first step of the reference redistribution, "gather source fully to a single
location": global entry `(i,j)` of the matrix whose parts are `A row col`, read from the first
process of the `r x c` grid that stores it, at the local offsets of `(i,j)`. -/
def gatherEntry {α : Type} (END : Int) (r c : Int) (A : Int → Int → ElementalMatrix α)
    (i j : Int) : Option α :=
  (List.range r.toNat).findSome? (fun (row : Nat) =>
    (List.range c.toNat).findSome? (fun (col : Nat) =>
      if holdsEntry (A row col) i j then
        some ((A row col).matrix_.Get ((A row col).LocalRowOffset END i)
          ((A row col).LocalColOffset END j))
      else none))

/-- Modelled from the spec: the last step of the reference redistribution, "reshuffle
according to target distribution formulas, re-scatter": on a participating process, local
entry `(iLoc, jLoc)` of `B` receives global entry `(GlobalRow iLoc, GlobalCol jLoc)` of the
gathered matrix `G`. -/
def scatterLocal {α : Type} (END : Int) (B : ElementalMatrix α) (G : Int → Int → Option α) :
    ElementalMatrix α :=
  if B.Participating then
    { B with
      matrix_ :=
        { B.matrix_ with
          data_ := fun k =>
            let iLoc := Int.tmod k B.matrix_.ldim_
            let jLoc := Int.tdiv k B.matrix_.ldim_
            if 0 ≤ k ∧ iLoc < B.LocalHeight ∧ jLoc < B.LocalWidth then
              match G (B.GlobalRow END iLoc) (B.GlobalCol END jLoc) with
              | some v => v
              | none => B.matrix_.data_ k
            else B.matrix_.data_ k } }
  else B

/-- Modelled from the spec: the assignment `B = A` between two distributions on one `r x c`
grid, as the reference every redistribution algorithm has to agree with: the destination is
resized to the global extents of the source, then filled from the gathered source.  The
result is the part of `B` at grid position `(row, col)`. -/
def Redistribute {α : Type} (END : Int) (r c : Int) (B A : Int → Int → ElementalMatrix α)
    (mem : Int → Int → Int → α) (row col : Int) : ElementalMatrix α :=
  let B1 := (B row col).Resize (mem row col) (A row col).Height (A row col).Width
  scatterLocal END B1 (gatherEntry END r c A)

/-- An empty matrix `[VC,*]` with column alignment 1 on the `2 x 2` grid: the part stored at
grid position `(row, col)`. -/
def sampleC (row col : Int) : ElementalMatrix Int :=
  { grid_ := { height_ := 2, width_ := 2, mcRank := row, mrRank := col }
    height_ := 0
    width_ := 0
    colAlign_ := 1
    rowAlign_ := 0
    colShift_ := Shift (row + col * 2) 1 4
    rowShift_ := 0
    colStride := 4
    rowStride := 1
    colRank := row + col * 2
    rowRank := 0
    participating := true
    matrix_ := { height_ := 0, width_ := 0, ldim_ := 1, data_ := fun _ => 0 } }

/-! ## Error messages and conformance assertions (Exception.hpp, Elemental.cpp) -/

/-- Embeds `BuildStream(os, item, args...)` (Exception.hpp): every argument is streamed to
`os` in turn.  The arguments are given by their printed form. -/
def BuildStream : String → List String → String
  | os, [] => os
  | os, item :: args => BuildStream (os ++ item) args

/-- Embeds `BuildString(args...)` (Exception.hpp). -/
def BuildString (args : List String) : String :=
  BuildStream "" args

/-- Embeds `LogicError(args...)` (Exception.hpp): it throws `std::logic_error` with the
message `BuildString(args...)`. -/
def LogicError {β : Type} (args : List String) : Except String β :=
  Except.error (BuildString args)

/-- Embeds `AssertConforming1x2(AL, AR)` (Elemental.cpp).  `DimsString` is declared outside
the embedded sources and is a parameter. -/
def AssertConforming1x2 {α : Type} (DimsString : ElementalMatrix α → String → String)
    (AL AR : ElementalMatrix α) : Except String Unit := do
  if AL.Height ≠ AR.Height then
    LogicError ["1x2 not conformant:\n", DimsString AL "Left", "\n", DimsString AR "Right"]
  if AL.ColAlign ≠ AR.ColAlign then
    LogicError ["1x2 is misaligned"]

/-- Embeds `AssertConforming2x1(AT, AB)` (Elemental.cpp). -/
def AssertConforming2x1 {α : Type} (DimsString : ElementalMatrix α → String → String)
    (AT AB : ElementalMatrix α) : Except String Unit := do
  if AT.Width ≠ AB.Width then
    LogicError ["2x1 is not conformant:\n", DimsString AT "Top", "\n", DimsString AB "Bottom"]
  if AT.RowAlign ≠ AB.RowAlign then
    LogicError ["2x1 is not aligned"]

/-- Embeds `AssertConforming2x2(ATL, ATR, ABL, ABR)` (Elemental.cpp). -/
def AssertConforming2x2 {α : Type} (DimsString : ElementalMatrix α → String → String)
    (ATL ATR ABL ABR : ElementalMatrix α) : Except String Unit := do
  if ATL.Width ≠ ABL.Width ∨ ATR.Width ≠ ABR.Width ∨
      ATL.Height ≠ ATR.Height ∨ ABL.Height ≠ ABR.Height then
    LogicError ["2x2 is not conformant:\n",
      DimsString ATL "TL", "\n", DimsString ATR "TR", "\n",
      DimsString ABL "BL", "\n", DimsString ABR "BR"]
  if ATL.ColAlign ≠ ATR.ColAlign ∨ ABL.ColAlign ≠ ABR.ColAlign ∨
      ATL.RowAlign ≠ ABL.RowAlign ∨ ATR.RowAlign ≠ ABR.RowAlign then
    LogicError ["2x2 set of matrices must aligned to combine"]

/-- A printed form of the extents for the examples: the label, then `height x width`. -/
def sampleDimsString (A : ElementalMatrix Int) (label : String) : String :=
  label ++ " ~ " ++ toString A.Height ++ " x " ++ toString A.Width

/-! ## Dispatch of `Copy` on two `BaseDistMatrix` operands (Copy.cpp) -/

/-- Embeds the type list `MatrixTypes` of Copy.cpp. -/
def MatrixTypes (cfg : BuildConfig) : List ElemType :=
  [ElemType.float, ElemType.double]
    ++ (if cfg.HYDROGEN_HAVE_HALF then [ElemType.cpu_half_type] else [])
    ++ (if cfg.HYDROGEN_GPU_USE_FP16 then [ElemType.gpu_half_type] else [])

/-- Embeds `CopyDispatcher<FunctorT, LHSList, RHSList>::DoRHS` together with the
specialisation for an empty `RHSList`.  A `BaseDistMatrix` is given by the element type of
its dynamic type, so `dynamic_cast<AbstractDistMatrix<T>*>` succeeds exactly for that `T`.
The functor acts on a state `σ`; `LHSType` is the type the source was cast to. -/
def CopyDispatcher_DoRHS {σ : Type} (f : ElemType → ElemType → σ → CallResult σ)
    (LHSType : ElemType) : List ElemType → ElemType → σ → CallResult σ
  | [], _, _ => CallResult.logicError "Target matrix type not found."
  | RHead :: RTail, tgt, st =>
    if tgt = RHead then
      f LHSType RHead st
    else
      CopyDispatcher_DoRHS f LHSType RTail tgt st

/-- Embeds `CopyDispatcher<FunctorT, LHSList, RHSList>::Do` together with the
specialisation for an empty `LHSList`. -/
def CopyDispatcher_Do {σ : Type} (f : ElemType → ElemType → σ → CallResult σ) :
    List ElemType → List ElemType → ElemType → ElemType → σ → CallResult σ
  | [], _, _, _, _ => CallResult.logicError "Source matrix type not found."
  | LHead :: LTail, RHSList, src, tgt, st =>
    if src = LHead then
      CopyDispatcher_DoRHS f LHead RHSList tgt st
    else
      CopyDispatcher_Do f LTail RHSList src tgt st

/-- Embeds `Copy(BaseDistMatrix const&, BaseDistMatrix&)` (Copy.cpp).  The functor `f`
stands for `CopyFunctor`, whose call `Copy(AbstractDistMatrix<S> const&,
AbstractDistMatrix<T>&)` lies outside the embedded sources. -/
def Copy_BaseDistMatrix {σ : Type} (cfg : BuildConfig)
    (f : ElemType → ElemType → σ → CallResult σ) (src tgt : ElemType) (st : σ) :
    CallResult σ :=
  CopyDispatcher_Do f (MatrixTypes cfg) (MatrixTypes cfg) src tgt st

/-- A functor that counts its invocations, for the examples. -/
def countingFunctor (_S _T : ElemType) (calls : Nat) : CallResult Nat :=
  CallResult.returned (calls + 1)

/-! ## Assignment operators between distributions (STAR_MD.cpp, MC_MR.cpp, VR_STAR.cpp) -/

/-- The enumerators of `Dist` used to name a distribution `[U,V]`. -/
inductive Dist where
  | MC
  | MD
  | MR
  | VC
  | VR
  | STAR
  | CIRC
  deriving DecidableEq, Repr

/-- The routines of namespace `copy` the embedded assignment operators call. -/
inductive CopyRoutine where
  | GeneralPurpose
  | Translate
  | RowFilter
  | ColFilter
  | Filter
  | PartialColFilter
  | Scatter
  | ColAllToAllPromote
  | RowAllToAllPromote
  | ColAllToAllDemote
  | Exchange
  | TransposeDist
  deriving DecidableEq, Repr

/-- A statement of an assignment operator that moves matrix data: a call `copy::R(A, B)`
with the distributions of `A` and `B`, the construction `DistMatrix<T,U,V> X( Y )` of a
temporary from a matrix of another distribution, a nested assignment `X = Y`, or the
packing, `SendRecv` and unpacking written out in the operator itself.  Statements that
only align, empty or release a temporary move no data and are left out. -/
inductive AssignStep where
  | call (routine : CopyRoutine) (src tgt : Dist × Dist)
  | construct (tgt src : Dist × Dist)
  | assign (tgt src : Dist × Dist)
  | inlineSendRecv
  deriving DecidableEq, Repr

/-- The fourteen distributions the files instantiate. -/
def Dist.pairs : List (Dist × Dist) :=
  [(Dist.CIRC, Dist.CIRC), (Dist.MC, Dist.MR), (Dist.MC, Dist.STAR), (Dist.MD, Dist.STAR),
   (Dist.MR, Dist.MC), (Dist.MR, Dist.STAR), (Dist.STAR, Dist.MC), (Dist.STAR, Dist.MD),
   (Dist.STAR, Dist.MR), (Dist.STAR, Dist.STAR), (Dist.STAR, Dist.VC), (Dist.STAR, Dist.VR),
   (Dist.VC, Dist.STAR), (Dist.VR, Dist.STAR)]

/-- Whether a distribution is `[MD,*]` or `[*,MD]`. -/
def involvesMD (p : Dist × Dist) : Bool :=
  decide (p = (Dist.MD, Dist.STAR) ∨ p = (Dist.STAR, Dist.MD))

/-- Embeds the operators `DistMatrix<T,STAR,MD>::operator=` of STAR_MD.cpp, by the
distribution of the right-hand side; `none` where the file defines no operator. -/
def operatorAssign_STAR_MD (src : Dist × Dist) : Option (List AssignStep) :=
  let tgt := (Dist.STAR, Dist.MD)
  match src with
  | (Dist.MC, Dist.MR) => some [AssignStep.call CopyRoutine.GeneralPurpose src tgt]
  | (Dist.MC, Dist.STAR) => some [AssignStep.call CopyRoutine.GeneralPurpose src tgt]
  | (Dist.STAR, Dist.MR) => some [AssignStep.call CopyRoutine.GeneralPurpose src tgt]
  | (Dist.MD, Dist.STAR) => some [AssignStep.call CopyRoutine.GeneralPurpose src tgt]
  | (Dist.MR, Dist.MC) => some [AssignStep.call CopyRoutine.GeneralPurpose src tgt]
  | (Dist.MR, Dist.STAR) => some [AssignStep.call CopyRoutine.GeneralPurpose src tgt]
  | (Dist.STAR, Dist.MC) => some [AssignStep.call CopyRoutine.GeneralPurpose src tgt]
  | (Dist.VC, Dist.STAR) => some [AssignStep.call CopyRoutine.GeneralPurpose src tgt]
  | (Dist.STAR, Dist.VC) => some [AssignStep.call CopyRoutine.GeneralPurpose src tgt]
  | (Dist.VR, Dist.STAR) => some [AssignStep.call CopyRoutine.GeneralPurpose src tgt]
  | (Dist.STAR, Dist.VR) => some [AssignStep.call CopyRoutine.GeneralPurpose src tgt]
  | (Dist.STAR, Dist.STAR) => some [AssignStep.call CopyRoutine.RowFilter src tgt]
  | (Dist.CIRC, Dist.CIRC) =>
    some [AssignStep.assign (Dist.MC, Dist.MR) src, AssignStep.assign tgt (Dist.MC, Dist.MR)]
  | _ => none

/-- Embeds the operators `DistMatrix<T,MC,MR>::operator=` of MC_MR.cpp.  `square` tells
whether the grid of the right-hand side has as many rows as columns, which `[MC,MR] =
[MR,MC]` tests. -/
def operatorAssign_MC_MR (square : Bool) (src : Dist × Dist) : Option (List AssignStep) :=
  let tgt := (Dist.MC, Dist.MR)
  match src with
  | (Dist.MC, Dist.STAR) => some [AssignStep.call CopyRoutine.RowFilter src tgt]
  | (Dist.STAR, Dist.MR) => some [AssignStep.call CopyRoutine.ColFilter src tgt]
  | (Dist.MD, Dist.STAR) => some [AssignStep.call CopyRoutine.GeneralPurpose src tgt]
  | (Dist.STAR, Dist.MD) => some [AssignStep.call CopyRoutine.GeneralPurpose src tgt]
  | (Dist.MR, Dist.MC) =>
    if square then
      some [AssignStep.call CopyRoutine.Exchange src tgt]
    else
      some [AssignStep.call CopyRoutine.TransposeDist src tgt]
  | (Dist.MR, Dist.STAR) =>
    some [AssignStep.construct (Dist.VR, Dist.STAR) src,
          AssignStep.assign (Dist.VC, Dist.STAR) (Dist.VR, Dist.STAR),
          AssignStep.assign tgt (Dist.VC, Dist.STAR)]
  | (Dist.STAR, Dist.MC) =>
    some [AssignStep.construct (Dist.STAR, Dist.VC) src,
          AssignStep.assign (Dist.STAR, Dist.VR) (Dist.STAR, Dist.VC),
          AssignStep.assign tgt (Dist.STAR, Dist.VR)]
  | (Dist.VC, Dist.STAR) => some [AssignStep.call CopyRoutine.ColAllToAllPromote src tgt]
  | (Dist.STAR, Dist.VC) =>
    some [AssignStep.assign (Dist.STAR, Dist.VR) src,
          AssignStep.assign tgt (Dist.STAR, Dist.VR)]
  | (Dist.VR, Dist.STAR) =>
    some [AssignStep.assign (Dist.VC, Dist.STAR) src,
          AssignStep.assign tgt (Dist.VC, Dist.STAR)]
  | (Dist.STAR, Dist.VR) => some [AssignStep.call CopyRoutine.RowAllToAllPromote src tgt]
  | (Dist.STAR, Dist.STAR) => some [AssignStep.call CopyRoutine.Filter src tgt]
  | (Dist.CIRC, Dist.CIRC) => some [AssignStep.call CopyRoutine.Scatter src tgt]
  | _ => none

/-- Embeds the operators `DistMatrix<T,VR,STAR>::operator=` of VR_STAR.cpp; the one for
`[VC,STAR]` is written out in the file and embedded as `VR_STAR_assign_all`. -/
def operatorAssign_VR_STAR (src : Dist × Dist) : Option (List AssignStep) :=
  let tgt := (Dist.VR, Dist.STAR)
  match src with
  | (Dist.VR, Dist.STAR) => some [AssignStep.call CopyRoutine.Translate src tgt]
  | (Dist.MC, Dist.MR) =>
    some [AssignStep.construct (Dist.VC, Dist.STAR) src,
          AssignStep.assign tgt (Dist.VC, Dist.STAR)]
  | (Dist.MC, Dist.STAR) =>
    some [AssignStep.construct (Dist.VC, Dist.STAR) src,
          AssignStep.assign tgt (Dist.VC, Dist.STAR)]
  | (Dist.STAR, Dist.MR) =>
    some [AssignStep.construct (Dist.MC, Dist.MR) src,
          AssignStep.construct (Dist.VC, Dist.STAR) (Dist.MC, Dist.MR),
          AssignStep.assign tgt (Dist.VC, Dist.STAR)]
  | (Dist.MD, Dist.STAR) =>
    some [AssignStep.construct (Dist.STAR, Dist.STAR) src,
          AssignStep.assign tgt (Dist.STAR, Dist.STAR)]
  | (Dist.STAR, Dist.MD) =>
    some [AssignStep.construct (Dist.STAR, Dist.STAR) src,
          AssignStep.assign tgt (Dist.STAR, Dist.STAR)]
  | (Dist.MR, Dist.MC) => some [AssignStep.call CopyRoutine.ColAllToAllDemote src tgt]
  | (Dist.MR, Dist.STAR) => some [AssignStep.call CopyRoutine.PartialColFilter src tgt]
  | (Dist.STAR, Dist.MC) =>
    some [AssignStep.construct (Dist.MR, Dist.MC) src,
          AssignStep.assign tgt (Dist.MR, Dist.MC)]
  | (Dist.VC, Dist.STAR) => some [AssignStep.inlineSendRecv]
  | (Dist.STAR, Dist.VC) =>
    some [AssignStep.construct (Dist.MR, Dist.MC) src,
          AssignStep.assign tgt (Dist.MR, Dist.MC)]
  | (Dist.STAR, Dist.VR) =>
    some [AssignStep.construct (Dist.MC, Dist.MR) src,
          AssignStep.construct (Dist.VC, Dist.STAR) (Dist.MC, Dist.MR),
          AssignStep.assign tgt (Dist.VC, Dist.STAR)]
  | (Dist.STAR, Dist.STAR) => some [AssignStep.call CopyRoutine.ColFilter src tgt]
  | (Dist.CIRC, Dist.CIRC) => some [AssignStep.call CopyRoutine.Scatter src tgt]
  | _ => none

/-- The body of the assignment `tgt = src` for the three targets whose files are embedded;
`none` for every other target and for a pair without an operator. -/
def operatorAssign (square : Bool) (tgt src : Dist × Dist) : Option (List AssignStep) :=
  match tgt with
  | (Dist.STAR, Dist.MD) => operatorAssign_STAR_MD src
  | (Dist.MC, Dist.MR) => operatorAssign_MC_MR square src
  | (Dist.VR, Dist.STAR) => operatorAssign_VR_STAR src
  | _ => none

/-! ## `copy::Exchange`, the vector exchanges and `[MC,MR] = [MR,MC]` -/

/-- The state of the destination `B` after a call of `Exchange_impl`, following the same
statements: a failing assertion leaves `B` as it was; after `Resize` the local path leaves
what `Copy` leaves in the local matrix, and the exchange leaves the unpacked message (the
resized `B` when the call does not complete). -/
def Exchange_impl_B {α : Type} (debug : Bool) (cfg : BuildConfig) (tr : TypeTraits α)
    (fuel : Nat) (T : ElemType) (D : Device) (A B : ElementalMatrix α)
    (sendRank recvRank myRank : Int) (mem sendScratch recvScratch : Int → α)
    (msg : Int → α) (msgLen : Int) : ElementalMatrix α :=
  if !tr.IsDeviceValidType T D then
    B
  else
  match (if debug then AssertSameGrids A B else Except.ok ()) with
  | Except.error _ => B
  | Except.ok _ =>
  if debug ∧ myRank = sendRank ∧ myRank ≠ recvRank then
    B
  else if debug ∧ myRank ≠ sendRank ∧ myRank = recvRank then
    B
  else
    match B.Resize_checked debug mem A.Height A.Width with
    | Except.error _ => B
    | Except.ok B1 =>
    if myRank = sendRank then
      { B1 with
        matrix_ := (Copy_AbstractMatrix_target cfg tr mem fuel T D T D A.matrix_ B1.matrix_) }
    else
      match Exchange_impl debug cfg tr fuel T D A B sendRank recvRank myRank mem sendScratch
          recvScratch msg msgLen with
      | CallResult.returned out => out.B
      | _ => B1

/-- Embeds `copy::Exchange(A, B, sendRank, recvRank, comm)` (Exchange.hpp).  `devA` and
`devB` are the values of `A.GetLocalDevice()` and `B.GetLocalDevice()`; the GPU case of the
switch is compiled only with `HYDROGEN_HAVE_CUDA`. -/
def Exchange {α : Type} (debug : Bool) (cfg : BuildConfig) (tr : TypeTraits α)
    (fuel : Nat) (T : ElemType) (devA devB : Device) (A B : ElementalMatrix α)
    (sendRank recvRank myRank : Int) (mem sendScratch recvScratch : Int → α)
    (msg : Int → α) (msgLen : Int) : CallResult (ExchangeOutcome α) :=
  if devA ≠ devB then
    CallResult.logicError "Exchange: Device error."
  else
    match devA with
    | Device.CPU =>
      Exchange_impl debug cfg tr fuel T Device.CPU A B sendRank recvRank myRank mem
        sendScratch recvScratch msg msgLen
    | Device.GPU =>
      if cfg.HYDROGEN_HAVE_CUDA then
        Exchange_impl debug cfg tr fuel T Device.GPU A B sendRank recvRank myRank mem
          sendScratch recvScratch msg msgLen
      else CallResult.logicError "Exchange: Bad device."

/-- The state of the destination `B` after a call of `Exchange`. -/
def Exchange_B {α : Type} (debug : Bool) (cfg : BuildConfig) (tr : TypeTraits α)
    (fuel : Nat) (T : ElemType) (devA devB : Device) (A B : ElementalMatrix α)
    (sendRank recvRank myRank : Int) (mem sendScratch recvScratch : Int → α)
    (msg : Int → α) (msgLen : Int) : ElementalMatrix α :=
  if devA ≠ devB then
    B
  else
    match devA with
    | Device.CPU =>
      Exchange_impl_B debug cfg tr fuel T Device.CPU A B sendRank recvRank myRank mem
        sendScratch recvScratch msg msgLen
    | Device.GPU =>
      if cfg.HYDROGEN_HAVE_CUDA then
        Exchange_impl_B debug cfg tr fuel T Device.GPU A B sendRank recvRank myRank mem
          sendScratch recvScratch msg msgLen
      else B

/-- The message a process hands to `mpi::SendRecv` in a call of `Exchange`, if any. -/
def Exchange_sent {α : Type} (debug : Bool) (cfg : BuildConfig) (tr : TypeTraits α)
    (fuel : Nat) (T : ElemType) (devA devB : Device) (A B : ElementalMatrix α)
    (sendRank recvRank myRank : Int) (mem sendScratch recvScratch : Int → α) :
    Option (SentMessage α) :=
  if devA ≠ devB then
    none
  else
    match devA with
    | Device.CPU =>
      Exchange_impl_sent debug cfg tr fuel T Device.CPU A B sendRank recvRank myRank mem
        sendScratch recvScratch
    | Device.GPU =>
      if cfg.HYDROGEN_HAVE_CUDA then
        Exchange_impl_sent debug cfg tr fuel T Device.GPU A B sendRank recvRank myRank mem
          sendScratch recvScratch
      else none

/-- Modelled from the spec: `Mod` is not part of the embedded sources.  The remainder of
`a` by `b` brought into `[0, b)` for a positive `b`. -/
def Mod (a b : Int) : Int :=
  let rem := Int.tmod a b
  if rem ≥ 0 then rem else rem + b

/-- The values of the virtual queries of the two operands that a vector exchange reads and
that `ElementalMatrix` does not carry. -/
structure VectorExchangeRanks where
  distSizeA : Int
  distRankA : Int
  distRankB : Int
  partialStrideA : Int
  partialUnionStrideA : Int

/-- Embeds `copy::ColwiseVectorExchange<T,U,V,D>(A, B)` (Exchange.hpp).  The rank of the
process in `B.DistComm()` is `B.DistRank()`. -/
def ColwiseVectorExchange {α : Type} (debug : Bool) (cfg : BuildConfig) (tr : TypeTraits α)
    (fuel : Nat) (T : ElemType) (D : Device) (A B : ElementalMatrix α)
    (q : VectorExchangeRanks) (mem sendScratch recvScratch : Int → α)
    (msg : Int → α) (msgLen : Int) : CallResult (ExchangeOutcome α) :=
  match AssertSameGrids A B with
  | Except.error m => CallResult.logicError m
  | Except.ok _ =>
  if !B.Participating then
    CallResult.returned { B := B, sent := none }
  else
    let distSize := q.distSizeA
    let colDiff := A.ColShift - B.ColShift
    let sendRankB := Mod (q.distRankB + colDiff) distSize
    let recvRankA := Mod (q.distRankA - colDiff) distSize
    let recvRankB :=
      Int.tdiv recvRankA q.partialStrideA
        + Int.tmod recvRankA q.partialStrideA * q.partialUnionStrideA
    Exchange_impl debug cfg tr fuel T D A B sendRankB recvRankB q.distRankB mem sendScratch
      recvScratch msg msgLen

/-- The state of the destination `B` after a call of `ColwiseVectorExchange`. -/
def ColwiseVectorExchange_B {α : Type} (debug : Bool) (cfg : BuildConfig)
    (tr : TypeTraits α) (fuel : Nat) (T : ElemType) (D : Device) (A B : ElementalMatrix α)
    (q : VectorExchangeRanks) (mem sendScratch recvScratch : Int → α)
    (msg : Int → α) (msgLen : Int) : ElementalMatrix α :=
  match AssertSameGrids A B with
  | Except.error _ => B
  | Except.ok _ =>
  if !B.Participating then
    B
  else
    let distSize := q.distSizeA
    let colDiff := A.ColShift - B.ColShift
    let sendRankB := Mod (q.distRankB + colDiff) distSize
    let recvRankA := Mod (q.distRankA - colDiff) distSize
    let recvRankB :=
      Int.tdiv recvRankA q.partialStrideA
        + Int.tmod recvRankA q.partialStrideA * q.partialUnionStrideA
    Exchange_impl_B debug cfg tr fuel T D A B sendRankB recvRankB q.distRankB mem
      sendScratch recvScratch msg msgLen

/-- Embeds `copy::RowwiseVectorExchange<T,U,V,D>(A, B)` (Exchange.hpp); the timing of the
call and its reduction are left out. -/
def RowwiseVectorExchange {α : Type} (debug : Bool) (cfg : BuildConfig) (tr : TypeTraits α)
    (fuel : Nat) (T : ElemType) (D : Device) (A B : ElementalMatrix α)
    (q : VectorExchangeRanks) (mem sendScratch recvScratch : Int → α)
    (msg : Int → α) (msgLen : Int) : CallResult (ExchangeOutcome α) :=
  match AssertSameGrids A B with
  | Except.error m => CallResult.logicError m
  | Except.ok _ =>
  if !B.Participating then
    CallResult.returned { B := B, sent := none }
  else
    let distSize := q.distSizeA
    let rowDiff := A.RowShift - B.RowShift
    let sendRankB := Mod (q.distRankB + rowDiff) distSize
    let recvRankA := Mod (q.distRankA - rowDiff) distSize
    let recvRankB :=
      Int.tdiv recvRankA q.partialStrideA
        + Int.tmod recvRankA q.partialStrideA * q.partialUnionStrideA
    Exchange_impl debug cfg tr fuel T D A B sendRankB recvRankB q.distRankB mem sendScratch
      recvScratch msg msgLen

/-- The state of the destination `B` after a call of `RowwiseVectorExchange`. -/
def RowwiseVectorExchange_B {α : Type} (debug : Bool) (cfg : BuildConfig)
    (tr : TypeTraits α) (fuel : Nat) (T : ElemType) (D : Device) (A B : ElementalMatrix α)
    (q : VectorExchangeRanks) (mem sendScratch recvScratch : Int → α)
    (msg : Int → α) (msgLen : Int) : ElementalMatrix α :=
  match AssertSameGrids A B with
  | Except.error _ => B
  | Except.ok _ =>
  if !B.Participating then
    B
  else
    let distSize := q.distSizeA
    let rowDiff := A.RowShift - B.RowShift
    let sendRankB := Mod (q.distRankB + rowDiff) distSize
    let recvRankA := Mod (q.distRankA - rowDiff) distSize
    let recvRankB :=
      Int.tdiv recvRankA q.partialStrideA
        + Int.tmod recvRankA q.partialStrideA * q.partialUnionStrideA
    Exchange_impl_B debug cfg tr fuel T D A B sendRankB recvRankB q.distRankB mem
      sendScratch recvScratch msg msgLen

/-- Embeds `DistMatrix<T,MC,MR>::operator=(const DistMatrix<T,MR,MC>& A)` (MC_MR.cpp) with
`B` for `*this`.  On a square grid the partners are computed and `copy::Exchange` runs
over the column-major communicator, in which the process has rank `VCRank()`;
`copy::TransposeDist`, which a grid that is not square reaches, lies outside the embedded
sources and is the parameter `transposeDist`. -/
def MC_MR_assign_MR_MC {α : Type} (debug : Bool) (cfg : BuildConfig) (tr : TypeTraits α)
    (fuel : Nat) (T : ElemType) (devA devB : Device) (END : Int) (B A : ElementalMatrix α)
    (transposeDist : CallResult (ExchangeOutcome α))
    (mem sendScratch recvScratch : Int → α) (msg : Int → α) (msgLen : Int) :
    CallResult (ExchangeOutcome α) :=
  let grid := A.Grid
  if grid.Height = grid.Width then
    let gridDim := grid.Height
    let sendRank := B.RowOwner END A.ColShift + B.ColOwner END A.RowShift * gridDim
    let recvRank := A.ColOwner END B.RowShift + A.RowOwner END B.ColShift * gridDim
    Exchange debug cfg tr fuel T devA devB A B sendRank recvRank grid.VCRank mem sendScratch
      recvScratch msg msgLen
  else
    transposeDist

/-- The state of the destination after `[MC,MR] = [MR,MC]`; `transposeDist_B` is what
`copy::TransposeDist` leaves. -/
def MC_MR_assign_MR_MC_B {α : Type} (debug : Bool) (cfg : BuildConfig) (tr : TypeTraits α)
    (fuel : Nat) (T : ElemType) (devA devB : Device) (END : Int) (B A : ElementalMatrix α)
    (transposeDist_B : ElementalMatrix α)
    (mem sendScratch recvScratch : Int → α) (msg : Int → α) (msgLen : Int) :
    ElementalMatrix α :=
  let grid := A.Grid
  if grid.Height = grid.Width then
    let gridDim := grid.Height
    let sendRank := B.RowOwner END A.ColShift + B.ColOwner END A.RowShift * gridDim
    let recvRank := A.ColOwner END B.RowShift + A.RowOwner END B.ColShift * gridDim
    Exchange_B debug cfg tr fuel T devA devB A B sendRank recvRank grid.VCRank mem
      sendScratch recvScratch msg msgLen
  else
    transposeDist_B

/-- The sample destination of rank `rank` moved to another grid (three rows instead of
two). -/
def sampleExB_otherGrid (rank : Int) : ElementalMatrix Int :=
  { sampleExB rank with grid_ := { height_ := 3, width_ := 1, mcRank := rank, mrRank := 0 } }

/-! ## Realignment and buffer attachment (Elemental.cpp) -/

/-- The outcome of a member function called on a matrix: the matrix when the call ends, and
the message of the `LogicError` the call raised, if any.  A call that raises leaves the
matrix as it was at the `throw`. -/
structure MemberOutcome (α : Type) where
  self : ElementalMatrix α
  raised : Option String

/-- The virtual queries of a concrete class `DistMatrix<T,U,V>` that `ElementalMatrix`
calls and that depend only on the class and on the grid the matrix refers to.  The classes
other than `[MC,MR]` lie outside the embedded sources, so the queries are a parameter. -/
structure DistQueries where
  ColDist : Dist
  RowDist : Dist
  PartialColDist : Dist
  PartialRowDist : Dist
  PartialUnionColDist : Dist
  PartialUnionRowDist : Dist
  CollectedColDist : Dist
  CollectedRowDist : Dist
  ColStride : El.Grid → Int
  RowStride : El.Grid → Int
  ColRank : El.Grid → Int
  RowRank : El.Grid → Int
  CrossRank : El.Grid → Int
  CrossSize : El.Grid → Int

/-- The fields of `ElementalData` that `AlignColsWith` and `AlignRowsWith` read. -/
structure ElementalData where
  colDist : Dist
  rowDist : Dist
  colAlign : Int
  rowAlign : Int
  root : Int
  grid : El.Grid

/-- The alignments lie in the ranges of their strides. -/
def ElementalMatrix.AlignmentsInRange {α : Type} (A : ElementalMatrix α) : Prop :=
  (0 ≤ A.colAlign_ ∧ A.colAlign_ < A.ColStride) ∧ (0 ≤ A.rowAlign_ ∧ A.rowAlign_ < A.RowStride)

/-- The assignment `root_ = root`.  Modelled from the spec: `Participating()` is not part
of the embedded sources; it is `grid_->InGrid() && CrossRank() == root_`, so the value the
descriptor holds for it follows the new root. -/
def ElementalMatrix.assignRoot {α : Type} (A : ElementalMatrix α) (root : Int) :
    ElementalMatrix α :=
  { A with
    root_ := root
    participating := A.grid_.InGrid && decide (A.crossRank = root) }

/-- The assignment `grid_ = &g`: the values the descriptor holds for the virtual queries
follow the new grid. -/
def ElementalMatrix.assignGrid {α : Type} (K : DistQueries) (A : ElementalMatrix α)
    (g : El.Grid) : ElementalMatrix α :=
  { A with
    grid_ := g
    colStride := K.ColStride g
    rowStride := K.RowStride g
    colRank := K.ColRank g
    rowRank := K.RowRank g
    crossRank := K.CrossRank g
    participating := g.InGrid && decide (K.CrossRank g = A.root_) }

/-- Modelled from the spec: `SetColShift` is not part of the embedded sources.  The column
shift is recomputed from the rank, the alignment and the stride on a participating process
and is zero elsewhere. -/
def ElementalMatrix.SetColShift {α : Type} (A : ElementalMatrix α) : ElementalMatrix α :=
  if A.Participating then
    { A with colShift_ := Shift A.ColRank A.colAlign_ A.ColStride }
  else
    { A with colShift_ := 0 }

/-- Modelled from the spec: `SetRowShift` is not part of the embedded sources. -/
def ElementalMatrix.SetRowShift {α : Type} (A : ElementalMatrix α) : ElementalMatrix α :=
  if A.Participating then
    { A with rowShift_ := Shift A.RowRank A.rowAlign_ A.RowStride }
  else
    { A with rowShift_ := 0 }

/-- Modelled from the spec: `SetShifts` is not part of the embedded sources.  Both shifts
are recomputed on a participating process and are zero elsewhere. -/
def ElementalMatrix.SetShifts {α : Type} (A : ElementalMatrix α) : ElementalMatrix α :=
  if A.Participating then
    { A with
      colShift_ := Shift A.ColRank A.colAlign_ A.ColStride
      rowShift_ := Shift A.RowRank A.rowAlign_ A.RowStride }
  else
    { A with colShift_ := 0, rowShift_ := 0 }

/-- Modelled from the spec: `Empty` is not part of the embedded sources.  The local matrix
is emptied, the matrix becomes a `0 x 0` owner with zero alignments and no constraints, and
the shifts are recomputed.  `mem` is the storage of the emptied local matrix. -/
def ElementalMatrix.Empty {α : Type} (A : ElementalMatrix α) (mem : Int → α) :
    ElementalMatrix α :=
  ElementalMatrix.SetShifts
    { A with
      matrix_ := Matrix.empty mem
      viewType_ := El.ViewType.OWNER
      height_ := 0
      width_ := 0
      colAlign_ := 0
      rowAlign_ := 0
      colConstrained_ := false
      rowConstrained_ := false
      rootConstrained_ := false }

/-- Modelled from the spec: `EmptyData` is not part of the embedded sources.  The local
matrix is emptied and the matrix becomes a `0 x 0` owner; alignments and constraints
stay. -/
def ElementalMatrix.EmptyData {α : Type} (A : ElementalMatrix α) (mem : Int → α) :
    ElementalMatrix α :=
  { A with
    matrix_ := Matrix.empty mem
    viewType_ := El.ViewType.OWNER
    height_ := 0
    width_ := 0 }

/-- The call `this->Resize(height, width)` as the last statement of a member function. -/
def ElementalMatrix.Resize_outcome {α : Type} (debug : Bool) (A : ElementalMatrix α)
    (mem : Int → α) (height width : Int) : MemberOutcome α :=
  match A.Resize_checked debug mem height width with
  | Except.error m => { self := A, raised := some m }
  | Except.ok A1 => { self := A1, raised := none }

/-- Embeds `ElementalMatrix::Align(colAlign, rowAlign, constrain)` (Elemental.cpp); the
check for a view is compiled in a debug build only. -/
def ElementalMatrix.Align {α : Type} (debug : Bool) (A : ElementalMatrix α) (mem : Int → α)
    (colAlign rowAlign : Int) (constrain : Bool) : MemberOutcome α :=
  let requireChange := decide (A.colAlign_ ≠ colAlign ∨ A.rowAlign_ ≠ rowAlign)
  if debug ∧ A.Viewing ∧ requireChange then
    { self := A, raised := some "Tried to realign a view" }
  else
    let A := if requireChange then A.Empty mem else A
    let A := if constrain then { A with colConstrained_ := true, rowConstrained_ := true }
      else A
    let A := { A with colAlign_ := colAlign, rowAlign_ := rowAlign }
    { self := A.SetShifts, raised := none }

/-- Embeds `ElementalMatrix::AlignCols(colAlign, constrain)` (Elemental.cpp). -/
def ElementalMatrix.AlignCols {α : Type} (debug : Bool) (A : ElementalMatrix α)
    (mem : Int → α) (colAlign : Int) (constrain : Bool) : MemberOutcome α :=
  if debug ∧ A.Viewing ∧ A.colAlign_ ≠ colAlign then
    { self := A, raised := some "Tried to realign a view" }
  else
    let A := if A.colAlign_ ≠ colAlign then A.EmptyData mem else A
    let A := if constrain then { A with colConstrained_ := true } else A
    let A := { A with colAlign_ := colAlign }
    { self := A.SetShifts, raised := none }

/-- Embeds `ElementalMatrix::AlignRows(rowAlign, constrain)` (Elemental.cpp). -/
def ElementalMatrix.AlignRows {α : Type} (debug : Bool) (A : ElementalMatrix α)
    (mem : Int → α) (rowAlign : Int) (constrain : Bool) : MemberOutcome α :=
  if debug ∧ A.Viewing ∧ A.rowAlign_ ≠ rowAlign then
    { self := A, raised := some "Tried to realign a view" }
  else
    let A := if A.rowAlign_ ≠ rowAlign then A.EmptyData mem else A
    let A := if constrain then { A with rowConstrained_ := true } else A
    let A := { A with rowAlign_ := rowAlign }
    { self := A.SetShifts, raised := none }

/-- Embeds `ElementalMatrix::FreeAlignments()` (Elemental.cpp). -/
def ElementalMatrix.FreeAlignments {α : Type} (A : ElementalMatrix α) : MemberOutcome α :=
  if !A.Viewing then
    { self := { A with colConstrained_ := false, rowConstrained_ := false,
                       rootConstrained_ := false }
      raised := none }
  else
    { self := A, raised := some "Cannot free alignments of views" }

/-- Embeds `ElementalMatrix::AlignAndResize(colAlign, rowAlign, height, width, force,
constrain)` (Elemental.cpp). -/
def ElementalMatrix.AlignAndResize {α : Type} (debug : Bool) (A : ElementalMatrix α)
    (mem : Int → α) (colAlign rowAlign height width : Int) (force constrain : Bool) :
    MemberOutcome α :=
  let A :=
    if !A.Viewing then
      let A := if force ∨ !A.ColConstrained then
        ElementalMatrix.SetColShift { A with colAlign_ := colAlign } else A
      let A := if force ∨ !A.RowConstrained then
        ElementalMatrix.SetRowShift { A with rowAlign_ := rowAlign } else A
      A
    else A
  let A := if constrain then { A with colConstrained_ := true, rowConstrained_ := true }
    else A
  if force ∧ (A.colAlign_ ≠ colAlign ∨ A.rowAlign_ ≠ rowAlign) then
    { self := A, raised := some "Could not set alignments" }
  else
    A.Resize_outcome debug mem height width

/-- Embeds `ElementalMatrix::AlignColsAndResize(colAlign, height, width, force, constrain)`
(Elemental.cpp). -/
def ElementalMatrix.AlignColsAndResize {α : Type} (debug : Bool) (A : ElementalMatrix α)
    (mem : Int → α) (colAlign height width : Int) (force constrain : Bool) :
    MemberOutcome α :=
  let A := if !A.Viewing ∧ (force ∨ !A.ColConstrained) then
    ElementalMatrix.SetColShift { A with colAlign_ := colAlign } else A
  let A := if constrain then { A with colConstrained_ := true } else A
  if force ∧ A.colAlign_ ≠ colAlign then
    { self := A, raised := some "Could not set col alignment" }
  else
    A.Resize_outcome debug mem height width

/-- Embeds `ElementalMatrix::AlignRowsAndResize(rowAlign, height, width, force, constrain)`
(Elemental.cpp). -/
def ElementalMatrix.AlignRowsAndResize {α : Type} (debug : Bool) (A : ElementalMatrix α)
    (mem : Int → α) (rowAlign height width : Int) (force constrain : Bool) :
    MemberOutcome α :=
  let A := if !A.Viewing ∧ (force ∨ !A.RowConstrained) then
    ElementalMatrix.SetRowShift { A with rowAlign_ := rowAlign } else A
  let A := if constrain then { A with rowConstrained_ := true } else A
  if force ∧ A.rowAlign_ ≠ rowAlign then
    { self := A, raised := some "Could not set row alignment" }
  else
    A.Resize_outcome debug mem height width

/-- The statements `Attach` and `LockedAttach` share (Elemental.cpp): the matrix is
emptied, the grid, root, extents and alignments are stored, all three constraints are set,
the view type becomes `viewType`, the shifts are recomputed and, on a participating
process, the local matrix refers to `buffer` with the local lengths and leading dimension
`ldim`. -/
def ElementalMatrix.attach {α : Type} (K : DistQueries) (viewType : El.ViewType)
    (A : ElementalMatrix α) (mem : Int → α) (height width : Int) (g : El.Grid)
    (colAlign rowAlign : Int) (buffer : Int → α) (ldim root : Int) : ElementalMatrix α :=
  let A := A.Empty mem
  let A := A.assignGrid K g
  let A := A.assignRoot root
  let A :=
    { A with
      height_ := height
      width_ := width
      colAlign_ := colAlign
      rowAlign_ := rowAlign
      colConstrained_ := true
      rowConstrained_ := true
      rootConstrained_ := true
      viewType_ := viewType }
  let A := A.SetShifts
  if A.Participating then
    let localHeight := Length height A.colShift_ A.ColStride
    let localWidth := Length width A.rowShift_ A.RowStride
    { A with
      matrix_ := { height_ := localHeight, width_ := localWidth, ldim_ := ldim,
                   data_ := buffer } }
  else A

/-- Embeds `ElementalMatrix::Attach(height, width, g, colAlign, rowAlign, buffer, ldim,
root)` (Elemental.cpp). -/
def ElementalMatrix.Attach {α : Type} (K : DistQueries) (A : ElementalMatrix α)
    (mem : Int → α) (height width : Int) (g : El.Grid) (colAlign rowAlign : Int)
    (buffer : Int → α) (ldim root : Int) : ElementalMatrix α :=
  ElementalMatrix.attach K El.ViewType.VIEW A mem height width g colAlign rowAlign buffer ldim
    root

/-- Embeds `ElementalMatrix::LockedAttach(height, width, g, colAlign, rowAlign, buffer,
ldim, root)` (Elemental.cpp). -/
def ElementalMatrix.LockedAttach {α : Type} (K : DistQueries) (A : ElementalMatrix α)
    (mem : Int → α) (height width : Int) (g : El.Grid) (colAlign rowAlign : Int)
    (buffer : Int → α) (ldim root : Int) : ElementalMatrix α :=
  ElementalMatrix.attach K El.ViewType.LOCKED_VIEW A mem height width g colAlign rowAlign
    buffer ldim root

/-- Embeds `ElementalMatrix::Attach(g, A)` (Elemental.cpp) with `M` for the local matrix
`A`: the grid must hold one process. -/
def ElementalMatrix.Attach_Matrix {α : Type} (K : DistQueries) (A : ElementalMatrix α)
    (mem : Int → α) (g : El.Grid) (M : Matrix α) : MemberOutcome α :=
  if g.Size ≠ 1 then
    { self := A, raised := some "Assumed a grid size of one" }
  else
    { self := A.Attach K mem M.Height M.Width g 0 0 M.Buffer M.LDim 0, raised := none }

/-- Embeds `ElementalMatrix::LockedAttach(g, A)` (Elemental.cpp). -/
def ElementalMatrix.LockedAttach_Matrix {α : Type} (K : DistQueries)
    (A : ElementalMatrix α) (mem : Int → α) (g : El.Grid) (M : Matrix α) :
    MemberOutcome α :=
  if g.Size ≠ 1 then
    { self := A, raised := some "Assumed a grid size of one" }
  else
    { self := A.LockedAttach K mem M.Height M.Width g 0 0 M.LockedBuffer M.LDim 0
      raised := none }

/-- Modelled from the spec: `SetGrid` is not part of the embedded sources.  A matrix that
is moved to another grid is emptied. -/
def ElementalMatrix.SetGrid {α : Type} (K : DistQueries) (A : ElementalMatrix α)
    (mem : Int → α) (g : El.Grid) : ElementalMatrix α :=
  if A.grid_ ≠ g then
    ElementalMatrix.Empty (A.assignGrid K g) mem
  else A

/-- Modelled from the spec: `SetRoot` is not part of the embedded sources.  A debug build
checks the root against the size of the cross communicator; a matrix whose root changes
loses its data; the root is stored and constrained and the shifts are recomputed. -/
def ElementalMatrix.SetRoot {α : Type} (debug : Bool) (K : DistQueries)
    (A : ElementalMatrix α) (mem : Int → α) (root : Int) (constrain : Bool) :
    MemberOutcome α :=
  if debug ∧ (root < 0 ∨ root ≥ K.CrossSize A.grid_) then
    { self := A, raised := some "Invalid root" }
  else
    let A := if root ≠ A.root_ then A.EmptyData mem else A
    let A := A.assignRoot root
    let A := if constrain then { A with rootConstrained_ := true } else A
    { self := A.SetShifts, raised := none }

/-- Embeds `ElementalMatrix::AlignColsWith(data, constrain, allowMismatch)`
(Elemental.cpp). -/
def ElementalMatrix.AlignColsWith {α : Type} (debug : Bool) (K : DistQueries)
    (A : ElementalMatrix α) (mem : Int → α) (data : ElementalData)
    (constrain allowMismatch : Bool) : MemberOutcome α :=
  let A := A.SetGrid K mem data.grid
  let r := A.SetRoot debug K mem data.root true
  match r.raised with
  | some m => { self := r.self, raised := some m }
  | none =>
    let A := r.self
    if data.colDist = K.ColDist ∨ data.colDist = K.PartialColDist then
      A.AlignCols debug mem data.colAlign constrain
    else if data.rowDist = K.ColDist ∨ data.rowDist = K.PartialColDist then
      A.AlignCols debug mem data.rowAlign constrain
    else if data.colDist = K.PartialUnionColDist then
      A.AlignCols debug mem (Int.tmod data.colAlign A.ColStride) constrain
    else if data.rowDist = K.PartialUnionColDist then
      A.AlignCols debug mem (Int.tmod data.rowAlign A.ColStride) constrain
    else if K.ColDist ≠ K.CollectedColDist ∧ data.colDist ≠ K.CollectedColDist ∧
        data.rowDist ≠ K.CollectedColDist ∧ !allowMismatch then
      { self := A, raised := some "Nonsensical alignment" }
    else
      { self := A, raised := none }

/-- Embeds `ElementalMatrix::AlignRowsWith(data, constrain, allowMismatch)`
(Elemental.cpp). -/
def ElementalMatrix.AlignRowsWith {α : Type} (debug : Bool) (K : DistQueries)
    (A : ElementalMatrix α) (mem : Int → α) (data : ElementalData)
    (constrain allowMismatch : Bool) : MemberOutcome α :=
  let A := A.SetGrid K mem data.grid
  let r := A.SetRoot debug K mem data.root true
  match r.raised with
  | some m => { self := r.self, raised := some m }
  | none =>
    let A := r.self
    if data.colDist = K.RowDist ∨ data.colDist = K.PartialRowDist then
      A.AlignRows debug mem data.colAlign constrain
    else if data.rowDist = K.RowDist ∨ data.rowDist = K.PartialRowDist then
      A.AlignRows debug mem data.rowAlign constrain
    else if data.colDist = K.PartialUnionRowDist then
      A.AlignRows debug mem (Int.tmod data.colAlign A.RowStride) constrain
    else if data.rowDist = K.PartialUnionRowDist then
      A.AlignRows debug mem (Int.tmod data.rowAlign A.RowStride) constrain
    else if K.RowDist ≠ K.CollectedRowDist ∧ data.colDist ≠ K.CollectedRowDist ∧
        data.rowDist ≠ K.CollectedRowDist ∧ !allowMismatch then
      { self := A, raised := some "Nonsensical alignment" }
    else
      { self := A, raised := none }

/-- The sample matrix `sampleA` on process (0,0) as a view of its buffer. -/
def sampleView : ElementalMatrix Int :=
  { sampleA 0 0 with viewType_ := El.ViewType.VIEW }

/-! ## Metadata broadcast: `MakeConsistent` (Elemental.cpp) and `CopyFromRoot` -/

/-- Modelled from the spec: the messaging layer is not part of the embedded sources.
`mpi::Broadcast(buf, count, root, comm)` on one process: the root keeps its buffer, every
other process receives the first `count` cells of `rootBuf`, the buffer the root passed. -/
def Broadcast (buf : Int → Int) (count : Int) (isRoot : Bool) (rootBuf : Int → Int) :
    Int → Int :=
  if isRoot then buf else MemCopy buf 0 rootBuf 0 count

/-- The conversion of a `bool` to `Int` in the assignment `message[k] = flag`. -/
def boolToInt (b : Bool) : Int := if b then 1 else 0

/-- The conversion of an `Int` to `bool` in the initialisation `const bool flag =
message[k]`. -/
def intToBool (n : Int) : Bool := decide (n ≠ 0)

/-- The nine fields `MakeConsistent` sends, in the order of the message. -/
structure Metadata where
  viewType : El.ViewType
  height : Int
  width : Int
  colConstrained : Bool
  rowConstrained : Bool
  rootConstrained : Bool
  colAlign : Int
  rowAlign : Int
  root : Int
  deriving DecidableEq

/-- The nine fields of a matrix. -/
def ElementalMatrix.metadata {α : Type} (A : ElementalMatrix α) : Metadata :=
  { viewType := A.viewType_
    height := A.height_
    width := A.width_
    colConstrained := A.colConstrained_
    rowConstrained := A.rowConstrained_
    rootConstrained := A.rootConstrained_
    colAlign := A.colAlign_
    rowAlign := A.rowAlign_
    root := A.root_ }

/-- The nine assignments `message[0] = this->viewType_; ...; message[8] = this->root_` of
`MakeConsistent` (Elemental.cpp). -/
def MakeConsistent_encode {α : Type} (A : ElementalMatrix α) (message : Int → Int) :
    Int → Int :=
  let message := setCell message 0 A.viewType_.toInt
  let message := setCell message 1 A.height_
  let message := setCell message 2 A.width_
  let message := setCell message 3 (boolToInt A.colConstrained_)
  let message := setCell message 4 (boolToInt A.rowConstrained_)
  let message := setCell message 5 (boolToInt A.rootConstrained_)
  let message := setCell message 6 A.colAlign_
  let message := setCell message 7 A.rowAlign_
  let message := setCell message 8 A.root_
  message

/-- The nine initialisations `newViewType = static_cast<ViewType>(message[0]); ...; root =
message[8]` of `MakeConsistent` (Elemental.cpp). -/
def MakeConsistent_decode (message : Int → Int) : Metadata :=
  { viewType := El.ViewType.ofInt (message 0)
    height := message 1
    width := message 2
    colConstrained := intToBool (message 3)
    rowConstrained := intToBool (message 4)
    rootConstrained := intToBool (message 5)
    colAlign := message 6
    rowAlign := message 7
    root := message 8 }

/-- The message `MakeConsistent` holds after its broadcasts on one process.  `uninit` are
the cells of the array `message` before any assignment, `crossMsg` is the buffer the root
of the cross communicator passes to the first broadcast, `viewMsg` the buffer the process
of column-major rank 0 passes to the second, and `isViewRoot` tells whether this process
is that one. -/
def MakeConsistent_message {α : Type} (A : ElementalMatrix α) (includingViewers : Bool)
    (uninit crossMsg viewMsg : Int → Int) (isViewRoot : Bool) : Int → Int :=
  let msgLength : Int := 9
  let message := uninit
  let message := if A.CrossRank = A.Root then MakeConsistent_encode A message else message
  let g := A.grid_
  let message :=
    if g.InGrid then Broadcast message msgLength (decide (A.CrossRank = A.Root)) crossMsg
    else message
  let message :=
    if includingViewers then Broadcast message msgLength isViewRoot viewMsg else message
  message

/-- Embeds `ElementalMatrix::MakeConsistent(includingViewers)` (Elemental.cpp) on one
process; the message it decodes is `MakeConsistent_message`. -/
def ElementalMatrix.MakeConsistent {α : Type} (debug : Bool) (A : ElementalMatrix α)
    (mem : Int → α) (includingViewers : Bool) (uninit crossMsg viewMsg : Int → Int)
    (isViewRoot : Bool) : MemberOutcome α :=
  let g := A.grid_
  if !g.InGrid ∧ !includingViewers then
    { self := A, raised := some "Non-participating process called MakeConsistent" }
  else
    let message := MakeConsistent_message A includingViewers uninit crossMsg viewMsg isViewRoot
    let m := MakeConsistent_decode message
    let A := A.assignRoot m.root
    let A :=
      { A with
        viewType_ := m.viewType
        colConstrained_ := m.colConstrained
        rowConstrained_ := m.rowConstrained
        rootConstrained_ := m.rootConstrained
        colAlign_ := m.colAlign
        rowAlign_ := m.rowAlign }
    let A := A.SetShifts
    A.Resize_outcome debug mem m.height m.width

/-- Modelled from the spec: `MakeSizeConsistent` is not part of the embedded sources.  It
is `MakeConsistent` for the two extents alone: the root of the cross communicator sends
its height and width, and every process resizes to what it receives. -/
def ElementalMatrix.MakeSizeConsistent {α : Type} (debug : Bool) (A : ElementalMatrix α)
    (mem : Int → α) (includingViewers : Bool) (uninit crossMsg viewMsg : Int → Int)
    (isViewRoot : Bool) : MemberOutcome α :=
  let msgLength : Int := 2
  let message := uninit
  let message :=
    if A.CrossRank = A.Root then setCell (setCell message 0 A.height_) 1 A.width_
    else message
  let g := A.grid_
  if !g.InGrid ∧ !includingViewers then
    { self := A, raised := some "Non-participating process called MakeSizeConsistent" }
  else
    let message :=
      if g.InGrid then Broadcast message msgLength (decide (A.CrossRank = A.Root)) crossMsg
      else message
    let message :=
      if includingViewers then Broadcast message msgLength isViewRoot viewMsg else message
    let newHeight := message 0
    let newWidth := message 1
    A.Resize_outcome debug mem newHeight newWidth

/-- Embeds `CopyFromRoot(A, B, includingViewers)` (CopyFromRoot.hpp) with `M` for the local
matrix `A`.  The assignment `B.Matrix() = A` of a local matrix lies outside the embedded
sources and is taken as the local `Copy` between CPU matrices of one type. -/
def CopyFromRoot {α : Type} (debug : Bool) (cfg : BuildConfig) (tr : TypeTraits α)
    (fuel : Nat) (T : ElemType) (M : Matrix α) (B : ElementalMatrix α)
    (includingViewers : Bool) (mem : Int → α) (uninit crossMsg viewMsg : Int → Int)
    (isViewRoot : Bool) : CallResult (ElementalMatrix α) :=
  if B.CrossRank ≠ B.Root then
    CallResult.logicError "Called CopyFromRoot from non-root"
  else
    match B.Resize_checked debug mem M.Height M.Width with
    | Except.error m => CallResult.logicError m
    | Except.ok B =>
      let r := B.MakeSizeConsistent debug mem includingViewers uninit crossMsg viewMsg
        isViewRoot
      match r.raised with
      | some m => CallResult.logicError m
      | none =>
        let B := r.self
        match Copy cfg tr mem fuel T Device.CPU T Device.CPU M B.matrix_ with
        | CallResult.returned L => CallResult.returned { B with matrix_ := L }
        | CallResult.logicError m => CallResult.logicError m
        | CallResult.blocked => CallResult.blocked
        | CallResult.illFormed => CallResult.illFormed
        | CallResult.outOfFuel => CallResult.outOfFuel

/-- Embeds `CopyFromNonRoot(B, includingViewers)` (CopyFromRoot.hpp). -/
def CopyFromNonRoot {α : Type} (debug : Bool) (B : ElementalMatrix α)
    (includingViewers : Bool) (mem : Int → α) (uninit crossMsg viewMsg : Int → Int)
    (isViewRoot : Bool) : CallResult (ElementalMatrix α) :=
  if B.CrossRank = B.Root then
    CallResult.logicError "Called CopyFromNonRoot from root"
  else
    let r := B.MakeSizeConsistent debug mem includingViewers uninit crossMsg viewMsg
      isViewRoot
    match r.raised with
    | some m => CallResult.logicError m
    | none => CallResult.returned r.self

/-- A matrix `[CIRC,CIRC]` on a grid of two processes, on the process of cross rank `rank`:
the root (rank 0) holds a `2 x 2` view, the other process an empty owner. -/
def sampleCirc (rank : Int) : ElementalMatrix Int :=
  { grid_ := { height_ := 2, width_ := 1, mcRank := rank, mrRank := 0 }
    viewType_ := if rank = 0 then El.ViewType.VIEW else El.ViewType.OWNER
    height_ := if rank = 0 then 2 else 0
    width_ := if rank = 0 then 2 else 0
    colAlign_ := 0
    rowAlign_ := 0
    colShift_ := 0
    rowShift_ := 0
    root_ := 0
    colStride := 1
    rowStride := 1
    colRank := 0
    rowRank := 0
    crossRank := rank
    participating := decide (rank = 0)
    matrix_ :=
      if rank = 0 then sampleSrc
      else { height_ := 0, width_ := 0, ldim_ := 1, data_ := fun _ => 0 } }

/-- The virtual queries of `[VC,*]` for the examples: the column stride is the size of the
grid and the rank the column-major rank; the columns are not distributed. -/
def sampleQueries : DistQueries :=
  { ColDist := Dist.VC
    RowDist := Dist.STAR
    PartialColDist := Dist.MC
    PartialRowDist := Dist.STAR
    PartialUnionColDist := Dist.MR
    PartialUnionRowDist := Dist.STAR
    CollectedColDist := Dist.STAR
    CollectedRowDist := Dist.STAR
    ColStride := fun g => g.Size
    RowStride := fun _ => 1
    ColRank := fun g => g.VCRank
    RowRank := fun _ => 0
    CrossRank := fun _ => 0
    CrossSize := fun _ => 1 }

/-- Embeds the `EL_DEBUG_ONLY` block that opens `syr2k::UT(alpha, A, B, C, conjugate)`
(Syr2k/UT.hpp): the operands share a grid and have conformal extents. -/
def syr2k_UT_DEBUG_ONLY {α : Type} (DimsString : ElementalMatrix α → String → String)
    (A B C : ElementalMatrix α) : Except String Unit := do
  AssertSameGrids A B
  AssertSameGrids A C
  if A.Width ≠ C.Height ∨ A.Width ≠ C.Width ∨ B.Width ≠ C.Height ∨ B.Width ≠ C.Width ∨
      A.Height ≠ B.Height then
    LogicError ["Nonconformal:\n", DimsString A "A", "\n", DimsString B "B", "\n",
      DimsString C "C"]

/-! ## Sorted index vectors: `RelativeIndices` and `Find` (environment_impl.cpp) -/

/-- Embeds `IsSorted(x)` (environment_impl.cpp) for `vector<Int>`, given as a list: no
element is smaller than its predecessor. -/
def IsSorted (x : List Int) : Bool :=
  (List.range (x.length - 1)).all (fun k => !decide (x.getD (k + 1) 0 < x.getD k 0))

/-- The scan behind `lower_bound`: among the `count` positions from `first` on, the first
whose element is not less than `value`, and the position after them if there is none. -/
def lower_bound_scan (v : List Int) (value : Int) : Nat → Nat → Nat
  | 0, first => first
  | count + 1, first =>
    if v.getD first 0 < value then lower_bound_scan v value count (first + 1) else first

/-- Modelled from the spec: `std::lower_bound` belongs to the C++ standard library and is
not part of the embedded sources.  On the positions `[first, last)` of a vector it returns
the first position whose element is not less than `value`, and `last` if there is none;
iterators are given by their distance from `cbegin()`. -/
def lower_bound (v : List Int) (first last : Nat) (value : Int) : Nat :=
  lower_bound_scan v value (last - first) first

/-- The loop of `RelativeIndices(relInds, sub, full)` (environment_impl.cpp) with
`remaining` iterations to go, at loop index `i` and iterator `it`; the check for a missing
index is compiled in a debug build only. -/
def RelativeIndices_loop (debug : Bool) (sub full : List Int) :
    Nat → Nat → Nat → List Int → Except String (List Int)
  | 0, _, _, relInds => Except.ok relInds
  | remaining + 1, i, it, relInds =>
    let index := sub.getD i 0
    let it := lower_bound full it full.length index
    if debug ∧ it = full.length then
      Except.error "Index was not found"
    else
      RelativeIndices_loop debug sub full remaining (i + 1) it (relInds.set i (it : Int))

/-- Embeds `RelativeIndices(sub, full)` (environment_impl.cpp): `relInds` is resized to the
length of `sub` and filled by the loop, which starts at `full.cbegin()`. -/
def RelativeIndices (debug : Bool) (sub full : List Int) : Except String (List Int) :=
  let numSub := sub.length
  let relInds := List.replicate numSub (0 : Int)
  RelativeIndices_loop debug sub full numSub 0 0 relInds

/-- Embeds `Find(sortedInds, index)` (environment_impl.cpp). -/
def Find (debug : Bool) (sortedInds : List Int) (index : Int) : Except String Int :=
  let it := lower_bound sortedInds 0 sortedInds.length index
  if debug ∧ it = sortedInds.length then
    Except.error "All indices were smaller"
  else if debug ∧ sortedInds.getD it 0 ≠ index then
    Except.error "Could not find index"
  else
    Except.ok (it : Int)


/-! ## Inertia from a pivoted factorisation: `ldl::Inertia` (LDL/Inertia.hpp) -/

/-- The type `elem::Inertia`: the numbers of positive, negative and zero eigenvalues. -/
structure Inertia where
  numPositive : Int
  numNegative : Int
  numZero : Int
  deriving DecidableEq, Repr

/-- The `while( k < n )` loop of the sequential `ldl::Inertia` (LDL/Inertia.hpp), run for
at most `fuel` iterations from position `k`; `none` when the iterations do not suffice.
`R` is the real type `Base<F>` with its order and `F` the type of the sub-diagonal. -/
def ldl.Inertia_loop {R F : Type} [LinearOrder R] [Zero R] [Zero F] [DecidableEq F]
    (n : Int) (d : Matrix R) (dSub : Matrix F) :
    Nat → Int → El.Inertia → Option El.Inertia
  | 0, k, inertia => if k < n then none else some inertia
  | fuel + 1, k, inertia =>
    if k < n then
      let nb : Int := if k < n - 1 ∧ dSub.Get k 0 ≠ 0 then 2 else 1
      let inertia :=
        if nb = 1 then
          let delta := d.Get k 0
          if delta > 0 then
            { inertia with numPositive := inertia.numPositive + 1 }
          else if delta < 0 then
            { inertia with numNegative := inertia.numNegative + 1 }
          else
            { inertia with numZero := inertia.numZero + 1 }
        else
          { inertia with numPositive := inertia.numPositive + 1,
                         numNegative := inertia.numNegative + 1 }
      ldl.Inertia_loop n d dSub fuel (k + nb) inertia
    else some inertia

/-- Embeds the sequential `ldl::Inertia(d, dSub)` (LDL/Inertia.hpp); the check of the
length of `dSub` is compiled unless `RELEASE` is defined (`debug`). -/
def ldl.Inertia {R F : Type} [LinearOrder R] [Zero R] [Zero F] [DecidableEq F]
    (debug : Bool) (fuel : Nat) (d : Matrix R) (dSub : Matrix F) : CallResult El.Inertia :=
  let n := d.Height
  if debug ∧ n ≠ 0 ∧ dSub.Height ≠ n - 1 then
    CallResult.logicError "dSub was the wrong length"
  else
    let inertia : El.Inertia := { numPositive := 0, numNegative := 0, numZero := 0 }
    match ldl.Inertia_loop n d dSub fuel 0 inertia with
    | some inertia => CallResult.returned inertia
    | none => CallResult.outOfFuel

/-- The pivots of the Bunch-Kaufman rule read left to right from position `k`, as the
header comment of LDL/Inertia.hpp and the claim describe them: at position `k` a `2 x 2`
pivot covering `k` and `k+1` is taken when `k < n-1` and `dSub[k] != 0` (`true`), and a
`1 x 1` pivot otherwise (`false`).  `steps` bounds the number of pivots listed. -/
def pivotsFrom (n : Int) (dSubNonzero : Int → Bool) : Nat → Int → List (Int × Bool)
  | 0, _ => []
  | steps + 1, k =>
    if k < n then
      if k < n - 1 ∧ dSubNonzero k = true then
        (k, true) :: pivotsFrom n dSubNonzero steps (k + 2)
      else
        (k, false) :: pivotsFrom n dSubNonzero steps (k + 1)
    else []

/-- The pivots of a matrix of order `n`: at most `n` of them, read from position 0. -/
def pivots (n : Int) (dSubNonzero : Int → Bool) : List (Int × Bool) :=
  pivotsFrom n dSubNonzero n.toNat 0

/-- The inertia the header comment of LDL/Inertia.hpp assigns to a list of pivots:
`(a+q, b+q, c)` for `q` pivots of size 2 and `a` positive, `b` negative and `c` zero
entries of `d` at the pivots of size 1. -/
def inertiaOfPivots {R : Type} [LinearOrder R] [Zero R] (d : Int → R)
    (ps : List (Int × Bool)) : Inertia :=
  let q := ((ps.filter (fun p => p.2)).length : Int)
  let a := ((ps.filter (fun p => !p.2 && decide (d p.1 > 0))).length : Int)
  let b := ((ps.filter (fun p => !p.2 && decide (d p.1 < 0))).length : Int)
  let c := ((ps.filter (fun p => !p.2 && decide (d p.1 = 0))).length : Int)
  { numPositive := a + q, numNegative := b + q, numZero := c }

/-- A column vector stored contiguously, for the examples. -/
def sampleVector (entries : List Int) : Matrix Int :=
  { height_ := entries.length
    width_ := 1
    ldim_ := max 1 (entries.length : Int)
    data_ := fun k => entries.getD k.toNat 0 }

/-- The sum of two inertia records, component by component. -/
def Inertia.add (x y : Inertia) : Inertia :=
  { numPositive := x.numPositive + y.numPositive
    numNegative := x.numNegative + y.numNegative
    numZero := x.numZero + y.numZero }

/-- The number of eigenvalues an inertia record counts. -/
def Inertia.total (x : Inertia) : Int :=
  x.numPositive + x.numNegative + x.numZero

/-! ## The pool of synchronisation objects: `SyncInfoPool` (SyncInfoPool.hpp) -/

/-- Modelled from the spec: `SyncInfo<Device::GPU>` (hydrogen/SyncInfo.hpp) is not part of
the embedded sources.  The pool builds its elements from a stream handle and an event
handle and reads them back as `stream_` and `event_`. -/
structure SyncInfo where
  stream_ : Nat
  event_ : Nat
  deriving DecidableEq, Repr

/-- A `const_iterator` of the vector `pool_`: the allocation it points into and the offset
of the element there.  An iterator is usable with a vector only while the vector still
lives in that allocation. -/
structure PoolIterator where
  storage : Nat
  offset : Int
  deriving DecidableEq, Repr

/-- Difference of two iterators, `std::distance(first, last)`, for iterators of one
allocation. -/
def PoolIterator.distance (first last : PoolIterator) : Int :=
  last.offset - first.offset

/-- Iterator arithmetic `it + k`. -/
def PoolIterator.advance (it : PoolIterator) (k : Int) : PoolIterator :=
  { it with offset := it.offset + k }

/-- The data members of `SyncInfoPool<Device::GPU>`.  The vector `pool_` is its elements,
the allocation that holds them (`storage`, a number that changes at every reallocation)
and its capacity; `pos_` is the current position in the circular array. -/
structure SyncInfoPool where
  pool_ : List SyncInfo
  storage : Nat
  capacity : Nat
  pos_ : PoolIterator
  deriving DecidableEq, Repr

/-- The outcome of a member function of the pool: the pool when the call ends and the
message of the exception the call raised, if any. -/
structure PoolOutcome where
  self : SyncInfoPool
  raised : Option String
  deriving DecidableEq, Repr

namespace SyncInfoPool

/-- Embeds `SyncInfoPool::Size`. -/
def Size (P : SyncInfoPool) : Nat := P.pool_.length

/-- The iterator `pool_.cbegin()`. -/
def cbegin (P : SyncInfoPool) : PoolIterator := { storage := P.storage, offset := 0 }

/-- The iterator `pool_.cend()`. -/
def cend (P : SyncInfoPool) : PoolIterator := { storage := P.storage, offset := P.Size }

/-- Modelled from the spec: `std::vector::reserve`.  A request above the capacity moves
the elements to a new allocation of exactly that capacity, which invalidates every
iterator into the old one; a request within the capacity does nothing. -/
def reserve (P : SyncInfoPool) (n : Nat) : SyncInfoPool :=
  if n > P.capacity then { P with storage := P.storage + 1, capacity := n } else P

/-- Modelled from the spec: `std::vector::emplace_back`.  The element is appended; a full
vector is first moved to a new allocation of twice the capacity. -/
def emplace_back (P : SyncInfoPool) (x : SyncInfo) : SyncInfoPool :=
  if P.Size < P.capacity then { P with pool_ := P.pool_ ++ [x] }
  else { P with pool_ := P.pool_ ++ [x], storage := P.storage + 1
                capacity := max 1 (2 * P.capacity) }

/-- The element an iterator of the pool refers to, `*it`, when it is one of the pool. -/
def deref (P : SyncInfoPool) (it : PoolIterator) : Option SyncInfo :=
  if it.storage = P.storage ∧ 0 ≤ it.offset then P.pool_[it.offset.toNat]? else none

/-- The invariant the documentation of `pos_` states: for a nonempty pool the position is
valid with respect to the underlying storage, and refers to one of its elements. -/
def Valid (P : SyncInfoPool) : Prop :=
  P.Size ≠ 0 → P.pos_.storage = P.storage ∧ 0 ≤ P.pos_.offset ∧ P.pos_.offset < P.Size

instance (P : SyncInfoPool) : Decidable P.Valid := by
  unfold Valid
  exact inferInstance

/-- The default constructor: an empty vector and a value-initialised iterator. -/
def empty : SyncInfoPool :=
  { pool_ := [], storage := 0, capacity := 0, pos_ := { storage := 0, offset := 0 } }

/-- Embeds `SyncInfoPool::Reset`. -/
def Reset (P : SyncInfoPool) : SyncInfoPool := { P with pos_ := P.cbegin }

/-- Embeds `SyncInfoPool::Next`: the exception on an empty pool, else the position is
incremented, wrapped to the beginning at the end, and the element there is returned. -/
def Next (P : SyncInfoPool) : Except String (SyncInfoPool × Option SyncInfo) :=
  if P.Size = 0 then
    Except.error "SyncInfoPool: Cannot call Next() on empty pool."
  else
    let pos := P.pos_.advance 1
    let pos := if pos = P.cend then P.cbegin else pos
    Except.ok ({ P with pos_ := pos }, P.deref pos)

/-- The loop of `EnsureSize` from iteration `ii` with `remaining` iterations to go.
`cudaStreamCreate ii` and `cudaEventCreate ii` are the handles the two CUDA calls of
iteration `ii` produce, `none` when the call reports an error, which `H_CHECK_CUDA` turns
into an exception. -/
def EnsureSize_loop (cudaStreamCreate cudaEventCreate : Nat → Option Nat) :
    Nat → Nat → SyncInfoPool → PoolOutcome
  | 0, _, P => { self := P, raised := none }
  | remaining + 1, ii, P =>
    match cudaStreamCreate ii with
    | none => { self := P, raised := some "CUDA error" }
    | some stream =>
      match cudaEventCreate ii with
      | none => { self := P, raised := some "CUDA error" }
      | some event =>
        EnsureSize_loop cudaStreamCreate cudaEventCreate remaining (ii + 1)
          (P.emplace_back { stream_ := stream, event_ := event })

/-- Embeds `SyncInfoPool<Device::GPU>::EnsureSize` (SyncInfoPool.hpp). -/
def EnsureSize (cudaStreamCreate cudaEventCreate : Nat → Option Nat) (P : SyncInfoPool)
    (pool_size : Nat) : PoolOutcome :=
  if pool_size ≤ P.Size then { self := P, raised := none }
  else
    let initial_offset : Int :=
      if P.Size = 0 then 0 else PoolIterator.distance P.cbegin P.pos_
    let P := P.reserve pool_size
    let new_elements := pool_size - P.Size
    let out := EnsureSize_loop cudaStreamCreate cudaEventCreate new_elements 0 P
    match out.raised with
    | some msg => { self := out.self, raised := some msg }
    | none =>
      { self := { out.self with pos_ := out.self.cbegin.advance initial_offset }
        raised := none }

/-- A pool of two elements that fills its allocation, positioned at the second one. -/
def sample : SyncInfoPool :=
  { pool_ := [{ stream_ := 10, event_ := 20 }, { stream_ := 11, event_ := 21 }]
    storage := 3, capacity := 2, pos_ := { storage := 3, offset := 1 } }

end SyncInfoPool

/-! ## Reporting of exceptions: `ReportException` (Exception.cpp) -/

/-- The dynamic type of an exception object: the three classes Exception.hpp declares,
the standard classes they derive from or that `LogicError` and `RuntimeError` throw,
`std::bad_cast`, and any other class derived from `std::exception`. -/
inductive ExceptionClass where
  | ArgException
  | UnrecoverableException
  | SingularMatrixException
  | runtime_error
  | logic_error
  | bad_cast
  | exception
  deriving DecidableEq, Repr

/-- An exception object: its dynamic type and the text `what()` returns. -/
structure ExceptionObject where
  cls : ExceptionClass
  what : String
  deriving DecidableEq, Repr

/-- The constructor `ArgException(msg = "")` (Exception.hpp). -/
def ArgException (msg : String := "") : ExceptionObject :=
  { cls := ExceptionClass.ArgException, what := msg }

/-- The constructor `UnrecoverableException(msg = "Unrecoverable exception")`
(Exception.hpp). -/
def UnrecoverableException (msg : String := "Unrecoverable exception") : ExceptionObject :=
  { cls := ExceptionClass.UnrecoverableException, what := msg }

/-- The constructor `SingularMatrixException(msg = "Matrix was singular")`
(Exception.hpp). -/
def SingularMatrixException (msg : String := "Matrix was singular") : ExceptionObject :=
  { cls := ExceptionClass.SingularMatrixException, what := msg }

/-- Embeds `UnrecoverableError(args...)` (Exception.hpp): the exception it throws. -/
def UnrecoverableError (args : List String) : ExceptionObject :=
  UnrecoverableException (BuildString args)

/-- The expression `dynamic_cast<const ArgException&>(e)`: the object itself when its
dynamic type is `ArgException` (no class derives from it), and otherwise the language
throws `std::bad_cast`, whose text is left to the implementation (`badCastWhat`). -/
def dynamic_cast_ArgException (badCastWhat : String) (e : ExceptionObject) :
    Except ExceptionObject ExceptionObject :=
  if e.cls = ExceptionClass.ArgException then Except.ok e
  else Except.error { cls := ExceptionClass.bad_cast, what := badCastWhat }

/-- Whether a handler `catch (UnrecoverableException const&)` takes a thrown object: its
dynamic type is that class (no class derives from it). -/
def catches_UnrecoverableException (thrown : ExceptionObject) : Bool :=
  decide (thrown.cls = ExceptionClass.UnrecoverableException)

/-- What a call of `ReportException` leaves behind: the text in the stream `os` and the
error code of the call of `mpi::Abort(mpi::COMM_WORLD, code)` that ended the run, if one
was made. -/
structure ReportOutcome where
  os : String
  aborted : Option Int
  deriving DecidableEq, Repr

/-- Embeds `ReportException(e, os)` (Exception.cpp).  `debug` is a build without
`EL_RELEASE`, `rank` is what `mpi::Rank()` returns and `callStack` the text
`DumpCallStack` writes; `os` is the text already in the stream.  The `try` block holds
the `dynamic_cast` of `e`, and the two handlers take what that block throws. -/
def ReportException (debug : Bool) (rank : Int) (callStack badCastWhat : String)
    (e : ExceptionObject) (os : String) : ReportOutcome :=
  let tryBlock : Except ExceptionObject String :=
    match dynamic_cast_ArgException badCastWhat e with
    | Except.error thrown => Except.error thrown
    | Except.ok argExcept =>
      let os := if argExcept.what ≠ "" then os ++ argExcept.what ++ "\n" else os
      let os := if debug then os ++ callStack else os
      Except.ok os
  match tryBlock with
  | Except.ok os => { os := os, aborted := none }
  | Except.error thrown =>
    if catches_UnrecoverableException thrown then
      let os :=
        if e.what ≠ "" then
          os ++ "Process " ++ toString rank
            ++ " caught an unrecoverable exception with message:\n" ++ e.what ++ "\n"
        else os
      let os := if debug then os ++ callStack else os
      { os := os, aborted := some 1 }
    else
      let os :=
        if e.what ≠ "" then
          os ++ "Process " ++ toString rank ++ " caught error message:\n" ++ e.what ++ "\n"
        else os
      let os := if debug then os ++ callStack else os
      { os := os, aborted := none }

/-! ## Partner ranks of `[VR,*] = [VC,*]` and of the vector exchanges -/

/-- Modelled from the spec: of the four classes a vector exchange takes, only `[VR,*]` is
part of the embedded sources (VR_STAR.cpp: `DistSize() = VRSize()`,
`PartialColStride() = MRSize()`, `PartialUnionColStride() = MCSize()`).  For operands
distributed as `ProductDist<U,V>` (the source) and `ProductDist<V,U>` (the destination),
on the process of rank `u` in the communicator `U` of size `m` and rank `v` in the
communicator `V` of size `n`: the source ranks the processes with `u` running fastest,
the destination with `v` running fastest.  `(U,V) = (MC,MR)` gives the source `[VC,*]`
with `m` the grid height, `(U,V) = (MR,MC)` the source `[VR,*]` with `m` the grid
width. -/
def VectorExchangeRanks.onProcess (m n u v : Int) : VectorExchangeRanks :=
  { distSizeA := m * n
    distRankA := u + v * m
    distRankB := v + u * n
    partialStrideA := m
    partialUnionStrideA := n }

/-- The block that computes `procRow`, `procCol` and `owner` in `DiagonalRoot` and in
`DiagonalAlign` (Elemental.cpp), written out identically in the two functions:
`(procRow, procCol, owner)` in the branch of `[MC,MR]` (`mcmr`) and in the branch of
`[MR,MC]`. -/
def ElementalMatrix.DiagonalOwner {α : Type} (A : ElementalMatrix α) (mcmr : Bool)
    (offset : Int) : Int × Int × Int :=
  if mcmr then
    if offset ≥ 0 then
      let procRow := A.ColAlign
      let procCol := Int.tmod (A.RowAlign + offset) A.RowStride
      (procRow, procCol, procRow + A.ColStride * procCol)
    else
      let procRow := Int.tmod (A.ColAlign - offset) A.ColStride
      let procCol := A.RowAlign
      (procRow, procCol, procRow + A.ColStride * procCol)
  else
    if offset ≥ 0 then
      let procCol := A.ColAlign
      let procRow := Int.tmod (A.RowAlign + offset) A.RowStride
      (procRow, procCol, procRow + A.ColStride * procCol)
    else
      let procCol := Int.tmod (A.ColAlign - offset) A.ColStride
      let procRow := A.RowAlign
      (procRow, procCol, procRow + A.ColStride * procCol)

/-- Embeds `ElementalMatrix::DiagonalRoot` (Elemental.cpp).  `Diag` is `grid.Diag`, which
lies outside the embedded sources, and `K` holds the distribution pair of the class. -/
def ElementalMatrix.DiagonalRoot {α : Type} (K : DistQueries) (Diag : Int → Int)
    (A : ElementalMatrix α) (offset : Int) : Int :=
  if K.ColDist = Dist.MC ∧ K.RowDist = Dist.MR then
    Diag (A.DiagonalOwner true offset).2.2
  else if K.ColDist = Dist.MR ∧ K.RowDist = Dist.MC then
    Diag (A.DiagonalOwner false offset).2.2
  else
    A.Root

/-- Embeds `ElementalMatrix::DiagonalAlign` (Elemental.cpp).  `DiagRank` is
`grid.DiagRank`, which lies outside the embedded sources. -/
def ElementalMatrix.DiagonalAlign {α : Type} (K : DistQueries) (DiagRank : Int → Int)
    (A : ElementalMatrix α) (offset : Int) : Int :=
  if K.ColDist = Dist.MC ∧ K.RowDist = Dist.MR then
    DiagRank (A.DiagonalOwner true offset).2.2
  else if K.ColDist = Dist.MR ∧ K.RowDist = Dist.MC then
    DiagRank (A.DiagonalOwner false offset).2.2
  else if K.ColDist = Dist.STAR then
    if offset ≥ 0 then Int.tmod (A.RowAlign + offset) A.RowStride else A.RowAlign
  else
    if offset ≥ 0 then A.ColAlign else Int.tmod (A.ColAlign - offset) A.ColStride

/-- The distribution pair of a class, with the other queries those of `sampleQueries`. -/
def queriesOf (U V : Dist) : DistQueries :=
  { sampleQueries with ColDist := U, RowDist := V }

/-- A matrix `[MR,MC]` with alignments `(2, 1)` on a `2 x 3` grid, for the examples: its
column stride is the grid width 3 and its row stride the grid height 2. -/
def sampleMRMC_2x3 : ElementalMatrix Int :=
  { grid_ := { height_ := 2, width_ := 3, mcRank := 0, mrRank := 0 }
    height_ := 0
    width_ := 0
    colAlign_ := 2
    rowAlign_ := 1
    colShift_ := Shift 0 2 3
    rowShift_ := Shift 0 1 2
    colStride := 3
    rowStride := 2
    colRank := 0
    rowRank := 0
    participating := true
    matrix_ := sampleLocal }

/-! ## Inertia from distributed diagonals: `ldl::Inertia` on `[MC,*]` (LDL/Inertia.hpp) -/

/-- Modelled from the spec: `GetLocal` is not part of the embedded sources.  Entry
`(iLoc, jLoc)` of the local matrix; an index outside the local matrix reads the cell the
index arithmetic lands on. -/
def ElementalMatrix.GetLocal {α : Type} (A : ElementalMatrix α) (iLoc jLoc : Int) : α :=
  A.matrix_.Get iLoc jLoc

/-- Modelled from the spec: `LockedMatrix` is not part of the embedded sources.  The local
matrix of the process. -/
def ElementalMatrix.LockedMatrix {α : Type} (A : ElementalMatrix α) : Matrix α :=
  A.matrix_

/-- The assertions that open the distributed `ldl::Inertia(d, dPrev, dSub, dSubPrev)`
(LDL/Inertia.hpp), compiled unless `RELEASE` is defined: the lengths, then the
alignments. -/
def ldl.Inertia_DEBUG_ONLY {R F : Type} (d dPrev : ElementalMatrix R)
    (dSub dSubPrev : ElementalMatrix F) : Except String Unit := do
  let n := d.Height
  if dPrev.Height ≠ n then
    throw "dPrev was the wrong length"
  if n ≠ 0 then
    if dSub.Height ≠ n - 1 ∨ dSubPrev.Height ≠ n - 1 then
      throw "dSub or dSubPrev was wrong length"
  let colStride := d.ColStride
  let colAlign := d.ColAlign
  let colAlignPrev := Int.tmod (colAlign + colStride - 1) colStride
  if dSub.ColAlign ≠ colAlign then
    throw "dSub was improperly aligned"
  if dPrev.ColAlign ≠ colAlignPrev then
    throw "dPrev was improperly aligned"
  if dSubPrev.ColAlign ≠ colAlignPrev then
    throw "dSubPrev was improperly aligned"

/-- The offset `prevOff` the distributed `ldl::Inertia` computes from the column shifts
of `d` and `dPrev`. -/
def ldl.Inertia_prevOff {R : Type} (d dPrev : ElementalMatrix R) : Int :=
  let colShift := d.ColShift
  let colShiftPrev := dPrev.ColShift
  if colShiftPrev = colShift - 1 then 0 else -1

/-- The loop over the local rows of the distributed `ldl::Inertia` (LDL/Inertia.hpp): the
local counts `locInert` of one process. -/
def ldl.Inertia_locInert {R F : Type} [LinearOrder R] [Zero R] [Zero F] [DecidableEq F]
    (d dPrev : ElementalMatrix R) (dSub dSubPrev : ElementalMatrix F) : El.Inertia :=
  let n := d.Height
  let colShift := d.ColShift
  let colStride := d.ColStride
  let mLocal := d.LocalHeight
  let prevOff := ldl.Inertia_prevOff d dPrev
  forLoop mLocal
    (fun iLoc (locInert : El.Inertia) =>
      let i := colShift + iLoc * colStride
      let iLocPrev := iLoc + prevOff
      if i < n - 1 ∧ dSub.GetLocal iLoc 0 ≠ 0 then
        { locInert with numPositive := locInert.numPositive + 1
                        numNegative := locInert.numNegative + 1 }
      else if i > 0 ∧ dSubPrev.GetLocal iLocPrev 0 ≠ 0 then
        locInert
      else
        let delta := d.GetLocal iLoc 0
        if delta > 0 then
          { locInert with numPositive := locInert.numPositive + 1 }
        else if delta < 0 then
          { locInert with numNegative := locInert.numNegative + 1 }
        else
          { locInert with numZero := locInert.numZero + 1 })
    { numPositive := 0, numNegative := 0, numZero := 0 }

/-- Modelled from the spec: `mpi::AllReduce` is not part of the embedded sources.  The
sum of the values the processes of ranks `0 .. size-1` of the communicator contribute. -/
def AllReduce (size : Int) (value : Int → Int) : Int :=
  ((List.range size.toNat).map (fun (j : Nat) => value (j : Int))).sum

/-- Embeds the distributed `ldl::Inertia(d, dPrev, dSub, dSubPrev)` (LDL/Inertia.hpp) on
the process of rank `k` of the column communicator; the four operands are given on every
process of that communicator.  A process whose assertions fail raises; the others then
wait in `mpi::AllReduce` for a contribution that never comes. -/
def ldl.Inertia_dist {R F : Type} [LinearOrder R] [Zero R] [Zero F] [DecidableEq F]
    (debug : Bool) (fuel : Nat) (d dPrev : Int → ElementalMatrix R)
    (dSub dSubPrev : Int → ElementalMatrix F) (k : Int) : CallResult El.Inertia :=
  let checks := fun (j : Int) =>
    if debug then ldl.Inertia_DEBUG_ONLY (d j) (dPrev j) (dSub j) (dSubPrev j)
    else Except.ok ()
  match checks k with
  | Except.error msg => CallResult.logicError msg
  | Except.ok _ =>
    let colStride := (d k).ColStride
    if colStride = 1 then
      ldl.Inertia debug fuel (d k).LockedMatrix (dSub k).LockedMatrix
    else if (List.range colStride.toNat).all (fun (j : Nat) =>
        match checks (j : Int) with
        | Except.ok _ => true
        | Except.error _ => false) then
      let locInert := fun (j : Int) =>
        ldl.Inertia_locInert (d j) (dPrev j) (dSub j) (dSubPrev j)
      CallResult.returned
        { numPositive := AllReduce colStride (fun j => (locInert j).numPositive)
          numNegative := AllReduce colStride (fun j => (locInert j).numNegative)
          numZero := AllReduce colStride (fun j => (locInert j).numZero) }
    else CallResult.blocked

/-- Modelled from the spec: the class `DistMatrix<T,MC,STAR>` and the assignment to it
from another distribution are not part of the embedded sources.  The part of a global
column vector of height `n` with entries `x` that the process of rank `k` in the column
communicator of size `r` holds after `AlignCols(a)` and the assignment: local row `iLoc`
is the global row `colShift + iLoc*r`.  `outside` is what the memory around the local
buffer holds. -/
def MC_STAR_vector {α : Type} (g : Grid) (a k n : Int) (x : Int → α) (outside : α) :
    ElementalMatrix α :=
  let r := g.Height
  let sh := Shift k a r
  let lh := Length n sh r
  { grid_ := { g with mcRank := k }
    height_ := n
    width_ := 1
    colAlign_ := a
    rowAlign_ := 0
    colShift_ := sh
    rowShift_ := 0
    colStride := r
    rowStride := 1
    colRank := k
    rowRank := 0
    participating := true
    matrix_ :=
      { height_ := lh
        width_ := 1
        ldim_ := max 1 lh
        data_ := fun cell => if 0 ≤ cell ∧ cell < lh then x (sh + cell * r) else outside } }

/-- Embeds `ldl::Inertia(d, dSub)` for distributed operands (LDL/Inertia.hpp) on the
process of rank `k` of the column communicator: `d` and `dSub` are given by their heights
and global entries, whatever their distribution. -/
def ldl.Inertia_DistMatrix {R F : Type} [LinearOrder R] [Zero R] [Zero F] [DecidableEq F]
    (debug : Bool) (fuel : Nat) (g : Grid) (dHeight : Int) (d : Int → R) (dSubHeight : Int)
    (dSub : Int → F) (outsideR : R) (outsideF : F) (k : Int) : CallResult El.Inertia :=
  let colStride := g.Height
  let d_MC_STAR := fun j => MC_STAR_vector g 0 j dHeight d outsideR
  let dSub_MC_STAR := fun j => MC_STAR_vector g 0 j dSubHeight dSub outsideF
  if colStride = 1 then
    ldl.Inertia debug fuel (d_MC_STAR k).LockedMatrix (dSub_MC_STAR k).LockedMatrix
  else
    let colAlignPrev := colStride - 1
    let dPrev_MC_STAR := fun j => MC_STAR_vector g colAlignPrev j dHeight d outsideR
    let dSubPrev_MC_STAR := fun j => MC_STAR_vector g colAlignPrev j dSubHeight dSub outsideF
    ldl.Inertia_dist debug fuel d_MC_STAR dPrev_MC_STAR dSub_MC_STAR dSubPrev_MC_STAR k

/-- The entries of a list as a global vector, zero beyond its end. -/
def vectorOf (entries : List Int) : Int → Int :=
  fun i => if 0 ≤ i then entries.getD i.toNat 0 else 0

/-- A grid of three rows and one column. -/
def sampleGrid3 : Grid := { height_ := 3, width_ := 1, mcRank := 0, mrRank := 0 }

/-- The diagonal `d = (1, 1, 1, -1, 1)` of the examples as held by the process of rank
`k` of a column communicator of three processes, under column alignment `a`. -/
def sampleInertia_d (a k : Int) : ElementalMatrix Int :=
  MC_STAR_vector sampleGrid3 a k 5 (vectorOf [1, 1, 1, -1, 1]) 0

/-- The sub-diagonal `dSub = (0, 1, 0, 0)` of the examples, with a single `2 x 2` pivot
at position 1, as held by the process of rank `k` under column alignment `a`; the memory
around the local buffer holds `outside`. -/
def sampleInertia_dSub (a k outside : Int) : ElementalMatrix Int :=
  MC_STAR_vector sampleGrid3 a k 4 (vectorOf [0, 1, 0, 0]) outside
/-! ## Facts about the index helpers -/

theorem ownsIndex_iff (shift stride k : Int) (hs : 0 < stride) (hk : shift ≤ k) :
    ownsIndex shift stride k = true ↔ (k - shift) % stride = 0 := by
  unfold ownsIndex
  rw [Int.tmod_eq_emod (by omega) (by omega)]
  simp [hk]

theorem ediv_succ_step (d s : Int) (hs : 0 < s) :
    d / s = (d - 1) / s + (if d % s = 0 then 1 else 0) := by
  have h1 := Int.emod_add_ediv (d - 1) s
  have h2 := Int.emod_nonneg (d - 1) (ne_of_gt hs)
  have h3 := Int.emod_lt_of_pos (d - 1) hs
  by_cases hr : (d - 1) % s + 1 = s
  · have : d / s = (d - 1) / s + 1 ∧ d % s = 0 := by
      rw [Int.ediv_emod_unique hs]
      refine ⟨?_, le_refl _, hs⟩
      have : s * ((d - 1) / s + 1) = s * ((d - 1) / s) + s := by ring
      omega
    rw [this.1, this.2]; simp
  · have : d / s = (d - 1) / s ∧ d % s = (d - 1) % s + 1 := by
      rw [Int.ediv_emod_unique hs]
      refine ⟨by omega, by omega, by omega⟩
    rw [this.1, this.2]
    have : ¬ ((d - 1) % s + 1 = 0) := by omega
    simp [this]

theorem count_range_succ (shift stride : Int) (m : Nat) :
    ((List.range (m + 1)).filter (fun (k : Nat) => ownsIndex shift stride (k : Int))).length
      = ((List.range m).filter (fun (k : Nat) => ownsIndex shift stride (k : Int))).length
        + (if ownsIndex shift stride (m : Int) then 1 else 0) := by
  rw [List.range_succ, List.filter_append, List.length_append]
  by_cases h : ownsIndex shift stride (m : Int) = true <;> simp [h]

theorem Length__closed_nat (shift stride : Int) (hs : 0 < stride) (hsh : 0 ≤ shift) (m : Nat) :
    Length_ (m : Int) shift stride
      = if (m : Int) > shift then ((m : Int) - shift - 1) / stride + 1 else 0 := by
  unfold Length_
  rw [Int.toNat_ofNat]
  induction m with
  | zero => 
    have : ¬ (((0 : Nat) : Int) > shift) := by simp; omega
    simp only [this, if_false]; simp
  | succ m ih =>
    rw [count_range_succ]
    push_cast
    rw [ih]
    rcases lt_trichotomy (m : Int) shift with h | h | h
    · have h1 : ¬ ((m : Int) > shift) := by omega
      have h2 : ¬ ((m : Int) + 1 > shift) := by omega
      have h3 : ownsIndex shift stride (m : Int) = false := by
        unfold ownsIndex; simp; intro h'; omega
      simp [h1, h2, h3]
    · have h1 : ¬ ((m : Int) > shift) := by omega
      have h2 : ((m : Int) + 1 > shift) := by omega
      have h3 : ownsIndex shift stride (m : Int) = true := by
        unfold ownsIndex; simp [h]
      simp only [h1, h2, h3, if_true, if_false]
      have : (m : Int) + 1 - shift - 1 = 0 := by omega
      rw [this]; simp
    · have h1 : ((m : Int) > shift) := by omega
      have h2 : ((m : Int) + 1 > shift) := by omega
      simp only [h1, h2, if_true]
      have e := ediv_succ_step ((m : Int) - shift) stride hs
      have e2 : (m : Int) + 1 - shift - 1 = (m : Int) - shift := by omega
      rw [e2, e]
      have h3 : (ownsIndex shift stride (m : Int) = true) ↔ ((m : Int) - shift) % stride = 0 :=
        ownsIndex_iff shift stride m hs (by omega)
      by_cases h4 : ((m : Int) - shift) % stride = 0
      · have h5 := h3.2 h4
        simp [h4, h5]
      · have h5 : ownsIndex shift stride (m : Int) = false := by
          cases h6 : ownsIndex shift stride (m : Int)
          · rfl
          · exact absurd (h3.1 h6) h4
        simp [h4, h5]

theorem Length__closed (n shift stride : Int) (hs : 0 < stride) (hsh : 0 ≤ shift) :
    Length_ n shift stride = if n > shift then (n - shift - 1) / stride + 1 else 0 := by
  by_cases hn : 0 ≤ n
  · obtain ⟨m, rfl⟩ := Int.eq_ofNat_of_zero_le hn
    exact Length__closed_nat shift stride hs hsh m
  · have h0 : n.toNat = 0 := by omega
    have h1 : ¬ (n > shift) := by omega
    unfold Length_
    rw [h0]; simp [h1]

theorem Length__nonneg (n shift stride : Int) : 0 ≤ Length_ n shift stride := by
  unfold Length_; exact Int.ofNat_nonneg _

/-- The owned index `shift + iLoc*stride` has exactly `iLoc` owned indices below it. -/
theorem Length__global (iLoc shift stride : Int) (hs : 0 < stride) (hsh : 0 ≤ shift)
    (hi : 0 ≤ iLoc) : Length_ (shift + iLoc * stride) shift stride = iLoc := by
  rw [Length__closed _ _ _ hs hsh]
  rcases eq_or_lt_of_le hi with h | h
  · subst h; simp
  · have hpos : shift + iLoc * stride > shift := by
      have : 0 < iLoc * stride := mul_pos h hs
      omega
    rw [if_pos hpos]
    have e : shift + iLoc * stride - shift - 1 = (stride - 1) + stride * (iLoc - 1) := by ring
    have : (shift + iLoc * stride - shift - 1) / stride = iLoc - 1
        ∧ (shift + iLoc * stride - shift - 1) % stride = stride - 1 := by
      rw [Int.ediv_emod_unique hs]
      refine ⟨by rw [e], by omega, by omega⟩
    rw [this.1]; ring

/-- Below a global extent `n`, local index `iLoc` exists exactly when its global index does. -/
theorem lt_Length__iff (n iLoc shift stride : Int) (hs : 0 < stride) (hsh : 0 ≤ shift)
    (hi : 0 ≤ iLoc) : iLoc < Length_ n shift stride ↔ shift + iLoc * stride < n := by
  rw [Length__closed _ _ _ hs hsh]
  have hm : 0 ≤ iLoc * stride := mul_nonneg hi (le_of_lt hs)
  by_cases hn : n > shift
  · rw [if_pos hn]
    have h1 := Int.emod_add_ediv (n - shift - 1) stride
    have h2 := Int.emod_nonneg (n - shift - 1) (ne_of_gt hs)
    have h3 := Int.emod_lt_of_pos (n - shift - 1) hs
    constructor
    · intro h
      have h4 : iLoc ≤ (n - shift - 1) / stride := by omega
      have h5 : iLoc * stride ≤ (n - shift - 1) / stride * stride :=
        mul_le_mul_of_nonneg_right h4 (le_of_lt hs)
      have h6 : stride * ((n - shift - 1) / stride) = (n - shift - 1) / stride * stride := by ring
      omega
    · intro h
      by_contra hc
      have h4 : (n - shift - 1) / stride + 1 ≤ iLoc := by omega
      have h5 : ((n - shift - 1) / stride + 1) * stride ≤ iLoc * stride :=
        mul_le_mul_of_nonneg_right h4 (le_of_lt hs)
      have h6 : ((n - shift - 1) / stride + 1) * stride
          = stride * ((n - shift - 1) / stride) + stride := by ring
      omega
  · rw [if_neg hn]
    constructor
    · intro h; omega
    · intro h; omega

theorem Shift_eq (rank align stride : Int) (hs : 0 < stride) (hr : 0 ≤ rank)
    (ha : align < stride) : Shift rank align stride = (rank - align + stride) % stride := by
  unfold Shift
  exact Int.tmod_eq_emod (by omega) (by omega)

theorem Shift_bounds (rank align stride : Int) (hs : 0 < stride) (hr : 0 ≤ rank)
    (ha : align < stride) :
    0 ≤ Shift rank align stride ∧ Shift rank align stride < stride := by
  rw [Shift_eq _ _ _ hs hr ha]
  exact ⟨Int.emod_nonneg _ (ne_of_gt hs), Int.emod_lt_of_pos _ hs⟩

/-- The shift of the process that `(i + align) mod stride` names is `i mod stride`. -/
theorem Shift_owner (i align stride : Int) (hs : 0 < stride) (hi : 0 ≤ i)
    (ha : 0 ≤ align ∧ align < stride) :
    Shift (Int.tmod (i + align) stride) align stride = i % stride := by
  rw [Int.tmod_eq_emod (by omega) (by omega)]
  have hp0 := Int.emod_nonneg (i + align) (ne_of_gt hs)
  rw [Shift_eq _ _ _ hs hp0 ha.2]
  have h1 := Int.emod_add_ediv (i + align) stride
  have e : (i + align) % stride - align + stride
      = i + stride * (1 - (i + align) / stride) := by
    have : stride * (1 - (i + align) / stride) = stride - stride * ((i + align) / stride) := by
      ring
    omega
  rw [e, Int.add_mul_emod_self_left]

/-- A process that stores global index `shift + iLoc*stride` is the owner computed from the
alignment. -/
theorem owner_of_global (p iLoc align stride : Int) (hs : 0 < stride)
    (hp : 0 ≤ p ∧ p < stride) (ha : 0 ≤ align ∧ align < stride) (hi : 0 ≤ iLoc) :
    Int.tmod (Shift p align stride + iLoc * stride + align) stride = p := by
  have hsh := Shift_bounds p align stride hs hp.1 ha.2
  have hm : 0 ≤ iLoc * stride := mul_nonneg hi (le_of_lt hs)
  rw [Int.tmod_eq_emod (by omega) (by omega)]
  rw [Shift_eq _ _ _ hs hp.1 ha.2]
  have h1 := Int.emod_add_ediv (p - align + stride) stride
  have e : (p - align + stride) % stride + iLoc * stride + align
      = p + stride * (1 - (p - align + stride) / stride + iLoc) := by
    have : stride * (1 - (p - align + stride) / stride + iLoc)
        = stride - stride * ((p - align + stride) / stride) + iLoc * stride := by ring
    omega
  rw [e, Int.add_mul_emod_self_left]
  exact Int.emod_eq_of_lt hp.1 hp.2

/-- Every index below the extent is stored, at local offset `Length_`, by its owner. -/
theorem global_of_owner (i n align stride : Int) (hs : 0 < stride) (hi : 0 ≤ i) (hin : i < n)
    (ha : 0 ≤ align ∧ align < stride) :
    let p := Int.tmod (i + align) stride
    let shift := Shift p align stride
    (0 ≤ p ∧ p < stride) ∧ shift ≤ i ∧ Int.tmod (i - shift) stride = 0 ∧
      Length_ i shift stride = (i - shift) / stride ∧
      0 ≤ Length_ i shift stride ∧ Length_ i shift stride < Length_ n shift stride ∧
      shift + Length_ i shift stride * stride = i := by
  intro p shift
  have hp : p = (i + align) % stride := Int.tmod_eq_emod (by omega) (by omega)
  have hp0 : 0 ≤ p := hp ▸ Int.emod_nonneg (i + align) (ne_of_gt hs)
  have hp1 : p < stride := hp ▸ Int.emod_lt_of_pos (i + align) hs
  have hshift : shift = i % stride := Shift_owner i align stride hs hi ha
  have h1 := Int.emod_add_ediv i stride
  have h2 := Int.emod_nonneg i (ne_of_gt hs)
  have h3 := Int.emod_lt_of_pos i hs
  have hq : 0 ≤ i / stride := Int.ediv_nonneg hi (le_of_lt hs)
  have hle : shift ≤ i := by
    have : 0 ≤ stride * (i / stride) := mul_nonneg (le_of_lt hs) hq
    omega
  have hdiff : i - shift = (i / stride) * stride := by
    have : stride * (i / stride) = (i / stride) * stride := by ring
    omega
  have hglob : i = shift + (i / stride) * stride := by omega
  have hlen : Length_ i shift stride = i / stride := by
    conv_lhs => rw [hglob]
    exact Length__global (i / stride) shift stride hs (by omega) hq
  have hdiv : (i - shift) / stride = i / stride := by
    rw [hdiff]; exact Int.mul_ediv_cancel _ (ne_of_gt hs)
  refine ⟨⟨hp0, hp1⟩, hle, ?_, ?_, ?_, ?_, ?_⟩
  · rw [Int.tmod_eq_emod (by omega) (by omega), hdiff]
    exact Int.mul_emod_left _ _
  · rw [hlen, hdiv]
  · rw [hlen]; exact hq
  · rw [hlen, lt_Length__iff n (i / stride) shift stride hs (by omega) hq]
    omega
  · rw [hlen]; omega

/-! ## C3: local/global index round trip -/

/-- C3: on a process with column shift `shift >= 0` and column stride `s >= 1`,
`LocalRowOffset (GlobalRow iLoc) = iLoc` for every local index `iLoc >= 0`, and for every
global row `i >= shift` with `(i - shift) mod s = 0` the local offset is
`floor ((i - shift) / s)` and `GlobalRow (LocalRowOffset i) = i`; the same holds for
`LocalColOffset` and `GlobalCol` with the row shift and row stride. -/
theorem C3_local_global_roundtrip {α : Type} (END : Int) (A : ElementalMatrix α)
    (hEND : END < 0)
    (hcs : 1 ≤ A.ColStride) (hrs : 1 ≤ A.RowStride)
    (hcsh : 0 ≤ A.ColShift) (hrsh : 0 ≤ A.RowShift) :
    (∀ iLoc : Int, 0 ≤ iLoc → A.LocalRowOffset END (A.GlobalRow END iLoc) = iLoc) ∧
    (∀ i : Int, A.ColShift ≤ i → Int.tmod (i - A.ColShift) A.ColStride = 0 →
        A.LocalRowOffset END i = (i - A.ColShift) / A.ColStride ∧
        A.GlobalRow END (A.LocalRowOffset END i) = i) ∧
    (∀ jLoc : Int, 0 ≤ jLoc → A.LocalColOffset END (A.GlobalCol END jLoc) = jLoc) ∧
    (∀ j : Int, A.RowShift ≤ j → Int.tmod (j - A.RowShift) A.RowStride = 0 →
        A.LocalColOffset END j = (j - A.RowShift) / A.RowStride ∧
        A.GlobalCol END (A.LocalColOffset END j) = j) := by
  have key : ∀ (shift s : Int), 1 ≤ s → 0 ≤ shift →
      (∀ iLoc : Int, 0 ≤ iLoc → Length_ (shift + iLoc * s) shift s = iLoc) ∧
      (∀ i : Int, shift ≤ i → Int.tmod (i - shift) s = 0 →
        Length_ i shift s = (i - shift) / s ∧ shift + Length_ i shift s * s = i) := by
    intro shift s hs hsh
    refine ⟨fun iLoc hi => Length__global iLoc shift s (by omega) hsh hi, ?_⟩
    intro i hi hmod
    rw [Int.tmod_eq_emod (by omega) (by omega)] at hmod
    have h1 := Int.emod_add_ediv (i - shift) s
    have hq : 0 ≤ (i - shift) / s := Int.ediv_nonneg (by omega) (by omega)
    have hglob : i = shift + ((i - shift) / s) * s := by
      have : s * ((i - shift) / s) = ((i - shift) / s) * s := by ring
      omega
    have hlen : Length_ i shift s = (i - shift) / s := by
      conv_lhs => rw [hglob]
      exact Length__global _ shift s (by omega) hsh hq
    exact ⟨hlen, by rw [hlen]; omega⟩
  have hR := key A.ColShift A.ColStride hcs hcsh
  have hC := key A.RowShift A.RowStride hrs hrsh
  have hmulR : ∀ iLoc : Int, 0 ≤ iLoc → 0 ≤ iLoc * A.ColStride :=
    fun iLoc h => mul_nonneg h (by omega)
  have hmulC : ∀ jLoc : Int, 0 ≤ jLoc → 0 ≤ jLoc * A.RowStride :=
    fun jLoc h => mul_nonneg h (by omega)
  refine ⟨?_, ?_, ?_, ?_⟩
  · intro iLoc hi
    have h1 : ¬ (iLoc = END) := by omega
    have := hmulR iLoc hi
    have h2 : ¬ (A.ColShift + iLoc * A.ColStride = END) := by omega
    simp only [ElementalMatrix.LocalRowOffset, ElementalMatrix.GlobalRow, if_neg h1, if_neg h2]
    exact hR.1 iLoc hi
  · intro i hi hmod
    have h1 : ¬ (i = END) := by omega
    have h3 := hR.2 i hi hmod
    have h2 : ¬ (Length_ i A.ColShift A.ColStride = END) := by
      have := Length__nonneg i A.ColShift A.ColStride
      omega
    simp only [ElementalMatrix.LocalRowOffset, ElementalMatrix.GlobalRow, if_neg h1, if_neg h2]
    exact h3
  · intro jLoc hj
    have h1 : ¬ (jLoc = END) := by omega
    have := hmulC jLoc hj
    have h2 : ¬ (A.RowShift + jLoc * A.RowStride = END) := by omega
    simp only [ElementalMatrix.LocalColOffset, ElementalMatrix.GlobalCol, if_neg h1, if_neg h2]
    exact hC.1 jLoc hj
  · intro j hj hmod
    have h1 : ¬ (j = END) := by omega
    have h3 := hC.2 j hj hmod
    have h2 : ¬ (Length_ j A.RowShift A.RowStride = END) := by
      have := Length__nonneg j A.RowShift A.RowStride
      omega
    simp only [ElementalMatrix.LocalColOffset, ElementalMatrix.GlobalCol, if_neg h1, if_neg h2]
    exact h3

/-! ## C2: ownership conservation -/

theorem Matrix.Resize_height {α : Type} (A : Matrix α) (mem : Int → α) (h w : Int) :
    (A.Resize mem h w).height_ = h := by
  unfold Matrix.Resize; split <;> rfl

theorem Matrix.Resize_width {α : Type} (A : Matrix α) (mem : Int → α) (h w : Int) :
    (A.Resize mem h w).width_ = w := by
  unfold Matrix.Resize; split <;> rfl

theorem Matrix.Resize_ldim_ge {α : Type} (A : Matrix α) (mem : Int → α) (h w : Int) :
    h ≤ (A.Resize mem h w).ldim_ ∧ 1 ≤ max 1 (A.Resize mem h w).ldim_ := by
  unfold Matrix.Resize
  split
  · simp
  · rename_i hc
    simp at hc ⊢
    exact hc.1

theorem onProcess_Resize_fields {α : Type} (s t a b p q h w : Int) (loc : Matrix α)
    (mem : Int → α) :
    let M := (ElementalMatrix.onProcess s t a b p q loc).Resize mem h w
    M.ColShift = Shift p a s ∧ M.RowShift = Shift q b t ∧ M.ColStride = s ∧
      M.RowStride = t ∧ M.ColAlign = a ∧ M.RowAlign = b ∧ M.Height = h ∧ M.Width = w ∧
      M.LocalHeight = Length h (Shift p a s) s ∧ M.LocalWidth = Length w (Shift q b t) t := by
  simp [ElementalMatrix.Resize, ElementalMatrix.onProcess, ElementalMatrix.Participating,
    ElementalMatrix.ColShift, ElementalMatrix.RowShift, ElementalMatrix.ColStride,
    ElementalMatrix.RowStride, ElementalMatrix.ColAlign, ElementalMatrix.RowAlign,
    ElementalMatrix.Height, ElementalMatrix.Width, ElementalMatrix.LocalHeight,
    ElementalMatrix.LocalWidth, Matrix.Height, Matrix.Width, Matrix.Resize_height,
    Matrix.Resize_width]

/-- Along one axis: the map `(p, iLoc) ↦ Shift p a s + iLoc*s` from the local index sets onto
`[0,n)` is a bijection whose inverse sends `i` to its owner `(i + a) mod s` and to the offset
`Length_ i`. -/
theorem axis_bijection (s a n : Int) (hs : 1 ≤ s) (ha : 0 ≤ a ∧ a < s) :
    (∀ p iLoc : Int, 0 ≤ p → p < s → 0 ≤ iLoc → iLoc < Length n (Shift p a s) s →
        0 ≤ Shift p a s + iLoc * s ∧ Shift p a s + iLoc * s < n ∧
        Int.tmod (Shift p a s + iLoc * s + a) s = p ∧
        Length_ (Shift p a s + iLoc * s) (Shift p a s) s = iLoc) ∧
    (∀ i : Int, 0 ≤ i → i < n →
        (0 ≤ Int.tmod (i + a) s ∧ Int.tmod (i + a) s < s) ∧
        0 ≤ Length_ i (Shift (Int.tmod (i + a) s) a s) s ∧
        Length_ i (Shift (Int.tmod (i + a) s) a s) s
          < Length n (Shift (Int.tmod (i + a) s) a s) s ∧
        Shift (Int.tmod (i + a) s) a s
          + Length_ i (Shift (Int.tmod (i + a) s) a s) s * s = i) := by
  have hs0 : 0 < s := by omega
  constructor
  · intro p iLoc hp0 hp1 hi0 hi1
    have hsh := Shift_bounds p a s hs0 hp0 ha.2
    have hm : 0 ≤ iLoc * s := mul_nonneg hi0 (by omega)
    refine ⟨by omega, ?_, owner_of_global p iLoc a s hs0 ⟨hp0, hp1⟩ ha hi0,
      Length__global iLoc _ s hs0 hsh.1 hi0⟩
    exact (lt_Length__iff n iLoc _ s hs0 hsh.1 hi0).1 hi1
  · intro i hi0 hi1
    have h := global_of_owner i n a s hs0 hi0 hi1 ha
    exact ⟨h.1, h.2.2.2.2.1, h.2.2.2.2.2.1, h.2.2.2.2.2.2⟩

/-- C2: for strides `s, t >= 1`, alignments `a` in `[0,s)` and `b` in `[0,t)` and all
extents `h, w`, let `M p q` be the descriptor of the process with ranks `(p,q)` after
`Resize(h,w)`.  Local indices map into the global range; every global row `i < h` has
exactly one pair `(p, iLoc)` with `iLoc` below the local height of `p` and
`GlobalRow iLoc = i`, and that `p` is `RowOwner i`; likewise for columns with `ColOwner`
and `GlobalCol`; hence every global `(i,j)` is stored exactly once. -/
theorem C2_ownership_conservation {α : Type} (END : Int) (hEND : END < 0)
    (s t a b h w : Int) (hs : 1 ≤ s) (ht : 1 ≤ t)
    (ha : 0 ≤ a ∧ a < s) (hb : 0 ≤ b ∧ b < t)
    (loc : Int → Int → Matrix α) (mem : Int → α) :
    let M := fun (p q : Int) =>
      (ElementalMatrix.onProcess s t a b p q (loc p q)).Resize mem h w
    (∀ p q iLoc : Int, 0 ≤ p → p < s → 0 ≤ iLoc → iLoc < (M p q).LocalHeight →
        0 ≤ (M p q).GlobalRow END iLoc ∧ (M p q).GlobalRow END iLoc < h) ∧
    (∀ p q jLoc : Int, 0 ≤ q → q < t → 0 ≤ jLoc → jLoc < (M p q).LocalWidth →
        0 ≤ (M p q).GlobalCol END jLoc ∧ (M p q).GlobalCol END jLoc < w) ∧
    (∀ i q : Int, 0 ≤ i → i < h →
        (∃! x : Int × Int, 0 ≤ x.1 ∧ x.1 < s ∧ 0 ≤ x.2 ∧ x.2 < (M x.1 q).LocalHeight ∧
          (M x.1 q).GlobalRow END x.2 = i) ∧
        (∀ p iLoc : Int, 0 ≤ p → p < s → 0 ≤ iLoc → iLoc < (M p q).LocalHeight →
          (M p q).GlobalRow END iLoc = i → p = (M p q).RowOwner END i)) ∧
    (∀ j p : Int, 0 ≤ j → j < w →
        (∃! y : Int × Int, 0 ≤ y.1 ∧ y.1 < t ∧ 0 ≤ y.2 ∧ y.2 < (M p y.1).LocalWidth ∧
          (M p y.1).GlobalCol END y.2 = j) ∧
        (∀ q jLoc : Int, 0 ≤ q → q < t → 0 ≤ jLoc → jLoc < (M p q).LocalWidth →
          (M p q).GlobalCol END jLoc = j → q = (M p q).ColOwner END j)) ∧
    (∀ i j : Int, 0 ≤ i → i < h → 0 ≤ j → j < w →
        ∃! z : (Int × Int) × (Int × Int),
          (0 ≤ z.1.1 ∧ z.1.1 < s ∧ 0 ≤ z.1.2 ∧ z.1.2 < t) ∧
          (0 ≤ z.2.1 ∧ z.2.1 < (M z.1.1 z.1.2).LocalHeight) ∧
          (0 ≤ z.2.2 ∧ z.2.2 < (M z.1.1 z.1.2).LocalWidth) ∧
          (M z.1.1 z.1.2).GlobalRow END z.2.1 = i ∧
          (M z.1.1 z.1.2).GlobalCol END z.2.2 = j) := by
  intro M
  have hf : ∀ p q, (M p q).ColShift = Shift p a s ∧ (M p q).RowShift = Shift q b t ∧
      (M p q).ColStride = s ∧ (M p q).RowStride = t ∧ (M p q).ColAlign = a ∧
      (M p q).RowAlign = b ∧ (M p q).Height = h ∧ (M p q).Width = w ∧
      (M p q).LocalHeight = Length h (Shift p a s) s ∧
      (M p q).LocalWidth = Length w (Shift q b t) t :=
    fun p q => onProcess_Resize_fields s t a b p q h w (loc p q) mem
  have hR := axis_bijection s a h hs ha
  have hC := axis_bijection t b w ht hb
  -- the index queries away from the sentinel
  have gRow : ∀ p q iLoc : Int, 0 ≤ iLoc →
      (M p q).GlobalRow END iLoc = Shift p a s + iLoc * s := by
    intro p q iLoc hi
    have h1 : ¬ (iLoc = END) := by omega
    simp only [ElementalMatrix.GlobalRow, if_neg h1, (hf p q).1, (hf p q).2.2.1]
  have gCol : ∀ p q jLoc : Int, 0 ≤ jLoc →
      (M p q).GlobalCol END jLoc = Shift q b t + jLoc * t := by
    intro p q jLoc hj
    have h1 : ¬ (jLoc = END) := by omega
    simp only [ElementalMatrix.GlobalCol, if_neg h1, (hf p q).2.1, (hf p q).2.2.2.1]
  have oRow : ∀ p q i : Int, 0 ≤ i → (M p q).RowOwner END i = Int.tmod (i + a) s := by
    intro p q i hi
    have h1 : ¬ (i = END) := by omega
    simp only [ElementalMatrix.RowOwner, if_neg h1, (hf p q).2.2.1, (hf p q).2.2.2.2.1]
  have oCol : ∀ p q j : Int, 0 ≤ j → (M p q).ColOwner END j = Int.tmod (j + b) t := by
    intro p q j hj
    have h1 : ¬ (j = END) := by omega
    simp only [ElementalMatrix.ColOwner, if_neg h1, (hf p q).2.2.2.1, (hf p q).2.2.2.2.2.1]
  -- rows
  have rowsU : ∀ i q p iLoc : Int, 0 ≤ p → p < s → 0 ≤ iLoc →
      iLoc < (M p q).LocalHeight → (M p q).GlobalRow END iLoc = i →
      p = Int.tmod (i + a) s ∧ iLoc = Length_ i (Shift (Int.tmod (i + a) s) a s) s := by
    intro i q p iLoc hp0 hp1 hi0 hi1 hg
    rw [(hf p q).2.2.2.2.2.2.2.2.1] at hi1
    rw [gRow p q iLoc hi0] at hg
    have h1 := (hR.1 p iLoc hp0 hp1 hi0 hi1)
    have hp : p = Int.tmod (i + a) s := by rw [← hg]; exact h1.2.2.1.symm
    refine ⟨hp, ?_⟩
    rw [← hp, ← hg]; exact h1.2.2.2.symm
  have colsU : ∀ j p q jLoc : Int, 0 ≤ q → q < t → 0 ≤ jLoc →
      jLoc < (M p q).LocalWidth → (M p q).GlobalCol END jLoc = j →
      q = Int.tmod (j + b) t ∧ jLoc = Length_ j (Shift (Int.tmod (j + b) t) b t) t := by
    intro j p q jLoc hq0 hq1 hj0 hj1 hg
    rw [(hf p q).2.2.2.2.2.2.2.2.2] at hj1
    rw [gCol p q jLoc hj0] at hg
    have h1 := (hC.1 q jLoc hq0 hq1 hj0 hj1)
    have hq : q = Int.tmod (j + b) t := by rw [← hg]; exact h1.2.2.1.symm
    refine ⟨hq, ?_⟩
    rw [← hq, ← hg]; exact h1.2.2.2.symm
  have rowsE : ∀ i q : Int, 0 ≤ i → i < h →
      let p := Int.tmod (i + a) s
      let iLoc := Length_ i (Shift p a s) s
      0 ≤ p ∧ p < s ∧ 0 ≤ iLoc ∧ iLoc < (M p q).LocalHeight ∧
        (M p q).GlobalRow END iLoc = i := by
    intro i q hi0 hi1 p iLoc
    have h1 := hR.2 i hi0 hi1
    refine ⟨h1.1.1, h1.1.2, h1.2.1, ?_, ?_⟩
    · rw [(hf p q).2.2.2.2.2.2.2.2.1]; exact h1.2.2.1
    · rw [gRow p q iLoc h1.2.1]; exact h1.2.2.2
  have colsE : ∀ j p : Int, 0 ≤ j → j < w →
      let q := Int.tmod (j + b) t
      let jLoc := Length_ j (Shift q b t) t
      0 ≤ q ∧ q < t ∧ 0 ≤ jLoc ∧ jLoc < (M p q).LocalWidth ∧
        (M p q).GlobalCol END jLoc = j := by
    intro j p hj0 hj1 q jLoc
    have h1 := hC.2 j hj0 hj1
    refine ⟨h1.1.1, h1.1.2, h1.2.1, ?_, ?_⟩
    · rw [(hf p q).2.2.2.2.2.2.2.2.2]; exact h1.2.2.1
    · rw [gCol p q jLoc h1.2.1]; exact h1.2.2.2
  refine ⟨?_, ?_, ?_, ?_, ?_⟩
  · intro p q iLoc hp0 hp1 hi0 hi1
    rw [(hf p q).2.2.2.2.2.2.2.2.1] at hi1
    rw [gRow p q iLoc hi0]
    have h1 := hR.1 p iLoc hp0 hp1 hi0 hi1
    exact ⟨h1.1, h1.2.1⟩
  · intro p q jLoc hq0 hq1 hj0 hj1
    rw [(hf p q).2.2.2.2.2.2.2.2.2] at hj1
    rw [gCol p q jLoc hj0]
    have h1 := hC.1 q jLoc hq0 hq1 hj0 hj1
    exact ⟨h1.1, h1.2.1⟩
  · intro i q hi0 hi1
    constructor
    · refine ⟨(Int.tmod (i + a) s, Length_ i (Shift (Int.tmod (i + a) s) a s) s), ?_, ?_⟩
      · exact rowsE i q hi0 hi1
      · rintro ⟨p, iLoc⟩ ⟨hp0, hp1, hl0, hl1, hg⟩
        have := rowsU i q p iLoc hp0 hp1 hl0 hl1 hg
        exact Prod.ext this.1 this.2
    · intro p iLoc hp0 hp1 hl0 hl1 hg
      rw [oRow p q i hi0]
      exact (rowsU i q p iLoc hp0 hp1 hl0 hl1 hg).1
  · intro j p hj0 hj1
    constructor
    · refine ⟨(Int.tmod (j + b) t, Length_ j (Shift (Int.tmod (j + b) t) b t) t), ?_, ?_⟩
      · exact colsE j p hj0 hj1
      · rintro ⟨q, jLoc⟩ ⟨hq0, hq1, hl0, hl1, hg⟩
        have := colsU j p q jLoc hq0 hq1 hl0 hl1 hg
        exact Prod.ext this.1 this.2
    · intro q jLoc hq0 hq1 hl0 hl1 hg
      rw [oCol p q j hj0]
      exact (colsU j p q jLoc hq0 hq1 hl0 hl1 hg).1
  · intro i j hi0 hi1 hj0 hj1
    refine ⟨((Int.tmod (i + a) s, Int.tmod (j + b) t),
      (Length_ i (Shift (Int.tmod (i + a) s) a s) s,
       Length_ j (Shift (Int.tmod (j + b) t) b t) t)), ?_, ?_⟩
    · have hr := rowsE i (Int.tmod (j + b) t) hi0 hi1
      have hc := colsE j (Int.tmod (i + a) s) hj0 hj1
      exact ⟨⟨hr.1, hr.2.1, hc.1, hc.2.1⟩, ⟨hr.2.2.1, hr.2.2.2.1⟩,
        ⟨hc.2.2.1, hc.2.2.2.1⟩, hr.2.2.2.2, hc.2.2.2.2⟩
    · rintro ⟨⟨p, q⟩, ⟨iLoc, jLoc⟩⟩ ⟨⟨hp0, hp1, hq0, hq1⟩, ⟨hl0, hl1⟩, ⟨hm0, hm1⟩, hg, hg2⟩
      have h1 := rowsU i q p iLoc hp0 hp1 hl0 hl1 hg
      have h2 := colsU j p q jLoc hq0 hq1 hm0 hm1 hg2
      exact Prod.ext (Prod.ext h1.1 h2.1) (Prod.ext h1.2 h2.2)

/-! ## Loops of `MemCopy` -/

theorem forLoop_ofNat {σ : Type} (m : Nat) (body : Int → σ → σ) (init : σ) :
    forLoop (m : Int) body init
      = (List.range m).foldl (fun st (j : Nat) => body (j : Int) st) init := by
  unfold forLoop; rw [Int.toNat_ofNat]

theorem forLoop_of_nonpos {σ : Type} (n : Int) (hn : n ≤ 0) (body : Int → σ → σ) (init : σ) :
    forLoop n body init = init := by
  unfold forLoop
  have : n.toNat = 0 := by omega
  rw [this]; rfl

theorem foldl_MemCopy_get {α : Type} (src : Int → α) (dO sO : Int → Int) (n : Int)
    (m : Nat) (dst : Int → α)
    (hdisj : ∀ j j' : Int, 0 ≤ j → j < j' → j' < m → dO j + n ≤ dO j')
    (j : Nat) (hj : j < m) (i : Int) (hi : 0 ≤ i ∧ i < n) :
    (List.range m).foldl (fun buf (j : Nat) => MemCopy buf (dO j) src (sO j) n) dst
      (dO j + i) = src (sO j + i) := by
  induction m with
  | zero => omega
  | succ m ih =>
    rw [List.range_succ, List.foldl_append]
    simp only [List.foldl_cons, List.foldl_nil]
    rcases Nat.lt_succ_iff_lt_or_eq.1 hj with h | h
    · have hd := hdisj (j : Int) (m : Int) (by omega) (by exact_mod_cast h) (by push_cast; omega)
      have hc : ¬ (dO (m : Int) ≤ dO (j : Int) + i ∧ dO (j : Int) + i < dO (m : Int) + n) := by
        omega
      simp only [MemCopy, if_neg hc]
      exact ih (fun a b ha hab hb => hdisj a b ha hab (by push_cast; omega)) h
    · subst h
      have hc : dO (j : Int) ≤ dO (j : Int) + i ∧ dO (j : Int) + i < dO (j : Int) + n := by
        omega
      simp only [MemCopy, if_pos hc]
      congr 1; omega

theorem foldl_MemCopy_other {α : Type} (src : Int → α) (dO sO : Int → Int) (n : Int)
    (m : Nat) (dst : Int → α) (k : Int)
    (hk : ∀ j : Int, 0 ≤ j → j < m → ¬ (dO j ≤ k ∧ k < dO j + n)) :
    (List.range m).foldl (fun buf (j : Nat) => MemCopy buf (dO j) src (sO j) n) dst k
      = dst k := by
  induction m with
  | zero => rfl
  | succ m ih =>
    rw [List.range_succ, List.foldl_append]
    simp only [List.foldl_cons, List.foldl_nil]
    have hc := hk (m : Int) (by omega) (by push_cast; omega)
    simp only [MemCopy, if_neg hc]
    exact ih (fun j h0 h1 => hk j h0 (by push_cast; omega))

/-- A loop that copies column `j` of length `n` to offset `dO j` from offset `sO j`, the
destination columns being laid out in increasing order without overlap, leaves element `i`
of source column `j` at `dO j + i`. -/
theorem forLoop_MemCopy_get {α : Type} (src : Int → α) (dO sO : Int → Int) (n w : Int)
    (dst : Int → α)
    (hdisj : ∀ j j' : Int, 0 ≤ j → j < j' → j' < w → dO j + n ≤ dO j')
    (j i : Int) (hj : 0 ≤ j ∧ j < w) (hi : 0 ≤ i ∧ i < n) :
    forLoop w (fun j buf => MemCopy buf (dO j) src (sO j) n) dst (dO j + i)
      = src (sO j + i) := by
  obtain ⟨m, rfl⟩ := Int.eq_ofNat_of_zero_le (show 0 ≤ w by omega)
  obtain ⟨jn, rfl⟩ := Int.eq_ofNat_of_zero_le hj.1
  rw [forLoop_ofNat]
  exact foldl_MemCopy_get src dO sO n m dst hdisj jn (by omega) i hi

/-- The loop of column copies leaves every cell outside the destination columns as it was. -/
theorem forLoop_MemCopy_other {α : Type} (src : Int → α) (dO sO : Int → Int) (n w : Int)
    (dst : Int → α) (k : Int)
    (hk : ∀ j : Int, 0 ≤ j → j < w → ¬ (dO j ≤ k ∧ k < dO j + n)) :
    forLoop w (fun j buf => MemCopy buf (dO j) src (sO j) n) dst k = dst k := by
  by_cases hw : 0 ≤ w
  · obtain ⟨m, rfl⟩ := Int.eq_ofNat_of_zero_le hw
    rw [forLoop_ofNat]
    exact foldl_MemCopy_other src dO sO n m dst k hk
  · rw [forLoop_of_nonpos w (by omega)]

/-- Columns placed `ld` apart do not overlap when `ld` holds a column of length `n`. -/
theorem strided_disjoint (base ld n w : Int) (hld : n ≤ ld) (hn : 0 ≤ n) :
    ∀ j j' : Int, 0 ≤ j → j < j' → j' < w → (base + j * ld) + n ≤ base + j' * ld := by
  intro j j' _ hjj _
  have h1 : (j + 1) * ld ≤ j' * ld := mul_le_mul_of_nonneg_right (by omega) (by omega)
  have h2 : (j + 1) * ld = j * ld + ld := by ring
  omega

/-! ## Rank arithmetic on the grid -/

theorem emod_shift_cancel (x a p : Int) :
    ((x - a + p) % p + a) % p = x % p := by
  have h1 := Int.emod_add_ediv (x - a + p) p
  have e : (x - a + p) % p + a = x + p * (1 - (x - a + p) / p) := by
    have : p * (1 - (x - a + p) / p) = p - p * ((x - a + p) / p) := by ring
    omega
  rw [e, Int.add_mul_emod_self_left]

theorem emod_add_shift (a x p : Int) :
    ((a + x % p) % p - a + p) % p = x % p := by
  have h1 := Int.emod_add_ediv (a + x % p) p
  have h2 := Int.emod_add_ediv x p
  have e : (a + x % p) % p - a + p = x + p * (1 - (a + x % p) / p - x / p) := by
    have : p * (1 - (a + x % p) / p - x / p)
        = p - p * ((a + x % p) / p) - p * (x / p) := by ring
    omega
  rw [e, Int.add_mul_emod_self_left]

/-- The rank arithmetic of `[VR,*] = [VC,*]`: with `sB` and `sA` the shifts of a process
in the destination and in the source, `(rank + (p + sB - sA)) mod p` is the rank whose
source shift is `sB`. -/
theorem partner_rank (rank a sB p : Int) (hp : 0 < p) (hr : 0 ≤ rank ∧ rank < p)
    (ha : 0 ≤ a ∧ a < p) (hsB : 0 ≤ sB ∧ sB < p) :
    let q := Int.tmod (rank + (p + sB - Shift rank a p)) p
    q = (a + sB) % p ∧ (0 ≤ q ∧ q < p) ∧ Shift q a p = sB := by
  intro q
  have hsA := Shift_bounds rank a p hp hr.1 ha.2
  have hq : q = (a + sB) % p := by
    show Int.tmod (rank + (p + sB - Shift rank a p)) p = (a + sB) % p
    rw [Int.tmod_eq_emod (by omega) (by omega), Shift_eq _ _ _ hp hr.1 ha.2]
    have h1 := Int.emod_add_ediv (rank - a + p) p
    have e : rank + (p + sB - (rank - a + p) % p)
        = (a + sB) + p * ((rank - a + p) / p) := by omega
    rw [e, Int.add_mul_emod_self_left]
  have hq0 : 0 ≤ q := hq ▸ Int.emod_nonneg _ (ne_of_gt hp)
  have hq1 : q < p := hq ▸ Int.emod_lt_of_pos _ hp
  refine ⟨hq, ⟨hq0, hq1⟩, ?_⟩
  rw [Shift_eq _ _ _ hp hq0 ha.2, hq]
  have := emod_add_shift a sB p
  rw [Int.emod_eq_of_lt hsB.1 hsB.2] at this
  exact this

/-- The rank whose shift under alignment `a` is `Shift rank a p` is `rank` itself. -/
theorem rank_of_shift (rank a p : Int) (hp : 0 < p) (hr : 0 ≤ rank ∧ rank < p)
    (ha : 0 ≤ a ∧ a < p) : (a + Shift rank a p) % p = rank := by
  rw [Shift_eq _ _ _ hp hr.1 ha.2, add_comm, emod_shift_cancel _ _ _]
  exact Int.emod_eq_of_lt hr.1 hr.2

theorem VRRank_bounds (r c row col : Int) (hrow : 0 ≤ row ∧ row < r)
    (hcol : 0 ≤ col ∧ col < c) : 0 ≤ col + row * c ∧ col + row * c < r * c := by
  have h1 : 0 ≤ row * c := mul_nonneg hrow.1 (by omega)
  have h2 : (row + 1) * c ≤ r * c := mul_le_mul_of_nonneg_right (by omega) (by omega)
  have h3 : (row + 1) * c = row * c + c := by ring
  omega

/-- Splitting a linear rank `k` of a grid with `c` columns (resp. rows) into quotient and
remainder gives grid coordinates that recompose to `k`. -/
theorem rank_split (n c k : Int) (hc : 0 < c) (hk : 0 ≤ k ∧ k < n * c) :
    (0 ≤ Int.tdiv k c ∧ Int.tdiv k c < n) ∧ (0 ≤ Int.tmod k c ∧ Int.tmod k c < c) ∧
      Int.tmod k c + Int.tdiv k c * c = k := by
  rw [Int.tdiv_eq_ediv hk.1 (by omega), Int.tmod_eq_emod hk.1 (by omega)]
  have h1 := Int.emod_add_ediv k c
  have h2 := Int.emod_nonneg k (ne_of_gt hc)
  have h3 := Int.emod_lt_of_pos k hc
  have h4 : 0 ≤ k / c := Int.ediv_nonneg hk.1 (by omega)
  have h5 : k / c < n := Int.ediv_lt_of_lt_mul hc hk.2
  have h6 : c * (k / c) = k / c * c := by ring
  exact ⟨⟨h4, h5⟩, ⟨h2, h3⟩, by omega⟩

/-- Recomposing coordinates and splitting again gives the coordinates back. -/
theorem rank_unsplit (c row col : Int) (hrow : 0 ≤ row) (hcol : 0 ≤ col ∧ col < c) :
    Int.tdiv (col + c * row) c = row ∧ Int.tmod (col + c * row) c = col := by
  have hc : 0 < c := by omega
  have h0 : 0 ≤ c * row := mul_nonneg (by omega) hrow
  rw [Int.tdiv_eq_ediv (by omega) (by omega), Int.tmod_eq_emod (by omega) (by omega)]
  rw [Int.ediv_emod_unique hc]
  exact ⟨rfl, hcol.1, hcol.2⟩

theorem Length_le_MaxLength (n shift p : Int) (hp : 0 < p) (hs : 0 ≤ shift) :
    Length n shift p ≤ MaxLength n p := by
  unfold MaxLength Length
  rw [Length__closed n shift p hp hs, Length__closed n 0 p hp (le_refl _)]
  by_cases h : n > shift
  · have h0 : n > 0 := by omega
    rw [if_pos h, if_pos h0]
    have : (n - shift - 1) / p ≤ (n - 0 - 1) / p := Int.ediv_le_ediv hp (by omega)
    omega
  · rw [if_neg h]
    split
    · have : 0 ≤ (n - 0 - 1) / p := Int.ediv_nonneg (by omega) (by omega)
      omega
    · exact le_refl _

theorem Length_unit (n : Int) (hn : 0 ≤ n) : Length n 0 1 = n := by
  unfold Length
  rw [Length__closed n 0 1 (by decide) (le_refl _)]
  split
  · simp
  · omega

theorem Length__unit (n : Int) (hn : 0 ≤ n) : Length_ n 0 1 = n := Length_unit n hn

/-! ## C1: `[VR,*] = [VC,*]` -/

theorem ElementalMatrix.Resize_participating {α : Type} (B : ElementalMatrix α)
    (mem : Int → α) (h w : Int) (hp : B.participating = true) :
    B.Resize mem h w =
      { B with height_ := h, width_ := w,
               matrix_ := Matrix.Resize B.matrix_ mem (Length h B.colShift_ B.colStride)
                 (Length w B.rowShift_ B.rowStride) } := by
  simp [ElementalMatrix.Resize, ElementalMatrix.Participating, hp, ElementalMatrix.ColShift,
    ElementalMatrix.ColStride, ElementalMatrix.RowShift, ElementalMatrix.RowStride]

/-- What one process holds when it reaches `mpi::SendRecv`. -/
theorem VR_STAR_assign_pack_spec {α : Type} (debug : Bool) (r c row col aA aB h w : Int)
    (hr : 1 ≤ r) (hc : 1 ≤ c) (hrow : 0 ≤ row ∧ row < r) (hcol : 0 ≤ col ∧ col < c)
    (haA : 0 ≤ aA ∧ aA < r * c) (haB : 0 ≤ aB ∧ aB < r * c)
    (A B : ElementalMatrix α)
    (hA : IsVC_STAR { height_ := r, width_ := c, mcRank := row, mrRank := col } A)
    (hA2 : A.colAlign_ = aA ∧ A.height_ = h ∧ A.width_ = w)
    (hB : IsVR_STAR { height_ := r, width_ := c, mcRank := row, mrRank := col } B)
    (hB2 : B.colAlign_ = aB) (mem aux : Int → α) :
    ∃ st : VRFromVCState α,
      VR_STAR_assign_pack debug B A mem aux = Except.ok (Sum.inr st) ∧
      st.B = B.Resize mem h w ∧ st.width = w ∧
      st.localHeight = Length h (Shift (col + row * c) aB (r * c)) (r * c) ∧
      st.portionSize = MaxLength h (r * c) * w ∧
      st.sendRankRM = (aB + Shift (row + col * r) aA (r * c)) % (r * c) ∧
      st.recvRankRM
        = Int.tdiv ((aA + Shift (col + row * c) aB (r * c)) % (r * c)) r
          + c * Int.tmod ((aA + Shift (col + row * c) aB (r * c)) % (r * c)) r ∧
      (∀ j i : Int, 0 ≤ j → j < w → 0 ≤ i →
        i < Length h (Shift (row + col * r) aA (r * c)) (r * c) →
        st.buffer (j * Length h (Shift (row + col * r) aA (r * c)) (r * c) + i)
          = A.matrix_.data_ (j * A.matrix_.ldim_ + i)) := by
  obtain ⟨hA_g, hA_cs, hA_rs, hA_sh, hA_rsh, hA_ra, hA_p, hA_lh, hA_lw, hA_ld⟩ := hA
  obtain ⟨hB_g, hB_l, hB_cs, hB_rs, hB_sh, hB_rsh, hB_ra, hB_p, hB_v⟩ := hB
  obtain ⟨hA_a, hA_h, hA_w⟩ := hA2
  have hp : 0 < r * c := mul_pos (by omega) (by omega)
  have hVR := VRRank_bounds r c row col hrow hcol
  have hVC := VRRank_bounds c r col row hcol hrow
  rw [mul_comm c r] at hVC
  simp only [Grid.VCSize, Grid.VRSize, Grid.Size, Grid.VCRank, Grid.VRRank] at hA_cs hA_sh hB_cs hB_sh
  rw [hA_a] at hA_sh
  rw [hB2] at hB_sh
  have hsA := Shift_bounds (row + col * r) aA (r * c) hp hVC.1 haA.2
  have hsB := Shift_bounds (col + row * c) aB (r * c) hp hVR.1 haB.2
  have hRes := ElementalMatrix.Resize_participating B mem h w hB_p
  have hpart : (B.Resize mem A.Height A.Width).Participating = true := by
    simp only [ElementalMatrix.Height, ElementalMatrix.Width, hA_h, hA_w, hRes,
      ElementalMatrix.Participating, hB_p]
  refine ⟨?st, ?h1, ?h2⟩
  case h1 =>
    unfold VR_STAR_assign_pack
    cases debug
    · simp only [ElementalMatrix.Resize_checked, hpart, Bool.not_true, Bool.false_eq_true,
        if_false, pure, bind, Except.bind, Except.pure]
      exact rfl
    · simp only [ElementalMatrix.Resize_checked, ElementalMatrix.Resize_DEBUG_ONLY,
        AssertSameGrids, AssertNotLocked, ElementalMatrix.Grid, hA_g, hB_g, hB_l, hB_v,
        hpart, ne_eq, not_true_eq_false, Bool.not_true, Bool.false_eq_true, if_false,
        if_true, false_and, pure, bind, Except.bind, Except.pure]
  case h2 =>
    simp only [ElementalMatrix.Height, ElementalMatrix.Width, hA_h, hA_w, hRes,
      ElementalMatrix.Grid, hB_g,
      ElementalMatrix.LocalHeight, ElementalMatrix.ColShift, Matrix.Height,
      Matrix.Resize_height, Grid.Size, Grid.VCRank, Grid.VRRank, Grid.Height, Grid.Width,
      hB_sh, hB_cs, hA_sh, ElementalMatrix.LDim, Matrix.LDim,
      ElementalMatrix.LockedBuffer, Matrix.LockedBuffer, hA_lh, hA_cs, true_and]
    refine ⟨?_, ?_, ?_⟩
    · have := partner_rank (col + row * c) aB (Shift (row + col * r) aA (r * c)) (r * c) hp
        hVR haB hsA
      exact this.1
    · have := partner_rank (row + col * r) aA (Shift (col + row * c) aB (r * c)) (r * c) hp
        hVC haA hsB
      rw [this.1]
    · intro j i hj0 hj1 hi0 hi1
      have hlen0 : 0 ≤ Length h (Shift (row + col * r) aA (r * c)) (r * c) :=
        Length__nonneg _ _ _
      have := forLoop_MemCopy_get A.matrix_.data_
        (fun j => 0 + j * Length h (Shift (row + col * r) aA (r * c)) (r * c))
        (fun j => j * A.matrix_.ldim_)
        (Length h (Shift (row + col * r) aA (r * c)) (r * c)) w aux
        (strided_disjoint 0 _ _ w (le_refl _) hlen0) j i ⟨hj0, hj1⟩ ⟨hi0, hi1⟩
      simp only [zero_add] at this ⊢
      exact this

/-- What every process of the grid holds after `[VR,*] = [VC,*]`: the call returns, the
descriptor is that of `B` with the extents of `A`, and local column `j`, local row `i` is the
cell the process of column-major rank `(aA + colShift) mod p` held at the same local
position of `A`. -/
theorem VR_STAR_assign_all_spec {α : Type} (debug : Bool) (r c aA aB h w : Int)
    (hr : 1 ≤ r) (hc : 1 ≤ c)
    (haA : 0 ≤ aA ∧ aA < r * c) (haB : 0 ≤ aB ∧ aB < r * c)
    (A B : Int → Int → ElementalMatrix α) (mem aux : Int → Int → Int → α)
    (hA : ∀ row col : Int, 0 ≤ row → row < r → 0 ≤ col → col < c →
      IsVC_STAR { height_ := r, width_ := c, mcRank := row, mrRank := col } (A row col) ∧
      (A row col).colAlign_ = aA ∧ (A row col).height_ = h ∧ (A row col).width_ = w)
    (hB : ∀ row col : Int, 0 ≤ row → row < r → 0 ≤ col → col < c →
      IsVR_STAR { height_ := r, width_ := c, mcRank := row, mrRank := col } (B row col) ∧
      (B row col).colAlign_ = aB)
    (row col : Int) (hrow : 0 ≤ row ∧ row < r) (hcol : 0 ≤ col ∧ col < c) :
    ∃ B' : ElementalMatrix α,
      VR_STAR_assign_all debug r c B A mem aux row col = CallResult.returned B' ∧
      B'.height_ = h ∧ B'.width_ = w ∧ B'.colAlign_ = aB ∧ B'.colStride = r * c ∧
      B'.colShift_ = Shift (col + row * c) aB (r * c) ∧
      B'.rowShift_ = 0 ∧ B'.rowStride = 1 ∧
      B'.matrix_.height_ = Length h (Shift (col + row * c) aB (r * c)) (r * c) ∧
      B'.matrix_.width_ = Length w 0 1 ∧
      (∀ j i : Int, 0 ≤ j → j < w → 0 ≤ i →
        i < Length h (Shift (col + row * c) aB (r * c)) (r * c) →
        B'.matrix_.data_ (j * B'.matrix_.ldim_ + i)
          = (A (Int.tmod ((aA + Shift (col + row * c) aB (r * c)) % (r * c)) r)
               (Int.tdiv ((aA + Shift (col + row * c) aB (r * c)) % (r * c)) r)).matrix_.data_
              (j * (A (Int.tmod ((aA + Shift (col + row * c) aB (r * c)) % (r * c)) r)
                (Int.tdiv ((aA + Shift (col + row * c) aB (r * c)) % (r * c)) r)).matrix_.ldim_
                + i)) := by
  have hp : 0 < r * c := mul_pos (by omega) (by omega)
  have hVR := VRRank_bounds r c row col hrow hcol
  have hsB := Shift_bounds (col + row * c) aB (r * c) hp hVR.1 haB.2
  -- this process
  obtain ⟨st, hst, hstB, hstw, hstlh, hstps, -, hstrecv, -⟩ :=
    VR_STAR_assign_pack_spec debug r c row col aA aB h w hr hc hrow hcol haA haB
      (A row col) (B row col) (hA row col hrow.1 hrow.2 hcol.1 hcol.2).1
      (hA row col hrow.1 hrow.2 hcol.1 hcol.2).2
      (hB row col hrow.1 hrow.2 hcol.1 hcol.2).1
      (hB row col hrow.1 hrow.2 hcol.1 hcol.2).2 (mem row col) (aux row col)
  -- the source process
  have hq0 : 0 ≤ (aA + Shift (col + row * c) aB (r * c)) % (r * c) :=
    Int.emod_nonneg _ (ne_of_gt hp)
  have hq1 : (aA + Shift (col + row * c) aB (r * c)) % (r * c) < c * r := by
    rw [mul_comm c r]; exact Int.emod_lt_of_pos _ hp
  obtain ⟨hcol', hrow', hrecomp⟩ := rank_split c r _ (by omega) ⟨hq0, hq1⟩
  have hun := rank_unsplit c _ _ hrow'.1 hcol'
  generalize hq : (aA + Shift (col + row * c) aB (r * c)) % (r * c) = q at *
  have hsrcShift : Shift (Int.tmod q r + Int.tdiv q r * r) aA (r * c)
      = Shift (col + row * c) aB (r * c) := by
    rw [hrecomp, Shift_eq _ _ _ hp hq0 haA.2, ← hq]
    have := emod_add_shift aA (Shift (col + row * c) aB (r * c)) (r * c)
    rw [Int.emod_eq_of_lt hsB.1 hsB.2] at this
    exact this
  obtain ⟨src, hsrc, -, -, -, hsrcps, hsrcsend, -, hsrcbuf⟩ :=
    VR_STAR_assign_pack_spec debug r c (Int.tmod q r) (Int.tdiv q r) aA aB h w hr hc hrow'
      hcol'
      haA haB (A (Int.tmod q r) (Int.tdiv q r)) (B (Int.tmod q r) (Int.tdiv q r))
      (hA _ _ hrow'.1 hrow'.2 hcol'.1 hcol'.2).1 (hA _ _ hrow'.1 hrow'.2 hcol'.1 hcol'.2).2
      (hB _ _ hrow'.1 hrow'.2 hcol'.1 hcol'.2).1 (hB _ _ hrow'.1 hrow'.2 hcol'.1 hcol'.2).2
      (mem (Int.tmod q r) (Int.tdiv q r)) (aux (Int.tmod q r) (Int.tdiv q r))
  rw [hsrcShift] at hsrcsend hsrcbuf
  have hsend : src.sendRankRM = col + row * c := by
    rw [hsrcsend]; exact rank_of_shift (col + row * c) aB (r * c) hp hVR haB
  -- the result of the call
  have hBp := (hB row col hrow.1 hrow.2 hcol.1 hcol.2).1
  obtain ⟨-, -, hB_cs, hB_rs, hB_sh, hB_rsh, hB_ra, hB_p, -⟩ := hBp
  have hB_a := (hB row col hrow.1 hrow.2 hcol.1 hcol.2).2
  simp only [Grid.VRSize, Grid.Size, Grid.VRRank] at hB_cs hB_sh
  rw [hB_a] at hB_sh
  have hRes := ElementalMatrix.Resize_participating (B row col) (mem row col) h w hB_p
  refine ⟨VR_STAR_assign_unpack st
      (MemCopy st.buffer st.portionSize src.buffer 0 src.portionSize), ?_, ?_⟩
  · unfold VR_STAR_assign_all
    simp only [hst, Grid.ofVRRank, hstrecv, hun.1, hun.2, hsrc, hsend, Grid.VRRank,
      hsrcps, hstps, le_refl, and_self, if_true]
  · simp only [VR_STAR_assign_unpack, hstB, hRes, hB_cs, hB_sh, hB_rs, hB_rsh, hB_a,
      Matrix.Resize_height, Matrix.Resize_width, true_and, hstw, hstlh, hstps, hsrcps,
      ElementalMatrix.LDim, ElementalMatrix.Buffer, Matrix.LDim, Matrix.Buffer]
    intro j i hj0 hj1 hi0 hi1
    have hw : 0 ≤ w := by omega
    generalize hlh : Length h (Shift (col + row * c) aB (r * c)) (r * c) = lh at *
    generalize hld : (Matrix.Resize (B row col).matrix_ (mem row col) lh (Length w 0 1)).ldim_
      = ld at *
    have hldge : lh ≤ ld := by
      rw [← hld]; exact (Matrix.Resize_ldim_ge _ _ _ _).1
    have hmax : lh ≤ MaxLength h (r * c) := by
      rw [← hlh]; exact Length_le_MaxLength h _ (r * c) hp hsB.1
    have h1 := forLoop_MemCopy_get
      (MemCopy st.buffer (MaxLength h (r * c) * w) src.buffer 0 (MaxLength h (r * c) * w))
      (fun j => j * ld) (fun j => MaxLength h (r * c) * w + j * lh) lh w
      (Matrix.Resize (B row col).matrix_ (mem row col) lh (Length w 0 1)).data_
      (by
        intro a b ha hab hb
        have := strided_disjoint 0 ld lh w hldge (by omega) a b ha hab hb
        show a * ld + lh ≤ b * ld
        omega)
      j i ⟨hj0, hj1⟩ ⟨hi0, hi1⟩
    rw [h1]
    have hk : j * lh + i < MaxLength h (r * c) * w := by
      have e1 : (j + 1) * lh ≤ w * lh := mul_le_mul_of_nonneg_right (by omega) (by omega)
      have e2 : w * lh ≤ w * MaxLength h (r * c) := mul_le_mul_of_nonneg_left hmax hw
      have e3 : (j + 1) * lh = j * lh + lh := by ring
      have e4 : w * MaxLength h (r * c) = MaxLength h (r * c) * w := by ring
      omega
    have hk0 : 0 ≤ j * lh := mul_nonneg hj0 (by omega)
    have hc1 : MaxLength h (r * c) * w ≤ MaxLength h (r * c) * w + j * lh + i ∧
        MaxLength h (r * c) * w + j * lh + i
          < MaxLength h (r * c) * w + MaxLength h (r * c) * w := by omega
    simp only [MemCopy, if_pos hc1]
    have e5 : 0 + (MaxLength h (r * c) * w + j * lh + i - MaxLength h (r * c) * w)
        = j * lh + i := by omega
    rw [e5]
    exact hsrcbuf j i hj0 hj1 hi0 hi1

/-- C1: on every `r x c` grid (`p = r*c`), for all extents and all column alignments of
the source `A [VC,*]` and the destination `B [VR,*]`, a matrix that owns its data (neither
locked nor a view), once all processes have executed
`B = A` (in a debug or a release build) every call has returned, and for every global
`(i,j)` the local entry of `B` held by the process that owns row `i` under `B` (its row-major
rank is `RowOwner i`) equals the local entry of `A` held by the process that owns row `i`
under `A` (its column-major rank is `RowOwner i`). -/
theorem C1_VR_STAR_from_VC_STAR {α : Type} (debug : Bool) (END : Int) (hEND : END < 0)
    (r c aA aB h w : Int) (hr : 1 ≤ r) (hc : 1 ≤ c)
    (haA : 0 ≤ aA ∧ aA < r * c) (haB : 0 ≤ aB ∧ aB < r * c)
    (A B : Int → Int → ElementalMatrix α) (mem aux : Int → Int → Int → α)
    (hA : ∀ row col : Int, 0 ≤ row → row < r → 0 ≤ col → col < c →
      IsVC_STAR { height_ := r, width_ := c, mcRank := row, mrRank := col } (A row col) ∧
      (A row col).colAlign_ = aA ∧ (A row col).height_ = h ∧ (A row col).width_ = w)
    (hB : ∀ row col : Int, 0 ≤ row → row < r → 0 ≤ col → col < c →
      IsVR_STAR { height_ := r, width_ := c, mcRank := row, mrRank := col } (B row col) ∧
      (B row col).colAlign_ = aB) :
    (∀ row col : Int, 0 ≤ row → row < r → 0 ≤ col → col < c →
      ∃ B' : ElementalMatrix α,
        VR_STAR_assign_all debug r c B A mem aux row col = CallResult.returned B' ∧
        B'.Height = h ∧ B'.Width = w) ∧
    (∀ i j rowB colB rowA colA : Int, 0 ≤ i → i < h → 0 ≤ j → j < w →
      0 ≤ rowB → rowB < r → 0 ≤ colB → colB < c →
      0 ≤ rowA → rowA < r → 0 ≤ colA → colA < c →
      (B rowB colB).RowOwner END i
        = Grid.VRRank { height_ := r, width_ := c, mcRank := rowB, mrRank := colB } →
      (A rowA colA).RowOwner END i
        = Grid.VCRank { height_ := r, width_ := c, mcRank := rowA, mrRank := colA } →
      ∃ B' : ElementalMatrix α,
        VR_STAR_assign_all debug r c B A mem aux rowB colB = CallResult.returned B' ∧
        B'.matrix_.Get (B'.LocalRowOffset END i) (B'.LocalColOffset END j)
          = (A rowA colA).matrix_.Get ((A rowA colA).LocalRowOffset END i)
              ((A rowA colA).LocalColOffset END j)) := by
  have hp : 0 < r * c := mul_pos (by omega) (by omega)
  constructor
  · intro row col h1 h2 h3 h4
    obtain ⟨B', hB', hh, hw', -⟩ :=
      VR_STAR_assign_all_spec debug r c aA aB h w hr hc haA haB A B mem aux hA hB row col
        ⟨h1, h2⟩ ⟨h3, h4⟩
    exact ⟨B', hB', hh, hw'⟩
  · intro i j rowB colB rowA colA hi0 hi1 hj0 hj1 hrB0 hrB1 hcB0 hcB1 hrA0 hrA1 hcA0 hcA1
      hownB hownA
    obtain ⟨B', hB', hh, hw', ha', hcs', hsh', hrsh', hrs', hlh', hlw', hdata⟩ :=
      VR_STAR_assign_all_spec debug r c aA aB h w hr hc haA haB A B mem aux hA hB rowB colB
        ⟨hrB0, hrB1⟩ ⟨hcB0, hcB1⟩
    refine ⟨B', hB', ?_⟩
    have hiE : ¬ (i = END) := by omega
    have hjE : ¬ (j = END) := by omega
    -- the descriptors of the two owners
    obtain ⟨hBd, hBa⟩ := hB rowB colB hrB0 hrB1 hcB0 hcB1
    obtain ⟨-, -, hB_cs, -, -, -, -, -⟩ := hBd
    obtain ⟨hAd, hAa, hAh, hAw⟩ := hA rowA colA hrA0 hrA1 hcA0 hcA1
    obtain ⟨-, hA_cs, hA_rs, hA_sh, hA_rsh, -, -, -, -, -⟩ := hAd
    simp only [Grid.VCSize, Grid.VRSize, Grid.Size, Grid.VCRank] at hA_cs hA_sh hB_cs
    rw [hAa] at hA_sh
    simp only [ElementalMatrix.RowOwner, if_neg hiE, ElementalMatrix.ColAlign,
      ElementalMatrix.ColStride, hBa, hB_cs, Grid.VRRank] at hownB
    simp only [ElementalMatrix.RowOwner, if_neg hiE, ElementalMatrix.ColAlign,
      ElementalMatrix.ColStride, hAa, hA_cs, Grid.VCRank] at hownA
    -- both owners have shift `i mod p`
    have hsB : Shift (colB + rowB * c) aB (r * c) = i % (r * c) := by
      rw [← hownB]; exact Shift_owner i aB (r * c) hp hi0 haB
    have hsA : Shift (rowA + colA * r) aA (r * c) = i % (r * c) := by
      rw [← hownA]; exact Shift_owner i aA (r * c) hp hi0 haA
    -- the source of the owner under `B` is the owner under `A`
    have hq : (aA + Shift (colB + rowB * c) aB (r * c)) % (r * c) = rowA + r * colA := by
      rw [hsB, Int.add_emod_emod, add_comm aA i, ← Int.tmod_eq_emod (by omega) (by omega),
        hownA, mul_comm colA r]
    have hun := rank_unsplit r colA rowA hcA0 ⟨hrA0, hrA1⟩
    have hdata' := hdata
    rw [hq, hun.1, hun.2] at hdata'
    -- the local position of `(i,j)`
    have hg := global_of_owner i h aB (r * c) hp hi0 hi1 haB
    simp only [] at hg
    rw [hownB, hsB] at hg
    obtain ⟨-, -, -, -, hl0, hl1, -⟩ := hg
    have hBrow : B'.LocalRowOffset END i = Length_ i (i % (r * c)) (r * c) := by
      simp only [ElementalMatrix.LocalRowOffset, if_neg hiE, ElementalMatrix.ColShift,
        ElementalMatrix.ColStride, hsh', hcs', hsB]
    have hBcol : B'.LocalColOffset END j = j := by
      simp only [ElementalMatrix.LocalColOffset, if_neg hjE, ElementalMatrix.RowShift,
        ElementalMatrix.RowStride, hrsh', hrs']
      exact Length__unit j hj0
    have hArow : (A rowA colA).LocalRowOffset END i = Length_ i (i % (r * c)) (r * c) := by
      simp only [ElementalMatrix.LocalRowOffset, if_neg hiE, ElementalMatrix.ColShift,
        ElementalMatrix.ColStride, hA_sh, hA_cs, hsA]
    have hAcol : (A rowA colA).LocalColOffset END j = j := by
      simp only [ElementalMatrix.LocalColOffset, if_neg hjE, ElementalMatrix.RowShift,
        ElementalMatrix.RowStride, hA_rsh, hA_rs]
      exact Length__unit j hj0
    rw [hBrow, hBcol, hArow, hAcol]
    simp only [Matrix.Get]
    rw [add_comm _ (j * B'.matrix_.ldim_), add_comm _ (j * (A rowA colA).matrix_.ldim_)]
    rw [hsB] at hdata'
    exact hdata' j _ hj0 hj1 hl0 hl1

theorem C3_local_global_roundtrip_witness :
    (sampleA 1 1).LocalRowOffset sampleEND ((sampleA 1 1).GlobalRow sampleEND 1) = 1 ∧
    ((sampleA 1 1).LocalRowOffset sampleEND 6 = (6 - (sampleA 1 1).ColShift) / 4 ∧
      (sampleA 1 1).GlobalRow sampleEND ((sampleA 1 1).LocalRowOffset sampleEND 6) = 6) ∧
    (sampleA 1 1).LocalColOffset sampleEND ((sampleA 1 1).GlobalCol sampleEND 1) = 1 := by
  have h := C3_local_global_roundtrip sampleEND (sampleA 1 1) (by decide) (by decide)
    (by decide) (by decide) (by decide)
  exact ⟨h.1 1 (by decide), h.2.1 6 (by decide) (by decide), h.2.2.1 1 (by decide)⟩

theorem C2_ownership_conservation_witness :
    ∃! x : Int × Int, 0 ≤ x.1 ∧ x.1 < 2 ∧ 0 ≤ x.2 ∧
      x.2 < ((ElementalMatrix.onProcess 2 3 1 2 x.1 0 sampleLocal).Resize sampleMem 5
        4).LocalHeight ∧
      ((ElementalMatrix.onProcess 2 3 1 2 x.1 0 sampleLocal).Resize sampleMem 5
        4).GlobalRow sampleEND x.2 = 3 :=
  ((C2_ownership_conservation sampleEND (by decide) 2 3 1 2 5 4 (by decide) (by decide)
    (by decide) (by decide) (fun _ _ => sampleLocal) sampleMem).2.2.1 3 0 (by decide)
    (by decide)).1

theorem C1_VR_STAR_from_VC_STAR_witness :
    ∃ B' : ElementalMatrix Int,
      VR_STAR_assign_all true 2 2 sampleB sampleA (fun _ _ => sampleMem) (fun _ _ => sampleMem)
        0 1 = CallResult.returned B' ∧
      B'.matrix_.Get (B'.LocalRowOffset sampleEND 3) (B'.LocalColOffset sampleEND 1)
        = (sampleA 0 0).matrix_.Get ((sampleA 0 0).LocalRowOffset sampleEND 3)
            ((sampleA 0 0).LocalColOffset sampleEND 1) :=
  (C1_VR_STAR_from_VC_STAR true sampleEND (by decide) 2 2 1 2 5 2 (by decide) (by decide)
    (by decide) (by decide) sampleA sampleB (fun _ _ => sampleMem) (fun _ _ => sampleMem)
    (by
      intro row col h1 h2 h3 h4
      have hr : row = 0 ∨ row = 1 := by omega
      have hc : col = 0 ∨ col = 1 := by omega
      rcases hr with rfl | rfl <;> rcases hc with rfl | rfl <;>
        exact ⟨by unfold IsVC_STAR; decide, by decide, by decide, by decide⟩)
    (by
      intro row col h1 h2 h3 h4
      have hr : row = 0 ∨ row = 1 := by omega
      have hc : col = 0 ∨ col = 1 := by omega
      rcases hr with rfl | rfl <;> rcases hc with rfl | rfl <;>
        exact ⟨by unfold IsVR_STAR; decide, by decide⟩)).2 3 1 0 1 0 0
    (by decide) (by decide) (by decide) (by decide) (by decide) (by decide) (by decide)
    (by decide) (by decide) (by decide) (by decide) (by decide) (by decide) (by decide)

/-- On the sample data the entry `(3,1)` arrives at its owner under `[VR,*]`. -/
theorem sample_VR_STAR_entry :
    (match VR_STAR_assign_all true 2 2 sampleB sampleA (fun _ _ => sampleMem)
        (fun _ _ => sampleMem) 0 1 with
      | CallResult.returned B' =>
        some (B'.matrix_.Get (B'.LocalRowOffset sampleEND 3) (B'.LocalColOffset sampleEND 1))
      | _ => none) = some 31 := by
  decide

/-! ## C5: same-type CPU copy -/

theorem foldl_CopyStore {α : Type} (dO sO : Int → Int) (n : Int) (l : List Nat)
    (st : CopyStore α) :
    l.foldl (fun (st : CopyStore α) (j : Nat) => st.MemCopy (dO j) (sO j) n) st
      = { ABuf := st.ABuf,
          BBuf := l.foldl (fun buf (j : Nat) => MemCopy buf (dO j) st.ABuf (sO j) n)
            st.BBuf } := by
  induction l generalizing st with
  | nil => rfl
  | cons j l ih =>
    simp only [List.foldl_cons]
    rw [ih]
    rfl

/-- The column loop on the two buffers writes the destination as the loop of `MemCopy` does
and never writes the source. -/
theorem forLoop_CopyStore {α : Type} (dO sO : Int → Int) (n w : Int) (st : CopyStore α) :
    forLoop w (fun j (st : CopyStore α) => st.MemCopy (dO j) (sO j) n) st
      = { ABuf := st.ABuf,
          BBuf := forLoop w (fun j buf => MemCopy buf (dO j) st.ABuf (sO j) n) st.BBuf } := by
  unfold forLoop
  exact foldl_CopyStore dO sO n _ st

/-- What the same-type CPU copy leaves behind: after
`CopyImpl` (case 1) `B` has the height and width of `A`, a leading dimension that holds a
column, `B(i,j) = A(i,j)` for all `0 <= i < height`, `0 <= j < width`, and `A` is as it
was; the destination buffer is the result of the single linear copy of `height*width`
elements when `ldA == height` and `ldB == height`, and of the per-column copy with strides
`ldA` and `ldB` otherwise. -/
theorem CopyImpl_case1_CPU_spec {α : Type} (A B : Matrix α) (mem : Int → α) :
    (CopyImpl_case1_CPU A B mem).2.Height = A.Height ∧
    (CopyImpl_case1_CPU A B mem).2.Width = A.Width ∧
    (CopyImpl_case1_CPU A B mem).2.Height ≤ (CopyImpl_case1_CPU A B mem).2.LDim ∧
    (∀ i j : Int, 0 ≤ i → i < A.Height → 0 ≤ j → j < A.Width →
      (CopyImpl_case1_CPU A B mem).2.Get i j = A.Get i j) ∧
    (CopyImpl_case1_CPU A B mem).1 = A ∧
    (A.LDim = A.Height ∧ (B.Resize mem A.Height A.Width).LDim = A.Height →
      (CopyImpl_case1_CPU A B mem).2.data_
        = MemCopy (B.Resize mem A.Height A.Width).data_ 0 A.data_ 0 (A.Height * A.Width)) ∧
    (¬ (A.LDim = A.Height ∧ (B.Resize mem A.Height A.Width).LDim = A.Height) →
      (CopyImpl_case1_CPU A B mem).2.data_
        = forLoop A.Width
            (fun j buf => MemCopy buf (j * (B.Resize mem A.Height A.Width).LDim) A.data_
              (j * A.LDim) A.Height)
            (B.Resize mem A.Height A.Width).data_) := by
  have hld := (Matrix.Resize_ldim_ge B mem A.height_ A.width_).1
  by_cases hc : A.LDim = A.Height ∧ (B.Resize mem A.Height A.Width).LDim = A.Height
  · have hdata : (CopyImpl_case1_CPU A B mem).2.data_
        = MemCopy (B.Resize mem A.Height A.Width).data_ 0 A.data_ 0 (A.Height * A.Width) := by
      simp only [CopyImpl_case1_CPU, if_pos hc, CopyStore.MemCopy, Matrix.LockedBuffer,
        Matrix.Buffer]
    have hA : (CopyImpl_case1_CPU A B mem).1 = A := by
      simp only [CopyImpl_case1_CPU, if_pos hc, CopyStore.MemCopy, Matrix.LockedBuffer]
    have hfl : (CopyImpl_case1_CPU A B mem).2.height_ = A.height_ ∧
        (CopyImpl_case1_CPU A B mem).2.width_ = A.width_ ∧
        (CopyImpl_case1_CPU A B mem).2.ldim_ = (B.Resize mem A.Height A.Width).ldim_ := by
      simp only [CopyImpl_case1_CPU, Matrix.Height, Matrix.Width, Matrix.Resize_height,
        Matrix.Resize_width, and_self]
    simp only [Matrix.Height, Matrix.Width, Matrix.LDim] at hc hfl hdata ⊢
    refine ⟨hfl.1, hfl.2.1, by rw [hfl.1, hfl.2.2]; exact hld, ?_, hA, fun _ => hdata,
      fun h => absurd hc h⟩
    intro i j hi0 hi1 hj0 hj1
    simp only [Matrix.Get, hdata, hfl.2.2, hc.1, hc.2]
    have h1 : 0 ≤ j * A.height_ := mul_nonneg hj0 (by omega)
    have h2 : (j + 1) * A.height_ ≤ A.width_ * A.height_ :=
      mul_le_mul_of_nonneg_right (by omega) (by omega)
    have h3 : (j + 1) * A.height_ = j * A.height_ + A.height_ := by ring
    have h4 : A.width_ * A.height_ = A.height_ * A.width_ := by ring
    have hcnd : 0 ≤ i + j * A.height_ ∧ i + j * A.height_ < 0 + A.height_ * A.width_ := by
      omega
    simp only [MemCopy, if_pos hcnd]
    congr 1; omega
  · have hdata : (CopyImpl_case1_CPU A B mem).2.data_
        = forLoop A.Width
            (fun j buf => MemCopy buf (j * (B.Resize mem A.Height A.Width).LDim) A.data_
              (j * A.LDim) A.Height)
            (B.Resize mem A.Height A.Width).data_ := by
      simp only [CopyImpl_case1_CPU, if_neg hc, Matrix.LockedBuffer, Matrix.Buffer,
        forLoop_CopyStore]
    have hA : (CopyImpl_case1_CPU A B mem).1 = A := by
      simp only [CopyImpl_case1_CPU, if_neg hc, Matrix.LockedBuffer, forLoop_CopyStore]
    have hfl : (CopyImpl_case1_CPU A B mem).2.height_ = A.height_ ∧
        (CopyImpl_case1_CPU A B mem).2.width_ = A.width_ ∧
        (CopyImpl_case1_CPU A B mem).2.ldim_ = (B.Resize mem A.Height A.Width).ldim_ := by
      simp only [CopyImpl_case1_CPU, Matrix.Height, Matrix.Width, Matrix.Resize_height,
        Matrix.Resize_width, and_self]
    simp only [Matrix.Height, Matrix.Width, Matrix.LDim] at hc hfl hdata ⊢
    refine ⟨hfl.1, hfl.2.1, by rw [hfl.1, hfl.2.2]; exact hld, ?_, hA,
      fun h => absurd h hc, fun _ => hdata⟩
    intro i j hi0 hi1 hj0 hj1
    simp only [Matrix.Get, hdata, hfl.2.2]
    have := forLoop_MemCopy_get A.data_
      (fun j => j * (B.Resize mem A.height_ A.width_).ldim_) (fun j => j * A.ldim_)
      A.height_ A.width_ (B.Resize mem A.height_ A.width_).data_
      (by
        intro a b ha hab hb
        have := strided_disjoint 0 _ _ A.width_ hld (by omega) a b ha hab hb
        show a * _ + A.height_ ≤ b * _
        omega)
      j i ⟨hj0, hj1⟩ ⟨hi0, hi1⟩
    rw [add_comm i, add_comm i]
    exact this

/-- C5: for every CPU source `A` and destination `B` of the same type, after
`CopyImpl` (case 1) `B` has the height and width of `A`, a leading dimension that holds a
column, `B(i,j) = A(i,j)` for all `0 <= i < height`, `0 <= j < width`, and `A` is as it
was; the destination buffer is the result of the single linear copy of `height*width`
elements when `ldA == height` and `ldB == height`, and of the per-column copy with strides
`ldA` and `ldB` otherwise. -/
theorem C5_CopyImpl_case1_CPU {α : Type} (A B : Matrix α) (mem : Int → α) :
    (CopyImpl_case1_CPU A B mem).2.Height = A.Height ∧
    (CopyImpl_case1_CPU A B mem).2.Width = A.Width ∧
    (CopyImpl_case1_CPU A B mem).2.Height ≤ (CopyImpl_case1_CPU A B mem).2.LDim ∧
    (∀ i j : Int, 0 ≤ i → i < A.Height → 0 ≤ j → j < A.Width →
      (CopyImpl_case1_CPU A B mem).2.Get i j = A.Get i j) ∧
    (CopyImpl_case1_CPU A B mem).1 = A ∧
    (A.LDim = A.Height ∧ (B.Resize mem A.Height A.Width).LDim = A.Height →
      (CopyImpl_case1_CPU A B mem).2.data_
        = MemCopy (B.Resize mem A.Height A.Width).data_ 0 A.data_ 0 (A.Height * A.Width)) ∧
    (¬ (A.LDim = A.Height ∧ (B.Resize mem A.Height A.Width).LDim = A.Height) →
      (CopyImpl_case1_CPU A B mem).2.data_
        = forLoop A.Width
            (fun j buf => MemCopy buf (j * (B.Resize mem A.Height A.Width).LDim) A.data_
              (j * A.LDim) A.Height)
            (B.Resize mem A.Height A.Width).data_) := by
  exact CopyImpl_case1_CPU_spec A B mem

/-! ## `InterleaveMatrix` with unit column strides -/

theorem forLoop_congr {σ : Type} (n : Int) (body body' : Int → σ → σ) (init : σ)
    (h : ∀ j st, body j st = body' j st) : forLoop n body init = forLoop n body' init := by
  have : body = body' := funext fun j => funext fun st => h j st
  rw [this]

theorem foldl_setCell_column {α : Type} (A : Int → α) (d s : Int) (m : Nat) (buf : Int → α) :
    (List.range m).foldl
        (fun buf (i : Nat) => setCell buf ((i : Int) * 1 + d) (A ((i : Int) * 1 + s))) buf
      = MemCopy buf d A s (m : Int) := by
  induction m with
  | zero =>
    funext k
    have hc : ¬ (d ≤ k ∧ k < d + ((0 : Nat) : Int)) := by omega
    simp only [List.range_zero, List.foldl_nil, MemCopy, if_neg hc]
  | succ m ih =>
    rw [List.range_succ, List.foldl_append, ih]
    funext k
    simp only [List.foldl_cons, List.foldl_nil, setCell, MemCopy]
    by_cases hk : k = (m : Int) * 1 + d
    · have hc : d ≤ k ∧ k < d + ((m + 1 : Nat) : Int) := by push_cast; omega
      rw [if_pos hk, if_pos hc]
      congr 1; omega
    · rw [if_neg hk]
      by_cases hc : d ≤ k ∧ k < d + (m : Int)
      · have hc' : d ≤ k ∧ k < d + ((m + 1 : Nat) : Int) := by push_cast; omega
        rw [if_pos hc, if_pos hc']
      · have hc' : ¬ (d ≤ k ∧ k < d + ((m + 1 : Nat) : Int)) := by push_cast; omega
        rw [if_neg hc, if_neg hc']

theorem forLoop_setCell_column {α : Type} (A : Int → α) (d s height : Int) (buf : Int → α) :
    forLoop height (fun i buf => setCell buf (i * 1 + d) (A (i * 1 + s))) buf
      = MemCopy buf d A s height := by
  by_cases hh : 0 ≤ height
  · obtain ⟨m, rfl⟩ := Int.eq_ofNat_of_zero_le hh
    rw [forLoop_ofNat]
    exact foldl_setCell_column A d s m buf
  · rw [forLoop_of_nonpos height (by omega)]
    funext k
    have hc : ¬ (d ≤ k ∧ k < d + height) := by omega
    simp only [MemCopy, if_neg hc]

/-- With unit column strides `InterleaveMatrix` is the loop of column copies. -/
theorem InterleaveMatrix_unit {α : Type} (height width : Int) (A : Int → α) (rsA : Int)
    (B : Int → α) (rsB : Int) :
    InterleaveMatrix height width A 1 rsA B 1 rsB
      = forLoop width (fun j buf => MemCopy buf (j * rsB) A (j * rsA) height) B := by
  unfold InterleaveMatrix
  exact forLoop_congr width _ _ B (fun j st => forLoop_setCell_column A _ _ height st)

/-- Packing or unpacking with unit column strides puts entry `(i,j)` of the source block at
position `(i,j)` of the target block, when the target's row stride holds a column. -/
theorem InterleaveMatrix_unit_get {α : Type} (height width : Int) (A : Int → α) (rsA : Int)
    (B : Int → α) (rsB : Int) (hrs : height ≤ rsB) (i j : Int)
    (hi : 0 ≤ i ∧ i < height) (hj : 0 ≤ j ∧ j < width) :
    InterleaveMatrix height width A 1 rsA B 1 rsB (i + j * rsB) = A (i + j * rsA) := by
  rw [InterleaveMatrix_unit]
  have := forLoop_MemCopy_get A (fun j => j * rsB) (fun j => j * rsA) height width B
    (by
      intro a b ha hab hb
      have := strided_disjoint 0 rsB height width hrs (by omega) a b ha hab hb
      show a * rsB + height ≤ b * rsB
      omega)
    j i hj hi
  rw [add_comm i, add_comm i]
  exact this

/-! ## The assertions of `Resize` -/

/-- When its assertions pass, `Resize` returns the resized matrix. -/
theorem ElementalMatrix.Resize_checked_ok {α : Type} (debug : Bool) (A : ElementalMatrix α)
    (mem : Int → α) (h w : Int) (hok : A.ResizeAllowed debug h w) :
    A.Resize_checked debug mem h w = Except.ok (A.Resize mem h w) := by
  cases debug
  · rfl
  · obtain ⟨hl, hv⟩ := hok rfl
    have hc : ¬ (A.Viewing = true ∧ (h > A.height_ ∨ w > A.width_)) := by
      rintro ⟨h1, h2⟩
      have := hv h1
      omega
    simp only [ElementalMatrix.Resize_checked, ElementalMatrix.Resize_DEBUG_ONLY,
      AssertNotLocked, hl, Bool.false_eq_true, if_false, if_true, if_neg hc, pure, bind,
      Except.bind, Except.pure]

/-- When an assertion of `Resize` fails, the call raises `LogicError`. -/
theorem ElementalMatrix.Resize_checked_error {α : Type} (A : ElementalMatrix α)
    (mem : Int → α) (h w : Int) (hbad : ¬ A.ResizeAllowed true h w) :
    ∃ msg : String, A.Resize_checked true mem h w = Except.error msg := by
  cases hl : A.Locked
  · have hc : A.Viewing = true ∧ (h > A.height_ ∨ w > A.width_) := by
      by_contra hn
      apply hbad
      intro _
      refine ⟨hl, fun hv => ?_⟩
      by_contra hgrow
      exact hn ⟨hv, by omega⟩
    refine ⟨"Tried to increase the size of a view", ?_⟩
    simp only [ElementalMatrix.Resize_checked, ElementalMatrix.Resize_DEBUG_ONLY,
      AssertNotLocked, hl, Bool.false_eq_true, if_false, if_true, if_pos hc, pure, bind,
      Except.bind, Except.pure, throw, throwThe, MonadExceptOf.throw]
  · refine ⟨"Assertion that matrix not be a locked view failed", ?_⟩
    simp only [ElementalMatrix.Resize_checked, ElementalMatrix.Resize_DEBUG_ONLY,
      AssertNotLocked, hl, if_true, pure, bind, Except.bind, Except.pure]

/-! ## C6: packing and unpacking in `Exchange_impl` -/

theorem AssertSameGrids_ok {α : Type} (debug : Bool) (A B : ElementalMatrix α)
    (h : A.Grid = B.Grid) :
    (if debug then AssertSameGrids A B else Except.ok ()) = Except.ok () := by
  cases debug
  · rfl
  · simp [AssertSameGrids, h]

theorem received_get {α : Type} (rb msg : Int → α) (len k : Int) (hk : 0 ≤ k ∧ k < len) :
    MemCopy rb 0 msg 0 len k = msg k := by
  have hc : 0 ≤ k ∧ k < 0 + len := by omega
  simp only [MemCopy, if_pos hc]
  congr 1; omega

theorem block_index_bounds (h w i j : Int) (hi : 0 ≤ i ∧ i < h) (hj : 0 ≤ j ∧ j < w) :
    0 ≤ i + j * h ∧ i + j * h < h * w := by
  have h1 : 0 ≤ j * h := mul_nonneg hj.1 (by omega)
  have h2 : (j + 1) * h ≤ w * h := mul_le_mul_of_nonneg_right (by omega) (by omega)
  have h3 : (j + 1) * h = j * h + h := by ring
  have h4 : w * h = h * w := by ring
  omega

/-- What `Exchange_impl` does on a rank that is not its own partner, for an incoming message
that fits the receive size. -/
theorem Exchange_impl_spec {α : Type} (debug : Bool) (cfg : BuildConfig)
    (tr : TypeTraits α) (fuel : Nat) (T : ElemType) (D : Device)
    (A B : ElementalMatrix α) (sendRank recvRank myRank : Int)
    (mem sendScratch recvScratch msg : Int → α) (msgLen : Int)
    (hvalid : tr.IsDeviceValidType T D = true) (hgrid : A.Grid = B.Grid)
    (hsend : myRank ≠ sendRank) (hrecv : myRank ≠ recvRank)
    (hres : B.ResizeAllowed debug A.Height A.Width)
    (hldB : (B.Resize mem A.Height A.Width).LocalHeight
      ≤ (B.Resize mem A.Height A.Width).LDim)
    (hlen : msgLen ≤ (B.Resize mem A.Height A.Width).LocalHeight
      * (B.Resize mem A.Height A.Width).LocalWidth) :
    ∃ (out : ExchangeOutcome α) (m : SentMessage α),
      Exchange_impl debug cfg tr fuel T D A B sendRank recvRank myRank mem sendScratch
          recvScratch msg msgLen = CallResult.returned out ∧
      out.sent = some m ∧ m.count = A.LocalHeight * A.LocalWidth ∧ m.dest = sendRank ∧
      (∀ i j : Int, 0 ≤ i → i < A.LocalHeight → 0 ≤ j → j < A.LocalWidth →
        m.buf (i + j * A.LocalHeight) = A.matrix_.Get i j) ∧
      out.B.Height = A.Height ∧ out.B.Width = A.Width ∧
      out.B.LocalHeight = (B.Resize mem A.Height A.Width).LocalHeight ∧
      out.B.LocalWidth = (B.Resize mem A.Height A.Width).LocalWidth ∧
      (∀ i j : Int, 0 ≤ i → i < out.B.LocalHeight → 0 ≤ j → j < out.B.LocalWidth →
        i + j * out.B.LocalHeight < msgLen →
        out.B.matrix_.Get i j = msg (i + j * out.B.LocalHeight)) := by
  have hv : (!tr.IsDeviceValidType T D) = false := by rw [hvalid]; rfl
  have h1 : ¬ (debug = true ∧ myRank = sendRank ∧ myRank ≠ recvRank) :=
    fun h => hsend h.2.1
  have h2 : ¬ (debug = true ∧ myRank ≠ sendRank ∧ myRank = recvRank) :=
    fun h => hrecv h.2.2
  have hBh : (B.Resize mem A.Height A.Width).Height = A.Height := by
    simp only [ElementalMatrix.Resize, ElementalMatrix.Height]
    split <;> rfl
  have hBw : (B.Resize mem A.Height A.Width).Width = A.Width := by
    simp only [ElementalMatrix.Resize, ElementalMatrix.Width]
    split <;> rfl
  have hchk := ElementalMatrix.Resize_checked_ok debug B mem A.Height A.Width hres
  generalize hB1 : B.Resize mem A.Height A.Width = B1 at *
  have hrcv : SendRecv_receive B1.Buffer (B1.LocalHeight * B1.LocalWidth) msg msgLen
      = some (MemCopy B1.Buffer 0 msg 0 msgLen) := by
    simp [SendRecv_receive, hlen]
  have hrcv' : SendRecv_receive recvScratch (B1.LocalHeight * B1.LocalWidth) msg msgLen
      = some (MemCopy recvScratch 0 msg 0 msgLen) := by
    simp [SendRecv_receive, hlen]
  unfold Exchange_impl
  simp only [hv, Bool.false_eq_true, if_false, AssertSameGrids_ok debug A B hgrid, if_neg h1,
    if_neg h2, if_neg hsend, hchk]
  have hBnn : ∀ i j : Int, 0 ≤ i → i < B1.matrix_.height_ → 0 ≤ j → j < B1.matrix_.width_ →
      i + j * B1.matrix_.height_ < msgLen →
      MemCopy B1.Buffer 0 msg 0 msgLen (i + j * B1.matrix_.height_)
        = msg (i + j * B1.matrix_.height_) ∧
      MemCopy recvScratch 0 msg 0 msgLen (i + j * B1.matrix_.height_)
        = msg (i + j * B1.matrix_.height_) := by
    intro i j hi0 hi1 hj0 hj1 hk
    have hb := block_index_bounds _ _ i j ⟨hi0, hi1⟩ ⟨hj0, hj1⟩
    exact ⟨received_get _ msg _ _ ⟨hb.1, hk⟩, received_get _ msg _ _ ⟨hb.1, hk⟩⟩
  have hpack : ∀ i j : Int, 0 ≤ i → i < A.LocalHeight → 0 ≤ j → j < A.LocalWidth →
      InterleaveMatrix A.LocalHeight A.LocalWidth A.LockedBuffer 1 A.LDim sendScratch 1
        A.LocalHeight (i + j * A.LocalHeight) = A.matrix_.Get i j := by
    intro i j hi0 hi1 hj0 hj1
    exact InterleaveMatrix_unit_get _ _ _ _ _ _ (le_refl _) i j ⟨hi0, hi1⟩ ⟨hj0, hj1⟩
  have hunpack : ∀ (buf : Int → α) (i j : Int), 0 ≤ i → i < B1.matrix_.height_ → 0 ≤ j →
      j < B1.matrix_.width_ →
      InterleaveMatrix B1.LocalHeight B1.LocalWidth buf 1 B1.LocalHeight B1.Buffer 1 B1.LDim
        (i + j * B1.matrix_.ldim_) = buf (i + j * B1.matrix_.height_) := by
    intro buf i j hi0 hi1 hj0 hj1
    exact InterleaveMatrix_unit_get _ _ _ _ _ _ hldB i j ⟨hi0, hi1⟩ ⟨hj0, hj1⟩
  by_cases hcA : A.LocalHeight = A.LDim <;> by_cases hcB : B1.LocalHeight = B1.LDim
  · have hdA := decide_eq_true hcA
    have hdB := decide_eq_true hcB
    simp only [hdA, hdB, Bool.and_self, if_true, hrcv]
    refine ⟨_, _, rfl, rfl, rfl, rfl, ?_, hBh, hBw, rfl, rfl, ?_⟩
    · intro i j _ _ _ _
      simp only [ElementalMatrix.LockedBuffer, Matrix.LockedBuffer, Matrix.Get]
      rw [hcA]; rfl
    · intro i j hi0 hi1 hj0 hj1 hk
      show MemCopy B1.Buffer 0 msg 0 msgLen
        (i + j * B1.matrix_.ldim_) = msg (i + j * B1.matrix_.height_)
      have : B1.matrix_.ldim_ = B1.matrix_.height_ := hcB.symm
      rw [this]
      exact (hBnn i j hi0 hi1 hj0 hj1 hk).1
  · have hdA := decide_eq_true hcA
    have hdB := decide_eq_false hcB
    simp only [hdA, hdB, Bool.and_false, Bool.false_eq_true, if_false, if_true, hrcv']
    refine ⟨_, _, rfl, rfl, rfl, rfl, ?_, hBh, hBw, rfl, rfl, ?_⟩
    · intro i j _ _ _ _
      simp only [ElementalMatrix.LockedBuffer, Matrix.LockedBuffer, Matrix.Get]
      rw [hcA]; rfl
    · intro i j hi0 hi1 hj0 hj1 hk
      show InterleaveMatrix B1.LocalHeight B1.LocalWidth _ 1 B1.LocalHeight B1.Buffer 1
        B1.LDim (i + j * B1.matrix_.ldim_) = msg (i + j * B1.matrix_.height_)
      rw [hunpack _ i j hi0 hi1 hj0 hj1]
      exact (hBnn i j hi0 hi1 hj0 hj1 hk).2
  · have hdA := decide_eq_false hcA
    have hdB := decide_eq_true hcB
    simp only [hdA, hdB, Bool.false_and, Bool.false_eq_true, if_false, if_true, hrcv]
    refine ⟨_, _, rfl, rfl, rfl, rfl, ?_, hBh, hBw, rfl, rfl, ?_⟩
    · intro i j hi0 hi1 hj0 hj1
      exact hpack i j hi0 hi1 hj0 hj1
    · intro i j hi0 hi1 hj0 hj1 hk
      show MemCopy B1.Buffer 0 msg 0 msgLen
        (i + j * B1.matrix_.ldim_) = msg (i + j * B1.matrix_.height_)
      have : B1.matrix_.ldim_ = B1.matrix_.height_ := hcB.symm
      rw [this]
      exact (hBnn i j hi0 hi1 hj0 hj1 hk).1
  · have hdA := decide_eq_false hcA
    have hdB := decide_eq_false hcB
    simp only [hdA, hdB, Bool.false_and, Bool.and_false, Bool.false_eq_true, if_false, hrcv']
    refine ⟨_, _, rfl, rfl, rfl, rfl, ?_, hBh, hBw, rfl, rfl, ?_⟩
    · intro i j hi0 hi1 hj0 hj1
      exact hpack i j hi0 hi1 hj0 hj1
    · intro i j hi0 hi1 hj0 hj1 hk
      show InterleaveMatrix B1.LocalHeight B1.LocalWidth _ 1 B1.LocalHeight B1.Buffer 1
        B1.LDim (i + j * B1.matrix_.ldim_) = msg (i + j * B1.matrix_.height_)
      rw [hunpack _ i j hi0 hi1 hj0 hj1]
      exact (hBnn i j hi0 hi1 hj0 hj1 hk).2

/-- C6: in `Exchange_impl`, on a rank that is not its own partner, for every local block of
`A` and every destination `B` that passes the assertions of `Resize` (in a debug build it is
not locked and is not a view that would grow) and whose leading dimension after the resize
holds a column:
the call hands `hA*wA` elements to `SendRecv`, element `i + j*hA` being `A_local(i,j)`, and
when the received sequence has `hB*wB` elements the call returns with
`B_local(i,j)` equal to its element `i + j*hB`; this holds in all four branches
(contiguous or not on either side). -/
theorem C6_Exchange_impl_packing {α : Type} (debug : Bool) (cfg : BuildConfig)
    (tr : TypeTraits α) (fuel : Nat) (T : ElemType) (D : Device)
    (A B : ElementalMatrix α) (sendRank recvRank myRank : Int)
    (mem sendScratch recvScratch msg : Int → α)
    (hvalid : tr.IsDeviceValidType T D = true) (hgrid : A.Grid = B.Grid)
    (hsend : myRank ≠ sendRank) (hrecv : myRank ≠ recvRank)
    (hres : B.ResizeAllowed debug A.Height A.Width)
    (hldB : (B.Resize mem A.Height A.Width).LocalHeight
      ≤ (B.Resize mem A.Height A.Width).LDim) :
    ∃ (out : ExchangeOutcome α) (m : SentMessage α),
      Exchange_impl debug cfg tr fuel T D A B sendRank recvRank myRank mem sendScratch
          recvScratch msg
          ((B.Resize mem A.Height A.Width).LocalHeight
            * (B.Resize mem A.Height A.Width).LocalWidth)
        = CallResult.returned out ∧
      out.sent = some m ∧ m.count = A.LocalHeight * A.LocalWidth ∧ m.dest = sendRank ∧
      (∀ i j : Int, 0 ≤ i → i < A.LocalHeight → 0 ≤ j → j < A.LocalWidth →
        m.buf (i + j * A.LocalHeight) = A.matrix_.Get i j) ∧
      out.B.Height = A.Height ∧ out.B.Width = A.Width ∧
      out.B.LocalHeight = (B.Resize mem A.Height A.Width).LocalHeight ∧
      out.B.LocalWidth = (B.Resize mem A.Height A.Width).LocalWidth ∧
      (∀ i j : Int, 0 ≤ i → i < out.B.LocalHeight → 0 ≤ j → j < out.B.LocalWidth →
        out.B.matrix_.Get i j = msg (i + j * out.B.LocalHeight)) := by
  obtain ⟨out, m, h1, h2, h3, h4, h5, h6, h7, h8, h9, h10⟩ :=
    Exchange_impl_spec debug cfg tr fuel T D A B sendRank recvRank myRank mem sendScratch
      recvScratch msg _ hvalid hgrid hsend hrecv hres hldB (le_refl _)
  refine ⟨out, m, h1, h2, h3, h4, h5, h6, h7, h8, h9, ?_⟩
  intro i j hi0 hi1 hj0 hj1
  refine h10 i j hi0 hi1 hj0 hj1 ?_
  rw [← h8, ← h9]
  exact (block_index_bounds _ _ i j ⟨hi0, hi1⟩ ⟨hj0, hj1⟩).2

/-! ## C7: a pair of mutual partners -/

/-- One direction of the exchange between two mutual partners: the call of `rank` returns
and its destination block holds the entries of the partner's source block. -/
theorem Exchange_pair_spec {α : Type} (debug : Bool) (cfg : BuildConfig)
    (tr : TypeTraits α) (fuel : Nat) (T : ElemType) (D : Device)
    (A B : Int → ElementalMatrix α) (mem sendScratch recvScratch : Int → Int → α)
    (rank partner h w : Int) (hne : rank ≠ partner)
    (hvalid : tr.IsDeviceValidType T D = true)
    (hgrid : (A rank).Grid = (B rank).Grid) (hgridP : (A partner).Grid = (B partner).Grid)
    (hres : (B rank).ResizeAllowed debug (A rank).Height (A rank).Width)
    (hresP : (B partner).ResizeAllowed debug (A partner).Height (A partner).Width)
    (hA : (A partner).LocalHeight = h ∧ (A partner).LocalWidth = w)
    (hB : ((B rank).Resize (mem rank) (A rank).Height (A rank).Width).LocalHeight = h ∧
      ((B rank).Resize (mem rank) (A rank).Height (A rank).Width).LocalWidth = w)
    (hld : ((B rank).Resize (mem rank) (A rank).Height (A rank).Width).LocalHeight
      ≤ ((B rank).Resize (mem rank) (A rank).Height (A rank).Width).LDim)
    (hldP : ((B partner).Resize (mem partner) (A partner).Height (A partner).Width).LocalHeight
      ≤ ((B partner).Resize (mem partner) (A partner).Height (A partner).Width).LDim)
    (hsizeP : 0 ≤ ((B partner).Resize (mem partner) (A partner).Height
        (A partner).Width).LocalHeight
      * ((B partner).Resize (mem partner) (A partner).Height (A partner).Width).LocalWidth) :
    ∃ out : ExchangeOutcome α,
      Exchange_pair debug cfg tr fuel T D A B mem sendScratch recvScratch rank partner
        = CallResult.returned out ∧
      out.B.LocalHeight = h ∧ out.B.LocalWidth = w ∧
      (∀ i j : Int, 0 ≤ i → i < h → 0 ≤ j → j < w →
        out.B.matrix_.Get i j = (A partner).matrix_.Get i j) := by
  obtain ⟨outP, m, hP1, hP2, hP3, hP4, hP5, -⟩ :=
    Exchange_impl_spec debug cfg tr fuel T D (A partner) (B partner) rank rank partner
      (mem partner) (sendScratch partner) (recvScratch partner) (recvScratch partner) 0
      hvalid hgridP (Ne.symm hne) (Ne.symm hne) hresP hldP hsizeP
  have hlen : m.count ≤ ((B rank).Resize (mem rank) (A rank).Height (A rank).Width).LocalHeight
      * ((B rank).Resize (mem rank) (A rank).Height (A rank).Width).LocalWidth := by
    rw [hP3, hA.1, hA.2, hB.1, hB.2]
  obtain ⟨out, m', h1, -, -, -, -, -, -, h8, h9, h10⟩ :=
    Exchange_impl_spec debug cfg tr fuel T D (A rank) (B rank) partner partner rank
      (mem rank) (sendScratch rank) (recvScratch rank) m.buf m.count
      hvalid hgrid hne hne hres hld hlen
  refine ⟨out, ?_, by rw [h8, hB.1], by rw [h9, hB.2], ?_⟩
  · unfold Exchange_pair Exchange_impl_sent
    simp only [hP1, hP2, hP4, if_true, h1]
  · intro i j hi0 hi1 hj0 hj1
    have hh : out.B.LocalHeight = h := by rw [h8, hB.1]
    have hw : out.B.LocalWidth = w := by rw [h9, hB.2]
    have hk := block_index_bounds h w i j ⟨hi0, hi1⟩ ⟨hj0, hj1⟩
    rw [h10 i j hi0 (by omega) hj0 (by omega) (by rw [hh, hP3, hA.1, hA.2]; exact hk.2), hh]
    have := hP5 i j hi0 (by omega) hj0 (by omega)
    rw [hA.1] at this
    exact this

/-- C7: two ranks that each name the other as send and receive partner, holding local
blocks of the same local height `h` and width `w` with leading dimensions that hold a
column, the destinations passing the assertions of `Resize` (in a debug build they are not
locked and are not views that would grow): after both have executed `Exchange_impl` both calls have returned and the destination
block on each rank holds the entries of the partner's source block, for every combination
of leading dimensions on the two ranks. -/
theorem C7_Exchange_mutual_partners {α : Type} (debug : Bool) (cfg : BuildConfig)
    (tr : TypeTraits α) (fuel : Nat) (T : ElemType) (D : Device)
    (A B : Int → ElementalMatrix α) (mem sendScratch recvScratch : Int → Int → α)
    (r0 r1 h w : Int) (hne : r0 ≠ r1) (hh : 0 ≤ h) (hw : 0 ≤ w)
    (hvalid : tr.IsDeviceValidType T D = true)
    (hgrid0 : (A r0).Grid = (B r0).Grid) (hgrid1 : (A r1).Grid = (B r1).Grid)
    (hres0 : (B r0).ResizeAllowed debug (A r0).Height (A r0).Width)
    (hres1 : (B r1).ResizeAllowed debug (A r1).Height (A r1).Width)
    (hA0 : (A r0).LocalHeight = h ∧ (A r0).LocalWidth = w)
    (hA1 : (A r1).LocalHeight = h ∧ (A r1).LocalWidth = w)
    (hB0 : ((B r0).Resize (mem r0) (A r0).Height (A r0).Width).LocalHeight = h ∧
      ((B r0).Resize (mem r0) (A r0).Height (A r0).Width).LocalWidth = w)
    (hB1 : ((B r1).Resize (mem r1) (A r1).Height (A r1).Width).LocalHeight = h ∧
      ((B r1).Resize (mem r1) (A r1).Height (A r1).Width).LocalWidth = w)
    (hld0 : ((B r0).Resize (mem r0) (A r0).Height (A r0).Width).LocalHeight
      ≤ ((B r0).Resize (mem r0) (A r0).Height (A r0).Width).LDim)
    (hld1 : ((B r1).Resize (mem r1) (A r1).Height (A r1).Width).LocalHeight
      ≤ ((B r1).Resize (mem r1) (A r1).Height (A r1).Width).LDim) :
    ∃ out0 out1 : ExchangeOutcome α,
      Exchange_pair debug cfg tr fuel T D A B mem sendScratch recvScratch r0 r1
        = CallResult.returned out0 ∧
      Exchange_pair debug cfg tr fuel T D A B mem sendScratch recvScratch r1 r0
        = CallResult.returned out1 ∧
      (∀ i j : Int, 0 ≤ i → i < h → 0 ≤ j → j < w →
        out0.B.matrix_.Get i j = (A r1).matrix_.Get i j ∧
        out1.B.matrix_.Get i j = (A r0).matrix_.Get i j) := by
  have hs : 0 ≤ h * w := mul_nonneg hh hw
  obtain ⟨out0, e0, -, -, g0⟩ :=
    Exchange_pair_spec debug cfg tr fuel T D A B mem sendScratch recvScratch r0 r1 h w hne
      hvalid hgrid0 hgrid1 hres0 hres1 hA1 hB0 hld0 hld1 (by rw [hB1.1, hB1.2]; exact hs)
  obtain ⟨out1, e1, -, -, g1⟩ :=
    Exchange_pair_spec debug cfg tr fuel T D A B mem sendScratch recvScratch r1 r0 h w
      (Ne.symm hne) hvalid hgrid1 hgrid0 hres1 hres0 hA0 hB1 hld1 hld0
      (by rw [hB0.1, hB0.2]; exact hs)
  exact ⟨out0, out1, e0, e1, fun i j hi0 hi1 hj0 hj1 =>
    ⟨g0 i j hi0 hi1 hj0 hj1, g1 i j hi0 hi1 hj0 hj1⟩⟩

theorem C6_Exchange_impl_packing_witness :
    ∃ (out : ExchangeOutcome Int) (m : SentMessage Int),
      Exchange_impl true sampleConfig sampleTraits 2 ElemType.float Device.CPU
          (sampleExA 1) (sampleExB 1) 0 0 1 sampleMem sampleMem sampleMem
          (fun k => 7 * k) 15 = CallResult.returned out ∧
      out.sent = some m ∧ m.count = 15 ∧
      m.buf (2 + 4 * 3) = (sampleExA 1).matrix_.Get 2 4 ∧
      out.B.matrix_.Get 2 4 = 7 * (2 + 4 * 3) := by
  obtain ⟨out, m, h1, h2, h3, -, h5, -, -, h8, h9, h10⟩ :=
    C6_Exchange_impl_packing true sampleConfig sampleTraits 2 ElemType.float Device.CPU
      (sampleExA 1) (sampleExB 1) 0 0 1 sampleMem sampleMem sampleMem (fun k => 7 * k)
      (by decide) (by decide) (by decide) (by decide)
      (fun _ => ⟨by decide, fun hv => absurd hv (by decide)⟩) (by decide)
  have e8 : out.B.LocalHeight = 3 := by rw [h8]; decide
  have e9 : out.B.LocalWidth = 5 := by rw [h9]; decide
  refine ⟨out, m, h1, h2, h3, h5 2 4 (by decide) (by decide) (by decide) (by decide), ?_⟩
  have := h10 2 4 (by decide) (by rw [e8]; decide) (by decide) (by rw [e9]; decide)
  rw [e8] at this
  exact this

theorem C7_Exchange_mutual_partners_witness :
    ∃ out0 out1 : ExchangeOutcome Int,
      Exchange_pair true sampleConfig sampleTraits 2 ElemType.float Device.CPU sampleExA
        sampleExB (fun _ => sampleMem) (fun _ => sampleMem) (fun _ => sampleMem) 0 1
        = CallResult.returned out0 ∧
      Exchange_pair true sampleConfig sampleTraits 2 ElemType.float Device.CPU sampleExA
        sampleExB (fun _ => sampleMem) (fun _ => sampleMem) (fun _ => sampleMem) 1 0
        = CallResult.returned out1 ∧
      (∀ i j : Int, 0 ≤ i → i < 3 → 0 ≤ j → j < 5 →
        out0.B.matrix_.Get i j = (sampleExA 1).matrix_.Get i j ∧
        out1.B.matrix_.Get i j = (sampleExA 0).matrix_.Get i j) :=
  C7_Exchange_mutual_partners true sampleConfig sampleTraits 2 ElemType.float Device.CPU
    sampleExA sampleExB (fun _ => sampleMem) (fun _ => sampleMem) (fun _ => sampleMem) 0 1 3 5
    (by decide) (by decide) (by decide) (by decide) (by decide) (by decide)
    (fun _ => ⟨by decide, fun hv => absurd hv (by decide)⟩)
    (fun _ => ⟨by decide, fun hv => absurd hv (by decide)⟩)
    (by decide)
    (by decide) (by decide) (by decide) (by decide) (by decide)

/-- On the sample data rank 0 ends with the entry `(2,4)` of rank 1 and conversely. -/
theorem sample_Exchange_entries :
    (match Exchange_pair true sampleConfig sampleTraits 2 ElemType.float Device.CPU sampleExA
        sampleExB (fun _ => sampleMem) (fun _ => sampleMem) (fun _ => sampleMem) 0 1 with
      | CallResult.returned out => some (out.B.matrix_.Get 2 4, out.B.matrix_.ldim_)
      | _ => none) = some (2024, 3) ∧
    (match Exchange_pair true sampleConfig sampleTraits 2 ElemType.float Device.CPU sampleExA
        sampleExB (fun _ => sampleMem) (fun _ => sampleMem) (fun _ => sampleMem) 1 0 with
      | CallResult.returned out => some (out.B.matrix_.Get 2 4, out.B.matrix_.ldim_)
      | _ => none) = some (1024, 7) := by
  constructor <;> decide

/-! ## The dispatch of `CopyImpl` -/

theorem CopyImpl_select_CPU_CPU {α : Type} (cfg : BuildConfig) (tr : TypeTraits α)
    (S U : ElemType) :
    CopyImpl_select cfg tr S Device.CPU U Device.CPU
      = CopyImpl_table cfg tr S Device.CPU U Device.CPU := by
  unfold CopyImpl_select CopyImpl_table
  simp only [CopyCase.all, CopyCase.viable, CopyCase.declared, CopyCase.matchesSignature,
    CopyCase.enablingCondition]
  by_cases hSU : S = U
  · subst hSU
    cases h1 : tr.IsStorageType S Device.CPU <;> cases h5 : tr.CanCast S S <;>
      cases g1 : cfg.HYDROGEN_HAVE_GPU <;> cases g2 : cfg.HYDROGEN_HAVE_CUDA <;>
      simp [List.filter, List.all, CopyCase.moreSpecialized]
  · cases h1 : tr.IsStorageType S Device.CPU <;> cases h3 : tr.IsStorageType U Device.CPU <;>
      cases h5 : tr.CanCast S U <;>
      cases g1 : cfg.HYDROGEN_HAVE_GPU <;> cases g2 : cfg.HYDROGEN_HAVE_CUDA <;>
      simp [List.filter, List.all, CopyCase.moreSpecialized, hSU]

theorem CopyImpl_select_GPU_GPU {α : Type} (cfg : BuildConfig) (tr : TypeTraits α)
    (S U : ElemType) :
    CopyImpl_select cfg tr S Device.GPU U Device.GPU
      = CopyImpl_table cfg tr S Device.GPU U Device.GPU := by
  unfold CopyImpl_select CopyImpl_table
  simp only [CopyCase.all, CopyCase.viable, CopyCase.declared, CopyCase.matchesSignature,
    CopyCase.enablingCondition]
  by_cases hSU : S = U
  · subst hSU
    cases h1 : tr.IsStorageType S Device.CPU <;> cases h2 : tr.IsStorageType S Device.GPU <;>
      cases g1 : cfg.HYDROGEN_HAVE_GPU <;> cases g2 : cfg.HYDROGEN_HAVE_CUDA <;>
      simp [List.filter, List.all, CopyCase.moreSpecialized]
  · cases h1 : tr.IsStorageType S Device.CPU <;> cases h2 : tr.IsStorageType S Device.GPU <;>
      cases h4 : tr.IsStorageType U Device.GPU <;>
      cases g1 : cfg.HYDROGEN_HAVE_GPU <;> cases g2 : cfg.HYDROGEN_HAVE_CUDA <;>
      simp [List.filter, List.all, CopyCase.moreSpecialized, hSU]

theorem CopyImpl_select_CPU_GPU {α : Type} (cfg : BuildConfig) (tr : TypeTraits α)
    (S U : ElemType) :
    CopyImpl_select cfg tr S Device.CPU U Device.GPU
      = CopyImpl_table cfg tr S Device.CPU U Device.GPU := by
  unfold CopyImpl_select CopyImpl_table
  simp only [CopyCase.all, CopyCase.viable, CopyCase.declared, CopyCase.matchesSignature,
    CopyCase.enablingCondition]
  generalize GPUStorageType cfg S = GS
  generalize GPUStorageType cfg U = GU
  by_cases hSU : S = U
  · subst hSU
    by_cases hG : S = GS
    · subst hG
      cases h1 : tr.IsStorageType S Device.CPU <;> cases h2 : tr.IsStorageType S Device.GPU <;>
        cases g1 : cfg.HYDROGEN_HAVE_GPU <;> cases g2 : cfg.HYDROGEN_HAVE_CUDA <;>
        simp [List.filter, List.all, CopyCase.moreSpecialized]
    · cases h1 : tr.IsStorageType S Device.CPU <;> cases h2 : tr.IsStorageType S Device.GPU <;>
        cases g1 : cfg.HYDROGEN_HAVE_GPU <;> cases g2 : cfg.HYDROGEN_HAVE_CUDA <;>
        simp [List.filter, List.all, CopyCase.moreSpecialized, hG]
  · by_cases hG : U = GS
    · subst hG
      cases h1 : tr.IsStorageType S Device.CPU <;> cases h4 : tr.IsStorageType U Device.GPU <;>
        cases g1 : cfg.HYDROGEN_HAVE_GPU <;> cases g2 : cfg.HYDROGEN_HAVE_CUDA <;>
        simp [List.filter, List.all, CopyCase.moreSpecialized, hSU]
    · by_cases hG2 : S = GS
      · subst hG2
        cases h1 : tr.IsStorageType S Device.CPU <;>
          cases h4 : tr.IsStorageType U Device.GPU <;>
          cases g1 : cfg.HYDROGEN_HAVE_GPU <;> cases g2 : cfg.HYDROGEN_HAVE_CUDA <;>
          simp [List.filter, List.all, CopyCase.moreSpecialized, hSU, hG]
      · cases h1 : tr.IsStorageType S Device.CPU <;>
          cases h4 : tr.IsStorageType U Device.GPU <;>
          cases g1 : cfg.HYDROGEN_HAVE_GPU <;> cases g2 : cfg.HYDROGEN_HAVE_CUDA <;>
          simp [List.filter, List.all, CopyCase.moreSpecialized, hSU, hG, hG2]

theorem CopyImpl_select_GPU_CPU {α : Type} (cfg : BuildConfig) (tr : TypeTraits α)
    (S U : ElemType) :
    CopyImpl_select cfg tr S Device.GPU U Device.CPU
      = CopyImpl_table cfg tr S Device.GPU U Device.CPU := by
  unfold CopyImpl_select CopyImpl_table
  simp only [CopyCase.all, CopyCase.viable, CopyCase.declared, CopyCase.matchesSignature,
    CopyCase.enablingCondition]
  generalize GPUStorageType cfg S = GS
  generalize GPUStorageType cfg U = GU
  by_cases hSU : S = U
  · subst hSU
    by_cases hG : S = GU
    · subst hG
      cases h1 : tr.IsStorageType S Device.CPU <;> cases h2 : tr.IsStorageType S Device.GPU <;>
        cases g1 : cfg.HYDROGEN_HAVE_GPU <;> cases g2 : cfg.HYDROGEN_HAVE_CUDA <;>
        simp [List.filter, List.all, CopyCase.moreSpecialized]
    · cases h1 : tr.IsStorageType S Device.CPU <;> cases h2 : tr.IsStorageType S Device.GPU <;>
        cases g1 : cfg.HYDROGEN_HAVE_GPU <;> cases g2 : cfg.HYDROGEN_HAVE_CUDA <;>
        simp [List.filter, List.all, CopyCase.moreSpecialized, hG]
  · by_cases hG : S = GU
    · subst hG
      cases h2 : tr.IsStorageType S Device.GPU <;> cases h3 : tr.IsStorageType U Device.CPU <;>
        cases g1 : cfg.HYDROGEN_HAVE_GPU <;> cases g2 : cfg.HYDROGEN_HAVE_CUDA <;>
        simp [List.filter, List.all, CopyCase.moreSpecialized, hSU, Ne.symm hSU]
    · by_cases hG2 : U = GU
      · subst hG2
        cases h2 : tr.IsStorageType S Device.GPU <;>
          cases h3 : tr.IsStorageType U Device.CPU <;>
          cases g1 : cfg.HYDROGEN_HAVE_GPU <;> cases g2 : cfg.HYDROGEN_HAVE_CUDA <;>
          simp [List.filter, List.all, CopyCase.moreSpecialized, hSU, hG]
      · cases h2 : tr.IsStorageType S Device.GPU <;>
          cases h3 : tr.IsStorageType U Device.CPU <;>
          cases g1 : cfg.HYDROGEN_HAVE_GPU <;> cases g2 : cfg.HYDROGEN_HAVE_CUDA <;>
          simp [List.filter, List.all, CopyCase.moreSpecialized, hSU, hG, hG2]

/-- For every call the overload resolution picks the entry of the dispatch table. -/
theorem CopyImpl_select_eq_table {α : Type} (cfg : BuildConfig) (tr : TypeTraits α)
    (S : ElemType) (D1 : Device) (U : ElemType) (D2 : Device) :
    CopyImpl_select cfg tr S D1 U D2 = CopyImpl_table cfg tr S D1 U D2 := by
  cases D1 <;> cases D2
  · exact CopyImpl_select_CPU_CPU cfg tr S U
  · exact CopyImpl_select_CPU_GPU cfg tr S U
  · exact CopyImpl_select_GPU_CPU cfg tr S U
  · exact CopyImpl_select_GPU_GPU cfg tr S U

/-! ## The bodies of the transfer and casting overloads -/

theorem CopyImpl_cast_spec {α : Type} (f : α → α) (A B : Matrix α) (mem : Int → α) :
    (CopyImpl_cast f A B mem).Height = A.Height ∧
    (CopyImpl_cast f A B mem).Width = A.Width ∧
    (CopyImpl_cast f A B mem).Height ≤ (CopyImpl_cast f A B mem).LDim ∧
    (∀ i j : Int, 0 ≤ i → i < A.Height → 0 ≤ j → j < A.Width →
      (CopyImpl_cast f A B mem).Get i j = f (A.Get i j)) := by
  have hld := (Matrix.Resize_ldim_ge B mem A.height_ A.width_).1
  have hfl : (CopyImpl_cast f A B mem).height_ = A.height_ ∧
      (CopyImpl_cast f A B mem).width_ = A.width_ ∧
      (CopyImpl_cast f A B mem).ldim_ = (B.Resize mem A.height_ A.width_).ldim_ := by
    simp only [CopyImpl_cast, Matrix.Height, Matrix.Width, Matrix.Resize_height,
      Matrix.Resize_width, and_self]
  simp only [Matrix.Height, Matrix.Width, Matrix.LDim]
  refine ⟨hfl.1, hfl.2.1, by rw [hfl.1, hfl.2.2]; exact hld, ?_⟩
  intro i j hi0 hi1 hj0 hj1
  have := forLoop_MemCopy_get (fun k => f (A.data_ k))
    (fun j => j * (B.Resize mem A.height_ A.width_).ldim_) (fun j => j * A.ldim_)
    A.height_ A.width_ (B.Resize mem A.height_ A.width_).data_
    (by
      intro a b ha hab hb
      have := strided_disjoint 0 _ _ A.width_ hld (by omega) a b ha hab hb
      show a * _ + A.height_ ≤ b * _
      omega)
    j i ⟨hj0, hj1⟩ ⟨hi0, hi1⟩
  simp only [Matrix.Get, hfl.2.2]
  rw [add_comm i, add_comm i]
  exact this

theorem CopyImpl_transfer_spec {α : Type} (A B : Matrix α) (mem : Int → α) :
    (CopyImpl_transfer A B mem).Height = A.Height ∧
    (CopyImpl_transfer A B mem).Width = A.Width ∧
    (CopyImpl_transfer A B mem).Height ≤ (CopyImpl_transfer A B mem).LDim ∧
    (∀ i j : Int, 0 ≤ i → i < A.Height → 0 ≤ j → j < A.Width →
      (CopyImpl_transfer A B mem).Get i j = A.Get i j) := by
  have hld := (Matrix.Resize_ldim_ge B mem A.height_ A.width_).1
  have hfl : (CopyImpl_transfer A B mem).height_ = A.height_ ∧
      (CopyImpl_transfer A B mem).width_ = A.width_ ∧
      (CopyImpl_transfer A B mem).ldim_ = (B.Resize mem A.height_ A.width_).ldim_ := by
    simp only [CopyImpl_transfer, Matrix.Height, Matrix.Width, Matrix.Resize_height,
      Matrix.Resize_width, and_self]
  simp only [Matrix.Height, Matrix.Width, Matrix.LDim]
  refine ⟨hfl.1, hfl.2.1, by rw [hfl.1, hfl.2.2]; exact hld, ?_⟩
  intro i j hi0 hi1 hj0 hj1
  have := forLoop_MemCopy_get A.data_
    (fun j => j * (B.Resize mem A.height_ A.width_).ldim_) (fun j => j * A.ldim_)
    A.height_ A.width_ (B.Resize mem A.height_ A.width_).data_
    (by
      intro a b ha hab hb
      have := strided_disjoint 0 _ _ A.width_ hld (by omega) a b ha hab hb
      show a * _ + A.height_ ≤ b * _
      omega)
    j i ⟨hj0, hj1⟩ ⟨hi0, hi1⟩
  simp only [Matrix.Get, hfl.2.2]
  rw [add_comm i, add_comm i]
  exact this

/-! ## C8: the staged copy -/

theorem CompatibleStorageType_CPU (cfg : BuildConfig) (T : ElemType) :
    CompatibleStorageType cfg T Device.CPU = T := by
  simp [CompatibleStorageType]

/-- When the staged case 5 is the selected overload, the first inner call is a transfer
overload whenever the temporary's type is a storage type on the destination device, and
case 0 otherwise; the second inner call has source and target on one device. -/
theorem staged_inner_calls {α : Type} (cfg : BuildConfig) (tr : TypeTraits α)
    (T : ElemType) (D1 : Device) (U : ElemType) (D2 : Device)
    (hsel : CopyImpl_select cfg tr T D1 U D2 = some CopyCase.case5)
    (hgpu : cfg.HYDROGEN_HAVE_GPU = true) :
    D1 ≠ D2 ∧ tr.IsStorageType T D1 = true ∧ tr.IsStorageType U D2 = true ∧
    CompatibleStorageType cfg T D2 ≠ U ∧
    (tr.IsStorageType (CompatibleStorageType cfg T D2) D2 = true →
      CopyImpl_select cfg tr T D1 (CompatibleStorageType cfg T D2) D2
          = some CopyCase.case2_CPU_GPU ∨
      CopyImpl_select cfg tr T D1 (CompatibleStorageType cfg T D2) D2
          = some CopyCase.case2_GPU_CPU ∨
      CopyImpl_select cfg tr T D1 (CompatibleStorageType cfg T D2) D2
          = some CopyCase.case3_CPU_GPU) ∧
    (tr.IsStorageType (CompatibleStorageType cfg T D2) D2 = false →
      CopyImpl_select cfg tr T D1 (CompatibleStorageType cfg T D2) D2
          = some CopyCase.case0 ∨
      (CopyImpl_select cfg tr T D1 (CompatibleStorageType cfg T D2) D2
          = some CopyCase.case3_CPU_GPU ∧
       CopyImpl_select cfg tr (CompatibleStorageType cfg T D2) D2 U D2
          = some CopyCase.case0)) ∧
    (tr.IsStorageType (CompatibleStorageType cfg T D2) D2 = true →
      (D2 = Device.CPU → tr.CanCast (CompatibleStorageType cfg T D2) U = true) →
      CopyImpl_select cfg tr (CompatibleStorageType cfg T D2) D2 U D2
          = some CopyCase.case4_CPU ∨
      CopyImpl_select cfg tr (CompatibleStorageType cfg T D2) D2 U D2
          = some CopyCase.case4_GPU) := by
  rw [CopyImpl_select_eq_table] at hsel
  simp only [CopyImpl_select_eq_table]
  cases D1 <;> cases D2
  · -- CPU to CPU: never staged
    exfalso
    simp only [CopyImpl_table] at hsel
    split_ifs at hsel <;> simp at hsel
  · -- CPU to GPU
    simp only [CopyImpl_table, GPUStorageType, hgpu, true_and] at hsel ⊢
    generalize CompatibleStorageType cfg T Device.GPU = T' at *
    generalize CompatibleStorageType cfg T' Device.GPU = T'' at *
    by_cases hTU : T = U
    · subst hTU
      cases h1 : tr.IsStorageType T Device.CPU <;> cases h2 : tr.IsStorageType T Device.GPU <;>
        by_cases hT' : T = T' <;> simp_all
    · by_cases hT' : U = T'
      · subst hT'
        cases h1 : tr.IsStorageType T Device.CPU <;>
          cases h2 : tr.IsStorageType U Device.GPU <;> simp_all
      · by_cases hT2 : T = T'
        · subst hT2
          cases h1 : tr.IsStorageType T Device.CPU <;>
            cases h2 : tr.IsStorageType U Device.GPU <;>
            cases h3 : tr.IsStorageType T Device.GPU <;>
            cases g2 : cfg.HYDROGEN_HAVE_CUDA <;> simp_all
        · cases h1 : tr.IsStorageType T Device.CPU <;>
            cases h2 : tr.IsStorageType U Device.GPU <;>
            cases h3 : tr.IsStorageType T' Device.GPU <;>
            cases h4 : tr.IsStorageType T' Device.CPU <;>
            cases g2 : cfg.HYDROGEN_HAVE_CUDA <;> simp_all [Ne.symm hT']
  · -- GPU to CPU
    simp only [CopyImpl_table, GPUStorageType, hgpu, true_and, CompatibleStorageType_CPU]
      at hsel ⊢
    generalize CompatibleStorageType cfg U Device.GPU = U' at *
    by_cases hTU : T = U
    · subst hTU
      cases h1 : tr.IsStorageType T Device.CPU <;> cases h2 : tr.IsStorageType T Device.GPU <;>
        by_cases hT' : T = U' <;> simp_all
    · by_cases hT' : T = U'
      · subst hT'
        cases h1 : tr.IsStorageType T Device.GPU <;>
          cases h2 : tr.IsStorageType U Device.CPU <;>
          cases h3 : tr.IsStorageType T Device.CPU <;>
          cases h5 : tr.CanCast T U <;>
          by_cases hU' : U = T <;> simp_all
      · cases h1 : tr.IsStorageType T Device.GPU <;>
          cases h2 : tr.IsStorageType U Device.CPU <;>
          cases h3 : tr.IsStorageType T Device.CPU <;>
          cases h5 : tr.CanCast T U <;> simp_all
  · -- GPU to GPU: never staged
    exfalso
    simp only [CopyImpl_table] at hsel
    split_ifs at hsel <;> simp at hsel

theorem select_same_device_ne_case5 {α : Type} (cfg : BuildConfig) (tr : TypeTraits α)
    (S U : ElemType) (D : Device) :
    CopyImpl_select cfg tr S D U D ≠ some CopyCase.case5 := by
  rw [CopyImpl_select_eq_table]
  cases D <;> simp only [CopyImpl_table] <;> split_ifs <;> simp

/-- The staged copy raises the `LogicError` of case 0 when the type of its temporary is not a
storage type on the destination device. -/
theorem CopyImpl_staged_unsupported {α : Type} (cfg : BuildConfig) (tr : TypeTraits α)
    (mem : Int → α) (T : ElemType) (D1 : Device) (U : ElemType) (D2 : Device)
    (src tgt : Matrix α)
    (hsel : CopyImpl_select cfg tr T D1 U D2 = some CopyCase.case5)
    (hgpu : cfg.HYDROGEN_HAVE_GPU = true)
    (hst : tr.IsStorageType (CompatibleStorageType cfg T D2) D2 = false) (n : Nat) :
    CopyImpl cfg tr mem (n + 2) T D1 U D2 src tgt
      = CallResult.logicError "Cannot dispatch Copy." := by
  obtain ⟨-, -, -, -, -, hneg, -⟩ := staged_inner_calls cfg tr T D1 U D2 hsel hgpu
  rcases hneg hst with h | ⟨h, h'⟩
  · have h1 : CopyImpl cfg tr mem (n + 1) T D1 (CompatibleStorageType cfg T D2) D2 src
        (Matrix.empty mem) = CallResult.logicError "Cannot dispatch Copy." := by
      rw [CopyImpl]; simp only [h]
    rw [CopyImpl]; simp only [hsel, h1]
  · have h1 : CopyImpl cfg tr mem (n + 1) T D1 (CompatibleStorageType cfg T D2) D2 src
        (Matrix.empty mem)
        = CallResult.returned (CopyImpl_transfer src (Matrix.empty mem) mem) := by
      rw [CopyImpl]; simp only [h]
    have h2 : CopyImpl cfg tr mem (n + 1) (CompatibleStorageType cfg T D2) D2 U D2
        (CopyImpl_transfer src (Matrix.empty mem) mem) tgt
        = CallResult.logicError "Cannot dispatch Copy." := by
      rw [CopyImpl]; simp only [h']
    rw [CopyImpl]; simp only [hsel, h1, h2]

/-- With less than two levels of `CopyImpl` the staged copy does not finish. -/
theorem CopyImpl_staged_fuel {α : Type} (cfg : BuildConfig) (tr : TypeTraits α)
    (mem : Int → α) (T : ElemType) (D1 : Device) (U : ElemType) (D2 : Device)
    (src tgt : Matrix α)
    (hsel : CopyImpl_select cfg tr T D1 U D2 = some CopyCase.case5) :
    CopyImpl cfg tr mem 0 T D1 U D2 src tgt = CallResult.outOfFuel ∧
    CopyImpl cfg tr mem 1 T D1 U D2 src tgt = CallResult.outOfFuel := by
  constructor
  · rfl
  · rw [CopyImpl]; simp only [hsel]; rfl

/-- C8: when the staged case 5 is the overload selected for `Copy(src, tgt)` with
`src : Matrix<T,D1>` and `tgt : Matrix<U,D2>` (GPU support compiled in), neither inner
`CopyImpl` call selects case 5 again.  If `T' = CompatibleStorageType<T,D2>` is a storage type
on `D2` (and, for `D2 = CPU`, `CanCast<T',U>` holds), the call needs exactly two levels of
`CopyImpl` and equals the transfer of `src` into a temporary on `D2` followed by the casting
copy into `tgt`: `tgt` has the extents of `src` and `tgt(i,j) = Cast<T',U>(src(i,j))`.  If
`T'` is not a storage type on `D2`, the call raises the `LogicError` of case 0. -/
theorem C8_staged_copy {α : Type} (cfg : BuildConfig) (tr : TypeTraits α) (mem : Int → α)
    (T : ElemType) (D1 : Device) (U : ElemType) (D2 : Device) (src tgt : Matrix α)
    (hsel : CopyImpl_select cfg tr T D1 U D2 = some CopyCase.case5)
    (hgpu : cfg.HYDROGEN_HAVE_GPU = true) :
    CopyImpl_select cfg tr T D1 (CompatibleStorageType cfg T D2) D2 ≠ some CopyCase.case5 ∧
    CopyImpl_select cfg tr (CompatibleStorageType cfg T D2) D2 U D2 ≠ some CopyCase.case5 ∧
    (tr.IsStorageType (CompatibleStorageType cfg T D2) D2 = true →
      (D2 = Device.CPU → tr.CanCast (CompatibleStorageType cfg T D2) U = true) →
      CopyImpl cfg tr mem 1 T D1 U D2 src tgt = CallResult.outOfFuel ∧
      ∀ n : Nat, ∃ B : Matrix α,
        CopyImpl cfg tr mem (n + 2) T D1 U D2 src tgt = CallResult.returned B ∧
        B = CopyImpl_cast (tr.Cast (CompatibleStorageType cfg T D2) U)
              (CopyImpl_transfer src (Matrix.empty mem) mem) tgt mem ∧
        B.Height = src.Height ∧ B.Width = src.Width ∧
        (∀ i j : Int, 0 ≤ i → i < src.Height → 0 ≤ j → j < src.Width →
          B.Get i j = tr.Cast (CompatibleStorageType cfg T D2) U (src.Get i j))) ∧
    (tr.IsStorageType (CompatibleStorageType cfg T D2) D2 = false →
      ∀ n : Nat, CopyImpl cfg tr mem (n + 2) T D1 U D2 src tgt
        = CallResult.logicError "Cannot dispatch Copy.") := by
  obtain ⟨-, -, -, -, hpos, hneg, hcast⟩ := staged_inner_calls cfg tr T D1 U D2 hsel hgpu
  refine ⟨?_, select_same_device_ne_case5 cfg tr _ U D2, ?_, ?_⟩
  · cases hst : tr.IsStorageType (CompatibleStorageType cfg T D2) D2
    · rcases hneg hst with h | ⟨h, -⟩ <;> rw [h] <;> simp
    · rcases hpos hst with h | h | h <;> rw [h] <;> simp
  · intro hst hcc
    have htr := CopyImpl_transfer_spec src (Matrix.empty mem) mem
    have hcs := CopyImpl_cast_spec (tr.Cast (CompatibleStorageType cfg T D2) U)
      (CopyImpl_transfer src (Matrix.empty mem) mem) tgt mem
    constructor
    · exact (CopyImpl_staged_fuel cfg tr mem T D1 U D2 src tgt hsel).2
    · intro n
      have h1 : CopyImpl cfg tr mem (n + 1) T D1 (CompatibleStorageType cfg T D2) D2 src
          (Matrix.empty mem) = CallResult.returned (CopyImpl_transfer src (Matrix.empty mem) mem) := by
        rw [CopyImpl]
        rcases hpos hst with h | h | h <;> simp only [h]
      have h2 : CopyImpl cfg tr mem (n + 1) (CompatibleStorageType cfg T D2) D2 U D2
          (CopyImpl_transfer src (Matrix.empty mem) mem) tgt
          = CallResult.returned (CopyImpl_cast (tr.Cast (CompatibleStorageType cfg T D2) U)
              (CopyImpl_transfer src (Matrix.empty mem) mem) tgt mem) := by
        rw [CopyImpl]
        rcases hcast hst hcc with h | h <;> simp only [h]
      refine ⟨_, ?_, rfl, ?_, ?_, ?_⟩
      · rw [CopyImpl]; simp only [hsel, h1, h2]
      · rw [hcs.1, htr.1]
      · rw [hcs.2.1, htr.2.1]
      · intro i j hi0 hi1 hj0 hj1
        rw [hcs.2.2.2 i j hi0 (by rw [htr.1]; exact hi1) hj0 (by rw [htr.2.1]; exact hj1),
          htr.2.2.2 i j hi0 hi1 hj0 hj1]
  · intro hst n
    exact CopyImpl_staged_unsupported cfg tr mem T D1 U D2 src tgt hsel hgpu hst n

/-! ## C9: the enabling conditions of the overload set -/

theorem forall_CopyCase (P : CopyCase → Prop) :
    (∀ k, P k) ↔ P CopyCase.case1_CPU ∧ P CopyCase.case4_CPU ∧ P CopyCase.case4_GPU ∧
      P CopyCase.case1_GPU ∧ P CopyCase.case2_CPU_GPU ∧ P CopyCase.case2_GPU_CPU ∧
      P CopyCase.case3_CPU_GPU ∧ P CopyCase.case3_GPU_CPU ∧ P CopyCase.case5 ∧
      P CopyCase.case0 := by
  constructor
  · intro h
    exact ⟨h _, h _, h _, h _, h _, h _, h _, h _, h _, h _⟩
  · rintro ⟨h1, h2, h3, h4, h5, h6, h7, h8, h9, h10⟩ k
    cases k <;> assumption

theorem CopyCase.mem_all (k : CopyCase) : k ∈ CopyCase.all := by
  cases k <;> simp [CopyCase.all]

/-- The selected overload is viable and more specialized than every other viable one. -/
theorem CopyImpl_select_some {α : Type} (cfg : BuildConfig) (tr : TypeTraits α)
    (S : ElemType) (D1 : Device) (U : ElemType) (D2 : Device) (k : CopyCase)
    (h : CopyImpl_select cfg tr S D1 U D2 = some k) :
    k.viable cfg tr S D1 U D2 = true ∧
    ∀ k' : CopyCase, k'.viable cfg tr S D1 U D2 = true →
      k' = k ∨ k.moreSpecialized k' = true := by
  unfold CopyImpl_select at h
  simp only [] at h
  split at h
  · rename_i k0 hl
    have hk : k0 = k := by simpa using h
    subst hk
    have hmem : k0 ∈ List.filter
        (fun k => (List.filter (fun k => k.viable cfg tr S D1 U D2) CopyCase.all).all
          (fun k' => k' = k || k.moreSpecialized k'))
        (List.filter (fun k => k.viable cfg tr S D1 U D2) CopyCase.all) := by
      rw [hl]; simp
    rw [List.mem_filter] at hmem
    obtain ⟨hv, hall⟩ := hmem
    rw [List.mem_filter] at hv
    refine ⟨hv.2, ?_⟩
    intro k' hk'
    rw [List.all_eq_true] at hall
    have := hall k' (by rw [List.mem_filter]; exact ⟨CopyCase.mem_all k', hk'⟩)
    simpa using this
  · simp at h

/-- The combinations for which no overload is viable. -/
theorem no_viable_iff {α : Type} (cfg : BuildConfig) (tr : TypeTraits α)
    (S : ElemType) (D1 : Device) (U : ElemType) (D2 : Device) :
    (∀ k : CopyCase, k.viable cfg tr S D1 U D2 = false) ↔
      (D1 = Device.CPU ∧ D2 = Device.CPU ∧ S ≠ U ∧ tr.IsStorageType S Device.CPU = true ∧
        tr.IsStorageType U Device.CPU = true ∧ tr.CanCast S U = false) ∨
      (D1 = Device.GPU ∧ D2 = Device.GPU ∧ cfg.HYDROGEN_HAVE_GPU = false ∧
        tr.IsStorageType S Device.GPU = true ∧ tr.IsStorageType U Device.GPU = true) := by
  rw [forall_CopyCase]
  simp only [CopyCase.viable, CopyCase.declared, CopyCase.matchesSignature,
    CopyCase.enablingCondition]
  cases D1 <;> cases D2
  · by_cases hSU : S = U
    · subst hSU
      cases h1 : tr.IsStorageType S Device.CPU <;> cases h5 : tr.CanCast S S <;> simp
    · cases h1 : tr.IsStorageType S Device.CPU <;> cases h3 : tr.IsStorageType U Device.CPU <;>
        cases h5 : tr.CanCast S U <;> simp [hSU]
  · cases h1 : tr.IsStorageType S Device.CPU <;> cases h4 : tr.IsStorageType U Device.GPU <;>
      simp
  · cases h1 : tr.IsStorageType S Device.GPU <;> cases h4 : tr.IsStorageType U Device.CPU <;>
      simp
  · cases h2 : tr.IsStorageType S Device.GPU <;> cases h4 : tr.IsStorageType U Device.GPU <;>
      cases g1 : cfg.HYDROGEN_HAVE_GPU <;> simp

theorem CopyImpl_table_none_iff {α : Type} (cfg : BuildConfig) (tr : TypeTraits α)
    (S : ElemType) (D1 : Device) (U : ElemType) (D2 : Device) :
    CopyImpl_table cfg tr S D1 U D2 = none ↔
      (D1 = Device.CPU ∧ D2 = Device.CPU ∧ S ≠ U ∧ tr.IsStorageType S Device.CPU = true ∧
        tr.IsStorageType U Device.CPU = true ∧ tr.CanCast S U = false) ∨
      (D1 = Device.GPU ∧ D2 = Device.GPU ∧ cfg.HYDROGEN_HAVE_GPU = false ∧
        tr.IsStorageType S Device.GPU = true ∧ tr.IsStorageType U Device.GPU = true) := by
  cases D1 <;> cases D2 <;> simp only [CopyImpl_table]
  · by_cases hSU : S = U
    · subst hSU
      cases h1 : tr.IsStorageType S Device.CPU <;> cases h5 : tr.CanCast S S <;> simp
    · cases h1 : tr.IsStorageType S Device.CPU <;> cases h3 : tr.IsStorageType U Device.CPU <;>
        cases h5 : tr.CanCast S U <;> simp [hSU]
  · split_ifs <;> simp
  · split_ifs <;> simp
  · by_cases hSU : S = U
    · subst hSU
      cases h1 : tr.IsStorageType S Device.CPU <;> cases h2 : tr.IsStorageType S Device.GPU <;>
        cases g1 : cfg.HYDROGEN_HAVE_GPU <;> cases g2 : cfg.HYDROGEN_HAVE_CUDA <;> simp
    · cases h2 : tr.IsStorageType S Device.GPU <;> cases h4 : tr.IsStorageType U Device.GPU <;>
        cases g1 : cfg.HYDROGEN_HAVE_GPU <;> simp [hSU]

theorem C8_staged_copy_witness :
    ∃ B : Matrix Int,
      CopyImpl sampleConfig sampleTraits sampleMem 2 ElemType.double Device.CPU
        ElemType.float Device.GPU sampleSrc sampleLocal = CallResult.returned B ∧
      B.Height = sampleSrc.Height ∧ B.Width = sampleSrc.Width ∧
      B.Get 1 1 = sampleTraits.Cast ElemType.double ElemType.float (sampleSrc.Get 1 1) := by
  obtain ⟨B, h1, -, h3, h4, h5⟩ :=
    ((C8_staged_copy sampleConfig sampleTraits sampleMem ElemType.double Device.CPU
      ElemType.float Device.GPU sampleSrc sampleLocal (by decide) (by decide)).2.2.1
      (by decide) (by decide)).2 0
  exact ⟨B, h1, h3, h4, h5 1 1 (by decide) (by decide) (by decide) (by decide)⟩

/-- The staged copy of an `int` matrix on the CPU into a `float` matrix on the GPU, `int`
being stored on the CPU only: case 5 is selected, both types are storage types on their
devices, and the call never returns a destination. -/
theorem C8_staged_copy_counterexample :
    CopyImpl_select sampleConfig sampleTraits ElemType.int Device.CPU ElemType.float
      Device.GPU = some CopyCase.case5 ∧
    sampleTraits.IsStorageType ElemType.int Device.CPU = true ∧
    sampleTraits.IsStorageType ElemType.float Device.GPU = true ∧
    ¬ ∃ (fuel : Nat) (B : Matrix Int),
      CopyImpl sampleConfig sampleTraits sampleMem fuel ElemType.int Device.CPU
        ElemType.float Device.GPU sampleSrc sampleLocal = CallResult.returned B := by
  have hsel : CopyImpl_select sampleConfig sampleTraits ElemType.int Device.CPU
      ElemType.float Device.GPU = some CopyCase.case5 := by decide
  refine ⟨hsel, by decide, by decide, ?_⟩
  rintro ⟨fuel, B, h⟩
  match fuel, h with
  | 0, h =>
    rw [(CopyImpl_staged_fuel _ _ _ _ _ _ _ _ _ hsel).1] at h
    cases h
  | 1, h =>
    rw [(CopyImpl_staged_fuel _ _ _ _ _ _ _ _ _ hsel).2] at h
    cases h
  | n + 2, h =>
    rw [CopyImpl_staged_unsupported _ _ _ _ _ _ _ _ _ hsel (by decide) (by decide) n] at h
    cases h

/-- C9 (amended): for every combination `(S, D1, U, D2)` the overload that runs is the most
specialized overload whose enabling condition holds: it is viable and more specialized than
every other viable overload, and one is selected whenever some overload is viable.  No
overload is viable exactly for two different CPU storage types without `CanCast`, and for
two GPU storage types in a build without GPU support.  The condition of case 0 excludes
those of cases 1 (CPU), 2, 4 and 5, while the conditions of case 2 imply that of case 5 and
the condition of case 1 (CPU) with `CanCast` implies that of case 4 (CPU). -/
theorem C9_dispatch_selection {α : Type} (cfg : BuildConfig) (tr : TypeTraits α)
    (S : ElemType) (D1 : Device) (U : ElemType) (D2 : Device) :
    (∀ k : CopyCase, CopyImpl_select cfg tr S D1 U D2 = some k →
      k.viable cfg tr S D1 U D2 = true ∧
      ∀ k' : CopyCase, k'.viable cfg tr S D1 U D2 = true →
        k' = k ∨ k.moreSpecialized k' = true) ∧
    ((∃ k : CopyCase, k.viable cfg tr S D1 U D2 = true) →
      ∃ k : CopyCase, CopyImpl_select cfg tr S D1 U D2 = some k) ∧
    ((∀ k : CopyCase, k.viable cfg tr S D1 U D2 = false) ↔
      (D1 = Device.CPU ∧ D2 = Device.CPU ∧ S ≠ U ∧ tr.IsStorageType S Device.CPU = true ∧
        tr.IsStorageType U Device.CPU = true ∧ tr.CanCast S U = false) ∨
      (D1 = Device.GPU ∧ D2 = Device.GPU ∧ cfg.HYDROGEN_HAVE_GPU = false ∧
        tr.IsStorageType S Device.GPU = true ∧ tr.IsStorageType U Device.GPU = true)) ∧
    (CopyCase.case0.viable cfg tr S D1 U D2 = true →
      CopyCase.case1_CPU.viable cfg tr S D1 U D2 = false ∧
      CopyCase.case4_CPU.viable cfg tr S D1 U D2 = false ∧
      CopyCase.case4_GPU.viable cfg tr S D1 U D2 = false ∧
      CopyCase.case2_CPU_GPU.viable cfg tr S D1 U D2 = false ∧
      CopyCase.case2_GPU_CPU.viable cfg tr S D1 U D2 = false ∧
      CopyCase.case5.viable cfg tr S D1 U D2 = false) ∧
    (CopyCase.case2_CPU_GPU.viable cfg tr S D1 U D2 = true →
      CopyCase.case5.viable cfg tr S D1 U D2 = true) ∧
    (CopyCase.case2_GPU_CPU.viable cfg tr S D1 U D2 = true →
      CopyCase.case5.viable cfg tr S D1 U D2 = true) ∧
    (CopyCase.case1_CPU.viable cfg tr S D1 U D2 = true → tr.CanCast S U = true →
      CopyCase.case4_CPU.viable cfg tr S D1 U D2 = true) := by
  refine ⟨fun k h => CopyImpl_select_some cfg tr S D1 U D2 k h, ?_,
    no_viable_iff cfg tr S D1 U D2, ?_, ?_, ?_, ?_⟩
  · rintro ⟨k, hk⟩
    cases hsel : CopyImpl_select cfg tr S D1 U D2 with
    | some k' => exact ⟨k', rfl⟩
    | none =>
      exfalso
      rw [CopyImpl_select_eq_table, CopyImpl_table_none_iff, ← no_viable_iff] at hsel
      rw [hsel k] at hk
      cases hk
  · simp only [CopyCase.viable, CopyCase.declared, CopyCase.matchesSignature,
      CopyCase.enablingCondition]
    by_cases hSU : S = U
    · subst hSU
      cases D1 <;> cases D2 <;>
        cases tr.IsStorageType S Device.CPU <;> cases tr.IsStorageType S Device.GPU <;> simp
    · cases D1 <;> cases D2 <;>
        cases tr.IsStorageType S Device.CPU <;> cases tr.IsStorageType S Device.GPU <;>
        cases tr.IsStorageType U Device.CPU <;> cases tr.IsStorageType U Device.GPU <;>
        simp [hSU]
  · simp only [CopyCase.viable, CopyCase.declared, CopyCase.matchesSignature,
      CopyCase.enablingCondition]
    cases D1 <;> cases D2 <;> by_cases hSU : S = U <;>
      cases h1 : tr.IsStorageType S Device.CPU <;>
      cases h2 : tr.IsStorageType S Device.GPU <;> simp_all
  · simp only [CopyCase.viable, CopyCase.declared, CopyCase.matchesSignature,
      CopyCase.enablingCondition]
    cases D1 <;> cases D2 <;> by_cases hSU : S = U <;>
      cases h1 : tr.IsStorageType S Device.CPU <;>
      cases h2 : tr.IsStorageType S Device.GPU <;> simp_all
  · simp only [CopyCase.viable, CopyCase.declared, CopyCase.matchesSignature,
      CopyCase.enablingCondition]
    cases D1 <;> cases D2 <;> by_cases hSU : S = U <;>
      cases h1 : tr.IsStorageType S Device.CPU <;> simp_all

/-- For a `float` matrix copied from the CPU to the GPU, `float` being a storage type on both
devices, the enabling conditions of case 2 and of case 5 both hold: the viable overload is
not unique. -/
theorem C9_dispatch_counterexample :
    ¬ ∃! k : CopyCase, k.viable sampleConfig sampleTraits ElemType.float Device.CPU
      ElemType.float Device.GPU = true := by
  rintro ⟨k, -, huniq⟩
  have h2 := huniq CopyCase.case2_CPU_GPU (by decide)
  have h5 := huniq CopyCase.case5 (by decide)
  rw [← h5] at h2
  cases h2

/-! ## C10: unsupported type and device combinations -/

/-- A call of `CopyImpl` that raises `LogicError` selected case 0 or the staged case 5. -/
theorem CopyImpl_logicError_select {α : Type} (cfg : BuildConfig) (tr : TypeTraits α)
    (mem : Int → α) (fuel : Nat) (S : ElemType) (D1 : Device) (U : ElemType) (D2 : Device)
    (src tgt : Matrix α) (msg : String)
    (h : CopyImpl cfg tr mem fuel S D1 U D2 src tgt = CallResult.logicError msg) :
    CopyImpl_select cfg tr S D1 U D2 = some CopyCase.case0 ∨
    CopyImpl_select cfg tr S D1 U D2 = some CopyCase.case5 := by
  cases fuel with
  | zero => rw [CopyImpl] at h; cases h
  | succ n =>
    rw [CopyImpl] at h
    cases hsel : CopyImpl_select cfg tr S D1 U D2 with
    | none => rw [hsel] at h; cases h
    | some k =>
      cases k <;> first
        | (left; rfl)
        | (right; rfl)
        | (rw [hsel] at h; cases h)

/-- Case 0 is not selected when both types are storage types on their devices. -/
theorem select_ne_case0_of_storage {α : Type} (cfg : BuildConfig) (tr : TypeTraits α)
    (S : ElemType) (D1 : Device) (U : ElemType) (D2 : Device)
    (hS : tr.IsStorageType S D1 = true) (hU : tr.IsStorageType U D2 = true) :
    CopyImpl_select cfg tr S D1 U D2 ≠ some CopyCase.case0 := by
  intro h
  have := (CopyImpl_select_some cfg tr S D1 U D2 _ h).1
  simp [CopyCase.viable, CopyCase.declared, CopyCase.matchesSignature,
    CopyCase.enablingCondition, hS, hU] at this

/-- Case 0 is selected when a type is not a storage type on its device, unless the call
matches the signature of the same-type GPU copy or of a compatible-type transfer. -/
theorem select_case0_of_not_storage {α : Type} (cfg : BuildConfig) (tr : TypeTraits α)
    (S : ElemType) (D1 : Device) (U : ElemType) (D2 : Device)
    (hns : tr.IsStorageType S D1 = false ∨ tr.IsStorageType U D2 = false)
    (h1 : ¬ (D1 = Device.GPU ∧ D2 = Device.GPU ∧ S = U))
    (h3 : ¬ (D1 = Device.CPU ∧ D2 = Device.GPU ∧ U = GPUStorageType cfg S ∧
      S ≠ GPUStorageType cfg S))
    (h3' : ¬ (D1 = Device.GPU ∧ D2 = Device.CPU ∧ S = GPUStorageType cfg U ∧
      U ≠ GPUStorageType cfg U)) :
    CopyImpl_select cfg tr S D1 U D2 = some CopyCase.case0 := by
  rw [CopyImpl_select_eq_table]
  have hns' : ¬ (tr.IsStorageType S D1 = true ∧ tr.IsStorageType U D2 = true) := by
    rintro ⟨hs, hu⟩
    rcases hns with h | h
    · rw [hs] at h; cases h
    · rw [hu] at h; cases h
  cases D1 <;> cases D2 <;> simp only [CopyImpl_table]
  · rw [if_neg, if_neg, if_neg hns']
    · rintro ⟨_, hs, hu⟩; exact hns' ⟨hs, hu⟩
    · rintro ⟨hSU, hs⟩; subst hSU; exact hns' ⟨hs, hs⟩
  · rw [if_neg, if_neg, if_neg hns']
    · rintro ⟨_, hU, _, hne⟩; exact h3 ⟨rfl, rfl, hU, hne⟩
    · rintro ⟨_, hSU, hs, hg⟩; subst hSU; exact hns' ⟨hs, hg⟩
  · rw [if_neg, if_neg, if_neg hns']
    · rintro ⟨_, hU, _, hne⟩; exact h3' ⟨rfl, rfl, hU, hne⟩
    · rintro ⟨_, hSU, hs, hg⟩; subst hSU; exact hns' ⟨hs, hg⟩
  · rw [if_neg, if_neg hns']
    · rintro ⟨_, _, hSU, _⟩; exact h1 ⟨rfl, rfl, hSU⟩

/-- The run-time dispatch of `Copy(AbstractMatrix, AbstractMatrix)` raises `LogicError`
before any copy runs when a type is not a storage type on its device. -/
theorem Copy_AbstractMatrix_not_storage {α : Type} (cfg : BuildConfig) (tr : TypeTraits α)
    (mem : Int → α) (fuel : Nat) (S : ElemType) (D1 : Device) (U : ElemType) (D2 : Device)
    (src tgt : Matrix α)
    (hns : tr.IsStorageType S D1 = false ∨ tr.IsStorageType U D2 = false) :
    Copy_AbstractMatrix cfg tr mem fuel S D1 U D2 src tgt
        = CallResult.logicError "The combination is not supported." ∨
    Copy_AbstractMatrix cfg tr mem fuel S D1 U D2 src tgt
        = CallResult.logicError "Copy: Bad device." := by
  unfold Copy_AbstractMatrix LaunchCopy_AbstractMatrix LaunchCopy_Matrix
  cases hU : tr.IsStorageType U D2 <;> cases hS : tr.IsStorageType S D1
  · cases D1 <;> cases D2 <;> cases g : cfg.HYDROGEN_HAVE_GPU <;> simp_all
  · cases D1 <;> cases D2 <;> cases g : cfg.HYDROGEN_HAVE_GPU <;> simp_all
  · cases D1 <;> cases D2 <;> cases g : cfg.HYDROGEN_HAVE_GPU <;> simp_all
  · rw [hU, hS] at hns; simp at hns

/-- The run-time dispatch reaches `CopyImpl` when both types are storage types on their
devices. -/
theorem Copy_AbstractMatrix_storage {α : Type} (cfg : BuildConfig) (tr : TypeTraits α)
    (mem : Int → α) (fuel : Nat) (S : ElemType) (D1 : Device) (U : ElemType) (D2 : Device)
    (src tgt : Matrix α) (hgpu : cfg.HYDROGEN_HAVE_GPU = true)
    (hS : tr.IsStorageType S D1 = true) (hU : tr.IsStorageType U D2 = true) :
    Copy_AbstractMatrix cfg tr mem fuel S D1 U D2 src tgt
      = CopyImpl cfg tr mem fuel S D1 U D2 src tgt := by
  unfold Copy_AbstractMatrix LaunchCopy_AbstractMatrix LaunchCopy_Matrix Copy
  cases D1 <;> cases D2 <;> simp_all

/-- The run-time dispatch leaves the destination as it was when a type is not a storage type
on its device. -/
theorem Copy_AbstractMatrix_target_not_storage {α : Type} (cfg : BuildConfig)
    (tr : TypeTraits α) (mem : Int → α) (fuel : Nat) (S : ElemType) (D1 : Device)
    (U : ElemType) (D2 : Device) (src tgt : Matrix α)
    (hns : tr.IsStorageType S D1 = false ∨ tr.IsStorageType U D2 = false) :
    Copy_AbstractMatrix_target cfg tr mem fuel S D1 U D2 src tgt = tgt := by
  unfold Copy_AbstractMatrix_target LaunchCopy_AbstractMatrix_target LaunchCopy_Matrix_target
  cases hU : tr.IsStorageType U D2 <;> cases hS : tr.IsStorageType S D1
  · cases D1 <;> cases D2 <;> cases g : cfg.HYDROGEN_HAVE_GPU <;> simp_all
  · cases D1 <;> cases D2 <;> cases g : cfg.HYDROGEN_HAVE_GPU <;> simp_all
  · cases D1 <;> cases D2 <;> cases g : cfg.HYDROGEN_HAVE_GPU <;> simp_all
  · rw [hU, hS] at hns; simp at hns

/-- The destination after the run-time dispatch is the destination after `CopyImpl` when both
types are storage types on their devices. -/
theorem Copy_AbstractMatrix_target_storage {α : Type} (cfg : BuildConfig) (tr : TypeTraits α)
    (mem : Int → α) (fuel : Nat) (S : ElemType) (D1 : Device) (U : ElemType) (D2 : Device)
    (src tgt : Matrix α) (hgpu : cfg.HYDROGEN_HAVE_GPU = true)
    (hS : tr.IsStorageType S D1 = true) (hU : tr.IsStorageType U D2 = true) :
    Copy_AbstractMatrix_target cfg tr mem fuel S D1 U D2 src tgt
      = CopyImpl_target cfg tr mem fuel S D1 U D2 src tgt := by
  unfold Copy_AbstractMatrix_target LaunchCopy_AbstractMatrix_target LaunchCopy_Matrix_target
  cases D1 <;> cases D2 <;> simp_all

/-- A call of `CopyImpl` that raises `LogicError` leaves the destination as it was, and the
message is that of case 0. -/
theorem CopyImpl_target_of_logicError {α : Type} (cfg : BuildConfig) (tr : TypeTraits α)
    (mem : Int → α) (fuel : Nat) :
    ∀ (S : ElemType) (D1 : Device) (U : ElemType) (D2 : Device) (src tgt : Matrix α)
      (msg : String),
      CopyImpl cfg tr mem fuel S D1 U D2 src tgt = CallResult.logicError msg →
      CopyImpl_target cfg tr mem fuel S D1 U D2 src tgt = tgt ∧
      msg = "Cannot dispatch Copy." := by
  induction fuel with
  | zero => intro S D1 U D2 src tgt msg h; rw [CopyImpl] at h; cases h
  | succ n ih =>
    intro S D1 U D2 src tgt msg h
    rw [CopyImpl] at h
    rw [CopyImpl_target]
    cases hsel : CopyImpl_select cfg tr S D1 U D2 with
    | none => rw [hsel] at h; cases h
    | some k =>
      rw [hsel] at h
      cases k with
      | case5 =>
        simp only [] at h ⊢
        cases h1 : CopyImpl cfg tr mem n S D1 (CompatibleStorageType cfg S D2) D2 src
            (Matrix.empty mem) with
        | returned tmp =>
          rw [h1] at h
          simp only [] at h ⊢
          exact ih _ _ _ _ _ _ _ h
        | logicError m =>
          rw [h1] at h
          simp only [] at h ⊢
          have hm : m = msg := by cases h; rfl
          subst hm
          exact ⟨trivial, (ih _ _ _ _ _ _ _ h1).2⟩
        | blocked => rw [h1] at h; cases h
        | illFormed => rw [h1] at h; cases h
        | outOfFuel => rw [h1] at h; cases h
      | case0 =>
        simp only [] at h ⊢
        cases h
        exact ⟨trivial, rfl⟩
      | _ => cases h

/-- With source and target on one device and different types, only a casting overload or
case 0 can be selected. -/
theorem select_same_device_of_ne {α : Type} (cfg : BuildConfig) (tr : TypeTraits α)
    (S U : ElemType) (D : Device) (hne : S ≠ U) :
    CopyImpl_select cfg tr S D U D = some CopyCase.case4_CPU ∨
    CopyImpl_select cfg tr S D U D = some CopyCase.case4_GPU ∨
    CopyImpl_select cfg tr S D U D = some CopyCase.case0 ∨
    CopyImpl_select cfg tr S D U D = none := by
  rw [CopyImpl_select_eq_table]
  cases D <;> simp only [CopyImpl_table]
  · rw [if_neg (fun h => hne h.1)]
    split_ifs <;> simp
  · rw [if_neg (fun h => hne h.2.2.1)]
    split_ifs <;> simp

/-- A staged copy that returns has transferred the source into the temporary and converted
the temporary into the destination. -/
theorem CopyImpl_staged_returned {α : Type} (cfg : BuildConfig) (tr : TypeTraits α)
    (mem : Int → α) (T : ElemType) (D1 : Device) (U : ElemType) (D2 : Device)
    (src tgt : Matrix α)
    (hsel : CopyImpl_select cfg tr T D1 U D2 = some CopyCase.case5)
    (hgpu : cfg.HYDROGEN_HAVE_GPU = true) (fuel : Nat) (B : Matrix α)
    (h : CopyImpl cfg tr mem fuel T D1 U D2 src tgt = CallResult.returned B) :
    B = CopyImpl_cast (tr.Cast (CompatibleStorageType cfg T D2) U)
          (CopyImpl_transfer src (Matrix.empty mem) mem) tgt mem ∧
    CopyImpl_target cfg tr mem fuel T D1 U D2 src tgt = B := by
  obtain ⟨-, -, -, hne, hpos, hneg, -⟩ := staged_inner_calls cfg tr T D1 U D2 hsel hgpu
  match fuel, h with
  | 0, h => rw [CopyImpl] at h; cases h
  | 1, h => rw [(CopyImpl_staged_fuel cfg tr mem T D1 U D2 src tgt hsel).2] at h; cases h
  | n + 2, h =>
    cases hst : tr.IsStorageType (CompatibleStorageType cfg T D2) D2
    · rw [CopyImpl_staged_unsupported cfg tr mem T D1 U D2 src tgt hsel hgpu hst n] at h
      cases h
    · have h1 : CopyImpl cfg tr mem (n + 1) T D1 (CompatibleStorageType cfg T D2) D2 src
          (Matrix.empty mem)
          = CallResult.returned (CopyImpl_transfer src (Matrix.empty mem) mem) := by
        rw [CopyImpl]
        rcases hpos hst with hs | hs | hs <;> simp only [hs]
      rw [CopyImpl] at h
      rw [CopyImpl_target]
      simp only [hsel, h1] at h ⊢
      rw [CopyImpl] at h
      rw [CopyImpl_target]
      rcases select_same_device_of_ne cfg tr _ U D2 hne with hs | hs | hs | hs <;>
        simp only [hs] at h ⊢
      · cases h; exact ⟨rfl, rfl⟩
      · cases h; exact ⟨rfl, rfl⟩
      · cases h
      · cases h

/-- A call of `CopyImpl` that returns, other than through the staged case 5, has resized the
destination to the extents of the source; its entries are those of the source, converted by
`Cast<S,U>` in the casting overloads. -/
theorem CopyImpl_direct_returned {α : Type} (cfg : BuildConfig) (tr : TypeTraits α)
    (mem : Int → α) (S : ElemType) (D1 : Device) (U : ElemType) (D2 : Device)
    (src tgt : Matrix α)
    (hsel : CopyImpl_select cfg tr S D1 U D2 ≠ some CopyCase.case5)
    (fuel : Nat) (B : Matrix α)
    (h : CopyImpl cfg tr mem fuel S D1 U D2 src tgt = CallResult.returned B) :
    CopyImpl_target cfg tr mem fuel S D1 U D2 src tgt = B ∧
    B.Height = src.Height ∧ B.Width = src.Width ∧
    ((∀ i j : Int, 0 ≤ i → i < src.Height → 0 ≤ j → j < src.Width →
        B.Get i j = src.Get i j) ∨
     (∀ i j : Int, 0 ≤ i → i < src.Height → 0 ≤ j → j < src.Width →
        B.Get i j = tr.Cast S U (src.Get i j))) := by
  have h1 := CopyImpl_case1_CPU_spec src tgt mem
  have ht := CopyImpl_transfer_spec src tgt mem
  have hc := CopyImpl_cast_spec (tr.Cast S U) src tgt mem
  cases fuel with
  | zero => rw [CopyImpl] at h; cases h
  | succ n =>
    rw [CopyImpl] at h
    rw [CopyImpl_target]
    cases hs : CopyImpl_select cfg tr S D1 U D2 with
    | none => rw [hs] at h; cases h
    | some k =>
      rw [hs] at h
      cases k with
      | case5 => exact absurd hs hsel
      | case0 => cases h
      | case1_CPU => cases h; exact ⟨rfl, h1.1, h1.2.1, Or.inl h1.2.2.2.1⟩
      | case4_CPU => cases h; exact ⟨rfl, hc.1, hc.2.1, Or.inr hc.2.2.2⟩
      | case4_GPU => cases h; exact ⟨rfl, hc.1, hc.2.1, Or.inr hc.2.2.2⟩
      | case1_GPU => cases h; exact ⟨rfl, ht.1, ht.2.1, Or.inl ht.2.2.2⟩
      | case2_CPU_GPU => cases h; exact ⟨rfl, ht.1, ht.2.1, Or.inl ht.2.2.2⟩
      | case2_GPU_CPU => cases h; exact ⟨rfl, ht.1, ht.2.1, Or.inl ht.2.2.2⟩
      | case3_CPU_GPU => cases h; exact ⟨rfl, ht.1, ht.2.1, Or.inl ht.2.2.2⟩
      | case3_GPU_CPU => cases h; exact ⟨rfl, ht.1, ht.2.1, Or.inl ht.2.2.2⟩

/-- When both types are storage types on their devices, a `LogicError` of `CopyImpl` comes
from the staged case 5 whose temporary has a type that is not a storage type on the
destination device. -/
theorem CopyImpl_logicError_of_storage {α : Type} (cfg : BuildConfig) (tr : TypeTraits α)
    (mem : Int → α) (S : ElemType) (D1 : Device) (U : ElemType) (D2 : Device)
    (src tgt : Matrix α) (hgpu : cfg.HYDROGEN_HAVE_GPU = true)
    (hS : tr.IsStorageType S D1 = true) (hU : tr.IsStorageType U D2 = true)
    (fuel : Nat) (msg : String)
    (h : CopyImpl cfg tr mem fuel S D1 U D2 src tgt = CallResult.logicError msg) :
    CopyImpl_select cfg tr S D1 U D2 = some CopyCase.case5 ∧
    tr.IsStorageType (CompatibleStorageType cfg S D2) D2 = false := by
  have hsel : CopyImpl_select cfg tr S D1 U D2 = some CopyCase.case5 := by
    rcases CopyImpl_logicError_select cfg tr mem fuel S D1 U D2 src tgt msg h with h0 | h5
    · exact absurd h0 (select_ne_case0_of_storage cfg tr S D1 U D2 hS hU)
    · exact h5
  refine ⟨hsel, ?_⟩
  obtain ⟨-, -, -, -, hpos, -, -⟩ := staged_inner_calls cfg tr S D1 U D2 hsel hgpu
  match fuel, h with
  | 0, h => rw [CopyImpl] at h; cases h
  | 1, h => rw [(CopyImpl_staged_fuel cfg tr mem S D1 U D2 src tgt hsel).2] at h; cases h
  | n + 2, h =>
    cases hst : tr.IsStorageType (CompatibleStorageType cfg S D2) D2
    · rfl
    · exfalso
      have h1 : CopyImpl cfg tr mem (n + 1) S D1 (CompatibleStorageType cfg S D2) D2 src
          (Matrix.empty mem)
          = CallResult.returned (CopyImpl_transfer src (Matrix.empty mem) mem) := by
        rw [CopyImpl]
        rcases hpos hst with hs | hs | hs <;> simp only [hs]
      rw [CopyImpl] at h
      simp only [hsel, h1] at h
      rcases CopyImpl_logicError_select cfg tr mem (n + 1) _ D2 U D2 _ tgt msg h with h0 | h5
      · exact select_ne_case0_of_storage cfg tr _ D2 U D2 hst hU h0
      · exact select_same_device_ne_case5 cfg tr _ U D2 h5

/-- C10 (amended): for `Copy` from a `Matrix<S,D1>` into a `Matrix<U,D2>`.
If `S` is not a storage type on `D1` or `U` is not a storage type on `D2`, the run-time
dispatch `Copy(AbstractMatrix, AbstractMatrix)` raises `LogicError` and leaves the destination
as it was; so does the static `CopyImpl` path (the `LogicError` of case 0) for every
combination that does not have the signature of the same-type GPU copy (case 1 GPU) or of a
compatible-type transfer (case 3).
If both are storage types (GPU support compiled in), case 0 is not selected and the run-time
dispatch is the call of `CopyImpl`; a `LogicError` is raised only by the staged case 5 whose
temporary `Matrix<CompatibleStorageType<S,D2>,D2>` has a type that is not a storage type on
`D2`, and the destination is then as it was; and whenever the call returns, the destination
has the extents of the source and its entries are those of the source, unchanged or converted
by `Cast<S,U>` or by `Cast<CompatibleStorageType<S,D2>,U>`. -/
theorem C10_unsupported_combinations {α : Type} (cfg : BuildConfig) (tr : TypeTraits α)
    (mem : Int → α) (S : ElemType) (D1 : Device) (U : ElemType) (D2 : Device)
    (src tgt : Matrix α) :
    ((tr.IsStorageType S D1 = false ∨ tr.IsStorageType U D2 = false) →
      (∀ fuel : Nat,
        (Copy_AbstractMatrix cfg tr mem fuel S D1 U D2 src tgt
            = CallResult.logicError "The combination is not supported." ∨
         Copy_AbstractMatrix cfg tr mem fuel S D1 U D2 src tgt
            = CallResult.logicError "Copy: Bad device.") ∧
        Copy_AbstractMatrix_target cfg tr mem fuel S D1 U D2 src tgt = tgt) ∧
      (¬ (D1 = Device.GPU ∧ D2 = Device.GPU ∧ S = U) →
       ¬ (D1 = Device.CPU ∧ D2 = Device.GPU ∧ U = GPUStorageType cfg S ∧
          S ≠ GPUStorageType cfg S) →
       ¬ (D1 = Device.GPU ∧ D2 = Device.CPU ∧ S = GPUStorageType cfg U ∧
          U ≠ GPUStorageType cfg U) →
       ∀ fuel : Nat,
        CopyImpl cfg tr mem (fuel + 1) S D1 U D2 src tgt
          = CallResult.logicError "Cannot dispatch Copy." ∧
        CopyImpl_target cfg tr mem (fuel + 1) S D1 U D2 src tgt = tgt)) ∧
    (cfg.HYDROGEN_HAVE_GPU = true →
     tr.IsStorageType S D1 = true → tr.IsStorageType U D2 = true →
      CopyImpl_select cfg tr S D1 U D2 ≠ some CopyCase.case0 ∧
      (∀ fuel : Nat,
        Copy_AbstractMatrix cfg tr mem fuel S D1 U D2 src tgt
          = CopyImpl cfg tr mem fuel S D1 U D2 src tgt ∧
        Copy_AbstractMatrix_target cfg tr mem fuel S D1 U D2 src tgt
          = CopyImpl_target cfg tr mem fuel S D1 U D2 src tgt) ∧
      (∀ (fuel : Nat) (msg : String),
        CopyImpl cfg tr mem fuel S D1 U D2 src tgt = CallResult.logicError msg →
        msg = "Cannot dispatch Copy." ∧
        CopyImpl_select cfg tr S D1 U D2 = some CopyCase.case5 ∧
        tr.IsStorageType (CompatibleStorageType cfg S D2) D2 = false ∧
        CopyImpl_target cfg tr mem fuel S D1 U D2 src tgt = tgt) ∧
      (∀ (fuel : Nat) (B : Matrix α),
        CopyImpl cfg tr mem fuel S D1 U D2 src tgt = CallResult.returned B →
        CopyImpl_target cfg tr mem fuel S D1 U D2 src tgt = B ∧
        B.Height = src.Height ∧ B.Width = src.Width ∧
        ((∀ i j : Int, 0 ≤ i → i < src.Height → 0 ≤ j → j < src.Width →
            B.Get i j = src.Get i j) ∨
         (∀ i j : Int, 0 ≤ i → i < src.Height → 0 ≤ j → j < src.Width →
            B.Get i j = tr.Cast S U (src.Get i j)) ∨
         (∀ i j : Int, 0 ≤ i → i < src.Height → 0 ≤ j → j < src.Width →
            B.Get i j = tr.Cast (CompatibleStorageType cfg S D2) U (src.Get i j))))) := by
  refine ⟨fun hns => ⟨fun fuel => ⟨?_, ?_⟩, fun h1 h3 h3' fuel => ?_⟩,
    fun hgpu hS hU => ⟨?_, fun fuel => ⟨?_, ?_⟩, fun fuel msg h => ?_, fun fuel B h => ?_⟩⟩
  · exact Copy_AbstractMatrix_not_storage cfg tr mem fuel S D1 U D2 src tgt hns
  · exact Copy_AbstractMatrix_target_not_storage cfg tr mem fuel S D1 U D2 src tgt hns
  · have hsel := select_case0_of_not_storage cfg tr S D1 U D2 hns h1 h3 h3'
    have hres : CopyImpl cfg tr mem (fuel + 1) S D1 U D2 src tgt
        = CallResult.logicError "Cannot dispatch Copy." := by
      rw [CopyImpl]; simp only [hsel]
    exact ⟨hres, (CopyImpl_target_of_logicError cfg tr mem _ S D1 U D2 src tgt _ hres).1⟩
  · exact select_ne_case0_of_storage cfg tr S D1 U D2 hS hU
  · exact Copy_AbstractMatrix_storage cfg tr mem fuel S D1 U D2 src tgt hgpu hS hU
  · exact Copy_AbstractMatrix_target_storage cfg tr mem fuel S D1 U D2 src tgt hgpu hS hU
  · have ht := CopyImpl_target_of_logicError cfg tr mem fuel S D1 U D2 src tgt msg h
    have hl := CopyImpl_logicError_of_storage cfg tr mem S D1 U D2 src tgt hgpu hS hU fuel msg h
    exact ⟨ht.2, hl.1, hl.2, ht.1⟩
  · by_cases hsel : CopyImpl_select cfg tr S D1 U D2 = some CopyCase.case5
    · obtain ⟨hB, hT⟩ := CopyImpl_staged_returned cfg tr mem S D1 U D2 src tgt hsel hgpu fuel B h
      have htr := CopyImpl_transfer_spec src (Matrix.empty mem) mem
      have hcs := CopyImpl_cast_spec (tr.Cast (CompatibleStorageType cfg S D2) U)
        (CopyImpl_transfer src (Matrix.empty mem) mem) tgt mem
      rw [← hB] at hcs
      refine ⟨hT, hcs.1.trans htr.1, hcs.2.1.trans htr.2.1, Or.inr (Or.inr ?_)⟩
      intro i j hi0 hi1 hj0 hj1
      rw [hcs.2.2.2 i j hi0 (by rw [htr.1]; exact hi1) hj0 (by rw [htr.2.1]; exact hj1),
        htr.2.2.2 i j hi0 hi1 hj0 hj1]
    · obtain ⟨hT, hh, hw, hv⟩ :=
        CopyImpl_direct_returned cfg tr mem S D1 U D2 src tgt hsel fuel B h
      refine ⟨hT, hh, hw, ?_⟩
      rcases hv with hv | hv
      · exact Or.inl hv
      · exact Or.inr (Or.inl hv)

/-- The amended C10 at concrete calls: an `int` matrix on the GPU, where `int` is not stored,
copied into an `int` matrix on the CPU raises `LogicError` on both paths and leaves the
destination empty; a `float` matrix on the CPU copied into a `double` matrix on the GPU
returns a destination with the extents of the source. -/
theorem C10_unsupported_combinations_witness :
    (sampleTraits.IsStorageType ElemType.int Device.GPU = false ∧
     Copy_AbstractMatrix_target sampleConfig sampleTraits sampleMem 3 ElemType.int Device.GPU
        ElemType.int Device.CPU sampleSrc sampleLocal = sampleLocal ∧
     CopyImpl sampleConfig sampleTraits sampleMem 3 ElemType.int Device.GPU
        ElemType.int Device.CPU sampleSrc sampleLocal
        = CallResult.logicError "Cannot dispatch Copy.") ∧
    (sampleTraits.IsStorageType ElemType.float Device.CPU = true ∧
     sampleTraits.IsStorageType ElemType.double Device.GPU = true ∧
     ∃ B : Matrix Int,
      Copy_AbstractMatrix sampleConfig sampleTraits sampleMem 2 ElemType.float Device.CPU
        ElemType.double Device.GPU sampleSrc sampleLocal = CallResult.returned B ∧
      CopyImpl_target sampleConfig sampleTraits sampleMem 2 ElemType.float Device.CPU
        ElemType.double Device.GPU sampleSrc sampleLocal = B ∧
      B.Height = sampleSrc.Height ∧ B.Width = sampleSrc.Width) := by
  have hA := (C10_unsupported_combinations sampleConfig sampleTraits sampleMem ElemType.int
    Device.GPU ElemType.int Device.CPU sampleSrc sampleLocal).1 (Or.inl (by decide))
  have hC := (C10_unsupported_combinations sampleConfig sampleTraits sampleMem ElemType.float
    Device.CPU ElemType.double Device.GPU sampleSrc sampleLocal).2 (by decide) (by decide)
    (by decide)
  refine ⟨⟨by decide, (hA.1 3).2, (hA.2 (by decide) (by decide) (by decide) 2).1⟩,
    by decide, by decide, ?_⟩
  have hret : CopyImpl sampleConfig sampleTraits sampleMem 2 ElemType.float Device.CPU
      ElemType.double Device.GPU sampleSrc sampleLocal
      = CallResult.returned (CopyImpl_cast (sampleTraits.Cast ElemType.float ElemType.double)
          (CopyImpl_transfer sampleSrc (Matrix.empty sampleMem) sampleMem) sampleLocal
          sampleMem) := by
    have hs : CopyImpl_select sampleConfig sampleTraits ElemType.float Device.CPU
        ElemType.double Device.GPU = some CopyCase.case5 := by decide
    have h1 : CopyImpl_select sampleConfig sampleTraits ElemType.float Device.CPU
        (CompatibleStorageType sampleConfig ElemType.float Device.GPU) Device.GPU
        = some CopyCase.case2_CPU_GPU := by decide
    have h2 : CopyImpl_select sampleConfig sampleTraits
        (CompatibleStorageType sampleConfig ElemType.float Device.GPU) Device.GPU
        ElemType.double Device.GPU = some CopyCase.case4_GPU := by decide
    have i1 : CopyImpl sampleConfig sampleTraits sampleMem 1 ElemType.float Device.CPU
        (CompatibleStorageType sampleConfig ElemType.float Device.GPU) Device.GPU sampleSrc
        (Matrix.empty sampleMem)
        = CallResult.returned (CopyImpl_transfer sampleSrc (Matrix.empty sampleMem)
            sampleMem) := by
      rw [CopyImpl]; simp only [h1]
    rw [CopyImpl]
    simp only [hs, i1]
    rw [CopyImpl]
    simp only [h2]
    rfl
  obtain ⟨hT, hh, hw, -⟩ := hC.2.2.2 2 _ hret
  exact ⟨_, ((hC.2.1 2).1).trans hret, hT, hh, hw⟩

/-- A `uint8_t` matrix on the CPU copied into a `double` matrix on the GPU: both types are
storage types on their devices, yet both paths raise the `LogicError` of case 0, because the
temporary of the staged copy would be a `uint8_t` matrix on the GPU. -/
theorem C10_unsupported_combinations_counterexample :
    sampleTraits.IsStorageType ElemType.uint8_t Device.CPU = true ∧
    sampleTraits.IsStorageType ElemType.double Device.GPU = true ∧
    Copy_AbstractMatrix sampleConfig sampleTraits sampleMem 3 ElemType.uint8_t Device.CPU
      ElemType.double Device.GPU sampleSrc sampleLocal
      = CallResult.logicError "Cannot dispatch Copy." ∧
    CopyImpl sampleConfig sampleTraits sampleMem 3 ElemType.uint8_t Device.CPU
      ElemType.double Device.GPU sampleSrc sampleLocal
      = CallResult.logicError "Cannot dispatch Copy." := by
  have hsel : CopyImpl_select sampleConfig sampleTraits ElemType.uint8_t Device.CPU
      ElemType.double Device.GPU = some CopyCase.case5 := by decide
  have h := CopyImpl_staged_unsupported sampleConfig sampleTraits sampleMem ElemType.uint8_t
    Device.CPU ElemType.double Device.GPU sampleSrc sampleLocal hsel (by decide) (by decide) 1
  refine ⟨by decide, by decide, ?_, h⟩
  rw [Copy_AbstractMatrix_storage sampleConfig sampleTraits sampleMem 3 ElemType.uint8_t
    Device.CPU ElemType.double Device.GPU sampleSrc sampleLocal (by decide) (by decide)
    (by decide)]
  exact h

/-- The same-type GPU copy (case 1 GPU) tests `IsStorageType<T, Device::CPU>`: an `int`
matrix on the GPU, where `int` is not a storage type, is copied without a `LogicError` by the
static path. -/
theorem sample_case1_GPU_storage_test :
    sampleTraits.IsStorageType ElemType.int Device.GPU = false ∧
    CopyImpl_select sampleConfig sampleTraits ElemType.int Device.GPU ElemType.int Device.GPU
      = some CopyCase.case1_GPU ∧
    CopyImpl sampleConfig sampleTraits sampleMem 1 ElemType.int Device.GPU ElemType.int
      Device.GPU sampleSrc sampleLocal
      = CallResult.returned (CopyImpl_transfer sampleSrc sampleLocal sampleMem) := by
  have hsel : CopyImpl_select sampleConfig sampleTraits ElemType.int Device.GPU ElemType.int
      Device.GPU = some CopyCase.case1_GPU := by decide
  refine ⟨by decide, hsel, ?_⟩
  rw [CopyImpl]
  simp only [hsel]

/-! ## C4: round trip between two distributions -/

/-- The first hit of a search whose hits all carry the value `v`. -/
theorem findSome?_eq_of_forall {β γ : Type} (l : List β) (f : β → Option γ) (v : γ)
    (hex : ∃ x ∈ l, f x = some v)
    (hall : ∀ x ∈ l, ∀ w : γ, f x = some w → w = v) :
    l.findSome? f = some v := by
  induction l with
  | nil => obtain ⟨x, hx, -⟩ := hex; cases hx
  | cons a t ih =>
    rw [List.findSome?_cons]
    cases hfa : f a with
    | some w =>
      have := hall a (List.mem_cons_self a t) w hfa
      simp only [this]
    | none =>
      simp only []
      apply ih
      · obtain ⟨x, hx, hfx⟩ := hex
        rcases List.mem_cons.1 hx with h | h
        · subst h; rw [hfa] at hfx; cases hfx
        · exact ⟨x, h, hfx⟩
      · intro x hx w hw
        exact hall x (List.mem_cons_of_mem a hx) w hw

/-- Membership in `List.range n.toNat`, as an integer. -/
theorem mem_range_toNat (n : Int) (k : Nat) : k ∈ List.range n.toNat ↔ (k : Int) < n := by
  rw [List.mem_range]
  omega

/-- The gathered entry is the local entry of any process that stores it, when all processes
that store it agree. -/
theorem gatherEntry_eq {α : Type} (END r c : Int) (A : Int → Int → ElementalMatrix α)
    (i j row col : Int) (hrow : 0 ≤ row ∧ row < r) (hcol : 0 ≤ col ∧ col < c)
    (hold : holdsEntry (A row col) i j = true)
    (hcons : ∀ row' col' : Int, 0 ≤ row' → row' < r → 0 ≤ col' → col' < c →
      holdsEntry (A row' col') i j = true →
      (A row' col').matrix_.Get ((A row' col').LocalRowOffset END i)
          ((A row' col').LocalColOffset END j)
        = (A row col).matrix_.Get ((A row col).LocalRowOffset END i)
          ((A row col).LocalColOffset END j)) :
    gatherEntry END r c A i j
      = some ((A row col).matrix_.Get ((A row col).LocalRowOffset END i)
          ((A row col).LocalColOffset END j)) := by
  unfold gatherEntry
  have inner : ∀ (row' : Nat), (row' : Int) < r → ∀ w : α,
      (List.range c.toNat).findSome? (fun (col' : Nat) =>
        if holdsEntry (A row' col') i j then
          some ((A row' col').matrix_.Get ((A row' col').LocalRowOffset END i)
            ((A row' col').LocalColOffset END j))
        else none) = some w →
      w = (A row col).matrix_.Get ((A row col).LocalRowOffset END i)
          ((A row col).LocalColOffset END j) := by
    intro row' hr' w hw
    obtain ⟨col', hmem, hf⟩ := List.exists_of_findSome?_eq_some hw
    have hc' : (col' : Int) < c := (mem_range_toNat c col').1 hmem
    by_cases hh : holdsEntry (A row' col') i j = true
    · rw [if_pos hh] at hf
      have := hcons row' col' (by omega) hr' (by omega) hc' hh
      cases hf
      exact this
    · rw [if_neg hh] at hf; cases hf
  apply findSome?_eq_of_forall
  · refine ⟨row.toNat, (mem_range_toNat r _).2 (by omega), ?_⟩
    apply findSome?_eq_of_forall
    · refine ⟨col.toNat, (mem_range_toNat c _).2 (by omega), ?_⟩
      have e1 : ((row.toNat : Nat) : Int) = row := Int.toNat_of_nonneg hrow.1
      have e2 : ((col.toNat : Nat) : Int) = col := Int.toNat_of_nonneg hcol.1
      rw [e1, e2, if_pos hold]
    · intro col' hmem w hw
      have e1 : ((row.toNat : Nat) : Int) = row := Int.toNat_of_nonneg hrow.1
      rw [e1] at hw
      have hc' : (col' : Int) < c := (mem_range_toNat c col').1 hmem
      by_cases hh : holdsEntry (A row col') i j = true
      · rw [if_pos hh] at hw
        have := hcons row col' hrow.1 hrow.2 (by omega) hc' hh
        cases hw
        exact this
      · rw [if_neg hh] at hw; cases hw
  · intro row' hmem w hw
    exact inner row' ((mem_range_toNat r row').1 hmem) w hw

/-- Splitting the offset of local entry `(iLoc, jLoc)` by the leading dimension. -/
theorem offset_split (iLoc jLoc ld : Int) (hi : 0 ≤ iLoc ∧ iLoc < ld) (hj : 0 ≤ jLoc) :
    0 ≤ iLoc + jLoc * ld ∧ Int.tmod (iLoc + jLoc * ld) ld = iLoc ∧
      Int.tdiv (iLoc + jLoc * ld) ld = jLoc := by
  have hld : 0 < ld := by omega
  have h0 : 0 ≤ jLoc * ld := mul_nonneg hj (by omega)
  have e : iLoc + jLoc * ld = iLoc + ld * jLoc := by ring
  refine ⟨by omega, ?_, ?_⟩
  · rw [Int.tmod_eq_emod (by omega) (by omega), e, Int.add_mul_emod_self_left]
    exact Int.emod_eq_of_lt hi.1 hi.2
  · rw [Int.tdiv_eq_ediv (by omega) (by omega), e, Int.add_mul_ediv_left _ _ (ne_of_gt hld),
      Int.ediv_eq_zero_of_lt hi.1 hi.2]
    ring

/-- What `scatterLocal` leaves in the local matrix of a participating process. -/
theorem scatterLocal_get {α : Type} (END : Int) (hEND : END < 0) (B : ElementalMatrix α)
    (G : Int → Int → Option α) (hp : B.participating = true)
    (hld : B.matrix_.height_ ≤ B.matrix_.ldim_)
    (iLoc jLoc : Int) (hi : 0 ≤ iLoc ∧ iLoc < B.matrix_.height_)
    (hj : 0 ≤ jLoc ∧ jLoc < B.matrix_.width_) (v : α)
    (hG : G (B.colShift_ + iLoc * B.colStride) (B.rowShift_ + jLoc * B.rowStride) = some v) :
    (scatterLocal END B G).matrix_.Get iLoc jLoc = v := by
  obtain ⟨h0, h1, h2⟩ := offset_split iLoc jLoc B.matrix_.ldim_ ⟨hi.1, by omega⟩ hj.1
  have hiE : ¬ (iLoc = END) := by omega
  have hjE : ¬ (jLoc = END) := by omega
  have hcond : 0 ≤ iLoc + jLoc * B.matrix_.ldim_ ∧ iLoc < B.matrix_.height_ ∧
      jLoc < B.matrix_.width_ := ⟨h0, hi.2, hj.2⟩
  simp only [scatterLocal, ElementalMatrix.Participating, hp, if_true, Matrix.Get, h1, h2,
    ElementalMatrix.LocalHeight, ElementalMatrix.LocalWidth, Matrix.Height, Matrix.Width,
    ElementalMatrix.GlobalRow, ElementalMatrix.GlobalCol, ElementalMatrix.ColShift,
    ElementalMatrix.RowShift, ElementalMatrix.ColStride, ElementalMatrix.RowStride,
    if_neg hiE, if_neg hjE, if_pos hcond, hG]

/-- The descriptor and the local extents after `Redistribute`, and the origin of every local
entry of a participating process. -/
theorem Redistribute_spec {α : Type} (END : Int) (hEND : END < 0) (r c : Int)
    (D : Distribution) (colAlign rowAlign h w : Int)
    (A B : Int → Int → ElementalMatrix α) (mem : Int → Int → Int → α) (row col : Int)
    (hA : (A row col).height_ = h ∧ (A row col).width_ = w)
    (hB : D.Describes colAlign rowAlign row col (B row col)) :
    D.Describes colAlign rowAlign row col (Redistribute END r c B A mem row col) ∧
    (Redistribute END r c B A mem row col).height_ = h ∧
    (Redistribute END r c B A mem row col).width_ = w ∧
    (D.participating row col = true →
      (Redistribute END r c B A mem row col).matrix_.height_
        = Length h (Shift (D.colRank row col) colAlign D.colStride) D.colStride ∧
      (Redistribute END r c B A mem row col).matrix_.width_
        = Length w (Shift (D.rowRank row col) rowAlign D.rowStride) D.rowStride ∧
      ∀ (iLoc jLoc : Int) (v : α),
        0 ≤ iLoc → iLoc < (Redistribute END r c B A mem row col).matrix_.height_ →
        0 ≤ jLoc → jLoc < (Redistribute END r c B A mem row col).matrix_.width_ →
        gatherEntry END r c A
          (Shift (D.colRank row col) colAlign D.colStride + iLoc * D.colStride)
          (Shift (D.rowRank row col) rowAlign D.rowStride + jLoc * D.rowStride) = some v →
        (Redistribute END r c B A mem row col).matrix_.Get iLoc jLoc = v) := by
  obtain ⟨hcs, hrs, hca, hra, hcsh, hrsh, hpart, hempty⟩ := hB
  cases hp : D.participating row col
  · -- a process that does not take part keeps its empty local matrix
    have hp' : (B row col).participating = false := by rw [hpart, hp]
    have hR : Redistribute END r c B A mem row col
        = { (B row col) with height_ := h, width_ := w } := by
      simp only [Redistribute, ElementalMatrix.Resize, ElementalMatrix.Participating, hp',
        scatterLocal, ElementalMatrix.Height, ElementalMatrix.Width, hA.1, hA.2]
      rfl
    rw [hR]
    refine ⟨⟨hcs, hrs, hca, hra, hcsh, hrsh, hpart, hempty⟩, rfl, rfl, ?_⟩
    intro hc; cases hc
  · have hp' : (B row col).participating = true := by rw [hpart, hp]
    have hRes := ElementalMatrix.Resize_participating (B row col) (mem row col) h w hp'
    have hR : Redistribute END r c B A mem row col
        = scatterLocal END ((B row col).Resize (mem row col) h w)
            (gatherEntry END r c A) := by
      simp only [Redistribute, ElementalMatrix.Height, ElementalMatrix.Width, hA.1, hA.2]
    have hsc : ∀ (X : ElementalMatrix α), X.participating = true →
        (scatterLocal END X (gatherEntry END r c A)).colStride = X.colStride ∧
        (scatterLocal END X (gatherEntry END r c A)).rowStride = X.rowStride ∧
        (scatterLocal END X (gatherEntry END r c A)).colAlign_ = X.colAlign_ ∧
        (scatterLocal END X (gatherEntry END r c A)).rowAlign_ = X.rowAlign_ ∧
        (scatterLocal END X (gatherEntry END r c A)).colShift_ = X.colShift_ ∧
        (scatterLocal END X (gatherEntry END r c A)).rowShift_ = X.rowShift_ ∧
        (scatterLocal END X (gatherEntry END r c A)).participating = X.participating ∧
        (scatterLocal END X (gatherEntry END r c A)).height_ = X.height_ ∧
        (scatterLocal END X (gatherEntry END r c A)).width_ = X.width_ ∧
        (scatterLocal END X (gatherEntry END r c A)).matrix_.height_ = X.matrix_.height_ ∧
        (scatterLocal END X (gatherEntry END r c A)).matrix_.width_ = X.matrix_.width_ := by
      intro X hX
      simp only [scatterLocal, ElementalMatrix.Participating, hX, if_true, and_self]
    have hX : ((B row col).Resize (mem row col) h w).participating = true := by
      rw [hRes]; exact hp'
    obtain ⟨s1, s2, s3, s4, s5, s6, s7, s8, s9, s10, s11⟩ := hsc _ hX
    have f1 : ((B row col).Resize (mem row col) h w).colStride = D.colStride := by
      rw [hRes]; exact hcs
    have f2 : ((B row col).Resize (mem row col) h w).rowStride = D.rowStride := by
      rw [hRes]; exact hrs
    have f3 : ((B row col).Resize (mem row col) h w).colShift_
        = Shift (D.colRank row col) colAlign D.colStride := by rw [hRes]; exact hcsh
    have f4 : ((B row col).Resize (mem row col) h w).rowShift_
        = Shift (D.rowRank row col) rowAlign D.rowStride := by rw [hRes]; exact hrsh
    have f5 : ((B row col).Resize (mem row col) h w).matrix_.height_
        = Length h (Shift (D.colRank row col) colAlign D.colStride) D.colStride := by
      rw [hRes]; simp only [Matrix.Resize_height, hcsh, hcs]
    have f6 : ((B row col).Resize (mem row col) h w).matrix_.width_
        = Length w (Shift (D.rowRank row col) rowAlign D.rowStride) D.rowStride := by
      rw [hRes]; simp only [Matrix.Resize_width, hrsh, hrs]
    have f7 : ((B row col).Resize (mem row col) h w).matrix_.height_
        ≤ ((B row col).Resize (mem row col) h w).matrix_.ldim_ := by
      rw [hRes]
      simp only [Matrix.Resize_height]
      exact (Matrix.Resize_ldim_ge _ _ _ _).1
    rw [hR]
    refine ⟨⟨s1.trans f1, s2.trans f2, ?_, ?_, s5.trans f3, s6.trans f4, ?_, ?_⟩, ?_, ?_, ?_⟩
    · rw [s3, hRes]; exact hca
    · rw [s4, hRes]; exact hra
    · rw [s7, hX, hp]
    · intro hc; rw [s7, hX] at hc; cases hc
    · rw [s8, hRes]
    · rw [s9, hRes]
    · intro _
      refine ⟨s10.trans f5, s11.trans f6, ?_⟩
      intro iLoc jLoc v hi0 hi1 hj0 hj1 hG
      rw [s10] at hi1
      rw [s11] at hj1
      apply scatterLocal_get END hEND _ _ hX f7 iLoc jLoc ⟨hi0, hi1⟩ ⟨hj0, hj1⟩ v
      rw [f1, f2, f3, f4]
      exact hG

/-- A stored index along one axis: its local offset lies below the local extent and leads
back to it, and the shift is its residue. -/
theorem ownsIndex_local (n i shift stride : Int) (hs : 0 < stride)
    (hsh : 0 ≤ shift ∧ shift < stride) (hin : i < n)
    (hown : ownsIndex shift stride i = true) :
    0 ≤ Length_ i shift stride ∧ Length_ i shift stride < Length_ n shift stride ∧
      shift + Length_ i shift stride * stride = i ∧ shift = i % stride := by
  have hle : shift ≤ i := by
    unfold ownsIndex at hown
    simp only [decide_eq_true_eq] at hown
    exact hown.1
  have hmod := (ownsIndex_iff shift stride i hs hle).1 hown
  have h1 := Int.emod_add_ediv (i - shift) stride
  have hq : 0 ≤ (i - shift) / stride := Int.ediv_nonneg (by omega) (by omega)
  have hglob : i = shift + ((i - shift) / stride) * stride := by
    have : stride * ((i - shift) / stride) = ((i - shift) / stride) * stride := by ring
    omega
  have hlen : Length_ i shift stride = (i - shift) / stride := by
    conv_lhs => rw [hglob]
    exact Length__global _ shift stride hs hsh.1 hq
  refine ⟨by rw [hlen]; exact hq, ?_, by rw [hlen]; omega, ?_⟩
  · rw [hlen, lt_Length__iff n _ shift stride hs hsh.1 hq]
    omega
  · have e : i = shift + stride * ((i - shift) / stride) := by omega
    rw [e, Int.add_mul_emod_self_left]
    exact (Int.emod_eq_of_lt hsh.1 hsh.2).symm

/-- The index `shift + iLoc*stride` is stored, at local offset `iLoc`. -/
theorem ownsIndex_own (iLoc shift stride : Int) (hs : 0 < stride) (hi : 0 ≤ iLoc) :
    ownsIndex shift stride (shift + iLoc * stride) = true := by
  have h0 : 0 ≤ iLoc * stride := mul_nonneg hi (le_of_lt hs)
  rw [ownsIndex_iff shift stride _ hs (by omega)]
  have e : shift + iLoc * stride - shift = iLoc * stride := by ring
  rw [e]
  exact Int.mul_emod_left _ _

/-- Every entry of a matrix distributed by a supported distribution is stored by some
process. -/
theorem exists_holder {α : Type} (r c : Int) (D : Distribution) (hD : D.Supported r c)
    (colAlign rowAlign : Int) (hca : 0 ≤ colAlign ∧ colAlign < D.colStride)
    (hra : 0 ≤ rowAlign ∧ rowAlign < D.rowStride)
    (A : Int → Int → ElementalMatrix α)
    (hA : ∀ row col : Int, 0 ≤ row → row < r → 0 ≤ col → col < c →
      D.Describes colAlign rowAlign row col (A row col))
    (i j : Int) (hi : 0 ≤ i) (hj : 0 ≤ j) :
    ∃ row col : Int, (0 ≤ row ∧ row < r) ∧ (0 ≤ col ∧ col < c) ∧
      holdsEntry (A row col) i j = true := by
  obtain ⟨hs, ht, -, hcov⟩ := hD
  obtain ⟨hp, hle, hmod, -, -, -, -⟩ :=
    global_of_owner i (i + 1) colAlign D.colStride (by omega) hi (by omega) hca
  obtain ⟨hp', hle', hmod', -, -, -, -⟩ :=
    global_of_owner j (j + 1) rowAlign D.rowStride (by omega) hj (by omega) hra
  obtain ⟨row, col, hrow, hcol, hpart, hcr, hrr⟩ := hcov _ _ hp.1 hp.2 hp'.1 hp'.2
  refine ⟨row, col, hrow, hcol, ?_⟩
  obtain ⟨hcs, hrs, -, -, hcsh, hrsh, hpa, -⟩ := hA row col hrow.1 hrow.2 hcol.1 hcol.2
  simp only [holdsEntry, ElementalMatrix.Participating, ElementalMatrix.ColShift,
    ElementalMatrix.ColStride, ElementalMatrix.RowShift, ElementalMatrix.RowStride,
    Bool.and_eq_true, hpa, hpart, hcs, hrs, hcsh, hrsh, hcr, hrr, ownsIndex,
    decide_eq_true_eq, true_and]
  exact ⟨⟨hle, hmod⟩, ⟨hle', hmod'⟩⟩

/-- What storing entry `(i,j)` means for a process of a matrix distributed by a supported
distribution. -/
theorem holdsEntry_spec {α : Type} (END : Int) (hEND : END < 0) (r c : Int)
    (D : Distribution) (hD : D.Supported r c)
    (colAlign rowAlign : Int) (hca : 0 ≤ colAlign ∧ colAlign < D.colStride)
    (hra : 0 ≤ rowAlign ∧ rowAlign < D.rowStride)
    (A : ElementalMatrix α) (row col : Int) (hrow : 0 ≤ row ∧ row < r)
    (hcol : 0 ≤ col ∧ col < c) (hA : D.Describes colAlign rowAlign row col A)
    (h w i j : Int) (hi : 0 ≤ i ∧ i < h) (hj : 0 ≤ j ∧ j < w)
    (hold : holdsEntry A i j = true) :
    D.participating row col = true ∧
    D.colRank row col = (i + colAlign) % D.colStride ∧
    D.rowRank row col = (j + rowAlign) % D.rowStride ∧
    A.LocalRowOffset END i
      = Length_ i (Shift (D.colRank row col) colAlign D.colStride) D.colStride ∧
    A.LocalColOffset END j
      = Length_ j (Shift (D.rowRank row col) rowAlign D.rowStride) D.rowStride ∧
    (0 ≤ A.LocalRowOffset END i ∧
      A.LocalRowOffset END i
        < Length h (Shift (D.colRank row col) colAlign D.colStride) D.colStride) ∧
    (0 ≤ A.LocalColOffset END j ∧
      A.LocalColOffset END j
        < Length w (Shift (D.rowRank row col) rowAlign D.rowStride) D.rowStride) ∧
    Shift (D.colRank row col) colAlign D.colStride + A.LocalRowOffset END i * D.colStride = i ∧
    Shift (D.rowRank row col) rowAlign D.rowStride + A.LocalColOffset END j * D.rowStride
      = j := by
  obtain ⟨hs, ht, hrk, -⟩ := hD
  obtain ⟨hcr, hrr⟩ := hrk row col hrow.1 hrow.2 hcol.1 hcol.2
  obtain ⟨hcs, hrs, -, -, hcsh, hrsh, hpa, -⟩ := hA
  simp only [holdsEntry, ElementalMatrix.Participating, ElementalMatrix.ColShift,
    ElementalMatrix.ColStride, ElementalMatrix.RowShift, ElementalMatrix.RowStride,
    Bool.and_eq_true, hcs, hrs, hcsh, hrsh] at hold
  obtain ⟨⟨hp, ho1⟩, ho2⟩ := hold
  have hb1 := Shift_bounds (D.colRank row col) colAlign D.colStride (by omega) hcr.1 hca.2
  have hb2 := Shift_bounds (D.rowRank row col) rowAlign D.rowStride (by omega) hrr.1 hra.2
  obtain ⟨a1, a2, a3, a4⟩ := ownsIndex_local h i _ D.colStride (by omega) hb1 hi.2 ho1
  obtain ⟨b1, b2, b3, b4⟩ := ownsIndex_local w j _ D.rowStride (by omega) hb2 hj.2 ho2
  have hiE : ¬ (i = END) := by omega
  have hjE : ¬ (j = END) := by omega
  have e1 : A.LocalRowOffset END i
      = Length_ i (Shift (D.colRank row col) colAlign D.colStride) D.colStride := by
    simp only [ElementalMatrix.LocalRowOffset, if_neg hiE, ElementalMatrix.ColShift,
      ElementalMatrix.ColStride, hcs, hcsh]
  have e2 : A.LocalColOffset END j
      = Length_ j (Shift (D.rowRank row col) rowAlign D.rowStride) D.rowStride := by
    simp only [ElementalMatrix.LocalColOffset, if_neg hjE, ElementalMatrix.RowShift,
      ElementalMatrix.RowStride, hrs, hrsh]
  have r1 := rank_of_shift (D.colRank row col) colAlign D.colStride (by omega) hcr hca
  have r2 := rank_of_shift (D.rowRank row col) rowAlign D.rowStride (by omega) hrr hra
  refine ⟨by rw [← hpa]; exact hp, ?_, ?_, e1, e2, ?_, ?_, ?_, ?_⟩
  · rw [← r1, a4, Int.add_comm, Int.emod_add_emod]
  · rw [← r2, b4, Int.add_comm, Int.emod_add_emod]
  · rw [e1]; exact ⟨a1, a2⟩
  · rw [e2]; exact ⟨b1, b2⟩
  · rw [e1]; exact a3
  · rw [e2]; exact b3

/-- A process stores the entries behind its own local indices, at those local offsets. -/
theorem holdsEntry_own {α : Type} (END : Int) (hEND : END < 0) (r c : Int)
    (D : Distribution) (hD : D.Supported r c)
    (colAlign rowAlign : Int) (hca : 0 ≤ colAlign ∧ colAlign < D.colStride)
    (hra : 0 ≤ rowAlign ∧ rowAlign < D.rowStride)
    (A : ElementalMatrix α) (row col : Int) (hrow : 0 ≤ row ∧ row < r)
    (hcol : 0 ≤ col ∧ col < c) (hA : D.Describes colAlign rowAlign row col A)
    (hp : D.participating row col = true)
    (h w iLoc jLoc : Int)
    (hi : 0 ≤ iLoc ∧
      iLoc < Length h (Shift (D.colRank row col) colAlign D.colStride) D.colStride)
    (hj : 0 ≤ jLoc ∧
      jLoc < Length w (Shift (D.rowRank row col) rowAlign D.rowStride) D.rowStride) :
    holdsEntry A (Shift (D.colRank row col) colAlign D.colStride + iLoc * D.colStride)
      (Shift (D.rowRank row col) rowAlign D.rowStride + jLoc * D.rowStride) = true ∧
    (0 ≤ Shift (D.colRank row col) colAlign D.colStride + iLoc * D.colStride ∧
      Shift (D.colRank row col) colAlign D.colStride + iLoc * D.colStride < h) ∧
    (0 ≤ Shift (D.rowRank row col) rowAlign D.rowStride + jLoc * D.rowStride ∧
      Shift (D.rowRank row col) rowAlign D.rowStride + jLoc * D.rowStride < w) ∧
    A.LocalRowOffset END
      (Shift (D.colRank row col) colAlign D.colStride + iLoc * D.colStride) = iLoc ∧
    A.LocalColOffset END
      (Shift (D.rowRank row col) rowAlign D.rowStride + jLoc * D.rowStride) = jLoc := by
  obtain ⟨hs, ht, hrk, -⟩ := hD
  obtain ⟨hcr, hrr⟩ := hrk row col hrow.1 hrow.2 hcol.1 hcol.2
  obtain ⟨hcs, hrs, -, -, hcsh, hrsh, hpa, -⟩ := hA
  have hb1 := Shift_bounds (D.colRank row col) colAlign D.colStride (by omega) hcr.1 hca.2
  have hb2 := Shift_bounds (D.rowRank row col) rowAlign D.rowStride (by omega) hrr.1 hra.2
  have m1 : 0 ≤ iLoc * D.colStride := mul_nonneg hi.1 (by omega)
  have m2 : 0 ≤ jLoc * D.rowStride := mul_nonneg hj.1 (by omega)
  have l1 := (lt_Length__iff h iLoc _ D.colStride (by omega) hb1.1 hi.1).1 hi.2
  have l2 := (lt_Length__iff w jLoc _ D.rowStride (by omega) hb2.1 hj.1).1 hj.2
  have hiE : ¬ (Shift (D.colRank row col) colAlign D.colStride + iLoc * D.colStride = END) := by
    omega
  have hjE : ¬ (Shift (D.rowRank row col) rowAlign D.rowStride + jLoc * D.rowStride = END) := by
    omega
  refine ⟨?_, ⟨by omega, l1⟩, ⟨by omega, l2⟩, ?_, ?_⟩
  · simp only [holdsEntry, ElementalMatrix.Participating, ElementalMatrix.ColShift,
      ElementalMatrix.ColStride, ElementalMatrix.RowShift, ElementalMatrix.RowStride,
      Bool.and_eq_true, hcs, hrs, hcsh, hrsh, hpa, hp, true_and]
    exact ⟨ownsIndex_own iLoc _ _ (by omega) hi.1, ownsIndex_own jLoc _ _ (by omega) hj.1⟩
  · simp only [ElementalMatrix.LocalRowOffset, if_neg hiE, ElementalMatrix.ColShift,
      ElementalMatrix.ColStride, hcs, hcsh]
    exact Length__global iLoc _ _ (by omega) hb1.1 hi.1
  · simp only [ElementalMatrix.LocalColOffset, if_neg hjE, ElementalMatrix.RowShift,
      ElementalMatrix.RowStride, hrs, hrsh]
    exact Length__global jLoc _ _ (by omega) hb2.1 hj.1

/-- The gathered entry of a distributed matrix whose replicated parts agree is the local entry
of any process that stores it. -/
theorem gatherEntry_distributed {α : Type} (END : Int) (hEND : END < 0) (r c : Int)
    (D : Distribution) (hD : D.Supported r c)
    (colAlign rowAlign : Int) (hca : 0 ≤ colAlign ∧ colAlign < D.colStride)
    (hra : 0 ≤ rowAlign ∧ rowAlign < D.rowStride) (h w : Int)
    (A : Int → Int → ElementalMatrix α)
    (hA : ∀ row col : Int, 0 ≤ row → row < r → 0 ≤ col → col < c →
      D.Describes colAlign rowAlign row col (A row col))
    (hcons : ∀ row col row' col' : Int, 0 ≤ row → row < r → 0 ≤ col → col < c →
      0 ≤ row' → row' < r → 0 ≤ col' → col' < c →
      D.participating row col = true → D.participating row' col' = true →
      D.colRank row col = D.colRank row' col' → D.rowRank row col = D.rowRank row' col' →
      ∀ iLoc jLoc : Int,
        0 ≤ iLoc → iLoc < Length h (Shift (D.colRank row col) colAlign D.colStride)
          D.colStride →
        0 ≤ jLoc → jLoc < Length w (Shift (D.rowRank row col) rowAlign D.rowStride)
          D.rowStride →
        (A row col).matrix_.Get iLoc jLoc = (A row' col').matrix_.Get iLoc jLoc)
    (i j : Int) (hi : 0 ≤ i ∧ i < h) (hj : 0 ≤ j ∧ j < w)
    (row col : Int) (hrow : 0 ≤ row ∧ row < r) (hcol : 0 ≤ col ∧ col < c)
    (hold : holdsEntry (A row col) i j = true) :
    gatherEntry END r c A i j
      = some ((A row col).matrix_.Get ((A row col).LocalRowOffset END i)
          ((A row col).LocalColOffset END j)) := by
  apply gatherEntry_eq END r c A i j row col hrow hcol hold
  intro row' col' hr0 hr1 hc0 hc1 hold'
  obtain ⟨p1, q1, q2, e1, e2, b1, b2, -, -⟩ :=
    holdsEntry_spec END hEND r c D hD colAlign rowAlign hca hra (A row col) row col hrow hcol
      (hA row col hrow.1 hrow.2 hcol.1 hcol.2) h w i j hi hj hold
  obtain ⟨p1', q1', q2', e1', e2', b1', b2', -, -⟩ :=
    holdsEntry_spec END hEND r c D hD colAlign rowAlign hca hra (A row' col') row' col'
      ⟨hr0, hr1⟩ ⟨hc0, hc1⟩ (hA row' col' hr0 hr1 hc0 hc1) h w i j hi hj hold'
  have hcr : D.colRank row' col' = D.colRank row col := by rw [q1, q1']
  have hrr : D.rowRank row' col' = D.rowRank row col := by rw [q2, q2']
  have e1'' : (A row' col').LocalRowOffset END i = (A row col).LocalRowOffset END i := by
    rw [e1, e1', hcr]
  have e2'' : (A row' col').LocalColOffset END j = (A row col).LocalColOffset END j := by
    rw [e2, e2', hrr]
  rw [e1'', e2'']
  exact hcons row' col' row col hr0 hr1 hc0 hc1 hrow.1 hrow.2 hcol.1 hcol.2 p1' p1 hcr hrr
    _ _ (e1'' ▸ b1'.1) (e1'' ▸ b1'.2) (e2'' ▸ b2'.1) (e2'' ▸ b2'.2)

/-- C4 (modelled from the spec): on the `r x c` grid let `D1` and `D2` be supported
distributions, `M` a matrix distributed by `D1` whose replicated parts agree, `N0` any matrix
distributed by `D2` and `M0` any matrix distributed by `D1` with the alignments of `M`.
After `N = M` into `N0` and then `M' = N` into `M0`, every process holds for `M'` the
descriptor, the extents and the local extents it holds for `M`, and each of its local entries
equals the local entry of `M` at the same local position. -/
theorem C4_redistribution_round_trip {α : Type} (END : Int) (hEND : END < 0) (r c : Int)
    (D1 D2 : Distribution) (hD1 : D1.Supported r c) (hD2 : D2.Supported r c)
    (colAlign1 rowAlign1 colAlign2 rowAlign2 : Int)
    (hca1 : 0 ≤ colAlign1 ∧ colAlign1 < D1.colStride)
    (hra1 : 0 ≤ rowAlign1 ∧ rowAlign1 < D1.rowStride)
    (hca2 : 0 ≤ colAlign2 ∧ colAlign2 < D2.colStride)
    (hra2 : 0 ≤ rowAlign2 ∧ rowAlign2 < D2.rowStride)
    (h w : Int) (M N0 M0 : Int → Int → ElementalMatrix α)
    (mem1 mem2 : Int → Int → Int → α)
    (hM : ∀ row col : Int, 0 ≤ row → row < r → 0 ≤ col → col < c →
      D1.Describes colAlign1 rowAlign1 row col (M row col) ∧
      (M row col).height_ = h ∧ (M row col).width_ = w ∧
      (D1.participating row col = true →
        (M row col).matrix_.height_ = Length h (M row col).colShift_ (M row col).colStride ∧
        (M row col).matrix_.width_ = Length w (M row col).rowShift_ (M row col).rowStride))
    (hcons : ∀ row col row' col' : Int, 0 ≤ row → row < r → 0 ≤ col → col < c →
      0 ≤ row' → row' < r → 0 ≤ col' → col' < c →
      D1.participating row col = true → D1.participating row' col' = true →
      D1.colRank row col = D1.colRank row' col' →
      D1.rowRank row col = D1.rowRank row' col' →
      ∀ iLoc jLoc : Int, 0 ≤ iLoc → iLoc < (M row col).matrix_.height_ →
        0 ≤ jLoc → jLoc < (M row col).matrix_.width_ →
        (M row col).matrix_.Get iLoc jLoc = (M row' col').matrix_.Get iLoc jLoc)
    (hN0 : ∀ row col : Int, 0 ≤ row → row < r → 0 ≤ col → col < c →
      D2.Describes colAlign2 rowAlign2 row col (N0 row col))
    (hM0 : ∀ row col : Int, 0 ≤ row → row < r → 0 ≤ col → col < c →
      D1.Describes colAlign1 rowAlign1 row col (M0 row col)) :
    ∀ row col : Int, 0 ≤ row → row < r → 0 ≤ col → col < c →
      D1.Describes colAlign1 rowAlign1 row col
        (Redistribute END r c M0 (Redistribute END r c N0 M mem1) mem2 row col) ∧
      (Redistribute END r c M0 (Redistribute END r c N0 M mem1) mem2 row col).Height = h ∧
      (Redistribute END r c M0 (Redistribute END r c N0 M mem1) mem2 row col).Width = w ∧
      (Redistribute END r c M0 (Redistribute END r c N0 M mem1) mem2 row col).LocalHeight
        = (M row col).LocalHeight ∧
      (Redistribute END r c M0 (Redistribute END r c N0 M mem1) mem2 row col).LocalWidth
        = (M row col).LocalWidth ∧
      ∀ iLoc jLoc : Int, 0 ≤ iLoc → iLoc < (M row col).LocalHeight →
        0 ≤ jLoc → jLoc < (M row col).LocalWidth →
        (Redistribute END r c M0 (Redistribute END r c N0 M mem1) mem2 row col).matrix_.Get
            iLoc jLoc
          = (M row col).matrix_.Get iLoc jLoc := by
  -- the local extents of `M` in terms of the distribution
  have hMdim : ∀ row col : Int, 0 ≤ row → row < r → 0 ≤ col → col < c →
      D1.participating row col = true →
      (M row col).matrix_.height_
        = Length h (Shift (D1.colRank row col) colAlign1 D1.colStride) D1.colStride ∧
      (M row col).matrix_.width_
        = Length w (Shift (D1.rowRank row col) rowAlign1 D1.rowStride) D1.rowStride := by
    intro row col h1 h2 h3 h4 hp
    obtain ⟨⟨hcs, hrs, -, -, hcsh, hrsh, -, -⟩, -, -, hd⟩ := hM row col h1 h2 h3 h4
    have := hd hp
    rw [hcs, hrs, hcsh, hrsh] at this
    exact this
  have hMdesc : ∀ row col : Int, 0 ≤ row → row < r → 0 ≤ col → col < c →
      D1.Describes colAlign1 rowAlign1 row col (M row col) :=
    fun row col h1 h2 h3 h4 => (hM row col h1 h2 h3 h4).1
  -- gathering from `M`
  have gM : ∀ i j : Int, 0 ≤ i → i < h → 0 ≤ j → j < w →
      ∀ row col : Int, 0 ≤ row → row < r → 0 ≤ col → col < c →
      holdsEntry (M row col) i j = true →
      gatherEntry END r c M i j
        = some ((M row col).matrix_.Get ((M row col).LocalRowOffset END i)
            ((M row col).LocalColOffset END j)) := by
    intro i j hi0 hi1 hj0 hj1 row col h1 h2 h3 h4 hold
    apply gatherEntry_distributed END hEND r c D1 hD1 colAlign1 rowAlign1 hca1 hra1 h w M
      hMdesc ?_ i j ⟨hi0, hi1⟩ ⟨hj0, hj1⟩ row col ⟨h1, h2⟩ ⟨h3, h4⟩ hold
    intro row1 col1 row2 col2 a1 a2 a3 a4 b1 b2 b3 b4 p1 p2 e1 e2 iLoc jLoc i0 i1 j0 j1
    obtain ⟨d1, d2⟩ := hMdim row1 col1 a1 a2 a3 a4 p1
    exact hcons row1 col1 row2 col2 a1 a2 a3 a4 b1 b2 b3 b4 p1 p2 e1 e2 iLoc jLoc i0
      (by rw [d1]; exact i1) j0 (by rw [d2]; exact j1)
  -- the intermediate matrix
  have hN : ∀ row col : Int, 0 ≤ row → row < r → 0 ≤ col → col < c →
      _ := fun row col h1 h2 h3 h4 =>
    Redistribute_spec END hEND r c D2 colAlign2 rowAlign2 h w M N0 mem1 row col
      ⟨(hM row col h1 h2 h3 h4).2.1, (hM row col h1 h2 h3 h4).2.2.1⟩ (hN0 row col h1 h2 h3 h4)
  have hNdesc : ∀ row col : Int, 0 ≤ row → row < r → 0 ≤ col → col < c →
      D2.Describes colAlign2 rowAlign2 row col (Redistribute END r c N0 M mem1 row col) :=
    fun row col h1 h2 h3 h4 => (hN row col h1 h2 h3 h4).1
  -- an entry of the intermediate matrix that a process stores is the gathered entry of `M`
  have hNval : ∀ i j : Int, 0 ≤ i → i < h → 0 ≤ j → j < w →
      ∀ row col : Int, 0 ≤ row → row < r → 0 ≤ col → col < c →
      holdsEntry (Redistribute END r c N0 M mem1 row col) i j = true →
      ∀ v : α, gatherEntry END r c M i j = some v →
      (Redistribute END r c N0 M mem1 row col).matrix_.Get
        ((Redistribute END r c N0 M mem1 row col).LocalRowOffset END i)
        ((Redistribute END r c N0 M mem1 row col).LocalColOffset END j) = v := by
    intro i j hi0 hi1 hj0 hj1 row col h1 h2 h3 h4 hold v hv
    obtain ⟨hp, -, -, -, -, b1, b2, g1, g2⟩ :=
      holdsEntry_spec END hEND r c D2 hD2 colAlign2 rowAlign2 hca2 hra2 _ row col ⟨h1, h2⟩
        ⟨h3, h4⟩ (hNdesc row col h1 h2 h3 h4) h w i j ⟨hi0, hi1⟩ ⟨hj0, hj1⟩ hold
    obtain ⟨-, -, -, hpart⟩ := hN row col h1 h2 h3 h4
    obtain ⟨dh, dw, hval⟩ := hpart hp
    apply hval _ _ v b1.1 (by rw [dh]; exact b1.2) b2.1 (by rw [dw]; exact b2.2)
    rw [g1, g2]
    exact hv
  -- gathering from the intermediate matrix gives what gathering from `M` gives
  have gN : ∀ i j : Int, 0 ≤ i → i < h → 0 ≤ j → j < w →
      gatherEntry END r c (Redistribute END r c N0 M mem1) i j
        = gatherEntry END r c M i j := by
    intro i j hi0 hi1 hj0 hj1
    obtain ⟨row1, col1, hr1, hc1, hold1⟩ :=
      exists_holder r c D1 hD1 colAlign1 rowAlign1 hca1 hra1 M hMdesc i j hi0 hj0
    have hv := gM i j hi0 hi1 hj0 hj1 row1 col1 hr1.1 hr1.2 hc1.1 hc1.2 hold1
    obtain ⟨row2, col2, hr2, hc2, hold2⟩ :=
      exists_holder r c D2 hD2 colAlign2 rowAlign2 hca2 hra2 _ hNdesc i j hi0 hj0
    rw [hv]
    have e2 := hNval i j hi0 hi1 hj0 hj1 row2 col2 hr2.1 hr2.2 hc2.1 hc2.2 hold2 _ hv
    rw [← e2]
    apply gatherEntry_eq END r c _ i j row2 col2 hr2 hc2 hold2
    intro row' col' a1 a2 a3 a4 hold'
    rw [e2]
    exact hNval i j hi0 hi1 hj0 hj1 row' col' a1 a2 a3 a4 hold' _ hv
  -- the round trip
  intro row col h1 h2 h3 h4
  obtain ⟨hdesc, hh, hw, hpart⟩ :=
    Redistribute_spec END hEND r c D1 colAlign1 rowAlign1 h w
      (Redistribute END r c N0 M mem1) M0 mem2 row col
      ⟨(hN row col h1 h2 h3 h4).2.1, (hN row col h1 h2 h3 h4).2.2.1⟩ (hM0 row col h1 h2 h3 h4)
  have hMd := hMdesc row col h1 h2 h3 h4
  refine ⟨hdesc, hh, hw, ?_⟩
  cases hp : D1.participating row col
  · -- a process that does not take part holds empty local matrices
    obtain ⟨-, -, -, -, -, -, pa, he⟩ := hdesc
    obtain ⟨-, -, -, -, -, -, pa', he'⟩ := hMd
    have z := he (by rw [pa, hp])
    have z' := he' (by rw [pa', hp])
    simp only [ElementalMatrix.LocalHeight, ElementalMatrix.LocalWidth, Matrix.Height,
      Matrix.Width, z.1, z.2, z'.1, z'.2, true_and]
    intro iLoc jLoc i0 i1
    omega
  · obtain ⟨dh, dw, hval⟩ := hpart hp
    obtain ⟨mh, mw⟩ := hMdim row col h1 h2 h3 h4 hp
    simp only [ElementalMatrix.LocalHeight, ElementalMatrix.LocalWidth, Matrix.Height,
      Matrix.Width]
    refine ⟨dh.trans mh.symm, dw.trans mw.symm, ?_⟩
    intro iLoc jLoc i0 i1 j0 j1
    rw [mh] at i1
    rw [mw] at j1
    obtain ⟨hold, bi, bj, li, lj⟩ :=
      holdsEntry_own END hEND r c D1 hD1 colAlign1 rowAlign1 hca1 hra1 (M row col) row col
        ⟨h1, h2⟩ ⟨h3, h4⟩ hMd hp h w iLoc jLoc ⟨i0, i1⟩ ⟨j0, j1⟩
    apply hval iLoc jLoc _ i0 (by rw [dh]; exact i1) j0 (by rw [dw]; exact j1)
    rw [gN _ _ bi.1 bi.2 bj.1 bj.2,
      gM _ _ bi.1 bi.2 bj.1 bj.2 row col h1 h2 h3 h4 hold, li, lj]

/-- The round trip `[VC,*] -> [VR,*] -> [VC,*]` of the `5 x 2` sample matrix on the `2 x 2`
grid: the process at grid position `(0,1)` gets back its local entry `(0,1)`. -/
theorem C4_redistribution_round_trip_witness :
    (Redistribute sampleEND 2 2 sampleC
        (Redistribute sampleEND 2 2 sampleB sampleA (fun _ _ => sampleMem))
        (fun _ _ => sampleMem) 0 1).matrix_.Get 0 1
      = (sampleA 0 1).matrix_.Get 0 1 :=
  (C4_redistribution_round_trip sampleEND (by decide) 2 2
    (Distribution.VC_STAR 2 2) (Distribution.VR_STAR 2 2)
    (by
      refine ⟨by decide, by decide, ?_, ?_⟩
      · intro row col h1 h2 h3 h4
        simp only [Distribution.VC_STAR, Grid.VCRank]
        omega
      · intro a b h1 h2 h3 h4
        simp only [Distribution.VC_STAR, Grid.VCRank] at h2 h4 ⊢
        exact ⟨a % 2, a / 2, by omega, by omega, trivial, by omega, by omega⟩)
    (by
      refine ⟨by decide, by decide, ?_, ?_⟩
      · intro row col h1 h2 h3 h4
        simp only [Distribution.VR_STAR, Grid.VRRank]
        omega
      · intro a b h1 h2 h3 h4
        simp only [Distribution.VR_STAR, Grid.VRRank] at h2 h4 ⊢
        exact ⟨a / 2, a % 2, by omega, by omega, trivial, by omega, by omega⟩)
    1 0 2 0 (by decide) (by decide) (by decide) (by decide) 5 2
    sampleA sampleB sampleC (fun _ _ => sampleMem) (fun _ _ => sampleMem)
    (by
      intro row col h1 h2 h3 h4
      have hr : row = 0 ∨ row = 1 := by omega
      have hc : col = 0 ∨ col = 1 := by omega
      rcases hr with rfl | rfl <;> rcases hc with rfl | rfl <;>
        exact ⟨by unfold Distribution.Describes; decide, by decide, by decide,
          fun _ => by decide⟩)
    (by
      intro row col row' col' a1 a2 a3 a4 b1 b2 b3 b4 _ _ e1 _
      simp only [Distribution.VC_STAR, Grid.VCRank] at e1
      have hr : row = row' := by omega
      have hc : col = col' := by omega
      subst hr hc
      intro iLoc jLoc _ _ _ _
      rfl)
    (by
      intro row col h1 h2 h3 h4
      have hr : row = 0 ∨ row = 1 := by omega
      have hc : col = 0 ∨ col = 1 := by omega
      rcases hr with rfl | rfl <;> rcases hc with rfl | rfl <;>
        (unfold Distribution.Describes; decide))
    (by
      intro row col h1 h2 h3 h4
      have hr : row = 0 ∨ row = 1 := by omega
      have hc : col = 0 ∨ col = 1 := by omega
      rcases hr with rfl | rfl <;> rcases hc with rfl | rfl <;>
        (unfold Distribution.Describes; decide))
    0 1 (by decide) (by decide) (by decide) (by decide)).2.2.2.2.2 0 1
    (by decide) (by decide) (by decide) (by decide)

/-- On the sample data the round trip returns entry `(1,1)`, which holds 11, to the process
at grid position `(0,1)`; after the first assignment it is held by the process at `(1,1)`. -/
theorem sample_round_trip_entry :
    (Redistribute sampleEND 2 2 sampleC
        (Redistribute sampleEND 2 2 sampleB sampleA (fun _ _ => sampleMem))
        (fun _ _ => sampleMem) 0 1).matrix_.Get 0 1 = 11 ∧
    holdsEntry (Redistribute sampleEND 2 2 sampleB sampleA (fun _ _ => sampleMem) 1 1) 1 1
      = true := by
  decide

/-- The column-major rank determines the grid position. -/
theorem VCRank_injective (r row col row' col' : Int) (hrow : 0 ≤ row ∧ row < r)
    (hcol : 0 ≤ col) (hrow' : 0 ≤ row' ∧ row' < r) (hcol' : 0 ≤ col')
    (e : row + col * r = row' + col' * r) : row = row' ∧ col = col' := by
  have h1 := rank_unsplit r col row hcol hrow
  have h2 := rank_unsplit r col' row' hcol' hrow'
  have e' : row + r * col = row' + r * col' := by
    have a1 : r * col = col * r := by ring
    have a2 : r * col' = col' * r := by ring
    omega
  rw [e'] at h1
  exact ⟨h1.2.symm.trans h2.2, h1.1.symm.trans h2.1⟩

/-- `[VC,*]` is a supported distribution on every grid. -/
theorem VC_STAR_Supported (r c : Int) (hr : 1 ≤ r) (hc : 1 ≤ c) :
    (Distribution.VC_STAR r c).Supported r c := by
  have hp : 0 < r * c := mul_pos (by omega) (by omega)
  refine ⟨by simp only [Distribution.VC_STAR]; omega, le_refl _, ?_, ?_⟩
  · intro row col h1 h2 h3 h4
    simp only [Distribution.VC_STAR, Grid.VCRank]
    have := VRRank_bounds c r col row ⟨h3, h4⟩ ⟨h1, h2⟩
    have e : c * r = r * c := by ring
    omega
  · intro a b h1 h2 h3 h4
    simp only [Distribution.VC_STAR, Grid.VCRank] at h2 h4 ⊢
    obtain ⟨hq, hm, hk⟩ := rank_split c r a (by omega) ⟨h1, by rw [mul_comm]; exact h2⟩
    exact ⟨Int.tmod a r, Int.tdiv a r, hm, hq, trivial, hk, by omega⟩

/-- `[VR,*]` is a supported distribution on every grid. -/
theorem VR_STAR_Supported (r c : Int) (hr : 1 ≤ r) (hc : 1 ≤ c) :
    (Distribution.VR_STAR r c).Supported r c := by
  have hp : 0 < r * c := mul_pos (by omega) (by omega)
  refine ⟨by simp only [Distribution.VR_STAR]; omega, le_refl _, ?_, ?_⟩
  · intro row col h1 h2 h3 h4
    simp only [Distribution.VR_STAR, Grid.VRRank]
    have := VRRank_bounds r c row col ⟨h1, h2⟩ ⟨h3, h4⟩
    omega
  · intro a b h1 h2 h3 h4
    simp only [Distribution.VR_STAR, Grid.VRRank] at h2 h4 ⊢
    obtain ⟨hq, hm, hk⟩ := rank_split r c a (by omega) ⟨h1, h2⟩
    exact ⟨Int.tdiv a c, Int.tmod a c, hq, hm, trivial, hk, by omega⟩

/-- The embedded assignment `[VR,*] = [VC,*]` agrees with the reference redistribution: on
every process the call returns a destination with the extents, the local extents and the
local entries that `Redistribute` gives. -/
theorem VR_STAR_assign_all_eq_Redistribute {α : Type} (debug : Bool) (END : Int)
    (hEND : END < 0) (r c aA aB h w : Int)
    (hr : 1 ≤ r) (hc : 1 ≤ c)
    (haA : 0 ≤ aA ∧ aA < r * c) (haB : 0 ≤ aB ∧ aB < r * c)
    (A B : Int → Int → ElementalMatrix α) (mem aux : Int → Int → Int → α)
    (hA : ∀ row col : Int, 0 ≤ row → row < r → 0 ≤ col → col < c →
      IsVC_STAR { height_ := r, width_ := c, mcRank := row, mrRank := col } (A row col) ∧
      (A row col).colAlign_ = aA ∧ (A row col).height_ = h ∧ (A row col).width_ = w)
    (hB : ∀ row col : Int, 0 ≤ row → row < r → 0 ≤ col → col < c →
      IsVR_STAR { height_ := r, width_ := c, mcRank := row, mrRank := col } (B row col) ∧
      (B row col).colAlign_ = aB)
    (row col : Int) (hrow : 0 ≤ row ∧ row < r) (hcol : 0 ≤ col ∧ col < c) :
    ∃ B' : ElementalMatrix α,
      VR_STAR_assign_all debug r c B A mem aux row col = CallResult.returned B' ∧
      B'.height_ = (Redistribute END r c B A mem row col).height_ ∧
      B'.width_ = (Redistribute END r c B A mem row col).width_ ∧
      B'.matrix_.height_ = (Redistribute END r c B A mem row col).matrix_.height_ ∧
      B'.matrix_.width_ = (Redistribute END r c B A mem row col).matrix_.width_ ∧
      ∀ iLoc jLoc : Int, 0 ≤ iLoc → iLoc < B'.matrix_.height_ →
        0 ≤ jLoc → jLoc < B'.matrix_.width_ →
        B'.matrix_.Get iLoc jLoc
          = (Redistribute END r c B A mem row col).matrix_.Get iLoc jLoc := by
  have hp : 0 < r * c := mul_pos (by omega) (by omega)
  have hS0 : Shift 0 0 1 = 0 := by decide
  have hra : 0 ≤ (0 : Int) ∧ (0 : Int) < (Distribution.VC_STAR r c).rowStride :=
    ⟨le_refl 0, by show (0 : Int) < 1; decide⟩
  have hDA := VC_STAR_Supported r c hr hc
  have hDB := VR_STAR_Supported r c hr hc
  -- the descriptors in terms of the two distributions
  have hAd : ∀ row col : Int, 0 ≤ row → row < r → 0 ≤ col → col < c →
      (Distribution.VC_STAR r c).Describes aA 0 row col (A row col) := by
    intro row col h1 h2 h3 h4
    obtain ⟨⟨-, a2, a3, a4, a5, a6, a7, -, -, -⟩, a0, -, -⟩ := hA row col h1 h2 h3 h4
    refine ⟨a2, a3, a0, a6, ?_, ?_, a7, ?_⟩
    · rw [a4, a0]; rfl
    · rw [a5]; exact hS0.symm
    · intro hc'; rw [a7] at hc'; cases hc'
  have hBd : ∀ row col : Int, 0 ≤ row → row < r → 0 ≤ col → col < c →
      (Distribution.VR_STAR r c).Describes aB 0 row col (B row col) := by
    intro row col h1 h2 h3 h4
    obtain ⟨⟨-, -, b3, b4, b5, b6, b7, b8, -⟩, b0⟩ := hB row col h1 h2 h3 h4
    refine ⟨b3, b4, b0, b7, ?_, ?_, b8, ?_⟩
    · rw [b5, b0]; rfl
    · rw [b6]; exact hS0.symm
    · intro hc'; rw [b8] at hc'; cases hc'
  obtain ⟨B', hB', e1, e2, -, -, -, -, -, e8, e9, hdata⟩ :=
    VR_STAR_assign_all_spec debug r c aA aB h w hr hc haA haB A B mem aux hA hB row col
      hrow hcol
  obtain ⟨-, f1, f2, fpart⟩ :=
    Redistribute_spec END hEND r c (Distribution.VR_STAR r c) aB 0 h w A B mem row col
      ⟨(hA row col hrow.1 hrow.2 hcol.1 hcol.2).2.2.1,
        (hA row col hrow.1 hrow.2 hcol.1 hcol.2).2.2.2⟩
      (hBd row col hrow.1 hrow.2 hcol.1 hcol.2)
  obtain ⟨g1, g2, gval⟩ := fpart rfl
  have hcr : (Distribution.VR_STAR r c).colRank row col = col + row * c := rfl
  have hcsB : (Distribution.VR_STAR r c).colStride = r * c := rfl
  have hrsB : (Distribution.VR_STAR r c).rowStride = 1 := rfl
  have hrrB : (Distribution.VR_STAR r c).rowRank row col = 0 := rfl
  simp only [hcr, hcsB, hrsB, hrrB, hS0] at g1 g2 gval
  refine ⟨B', hB', e1.trans f1.symm, e2.trans f2.symm, e8.trans g1.symm, e9.trans g2.symm, ?_⟩
  intro iLoc jLoc i0 i1 j0 j1
  rw [e8] at i1
  rw [e9] at j1
  have hw0 : 0 ≤ w := by
    by_contra hneg
    have : Length w 0 1 = 0 := by
      unfold Length Length_
      have : w.toNat = 0 := by omega
      rw [this]; rfl
    omega
  rw [Length_unit w hw0] at j1
  -- the process of `A` that the entry comes from
  have hrkB := VRRank_bounds r c row col hrow hcol
  have hsB := Shift_bounds (col + row * c) aB (r * c) hp hrkB.1 haB.2
  have hq0 := Int.emod_nonneg (aA + Shift (col + row * c) aB (r * c)) (ne_of_gt hp)
  have hq1 := Int.emod_lt_of_pos (aA + Shift (col + row * c) aB (r * c)) hp
  obtain ⟨hqd, hqm, hqk⟩ := rank_split c r
    ((aA + Shift (col + row * c) aB (r * c)) % (r * c)) (by omega)
    ⟨hq0, by rw [mul_comm c r]; exact hq1⟩
  have hval := hdata jLoc iLoc j0 j1 i0 i1
  have hGet : B'.matrix_.Get iLoc jLoc
      = (A (Int.tmod ((aA + Shift (col + row * c) aB (r * c)) % (r * c)) r)
          (Int.tdiv ((aA + Shift (col + row * c) aB (r * c)) % (r * c)) r)).matrix_.Get
            iLoc jLoc := by
    simp only [Matrix.Get]
    have hv := hval
    rw [add_comm (jLoc * B'.matrix_.ldim_) iLoc, add_comm (jLoc * _) iLoc] at hv
    exact hv
  rw [hGet]
  symm
  apply gval iLoc jLoc _ i0 (by rw [g1]; exact i1) j0 (by rw [g2, Length_unit w hw0]; exact j1)
  -- the shift of that process under `[VC,*]`
  have hshA : Shift (Int.tmod ((aA + Shift (col + row * c) aB (r * c)) % (r * c)) r
        + Int.tdiv ((aA + Shift (col + row * c) aB (r * c)) % (r * c)) r * r) aA (r * c)
      = Shift (col + row * c) aB (r * c) := by
    rw [hqk, Shift_eq _ _ _ hp hq0 haA.2]
    have := emod_add_shift aA (Shift (col + row * c) aB (r * c)) (r * c)
    rw [Int.emod_eq_of_lt hsB.1 hsB.2] at this
    exact this
  obtain ⟨hold, bi, bj, li, lj⟩ :=
    holdsEntry_own END hEND r c (Distribution.VC_STAR r c) hDA aA 0 haA hra
      (A (Int.tmod ((aA + Shift (col + row * c) aB (r * c)) % (r * c)) r)
        (Int.tdiv ((aA + Shift (col + row * c) aB (r * c)) % (r * c)) r))
      _ _ hqm hqd (hAd _ _ hqm.1 hqm.2 hqd.1 hqd.2) rfl h w iLoc jLoc
      ⟨i0, by
        show iLoc < Length h (Shift (Int.tmod _ r + Int.tdiv _ r * r) aA (r * c)) (r * c)
        rw [hshA]; exact i1⟩
      ⟨j0, by
        show jLoc < Length w (Shift 0 0 1) 1
        rw [hS0, Length_unit w hw0]; exact j1⟩
  have hcrA : (Distribution.VC_STAR r c).colRank
      (Int.tmod ((aA + Shift (col + row * c) aB (r * c)) % (r * c)) r)
      (Int.tdiv ((aA + Shift (col + row * c) aB (r * c)) % (r * c)) r)
      = Int.tmod ((aA + Shift (col + row * c) aB (r * c)) % (r * c)) r
        + Int.tdiv ((aA + Shift (col + row * c) aB (r * c)) % (r * c)) r * r := rfl
  have hcsA : (Distribution.VC_STAR r c).colStride = r * c := rfl
  have hrsA : (Distribution.VC_STAR r c).rowStride = 1 := rfl
  have hrrA : ∀ x y : Int, (Distribution.VC_STAR r c).rowRank x y = 0 := fun _ _ => rfl
  simp only [hcrA, hcsA, hrsA, hrrA, hshA, hS0] at hold bi bj li lj
  rw [gatherEntry_distributed END hEND r c (Distribution.VC_STAR r c) hDA aA 0 haA
    hra h w A hAd ?_ _ _ bi bj _ _ hqm hqd hold, li, lj]
  intro row1 col1 row2 col2 a1 a2 a3 a4 b1 b2 b3 b4 _ _ ee _ iLoc' jLoc' _ _ _ _
  obtain ⟨x1, x2⟩ := VCRank_injective r row1 col1 row2 col2 ⟨a1, a2⟩ a3 ⟨b1, b2⟩ b3 ee
  subst x1 x2
  rfl

/-! ## C20: conformance assertions -/

theorem BuildStream_append (os : String) (args : List String) :
    BuildStream os args = os ++ BuildStream "" args := by
  induction args generalizing os with
  | nil => simp [BuildStream]
  | cons a t ih =>
    simp only [BuildStream]
    rw [ih (os ++ a), ih ("" ++ a)]
    simp [String.append_assoc]

/-- The message is the concatenation of the arguments. -/
theorem BuildString_cons (a : String) (args : List String) :
    BuildString (a :: args) = a ++ BuildString args := by
  unfold BuildString
  simp only [BuildStream]
  rw [BuildStream_append]
  simp

theorem BuildString_nil : BuildString [] = "" := rfl

/-- What `AssertConforming1x2` returns. -/
theorem AssertConforming1x2_spec {α : Type} (DimsString : ElementalMatrix α → String → String)
    (AL AR : ElementalMatrix α) :
    (AL.Height ≠ AR.Height →
      AssertConforming1x2 DimsString AL AR
        = Except.error ("1x2 not conformant:\n" ++ (DimsString AL "Left" ++
            ("\n" ++ DimsString AR "Right")))) ∧
    (AL.Height = AR.Height → AL.ColAlign ≠ AR.ColAlign →
      AssertConforming1x2 DimsString AL AR = Except.error "1x2 is misaligned") ∧
    (AL.Height = AR.Height → AL.ColAlign = AR.ColAlign →
      AssertConforming1x2 DimsString AL AR = Except.ok ()) := by
  refine ⟨fun h => ?_, fun h1 h2 => ?_, fun h1 h2 => ?_⟩
  · simp only [AssertConforming1x2, LogicError, h, ne_eq, not_false_eq_true, if_true, bind,
      Except.bind, BuildString_cons, BuildString_nil, String.append_empty]
  · simp only [AssertConforming1x2, LogicError, h1, h2, ne_eq, not_true_eq_false,
      not_false_eq_true, if_true, if_false, bind, Except.bind, pure, Except.pure,
      BuildString_cons, BuildString_nil, String.append_empty]
  · simp only [AssertConforming1x2, LogicError, h1, h2, ne_eq, not_true_eq_false, if_false,
      bind, Except.bind, pure, Except.pure]

/-- What `AssertConforming2x1` returns. -/
theorem AssertConforming2x1_spec {α : Type} (DimsString : ElementalMatrix α → String → String)
    (AT AB : ElementalMatrix α) :
    (AT.Width ≠ AB.Width →
      AssertConforming2x1 DimsString AT AB
        = Except.error ("2x1 is not conformant:\n" ++ (DimsString AT "Top" ++
            ("\n" ++ DimsString AB "Bottom")))) ∧
    (AT.Width = AB.Width → AT.RowAlign ≠ AB.RowAlign →
      AssertConforming2x1 DimsString AT AB = Except.error "2x1 is not aligned") ∧
    (AT.Width = AB.Width → AT.RowAlign = AB.RowAlign →
      AssertConforming2x1 DimsString AT AB = Except.ok ()) := by
  refine ⟨fun h => ?_, fun h1 h2 => ?_, fun h1 h2 => ?_⟩
  · simp only [AssertConforming2x1, LogicError, h, ne_eq, not_false_eq_true, if_true, bind,
      Except.bind, BuildString_cons, BuildString_nil, String.append_empty]
  · simp only [AssertConforming2x1, LogicError, h1, h2, ne_eq, not_true_eq_false,
      not_false_eq_true, if_true, if_false, bind, Except.bind, pure, Except.pure,
      BuildString_cons, BuildString_nil, String.append_empty]
  · simp only [AssertConforming2x1, LogicError, h1, h2, ne_eq, not_true_eq_false, if_false,
      bind, Except.bind, pure, Except.pure]

/-- What `AssertConforming2x2` returns. -/
theorem AssertConforming2x2_spec {α : Type} (DimsString : ElementalMatrix α → String → String)
    (ATL ATR ABL ABR : ElementalMatrix α) :
    ((ATL.Width ≠ ABL.Width ∨ ATR.Width ≠ ABR.Width ∨
        ATL.Height ≠ ATR.Height ∨ ABL.Height ≠ ABR.Height) →
      AssertConforming2x2 DimsString ATL ATR ABL ABR
        = Except.error ("2x2 is not conformant:\n" ++ (DimsString ATL "TL" ++
            ("\n" ++ (DimsString ATR "TR" ++ ("\n" ++ (DimsString ABL "BL" ++
            ("\n" ++ DimsString ABR "BR")))))))) ∧
    (¬ (ATL.Width ≠ ABL.Width ∨ ATR.Width ≠ ABR.Width ∨
        ATL.Height ≠ ATR.Height ∨ ABL.Height ≠ ABR.Height) →
      (ATL.ColAlign ≠ ATR.ColAlign ∨ ABL.ColAlign ≠ ABR.ColAlign ∨
        ATL.RowAlign ≠ ABL.RowAlign ∨ ATR.RowAlign ≠ ABR.RowAlign) →
      AssertConforming2x2 DimsString ATL ATR ABL ABR
        = Except.error "2x2 set of matrices must aligned to combine") ∧
    (¬ (ATL.Width ≠ ABL.Width ∨ ATR.Width ≠ ABR.Width ∨
        ATL.Height ≠ ATR.Height ∨ ABL.Height ≠ ABR.Height) →
      ¬ (ATL.ColAlign ≠ ATR.ColAlign ∨ ABL.ColAlign ≠ ABR.ColAlign ∨
        ATL.RowAlign ≠ ABL.RowAlign ∨ ATR.RowAlign ≠ ABR.RowAlign) →
      AssertConforming2x2 DimsString ATL ATR ABL ABR = Except.ok ()) := by
  refine ⟨fun h => ?_, fun h1 h2 => ?_, fun h1 h2 => ?_⟩
  · simp only [AssertConforming2x2, LogicError, if_pos h, bind,
      Except.bind, BuildString_cons, BuildString_nil, String.append_empty]
  · simp only [AssertConforming2x2, LogicError, if_neg h1, if_pos h2, bind, Except.bind, pure,
      Except.pure, BuildString_cons, BuildString_nil, String.append_empty]
  · simp only [AssertConforming2x2, LogicError, if_neg h1, if_neg h2, bind, Except.bind, pure,
      Except.pure]

/-- C20: `AssertConforming1x2` raises `LogicError` exactly when the heights or the column
alignments differ, `AssertConforming2x1` exactly when the widths or the row alignments
differ, and `AssertConforming2x2` exactly when one of its four dimension equalities or four
alignment equalities fails.  On a dimension mismatch the message is the headline followed
by the `DimsString` of every operand, so it contains each of them. -/
theorem C20_AssertConforming {α : Type} (DimsString : ElementalMatrix α → String → String)
    (AL AR ABL ABR : ElementalMatrix α) :
    ((∃ msg, AssertConforming1x2 DimsString AL AR = Except.error msg) ↔
      (AL.Height ≠ AR.Height ∨ AL.ColAlign ≠ AR.ColAlign)) ∧
    ((∃ msg, AssertConforming2x1 DimsString AL AR = Except.error msg) ↔
      (AL.Width ≠ AR.Width ∨ AL.RowAlign ≠ AR.RowAlign)) ∧
    ((∃ msg, AssertConforming2x2 DimsString AL AR ABL ABR = Except.error msg) ↔
      (AL.Width ≠ ABL.Width ∨ AR.Width ≠ ABR.Width ∨
        AL.Height ≠ AR.Height ∨ ABL.Height ≠ ABR.Height ∨
        AL.ColAlign ≠ AR.ColAlign ∨ ABL.ColAlign ≠ ABR.ColAlign ∨
        AL.RowAlign ≠ ABL.RowAlign ∨ AR.RowAlign ≠ ABR.RowAlign)) ∧
    (AL.Height ≠ AR.Height →
      ∃ msg, AssertConforming1x2 DimsString AL AR = Except.error msg ∧
        (∃ pre post, msg = pre ++ DimsString AL "Left" ++ post) ∧
        (∃ pre post, msg = pre ++ DimsString AR "Right" ++ post)) ∧
    (AL.Width ≠ AR.Width →
      ∃ msg, AssertConforming2x1 DimsString AL AR = Except.error msg ∧
        (∃ pre post, msg = pre ++ DimsString AL "Top" ++ post) ∧
        (∃ pre post, msg = pre ++ DimsString AR "Bottom" ++ post)) ∧
    ((AL.Width ≠ ABL.Width ∨ AR.Width ≠ ABR.Width ∨
        AL.Height ≠ AR.Height ∨ ABL.Height ≠ ABR.Height) →
      ∃ msg, AssertConforming2x2 DimsString AL AR ABL ABR = Except.error msg ∧
        (∃ pre post, msg = pre ++ DimsString AL "TL" ++ post) ∧
        (∃ pre post, msg = pre ++ DimsString AR "TR" ++ post) ∧
        (∃ pre post, msg = pre ++ DimsString ABL "BL" ++ post) ∧
        (∃ pre post, msg = pre ++ DimsString ABR "BR" ++ post)) := by
  obtain ⟨a1, a2, a3⟩ := AssertConforming1x2_spec DimsString AL AR
  obtain ⟨b1, b2, b3⟩ := AssertConforming2x1_spec DimsString AL AR
  obtain ⟨c1, c2, c3⟩ := AssertConforming2x2_spec DimsString AL AR ABL ABR
  refine ⟨?_, ?_, ?_, ?_, ?_, ?_⟩
  · constructor
    · rintro ⟨msg, hm⟩
      by_contra hc
      push_neg at hc
      rw [a3 hc.1 hc.2] at hm
      cases hm
    · intro h
      by_cases hh : AL.Height = AR.Height
      · exact ⟨_, a2 hh (h.resolve_left (fun hn => hn hh))⟩
      · exact ⟨_, a1 hh⟩
  · constructor
    · rintro ⟨msg, hm⟩
      by_contra hc
      push_neg at hc
      rw [b3 hc.1 hc.2] at hm
      cases hm
    · intro h
      by_cases hh : AL.Width = AR.Width
      · exact ⟨_, b2 hh (h.resolve_left (fun hn => hn hh))⟩
      · exact ⟨_, b1 hh⟩
  · constructor
    · rintro ⟨msg, hm⟩
      by_contra hc
      have hd : ¬ (AL.Width ≠ ABL.Width ∨ AR.Width ≠ ABR.Width ∨
          AL.Height ≠ AR.Height ∨ ABL.Height ≠ ABR.Height) := by
        intro hd
        apply hc
        rcases hd with h | h | h | h
        · exact Or.inl h
        · exact Or.inr (Or.inl h)
        · exact Or.inr (Or.inr (Or.inl h))
        · exact Or.inr (Or.inr (Or.inr (Or.inl h)))
      have ha : ¬ (AL.ColAlign ≠ AR.ColAlign ∨ ABL.ColAlign ≠ ABR.ColAlign ∨
          AL.RowAlign ≠ ABL.RowAlign ∨ AR.RowAlign ≠ ABR.RowAlign) := by
        intro ha
        apply hc
        exact Or.inr (Or.inr (Or.inr (Or.inr ha)))
      rw [c3 hd ha] at hm
      cases hm
    · intro h
      by_cases hd : (AL.Width ≠ ABL.Width ∨ AR.Width ≠ ABR.Width ∨
          AL.Height ≠ AR.Height ∨ ABL.Height ≠ ABR.Height)
      · exact ⟨_, c1 hd⟩
      · refine ⟨_, c2 hd ?_⟩
        rcases h with h | h | h | h | h
        · exact absurd (Or.inl h) hd
        · exact absurd (Or.inr (Or.inl h)) hd
        · exact absurd (Or.inr (Or.inr (Or.inl h))) hd
        · exact absurd (Or.inr (Or.inr (Or.inr h))) hd
        · exact h
  · intro h
    refine ⟨_, a1 h, ⟨"1x2 not conformant:\n", "\n" ++ DimsString AR "Right", ?_⟩,
      ⟨"1x2 not conformant:\n" ++ DimsString AL "Left" ++ "\n", "", ?_⟩⟩
    · simp only [String.append_assoc]
    · simp only [String.append_assoc, String.append_empty]
  · intro h
    refine ⟨_, b1 h, ⟨"2x1 is not conformant:\n", "\n" ++ DimsString AR "Bottom", ?_⟩,
      ⟨"2x1 is not conformant:\n" ++ DimsString AL "Top" ++ "\n", "", ?_⟩⟩
    · simp only [String.append_assoc]
    · simp only [String.append_assoc, String.append_empty]
  · intro h
    refine ⟨_, c1 h,
      ⟨"2x2 is not conformant:\n", "\n" ++ (DimsString AR "TR" ++ ("\n" ++
          (DimsString ABL "BL" ++ ("\n" ++ DimsString ABR "BR")))), ?_⟩,
      ⟨"2x2 is not conformant:\n" ++ DimsString AL "TL" ++ "\n",
          "\n" ++ (DimsString ABL "BL" ++ ("\n" ++ DimsString ABR "BR")), ?_⟩,
      ⟨"2x2 is not conformant:\n" ++ DimsString AL "TL" ++ "\n" ++ DimsString AR "TR" ++ "\n",
          "\n" ++ DimsString ABR "BR", ?_⟩,
      ⟨"2x2 is not conformant:\n" ++ DimsString AL "TL" ++ "\n" ++ DimsString AR "TR" ++ "\n"
          ++ DimsString ABL "BL" ++ "\n", "", ?_⟩⟩
    · simp only [String.append_assoc]
    · simp only [String.append_assoc]
    · simp only [String.append_assoc]
    · simp only [String.append_assoc, String.append_empty]

/-- An instance of the 1x2 assertion: `sampleA` on process (0,0) beside itself conforms, and
beside a copy of another height it does not; the message names both shapes. -/
theorem sample_AssertConforming1x2 :
    AssertConforming1x2 sampleDimsString (sampleA 0 0) (sampleA 0 0) = Except.ok () ∧
    AssertConforming1x2 sampleDimsString (sampleA 0 0)
        { sampleA 0 0 with height_ := 7 }
      = Except.error "1x2 not conformant:\nLeft ~ 5 x 2\nRight ~ 7 x 2" := by
  constructor
  · rfl
  · rfl

/-! ## C18: the dispatcher of `Copy` on `BaseDistMatrix` operands -/

theorem CopyDispatcher_DoRHS_not_mem {σ : Type} (f : ElemType → ElemType → σ → CallResult σ)
    (L : ElemType) (RHSList : List ElemType) (tgt : ElemType) (st : σ)
    (h : tgt ∉ RHSList) :
    CopyDispatcher_DoRHS f L RHSList tgt st
      = CallResult.logicError "Target matrix type not found." := by
  induction RHSList with
  | nil => rfl
  | cons R Rs ih =>
    have h1 : tgt ≠ R := fun e => h (e ▸ List.mem_cons_self _ _)
    have h2 : tgt ∉ Rs := fun e => h (List.mem_cons_of_mem _ e)
    simp only [CopyDispatcher_DoRHS, if_neg h1, ih h2]

theorem CopyDispatcher_DoRHS_mem {σ : Type} (f : ElemType → ElemType → σ → CallResult σ)
    (L : ElemType) (RHSList : List ElemType) (tgt : ElemType) (st : σ)
    (h : tgt ∈ RHSList) :
    CopyDispatcher_DoRHS f L RHSList tgt st = f L tgt st := by
  induction RHSList with
  | nil => cases h
  | cons R Rs ih =>
    by_cases h1 : tgt = R
    · subst h1
      simp only [CopyDispatcher_DoRHS, if_true]
    · have h2 : tgt ∈ Rs := by
        rcases List.mem_cons.1 h with e | e
        · exact absurd e h1
        · exact e
      simp only [CopyDispatcher_DoRHS, if_neg h1, ih h2]

theorem CopyDispatcher_Do_not_mem {σ : Type} (f : ElemType → ElemType → σ → CallResult σ)
    (LHSList RHSList : List ElemType) (src tgt : ElemType) (st : σ)
    (h : src ∉ LHSList) :
    CopyDispatcher_Do f LHSList RHSList src tgt st
      = CallResult.logicError "Source matrix type not found." := by
  induction LHSList with
  | nil => rfl
  | cons L Ls ih =>
    have h1 : src ≠ L := fun e => h (e ▸ List.mem_cons_self _ _)
    have h2 : src ∉ Ls := fun e => h (List.mem_cons_of_mem _ e)
    simp only [CopyDispatcher_Do, if_neg h1, ih h2]

theorem CopyDispatcher_Do_mem {σ : Type} (f : ElemType → ElemType → σ → CallResult σ)
    (LHSList RHSList : List ElemType) (src tgt : ElemType) (st : σ)
    (h : src ∈ LHSList) :
    CopyDispatcher_Do f LHSList RHSList src tgt st
      = CopyDispatcher_DoRHS f src RHSList tgt st := by
  induction LHSList with
  | nil => cases h
  | cons L Ls ih =>
    by_cases h1 : src = L
    · subst h1
      simp only [CopyDispatcher_Do, if_true]
    · have h2 : src ∈ Ls := by
        rcases List.mem_cons.1 h with e | e
        · exact absurd e h1
        · exact e
      simp only [CopyDispatcher_Do, if_neg h1, ih h2]

/-- C18: `Copy(BaseDistMatrix const&, BaseDistMatrix&)` scans the fixed type list.  A source
whose element type is not in the list gives `LogicError("Source matrix type not found.")`
whatever the target is; a source in the list with a target outside it gives
`LogicError("Target matrix type not found.")`; otherwise the outcome is that of one call of
the functor on the operands cast to their element types, so a functor that counts its calls
ends at one.  The scan is a total function: it terminates on every input. -/
theorem C18_Copy_BaseDistMatrix_dispatch {σ : Type} (cfg : BuildConfig)
    (f : ElemType → ElemType → σ → CallResult σ) (src tgt : ElemType) (st : σ) :
    (src ∉ MatrixTypes cfg →
      Copy_BaseDistMatrix cfg f src tgt st
        = CallResult.logicError "Source matrix type not found.") ∧
    (src ∈ MatrixTypes cfg → tgt ∉ MatrixTypes cfg →
      Copy_BaseDistMatrix cfg f src tgt st
        = CallResult.logicError "Target matrix type not found.") ∧
    (src ∈ MatrixTypes cfg → tgt ∈ MatrixTypes cfg →
      Copy_BaseDistMatrix cfg f src tgt st = f src tgt st ∧
      Copy_BaseDistMatrix cfg countingFunctor src tgt 0 = CallResult.returned 1) := by
  refine ⟨fun h => ?_, fun h1 h2 => ?_, fun h1 h2 => ⟨?_, ?_⟩⟩
  · exact CopyDispatcher_Do_not_mem f _ _ src tgt st h
  · unfold Copy_BaseDistMatrix
    rw [CopyDispatcher_Do_mem f _ _ src tgt st h1]
    exact CopyDispatcher_DoRHS_not_mem f src _ tgt st h2
  · unfold Copy_BaseDistMatrix
    rw [CopyDispatcher_Do_mem f _ _ src tgt st h1]
    exact CopyDispatcher_DoRHS_mem f src _ tgt st h2
  · unfold Copy_BaseDistMatrix
    rw [CopyDispatcher_Do_mem _ _ _ src tgt 0 h1, CopyDispatcher_DoRHS_mem _ src _ tgt 0 h2]
    rfl

/-- Instances of the dispatch in the sample build, whose list is `float, double`: a `double`
source with a `float` target reaches the functor once, a `uint8_t` source is not found, and
a `float` source with a `uint8_t` target fails on the target. -/
theorem sample_Copy_BaseDistMatrix :
    Copy_BaseDistMatrix sampleConfig countingFunctor ElemType.double ElemType.float 0
      = CallResult.returned 1 ∧
    Copy_BaseDistMatrix sampleConfig countingFunctor ElemType.uint8_t ElemType.float 0
      = CallResult.logicError "Source matrix type not found." ∧
    Copy_BaseDistMatrix sampleConfig countingFunctor ElemType.float ElemType.uint8_t 0
      = CallResult.logicError "Target matrix type not found." := by
  refine ⟨?_, ?_, ?_⟩ <;> rfl

/-! ## C19: assignments that involve `[MD,*]` or `[*,MD]` -/

/-- The assignments to `[*,MD]`: eleven sources go through `copy::GeneralPurpose`, `[*,*]`
through `copy::RowFilter`, and `[CIRC,CIRC]` through a temporary `[MC,MR]`. -/
theorem operatorAssign_STAR_MD_spec (src : Dist × Dist) (body : List AssignStep)
    (h : operatorAssign_STAR_MD src = some body) :
    (body = [AssignStep.call CopyRoutine.GeneralPurpose src (Dist.STAR, Dist.MD)] ↔
      (src ≠ (Dist.STAR, Dist.STAR) ∧ src ≠ (Dist.CIRC, Dist.CIRC))) := by
  obtain ⟨c, d⟩ := src
  cases c <;> cases d <;> simp [operatorAssign_STAR_MD] at h ⊢ <;> subst h <;> simp

/-- The assignments to `[MC,MR]` from `[MD,*]` and `[*,MD]` call `copy::GeneralPurpose`
only. -/
theorem operatorAssign_MC_MR_spec (square : Bool) (src : Dist × Dist)
    (h : involvesMD src = true) :
    operatorAssign_MC_MR square src
      = some [AssignStep.call CopyRoutine.GeneralPurpose src (Dist.MC, Dist.MR)] := by
  obtain ⟨c, d⟩ := src
  cases c <;> cases d <;> simp [involvesMD] at h <;> rfl

/-- The assignments to `[VR,*]` from `[MD,*]` and `[*,MD]` build a temporary `[*,*]` and
assign from it. -/
theorem operatorAssign_VR_STAR_spec (src : Dist × Dist)
    (h : involvesMD src = true) :
    operatorAssign_VR_STAR src
      = some [AssignStep.construct (Dist.STAR, Dist.STAR) src,
              AssignStep.assign (Dist.VR, Dist.STAR) (Dist.STAR, Dist.STAR)] := by
  obtain ⟨c, d⟩ := src
  cases c <;> cases d <;> simp [involvesMD] at h <;> rfl

/-- C19 (amended): among the embedded assignment operators (targets `[*,MD]`, `[MC,MR]`
and `[VR,*]`), a pair whose source or target is `[MD,*]` or `[*,MD]` has
`copy::GeneralPurpose` as the single statement of its body exactly when the target is not
`[VR,*]` and the source is neither `[*,*]` nor `[CIRC,CIRC]`. -/
theorem C19_GeneralPurpose_selection (square : Bool) (tgt src : Dist × Dist)
    (body : List AssignStep)
    (hbody : operatorAssign square tgt src = some body)
    (hmd : involvesMD src = true ∨ involvesMD tgt = true) :
    (body = [AssignStep.call CopyRoutine.GeneralPurpose src tgt] ↔
      (tgt ≠ (Dist.VR, Dist.STAR) ∧ src ≠ (Dist.STAR, Dist.STAR) ∧
        src ≠ (Dist.CIRC, Dist.CIRC))) := by
  obtain ⟨a, b⟩ := tgt
  cases a <;> cases b <;> simp only [operatorAssign] at hbody <;>
    first
    | exact absurd hbody (by simp)
    | skip
  · -- target [MC,MR]
    have hs : involvesMD src = true := by
      rcases hmd with h | h
      · exact h
      · exact absurd h (by decide)
    rw [operatorAssign_MC_MR_spec square src hs] at hbody
    have hb : body = [AssignStep.call CopyRoutine.GeneralPurpose src (Dist.MC, Dist.MR)] :=
      (Option.some.inj hbody).symm
    obtain ⟨c, d⟩ := src
    cases c <;> cases d <;> simp [involvesMD] at hs <;> simp [hb]
  · -- target [VR,*]
    have hs : involvesMD src = true := by
      rcases hmd with h | h
      · exact h
      · exact absurd h (by decide)
    rw [operatorAssign_VR_STAR_spec src hs] at hbody
    have hb := (Option.some.inj hbody).symm
    simp [hb]
  · -- target [*,MD]
    have h := operatorAssign_STAR_MD_spec src body hbody
    rw [h]
    constructor
    · intro hh
      exact ⟨by decide, hh.1, hh.2⟩
    · intro hh
      exact ⟨hh.2.1, hh.2.2⟩

/-- C19 at `[MC,MR] = [MD,*]`, where the body is the single call of
`copy::GeneralPurpose`. -/
theorem C19_GeneralPurpose_selection_witness :
    operatorAssign true (Dist.MC, Dist.MR) (Dist.MD, Dist.STAR)
        = some [AssignStep.call CopyRoutine.GeneralPurpose (Dist.MD, Dist.STAR)
            (Dist.MC, Dist.MR)] ∧
    ([AssignStep.call CopyRoutine.GeneralPurpose (Dist.MD, Dist.STAR) (Dist.MC, Dist.MR)]
        = [AssignStep.call CopyRoutine.GeneralPurpose (Dist.MD, Dist.STAR) (Dist.MC, Dist.MR)] ↔
      ((Dist.MC, Dist.MR) ≠ (Dist.VR, Dist.STAR) ∧
        (Dist.MD, Dist.STAR) ≠ (Dist.STAR, Dist.STAR) ∧
        (Dist.MD, Dist.STAR) ≠ (Dist.CIRC, Dist.CIRC))) :=
  ⟨rfl, C19_GeneralPurpose_selection true (Dist.MC, Dist.MR) (Dist.MD, Dist.STAR) _ rfl
    (Or.inl rfl)⟩

/-- The pairs that refute the unamended C19: the target `[*,MD]` is assigned from `[*,*]`
by `copy::RowFilter` and from `[CIRC,CIRC]` through a temporary `[MC,MR]`, and `[VR,*]`
is assigned from `[MD,*]` through a temporary `[*,*]`; none of the three bodies is the
single call of `copy::GeneralPurpose`. -/
theorem C19_GeneralPurpose_counterexample :
    involvesMD (Dist.STAR, Dist.MD) = true ∧ involvesMD (Dist.MD, Dist.STAR) = true ∧
    operatorAssign true (Dist.STAR, Dist.MD) (Dist.STAR, Dist.STAR)
      = some [AssignStep.call CopyRoutine.RowFilter (Dist.STAR, Dist.STAR)
          (Dist.STAR, Dist.MD)] ∧
    operatorAssign true (Dist.STAR, Dist.MD) (Dist.STAR, Dist.STAR)
      ≠ some [AssignStep.call CopyRoutine.GeneralPurpose (Dist.STAR, Dist.STAR)
          (Dist.STAR, Dist.MD)] ∧
    operatorAssign true (Dist.STAR, Dist.MD) (Dist.CIRC, Dist.CIRC)
      = some [AssignStep.assign (Dist.MC, Dist.MR) (Dist.CIRC, Dist.CIRC),
          AssignStep.assign (Dist.STAR, Dist.MD) (Dist.MC, Dist.MR)] ∧
    operatorAssign true (Dist.VR, Dist.STAR) (Dist.MD, Dist.STAR)
      = some [AssignStep.construct (Dist.STAR, Dist.STAR) (Dist.MD, Dist.STAR),
          AssignStep.assign (Dist.VR, Dist.STAR) (Dist.STAR, Dist.STAR)] ∧
    operatorAssign true (Dist.VR, Dist.STAR) (Dist.STAR, Dist.STAR)
      = some [AssignStep.call CopyRoutine.ColFilter (Dist.STAR, Dist.STAR)
          (Dist.VR, Dist.STAR)] := by
  refine ⟨rfl, rfl, rfl, by decide, rfl, rfl, rfl⟩

/-- Every instantiated source other than `[*,MD]`, `[*,*]` and `[CIRC,CIRC]` is assigned to
`[*,MD]` by the single call of `copy::GeneralPurpose`. -/
theorem operatorAssign_STAR_MD_all :
    ∀ src ∈ Dist.pairs, src ≠ (Dist.STAR, Dist.MD) → src ≠ (Dist.STAR, Dist.STAR) →
      src ≠ (Dist.CIRC, Dist.CIRC) →
      operatorAssign true (Dist.STAR, Dist.MD) src
        = some [AssignStep.call CopyRoutine.GeneralPurpose src (Dist.STAR, Dist.MD)] := by
  decide

/-! ## C16: `copy::Exchange` on operands of different local devices -/

/-- A device mismatch is raised by the first statement of `Exchange`. -/
theorem Exchange_device_error {α : Type} (debug : Bool) (cfg : BuildConfig)
    (tr : TypeTraits α) (fuel : Nat) (T : ElemType) (devA devB : Device)
    (A B : ElementalMatrix α) (sendRank recvRank myRank : Int)
    (mem sendScratch recvScratch msg : Int → α) (msgLen : Int) (hdev : devA ≠ devB) :
    Exchange debug cfg tr fuel T devA devB A B sendRank recvRank myRank mem sendScratch
        recvScratch msg msgLen = CallResult.logicError "Exchange: Device error." ∧
    Exchange_B debug cfg tr fuel T devA devB A B sendRank recvRank myRank mem sendScratch
        recvScratch msg msgLen = B ∧
    Exchange_sent debug cfg tr fuel T devA devB A B sendRank recvRank myRank mem sendScratch
        recvScratch = none := by
  refine ⟨?_, ?_, ?_⟩
  · simp only [Exchange, if_pos hdev]
  · simp only [Exchange_B, if_pos hdev]
  · simp only [Exchange_sent, if_pos hdev]

/-- C16: `copy::Exchange` raises `LogicError("Exchange: Device error.")` whenever
`A.GetLocalDevice() != B.GetLocalDevice()`, in either build and for every other argument;
`B` is neither resized nor written and no message is handed to the messaging layer. -/
theorem C16_Exchange_device_mismatch {α : Type} (debug : Bool) (cfg : BuildConfig)
    (tr : TypeTraits α) (fuel : Nat) (T : ElemType) (devA devB : Device)
    (A B : ElementalMatrix α) (sendRank recvRank myRank : Int)
    (mem sendScratch recvScratch msg : Int → α) (msgLen : Int) (hdev : devA ≠ devB) :
    Exchange debug cfg tr fuel T devA devB A B sendRank recvRank myRank mem sendScratch
        recvScratch msg msgLen = CallResult.logicError "Exchange: Device error." ∧
    Exchange_B debug cfg tr fuel T devA devB A B sendRank recvRank myRank mem sendScratch
        recvScratch msg msgLen = B ∧
    Exchange_sent debug cfg tr fuel T devA devB A B sendRank recvRank myRank mem sendScratch
        recvScratch = none :=
  Exchange_device_error debug cfg tr fuel T devA devB A B sendRank recvRank myRank mem
    sendScratch recvScratch msg msgLen hdev

/-- C16 on the sample operands of rank 0 with a CPU source and a GPU destination. -/
theorem C16_Exchange_device_mismatch_witness :
    Device.CPU ≠ Device.GPU ∧
    Exchange false sampleConfig sampleTraits 2 ElemType.float Device.CPU Device.GPU
        (sampleExA 0) (sampleExB 0) 1 1 0 sampleMem sampleMem sampleMem sampleMem 0
      = CallResult.logicError "Exchange: Device error." ∧
    Exchange_B false sampleConfig sampleTraits 2 ElemType.float Device.CPU Device.GPU
        (sampleExA 0) (sampleExB 0) 1 1 0 sampleMem sampleMem sampleMem sampleMem 0
      = sampleExB 0 ∧
    Exchange_sent false sampleConfig sampleTraits 2 ElemType.float Device.CPU Device.GPU
        (sampleExA 0) (sampleExB 0) 1 1 0 sampleMem sampleMem sampleMem = none :=
  ⟨by decide, C16_Exchange_device_mismatch false sampleConfig sampleTraits 2 ElemType.float
    Device.CPU Device.GPU (sampleExA 0) (sampleExB 0) 1 1 0 sampleMem sampleMem sampleMem
    sampleMem 0 (by decide)⟩

/-! ## C17, C15: the assertions of `Exchange_impl` and of its callers -/

/-- In a debug build operands on different grids give a `LogicError` and the destination
stays as it was. -/
theorem Exchange_impl_grid_error {α : Type} (cfg : BuildConfig)
    (tr : TypeTraits α) (fuel : Nat) (T : ElemType) (D : Device)
    (A B : ElementalMatrix α) (sendRank recvRank myRank : Int)
    (mem sendScratch recvScratch msg : Int → α) (msgLen : Int)
    (hgrid : A.Grid ≠ B.Grid) :
    (∃ m, Exchange_impl true cfg tr fuel T D A B sendRank recvRank myRank mem sendScratch
        recvScratch msg msgLen = CallResult.logicError m) ∧
    Exchange_impl_B true cfg tr fuel T D A B sendRank recvRank myRank mem sendScratch
        recvScratch msg msgLen = B := by
  unfold Exchange_impl Exchange_impl_B
  cases hv : tr.IsDeviceValidType T D
  · simp
  · simp [AssertSameGrids, hgrid]

/-- A call of `Exchange_impl` that raises hands no message to the messaging layer. -/
theorem Exchange_impl_sent_of_logicError {α : Type} (debug : Bool) (cfg : BuildConfig)
    (tr : TypeTraits α) (fuel : Nat) (T : ElemType) (D : Device)
    (A B : ElementalMatrix α) (sendRank recvRank myRank : Int)
    (mem sendScratch recvScratch : Int → α)
    (h : ∀ (msg : Int → α) (msgLen : Int),
      ∃ m, Exchange_impl debug cfg tr fuel T D A B sendRank recvRank myRank mem sendScratch
        recvScratch msg msgLen = CallResult.logicError m) :
    Exchange_impl_sent debug cfg tr fuel T D A B sendRank recvRank myRank mem sendScratch
      recvScratch = none := by
  obtain ⟨m, hm⟩ := h recvScratch 0
  simp only [Exchange_impl_sent, hm]

/-- The copy between CPU matrices of one type stored on the CPU is case 1. -/
theorem Copy_AbstractMatrix_same_CPU {α : Type} (cfg : BuildConfig) (tr : TypeTraits α)
    (mem : Int → α) (fuel : Nat) (T : ElemType) (src tgt : Matrix α)
    (hst : tr.IsStorageType T Device.CPU = true) :
    Copy_AbstractMatrix cfg tr mem (fuel + 1) T Device.CPU T Device.CPU src tgt
      = CallResult.returned (CopyImpl_case1_CPU src tgt mem).2 := by
  unfold Copy_AbstractMatrix LaunchCopy_AbstractMatrix LaunchCopy_Matrix Copy CopyImpl
  rw [CopyImpl_select_CPU_CPU]
  simp [CopyImpl_table, hst]

/-- A process that is both its own send and receive partner copies locally. -/
theorem Exchange_impl_local {α : Type} (debug : Bool) (cfg : BuildConfig)
    (tr : TypeTraits α) (fuel : Nat) (T : ElemType)
    (A B : ElementalMatrix α) (sendRank recvRank myRank : Int)
    (mem sendScratch recvScratch msg : Int → α) (msgLen : Int)
    (hvalid : tr.IsDeviceValidType T Device.CPU = true)
    (hst : tr.IsStorageType T Device.CPU = true)
    (hgrid : debug = true → A.Grid = B.Grid)
    (hres : B.ResizeAllowed debug A.Height A.Width)
    (hsend : myRank = sendRank) (hrecv : myRank = recvRank) :
    Exchange_impl debug cfg tr (fuel + 1) T Device.CPU A B sendRank recvRank myRank mem
        sendScratch recvScratch msg msgLen
      = CallResult.returned
          { B := { B.Resize mem A.Height A.Width with
                   matrix_ := (CopyImpl_case1_CPU A.matrix_
                     (B.Resize mem A.Height A.Width).matrix_ mem).2 }
            sent := none } := by
  have hchk := ElementalMatrix.Resize_checked_ok debug B mem A.Height A.Width hres
  have hag : (if debug = true then AssertSameGrids A B else Except.ok ()) = Except.ok () := by
    cases debug
    · rfl
    · simp [AssertSameGrids, hgrid rfl]
  have h1 : ¬ (debug = true ∧ myRank = sendRank ∧ myRank ≠ recvRank) :=
    fun h => h.2.2 hrecv
  have h2 : ¬ (debug = true ∧ myRank ≠ sendRank ∧ myRank = recvRank) :=
    fun h => h.2.1 hsend
  unfold Exchange_impl
  simp only [hvalid, Bool.not_true, Bool.false_eq_true, if_false, hag, if_neg h1, if_neg h2,
    hchk, if_pos hsend, Copy_AbstractMatrix_same_CPU cfg tr mem fuel T _ _ hst]

theorem ElementalMatrix.Resize_Height {α : Type} (B : ElementalMatrix α) (mem : Int → α)
    (h w : Int) : (B.Resize mem h w).height_ = h ∧ (B.Resize mem h w).width_ = w := by
  simp only [ElementalMatrix.Resize]
  split <;> exact ⟨rfl, rfl⟩

/-- What the local path of `Exchange_impl` leaves: the global extents of `A` and a local
matrix with the extents and entries of the local matrix of `A`. -/
theorem Exchange_impl_local_spec {α : Type} (debug : Bool) (cfg : BuildConfig)
    (tr : TypeTraits α) (fuel : Nat) (T : ElemType)
    (A B : ElementalMatrix α) (sendRank recvRank myRank : Int)
    (mem sendScratch recvScratch msg : Int → α) (msgLen : Int)
    (hvalid : tr.IsDeviceValidType T Device.CPU = true)
    (hst : tr.IsStorageType T Device.CPU = true)
    (hgrid : debug = true → A.Grid = B.Grid)
    (hres : B.ResizeAllowed debug A.Height A.Width)
    (hsend : myRank = sendRank) (hrecv : myRank = recvRank) :
    ∃ out : ExchangeOutcome α,
      Exchange_impl debug cfg tr (fuel + 1) T Device.CPU A B sendRank recvRank myRank mem
        sendScratch recvScratch msg msgLen = CallResult.returned out ∧
      out.sent = none ∧
      out.B.Height = A.Height ∧ out.B.Width = A.Width ∧
      out.B.LocalHeight = A.LocalHeight ∧ out.B.LocalWidth = A.LocalWidth ∧
      (∀ i j : Int, 0 ≤ i → i < A.LocalHeight → 0 ≤ j → j < A.LocalWidth →
        out.B.matrix_.Get i j = A.matrix_.Get i j) := by
  obtain ⟨c1, c2, -, c4, -⟩ :=
    CopyImpl_case1_CPU_spec A.matrix_ (B.Resize mem A.Height A.Width).matrix_ mem
  obtain ⟨r1, r2⟩ := ElementalMatrix.Resize_Height B mem A.Height A.Width
  exact ⟨_, Exchange_impl_local debug cfg tr fuel T A B sendRank recvRank myRank mem
    sendScratch recvScratch msg msgLen hvalid hst hgrid hres hsend hrecv, rfl, r1, r2, c1, c2,
    c4⟩

/-- `Exchange` in a debug build on operands of different grids. -/
theorem Exchange_grid_error {α : Type} (cfg : BuildConfig)
    (tr : TypeTraits α) (fuel : Nat) (T : ElemType) (devA devB : Device)
    (A B : ElementalMatrix α) (sendRank recvRank myRank : Int)
    (mem sendScratch recvScratch msg : Int → α) (msgLen : Int)
    (hgrid : A.Grid ≠ B.Grid) :
    (∃ m, Exchange true cfg tr fuel T devA devB A B sendRank recvRank myRank mem sendScratch
        recvScratch msg msgLen = CallResult.logicError m) ∧
    Exchange_B true cfg tr fuel T devA devB A B sendRank recvRank myRank mem sendScratch
        recvScratch msg msgLen = B := by
  unfold Exchange Exchange_B
  by_cases hdev : devA = devB
  · have hne : ¬ devA ≠ devB := fun h => h hdev
    simp only [if_neg hne]
    cases devA
    · exact Exchange_impl_grid_error cfg tr fuel T Device.CPU A B sendRank recvRank myRank
        mem sendScratch recvScratch msg msgLen hgrid
    · cases hc : cfg.HYDROGEN_HAVE_CUDA
      · exact ⟨⟨"Exchange: Bad device.", by simp⟩, by simp⟩
      · simp only [if_true]
        exact Exchange_impl_grid_error cfg tr fuel T Device.GPU A B sendRank recvRank myRank
          mem sendScratch recvScratch msg msgLen hgrid
  · have hne : devA ≠ devB := hdev
    simp only [if_pos hne]
    exact ⟨⟨_, rfl⟩, trivial⟩

/-- A call of `Exchange` that raises hands no message to the messaging layer. -/
theorem Exchange_sent_grid_error {α : Type} (cfg : BuildConfig)
    (tr : TypeTraits α) (fuel : Nat) (T : ElemType) (devA devB : Device)
    (A B : ElementalMatrix α) (sendRank recvRank myRank : Int)
    (mem sendScratch recvScratch : Int → α) (hgrid : A.Grid ≠ B.Grid) :
    Exchange_sent true cfg tr fuel T devA devB A B sendRank recvRank myRank mem sendScratch
        recvScratch = none := by
  have h := fun D => Exchange_impl_sent_of_logicError true cfg tr fuel T D A B sendRank
    recvRank myRank mem sendScratch recvScratch
    (fun msg msgLen => (Exchange_impl_grid_error cfg tr fuel T D A B sendRank recvRank myRank
      mem sendScratch recvScratch msg msgLen hgrid).1)
  unfold Exchange_sent
  split
  · rfl
  · cases devA
    · exact h Device.CPU
    · simp only
      split
      · exact h Device.GPU
      · rfl

/-- The vector exchanges assert equal grids in every build. -/
theorem VectorExchange_grid_error {α : Type} (debug : Bool) (cfg : BuildConfig)
    (tr : TypeTraits α) (fuel : Nat) (T : ElemType) (D : Device)
    (A B : ElementalMatrix α) (q : VectorExchangeRanks)
    (mem sendScratch recvScratch msg : Int → α) (msgLen : Int)
    (hgrid : A.Grid ≠ B.Grid) :
    ColwiseVectorExchange debug cfg tr fuel T D A B q mem sendScratch recvScratch msg msgLen
      = CallResult.logicError "Grids did not match" ∧
    ColwiseVectorExchange_B debug cfg tr fuel T D A B q mem sendScratch recvScratch msg msgLen
      = B ∧
    RowwiseVectorExchange debug cfg tr fuel T D A B q mem sendScratch recvScratch msg msgLen
      = CallResult.logicError "Grids did not match" ∧
    RowwiseVectorExchange_B debug cfg tr fuel T D A B q mem sendScratch recvScratch msg msgLen
      = B := by
  refine ⟨?_, ?_, ?_, ?_⟩
  · simp [ColwiseVectorExchange, AssertSameGrids, hgrid]
  · simp [ColwiseVectorExchange_B, AssertSameGrids, hgrid]
  · simp [RowwiseVectorExchange, AssertSameGrids, hgrid]
  · simp [RowwiseVectorExchange_B, AssertSameGrids, hgrid]

/-- In a debug build `[VR,*] = [VC,*]` raises on its first statement when the grids
differ. -/
theorem VR_STAR_assign_pack_grid_error {α : Type} (B A : ElementalMatrix α)
    (mem aux : Int → α) (hgrid : A.Grid ≠ B.Grid) :
    VR_STAR_assign_pack true B A mem aux = Except.error "Grids did not match" := by
  have hg : B.Grid ≠ A.Grid := fun h => hgrid h.symm
  simp [VR_STAR_assign_pack, AssertSameGrids, hg, bind, Except.bind]

/-- In a debug build `[MC,MR] = [MR,MC]` on a square grid raises when the grids differ. -/
theorem MC_MR_assign_MR_MC_grid_error {α : Type} (cfg : BuildConfig)
    (tr : TypeTraits α) (fuel : Nat) (T : ElemType) (devA devB : Device) (END : Int)
    (B A : ElementalMatrix α) (td : CallResult (ExchangeOutcome α))
    (tdB : ElementalMatrix α)
    (mem sendScratch recvScratch msg : Int → α) (msgLen : Int)
    (hgrid : A.Grid ≠ B.Grid) (hsq : A.Grid.Height = A.Grid.Width) :
    (∃ m, MC_MR_assign_MR_MC true cfg tr fuel T devA devB END B A td mem sendScratch
        recvScratch msg msgLen = CallResult.logicError m) ∧
    MC_MR_assign_MR_MC_B true cfg tr fuel T devA devB END B A tdB mem sendScratch
        recvScratch msg msgLen = B := by
  unfold MC_MR_assign_MR_MC MC_MR_assign_MR_MC_B
  simp only [if_pos hsq]
  exact Exchange_grid_error cfg tr fuel T devA devB A B _ _ _ mem sendScratch recvScratch msg
    msgLen hgrid

/-- C15 (amended): the check that the operands share a grid is an assertion of a debug
build in `Exchange_impl`, and so in `copy::Exchange`, in `[MC,MR] = [MR,MC]` (which
reaches `copy::Exchange` on a square grid) and in `[VR,*] = [VC,*]`: in a debug build
these raise `LogicError` on operands of different grids, before the destination is
resized and before any message is sent.  `ColwiseVectorExchange` and
`RowwiseVectorExchange` make the check in every build. -/
theorem C15_different_grids {α : Type} (cfg : BuildConfig)
    (tr : TypeTraits α) (fuel : Nat) (T : ElemType) (D devA devB : Device) (END : Int)
    (A B : ElementalMatrix α) (sendRank recvRank myRank : Int) (q : VectorExchangeRanks)
    (td : CallResult (ExchangeOutcome α)) (tdB : ElementalMatrix α)
    (mem sendScratch recvScratch aux msg : Int → α) (msgLen : Int)
    (hgrid : A.Grid ≠ B.Grid) :
    ((∃ m, Exchange_impl true cfg tr fuel T D A B sendRank recvRank myRank mem sendScratch
        recvScratch msg msgLen = CallResult.logicError m) ∧
      Exchange_impl_B true cfg tr fuel T D A B sendRank recvRank myRank mem sendScratch
        recvScratch msg msgLen = B ∧
      Exchange_impl_sent true cfg tr fuel T D A B sendRank recvRank myRank mem sendScratch
        recvScratch = none) ∧
    ((∃ m, Exchange true cfg tr fuel T devA devB A B sendRank recvRank myRank mem sendScratch
        recvScratch msg msgLen = CallResult.logicError m) ∧
      Exchange_B true cfg tr fuel T devA devB A B sendRank recvRank myRank mem sendScratch
        recvScratch msg msgLen = B ∧
      Exchange_sent true cfg tr fuel T devA devB A B sendRank recvRank myRank mem sendScratch
        recvScratch = none) ∧
    (∀ debug : Bool,
      ColwiseVectorExchange debug cfg tr fuel T D A B q mem sendScratch recvScratch msg msgLen
        = CallResult.logicError "Grids did not match" ∧
      ColwiseVectorExchange_B debug cfg tr fuel T D A B q mem sendScratch recvScratch msg
        msgLen = B ∧
      RowwiseVectorExchange debug cfg tr fuel T D A B q mem sendScratch recvScratch msg msgLen
        = CallResult.logicError "Grids did not match" ∧
      RowwiseVectorExchange_B debug cfg tr fuel T D A B q mem sendScratch recvScratch msg
        msgLen = B) ∧
    VR_STAR_assign_pack true B A mem aux = Except.error "Grids did not match" ∧
    (A.Grid.Height = A.Grid.Width →
      (∃ m, MC_MR_assign_MR_MC true cfg tr fuel T devA devB END B A td mem sendScratch
        recvScratch msg msgLen = CallResult.logicError m) ∧
      MC_MR_assign_MR_MC_B true cfg tr fuel T devA devB END B A tdB mem sendScratch
        recvScratch msg msgLen = B) := by
  refine ⟨⟨?_, ?_, ?_⟩, ⟨?_, ?_, ?_⟩, fun debug => ?_, ?_, fun hsq => ?_⟩
  · exact (Exchange_impl_grid_error cfg tr fuel T D A B sendRank recvRank myRank mem
      sendScratch recvScratch msg msgLen hgrid).1
  · exact (Exchange_impl_grid_error cfg tr fuel T D A B sendRank recvRank myRank mem
      sendScratch recvScratch msg msgLen hgrid).2
  · exact Exchange_impl_sent_of_logicError true cfg tr fuel T D A B sendRank recvRank myRank
      mem sendScratch recvScratch
      (fun msg msgLen => (Exchange_impl_grid_error cfg tr fuel T D A B sendRank recvRank
        myRank mem sendScratch recvScratch msg msgLen hgrid).1)
  · exact (Exchange_grid_error cfg tr fuel T devA devB A B sendRank recvRank myRank mem
      sendScratch recvScratch msg msgLen hgrid).1
  · exact (Exchange_grid_error cfg tr fuel T devA devB A B sendRank recvRank myRank mem
      sendScratch recvScratch msg msgLen hgrid).2
  · exact Exchange_sent_grid_error cfg tr fuel T devA devB A B sendRank recvRank myRank mem
      sendScratch recvScratch hgrid
  · exact VectorExchange_grid_error debug cfg tr fuel T D A B q mem sendScratch recvScratch
      msg msgLen hgrid
  · exact VR_STAR_assign_pack_grid_error B A mem aux hgrid
  · exact MC_MR_assign_MR_MC_grid_error cfg tr fuel T devA devB END B A td tdB mem
      sendScratch recvScratch msg msgLen hgrid hsq

/-- C15 on the sample source of rank 0 and a destination on a grid of three rows. -/
theorem C15_different_grids_witness :
    (sampleExA 0).Grid ≠ (sampleExB_otherGrid 0).Grid ∧
    Exchange_impl_B true sampleConfig sampleTraits 2 ElemType.float Device.CPU (sampleExA 0)
        (sampleExB_otherGrid 0) 1 1 0 sampleMem sampleMem sampleMem sampleMem 0
      = sampleExB_otherGrid 0 ∧
    ColwiseVectorExchange false sampleConfig sampleTraits 2 ElemType.float Device.CPU
        (sampleExA 0) (sampleExB_otherGrid 0)
        { distSizeA := 2, distRankA := 0, distRankB := 0, partialStrideA := 2,
          partialUnionStrideA := 1 }
        sampleMem sampleMem sampleMem sampleMem 0
      = CallResult.logicError "Grids did not match" :=
  have h := C15_different_grids sampleConfig sampleTraits 2 ElemType.float Device.CPU
    Device.CPU Device.CPU sampleEND (sampleExA 0) (sampleExB_otherGrid 0) 1 1 0
    { distSizeA := 2, distRankA := 0, distRankB := 0, partialStrideA := 2,
      partialUnionStrideA := 1 }
    CallResult.blocked (sampleExB_otherGrid 0) sampleMem sampleMem sampleMem sampleMem
    sampleMem 0 (by decide)
  ⟨by decide, h.1.2.1, (h.2.2.1 false).1⟩

/-- The call that refutes the unamended C15: in a release build `Exchange_impl` on the
sample source and a destination on another grid returns, and the destination is resized
from `0 x 0` to `6 x 5` and filled. -/
theorem C15_different_grids_counterexample :
    (sampleExA 0).Grid ≠ (sampleExB_otherGrid 0).Grid ∧
    (∃ out : ExchangeOutcome Int,
      Exchange_impl false sampleConfig sampleTraits 2 ElemType.float Device.CPU (sampleExA 0)
        (sampleExB_otherGrid 0) 0 0 0 sampleMem sampleMem sampleMem sampleMem 0
        = CallResult.returned out) ∧
    (sampleExB_otherGrid 0).Height = 0 ∧
    (Exchange_impl_B false sampleConfig sampleTraits 2 ElemType.float Device.CPU (sampleExA 0)
        (sampleExB_otherGrid 0) 0 0 0 sampleMem sampleMem sampleMem sampleMem 0).Height
      = 6 ∧
    (Exchange_impl_B false sampleConfig sampleTraits 2 ElemType.float Device.CPU (sampleExA 0)
        (sampleExB_otherGrid 0) 0 0 0 sampleMem sampleMem sampleMem sampleMem 0).matrix_.Get
        2 4 = 1024 := by
  refine ⟨by decide, ⟨_, rfl⟩, rfl, ?_, ?_⟩
  · rfl
  · rfl

/-! ## Realignment: what the member functions leave in the alignments -/

/-- The alignments and strides of a matrix. -/
theorem ElementalMatrix.AlignmentsInRange_congr {α : Type} (A B : ElementalMatrix α)
    (h1 : B.colAlign_ = A.colAlign_) (h2 : B.rowAlign_ = A.rowAlign_)
    (h3 : B.colStride = A.colStride) (h4 : B.rowStride = A.rowStride)
    (hA : A.AlignmentsInRange) : B.AlignmentsInRange := by
  unfold ElementalMatrix.AlignmentsInRange ElementalMatrix.ColStride ElementalMatrix.RowStride
    at *
  rw [h1, h2, h3, h4]
  exact hA

theorem ElementalMatrix.SetShifts_fields {α : Type} (A : ElementalMatrix α) :
    A.SetShifts.colAlign_ = A.colAlign_ ∧ A.SetShifts.rowAlign_ = A.rowAlign_ ∧
    A.SetShifts.colStride = A.colStride ∧ A.SetShifts.rowStride = A.rowStride ∧
    A.SetShifts.viewType_ = A.viewType_ ∧ A.SetShifts.height_ = A.height_ ∧
    A.SetShifts.width_ = A.width_ ∧ A.SetShifts.colConstrained_ = A.colConstrained_ ∧
    A.SetShifts.rowConstrained_ = A.rowConstrained_ ∧
    A.SetShifts.rootConstrained_ = A.rootConstrained_ ∧ A.SetShifts.root_ = A.root_ ∧
    A.SetShifts.matrix_ = A.matrix_ ∧ A.SetShifts.participating = A.participating ∧
    A.SetShifts.grid_ = A.grid_ ∧ A.SetShifts.crossRank = A.crossRank := by
  unfold ElementalMatrix.SetShifts
  split <;> simp

theorem ElementalMatrix.SetColShift_fields {α : Type} (A : ElementalMatrix α) :
    A.SetColShift.colAlign_ = A.colAlign_ ∧ A.SetColShift.rowAlign_ = A.rowAlign_ ∧
    A.SetColShift.colStride = A.colStride ∧ A.SetColShift.rowStride = A.rowStride ∧
    A.SetColShift.viewType_ = A.viewType_ ∧ A.SetColShift.height_ = A.height_ ∧
    A.SetColShift.width_ = A.width_ ∧
    A.SetColShift.colConstrained_ = A.colConstrained_ ∧
    A.SetColShift.rowConstrained_ = A.rowConstrained_ := by
  unfold ElementalMatrix.SetColShift
  split <;> simp

theorem ElementalMatrix.SetRowShift_fields {α : Type} (A : ElementalMatrix α) :
    A.SetRowShift.colAlign_ = A.colAlign_ ∧ A.SetRowShift.rowAlign_ = A.rowAlign_ ∧
    A.SetRowShift.colStride = A.colStride ∧ A.SetRowShift.rowStride = A.rowStride ∧
    A.SetRowShift.viewType_ = A.viewType_ ∧ A.SetRowShift.height_ = A.height_ ∧
    A.SetRowShift.width_ = A.width_ ∧
    A.SetRowShift.colConstrained_ = A.colConstrained_ ∧
    A.SetRowShift.rowConstrained_ = A.rowConstrained_ := by
  unfold ElementalMatrix.SetRowShift
  split <;> simp

theorem ElementalMatrix.Resize_fields {α : Type} (A : ElementalMatrix α) (mem : Int → α)
    (h w : Int) :
    (A.Resize mem h w).colAlign_ = A.colAlign_ ∧ (A.Resize mem h w).rowAlign_ = A.rowAlign_ ∧
    (A.Resize mem h w).colStride = A.colStride ∧ (A.Resize mem h w).rowStride = A.rowStride ∧
    (A.Resize mem h w).viewType_ = A.viewType_ ∧
    (A.Resize mem h w).colConstrained_ = A.colConstrained_ ∧
    (A.Resize mem h w).rowConstrained_ = A.rowConstrained_ ∧
    (A.Resize mem h w).rootConstrained_ = A.rootConstrained_ ∧
    (A.Resize mem h w).root_ = A.root_ := by
  unfold ElementalMatrix.Resize
  simp only
  split <;> simp

theorem ElementalMatrix.Resize_checked_cases {α : Type} (debug : Bool)
    (A : ElementalMatrix α) (mem : Int → α) (h w : Int) :
    A.Resize_checked debug mem h w = Except.ok (A.Resize mem h w) ∨
    (debug = true ∧
      (A.Resize_checked debug mem h w
          = Except.error "Assertion that matrix not be a locked view failed" ∨
        A.Resize_checked debug mem h w
          = Except.error "Tried to increase the size of a view")) := by
  cases debug
  · left
    rfl
  · cases hl : A.Locked
    · by_cases hv : A.Viewing = true ∧ (h > A.height_ ∨ w > A.width_)
      · right
        refine ⟨rfl, Or.inr ?_⟩
        simp [ElementalMatrix.Resize_checked, ElementalMatrix.Resize_DEBUG_ONLY,
          AssertNotLocked, hl, hv, bind, Except.bind, throw, throwThe, MonadExceptOf.throw]
      · left
        simp [ElementalMatrix.Resize_checked, ElementalMatrix.Resize_DEBUG_ONLY,
          AssertNotLocked, hl, hv, bind, Except.bind, pure, Except.pure]
    · right
      refine ⟨rfl, Or.inl ?_⟩
      simp [ElementalMatrix.Resize_checked, ElementalMatrix.Resize_DEBUG_ONLY,
        AssertNotLocked, hl, bind, Except.bind]

/-- The call `Resize` at the end of a member function leaves the matrix as it was or
resized. -/
theorem ElementalMatrix.Resize_outcome_cases {α : Type} (debug : Bool)
    (A : ElementalMatrix α) (mem : Int → α) (h w : Int) :
    ((A.Resize_outcome debug mem h w).self = A.Resize mem h w ∧
      (A.Resize_outcome debug mem h w).raised = none) ∨
    (debug = true ∧ (A.Resize_outcome debug mem h w).self = A ∧
      ((A.Resize_outcome debug mem h w).raised
          = some "Assertion that matrix not be a locked view failed" ∨
        (A.Resize_outcome debug mem h w).raised
          = some "Tried to increase the size of a view")) := by
  unfold ElementalMatrix.Resize_outcome
  rcases ElementalMatrix.Resize_checked_cases debug A mem h w with h1 | ⟨hd, h1 | h1⟩
  · left
    rw [h1]
    exact ⟨rfl, rfl⟩
  · right
    rw [h1]
    exact ⟨hd, rfl, Or.inl rfl⟩
  · right
    rw [h1]
    exact ⟨hd, rfl, Or.inr rfl⟩

theorem ElementalMatrix.Resize_outcome_fields {α : Type} (debug : Bool)
    (A : ElementalMatrix α) (mem : Int → α) (h w : Int) :
    (A.Resize_outcome debug mem h w).self.colAlign_ = A.colAlign_ ∧
    (A.Resize_outcome debug mem h w).self.rowAlign_ = A.rowAlign_ ∧
    (A.Resize_outcome debug mem h w).self.colStride = A.colStride ∧
    (A.Resize_outcome debug mem h w).self.rowStride = A.rowStride ∧
    (A.Resize_outcome debug mem h w).self.viewType_ = A.viewType_ ∧
    (A.Resize_outcome debug mem h w).self.colConstrained_ = A.colConstrained_ ∧
    (A.Resize_outcome debug mem h w).self.rowConstrained_ = A.rowConstrained_ ∧
    (A.Resize_outcome debug mem h w).self.rootConstrained_ = A.rootConstrained_ ∧
    (A.Resize_outcome debug mem h w).self.root_ = A.root_ := by
  rcases ElementalMatrix.Resize_outcome_cases debug A mem h w with ⟨h1, -⟩ | ⟨-, h1, -⟩
  · rw [h1]
    exact ElementalMatrix.Resize_fields A mem h w
  · rw [h1]
    simp

/-! ## C14: realigning a view -/

/-- In a debug build `Align` on a view with another alignment raises and changes nothing. -/
theorem ElementalMatrix.Align_view {α : Type} (A : ElementalMatrix α) (mem : Int → α)
    (colAlign rowAlign : Int) (constrain : Bool) (hview : A.Viewing = true)
    (hne : A.colAlign_ ≠ colAlign ∨ A.rowAlign_ ≠ rowAlign) :
    (A.Align true mem colAlign rowAlign constrain).raised = some "Tried to realign a view" ∧
    (A.Align true mem colAlign rowAlign constrain).self = A := by
  unfold ElementalMatrix.Align
  simp [hview, hne]

theorem ElementalMatrix.AlignCols_view {α : Type} (A : ElementalMatrix α) (mem : Int → α)
    (colAlign : Int) (constrain : Bool) (hview : A.Viewing = true)
    (hne : A.colAlign_ ≠ colAlign) :
    (A.AlignCols true mem colAlign constrain).raised = some "Tried to realign a view" ∧
    (A.AlignCols true mem colAlign constrain).self = A := by
  unfold ElementalMatrix.AlignCols
  simp [hview, hne]

theorem ElementalMatrix.AlignRows_view {α : Type} (A : ElementalMatrix α) (mem : Int → α)
    (rowAlign : Int) (constrain : Bool) (hview : A.Viewing = true)
    (hne : A.rowAlign_ ≠ rowAlign) :
    (A.AlignRows true mem rowAlign constrain).raised = some "Tried to realign a view" ∧
    (A.AlignRows true mem rowAlign constrain).self = A := by
  unfold ElementalMatrix.AlignRows
  simp [hview, hne]

theorem ElementalMatrix.FreeAlignments_view {α : Type} (A : ElementalMatrix α)
    (hview : A.Viewing = true) :
    A.FreeAlignments.raised = some "Cannot free alignments of views" ∧
    A.FreeAlignments.self = A := by
  unfold ElementalMatrix.FreeAlignments
  simp [hview]

/-- `AlignAndResize` on a view leaves both alignments as they were, whatever it is asked
and however it ends. -/
theorem ElementalMatrix.AlignAndResize_view {α : Type} (debug : Bool)
    (A : ElementalMatrix α) (mem : Int → α) (colAlign rowAlign height width : Int)
    (force constrain : Bool) (hview : A.Viewing = true) :
    (A.AlignAndResize debug mem colAlign rowAlign height width force constrain).self.colAlign_
      = A.colAlign_ ∧
    (A.AlignAndResize debug mem colAlign rowAlign height width force constrain).self.rowAlign_
      = A.rowAlign_ := by
  unfold ElementalMatrix.AlignAndResize
  simp only [hview, Bool.not_true, Bool.false_eq_true, if_false]
  cases constrain
  · simp only [Bool.false_eq_true, if_false]
    split
    · exact ⟨rfl, rfl⟩
    · obtain ⟨h1, h2, -⟩ := ElementalMatrix.Resize_outcome_fields debug A mem height width
      exact ⟨h1, h2⟩
  · simp only [if_true]
    split
    · exact ⟨rfl, rfl⟩
    · obtain ⟨h1, h2, -⟩ := ElementalMatrix.Resize_outcome_fields debug
        { A with colConstrained_ := true, rowConstrained_ := true } mem height width
      exact ⟨h1, h2⟩

/-- C14 (amended): the view checks of `Align`, `AlignCols` and `AlignRows` belong to a
debug build.  In a debug build, on a view, each of them called with an alignment other
than the current one raises `LogicError` and leaves the matrix (alignments, constraint
flags and data) as it was.  In either build `FreeAlignments` on a view raises and leaves
the matrix as it was, and `AlignAndResize` on a view leaves `colAlign_` and `rowAlign_` as
they were, whatever its arguments. -/
theorem C14_realign_view {α : Type} (A : ElementalMatrix α) (mem : Int → α)
    (colAlign rowAlign height width : Int) (force constrain : Bool)
    (hview : A.Viewing = true) :
    ((A.colAlign_ ≠ colAlign ∨ A.rowAlign_ ≠ rowAlign) →
      (A.Align true mem colAlign rowAlign constrain).raised
        = some "Tried to realign a view" ∧
      (A.Align true mem colAlign rowAlign constrain).self = A) ∧
    (A.colAlign_ ≠ colAlign →
      (A.AlignCols true mem colAlign constrain).raised = some "Tried to realign a view" ∧
      (A.AlignCols true mem colAlign constrain).self = A) ∧
    (A.rowAlign_ ≠ rowAlign →
      (A.AlignRows true mem rowAlign constrain).raised = some "Tried to realign a view" ∧
      (A.AlignRows true mem rowAlign constrain).self = A) ∧
    (A.FreeAlignments.raised = some "Cannot free alignments of views" ∧
      A.FreeAlignments.self = A) ∧
    (∀ debug : Bool,
      (A.AlignAndResize debug mem colAlign rowAlign height width force
          constrain).self.colAlign_ = A.colAlign_ ∧
      (A.AlignAndResize debug mem colAlign rowAlign height width force
          constrain).self.rowAlign_ = A.rowAlign_) :=
  ⟨ElementalMatrix.Align_view A mem colAlign rowAlign constrain hview,
   ElementalMatrix.AlignCols_view A mem colAlign constrain hview,
   ElementalMatrix.AlignRows_view A mem rowAlign constrain hview,
   ElementalMatrix.FreeAlignments_view A hview,
   fun debug => ElementalMatrix.AlignAndResize_view debug A mem colAlign rowAlign height width
     force constrain hview⟩

/-- C14 on the sample view, asked for column alignment 2 instead of 1. -/
theorem C14_realign_view_witness :
    sampleView.Viewing = true ∧ sampleView.colAlign_ = 1 ∧
    (sampleView.Align true sampleMem 2 0 true).raised = some "Tried to realign a view" ∧
    (sampleView.Align true sampleMem 2 0 true).self = sampleView ∧
    (sampleView.AlignAndResize false sampleMem 2 0 5 2 true true).self.colAlign_ = 1 :=
  have h := C14_realign_view sampleView sampleMem 2 0 5 2 true true (by decide)
  ⟨by decide, rfl, (h.1 (Or.inl (by decide))).1, (h.1 (Or.inl (by decide))).2,
    (h.2.2.2.2 false).1⟩

/-- The call that refutes the unamended C14: in a release build `Align` on the sample view
with column alignment 2 instead of 1 raises nothing, installs the new alignment, sets the
constraint flags and drops the data (the matrix becomes a `0 x 0` owner). -/
theorem C14_realign_view_counterexample :
    sampleView.Viewing = true ∧ sampleView.colAlign_ = 1 ∧
    sampleView.colConstrained_ = false ∧ sampleView.height_ = 5 ∧
    (sampleView.Align false sampleMem 2 0 true).raised = none ∧
    (sampleView.Align false sampleMem 2 0 true).self.colAlign_ = 2 ∧
    (sampleView.Align false sampleMem 2 0 true).self.colConstrained_ = true ∧
    (sampleView.Align false sampleMem 2 0 true).self.height_ = 0 ∧
    (sampleView.Align false sampleMem 2 0 true).self.Viewing = false := by
  refine ⟨by decide, rfl, rfl, rfl, rfl, rfl, rfl, rfl, ?_⟩
  decide

/-! ## C13: the alignments after an alignment-changing operation -/

theorem ElementalMatrix.Empty_fields {α : Type} (A : ElementalMatrix α) (mem : Int → α) :
    (A.Empty mem).colAlign_ = 0 ∧ (A.Empty mem).rowAlign_ = 0 ∧
    (A.Empty mem).colStride = A.colStride ∧ (A.Empty mem).rowStride = A.rowStride := by
  unfold ElementalMatrix.Empty
  obtain ⟨h1, h2, h3, h4, -⟩ := ElementalMatrix.SetShifts_fields
    { A with
      matrix_ := Matrix.empty mem
      viewType_ := El.ViewType.OWNER
      height_ := 0
      width_ := 0
      colAlign_ := 0
      rowAlign_ := 0
      colConstrained_ := false
      rowConstrained_ := false
      rootConstrained_ := false }
  exact ⟨h1, h2, h3, h4⟩

/-- The alignments `Align` leaves: the requested ones, or the old ones when it raises. -/
theorem ElementalMatrix.Align_alignments {α : Type} (debug : Bool) (A : ElementalMatrix α)
    (mem : Int → α) (colAlign rowAlign : Int) (constrain : Bool) :
    (A.Align debug mem colAlign rowAlign constrain).self.colStride = A.colStride ∧
    (A.Align debug mem colAlign rowAlign constrain).self.rowStride = A.rowStride ∧
    (((A.Align debug mem colAlign rowAlign constrain).raised = none ∧
        (A.Align debug mem colAlign rowAlign constrain).self.colAlign_ = colAlign ∧
        (A.Align debug mem colAlign rowAlign constrain).self.rowAlign_ = rowAlign) ∨
      ((A.Align debug mem colAlign rowAlign constrain).raised
          = some "Tried to realign a view" ∧
        (A.Align debug mem colAlign rowAlign constrain).self = A)) := by
  unfold ElementalMatrix.Align
  simp only
  split
  · exact ⟨rfl, rfl, Or.inr ⟨rfl, rfl⟩⟩
  · simp only
    generalize hX : (if decide (A.colAlign_ ≠ colAlign ∨ A.rowAlign_ ≠ rowAlign) = true
      then A.Empty mem else A) = X
    have hXs : X.colStride = A.colStride ∧ X.rowStride = A.rowStride := by
      rw [← hX]
      split
      · exact ⟨(ElementalMatrix.Empty_fields A mem).2.2.1,
          (ElementalMatrix.Empty_fields A mem).2.2.2⟩
      · exact ⟨rfl, rfl⟩
    cases constrain
    · simp only [Bool.false_eq_true, if_false]
      obtain ⟨h1, h2, h3, h4, -⟩ := ElementalMatrix.SetShifts_fields
        { X with colAlign_ := colAlign, rowAlign_ := rowAlign }
      exact ⟨h3.trans hXs.1, h4.trans hXs.2, Or.inl ⟨trivial, h1, h2⟩⟩
    · simp only [if_true]
      obtain ⟨h1, h2, h3, h4, -⟩ := ElementalMatrix.SetShifts_fields
        { X with colConstrained_ := true, rowConstrained_ := true, colAlign_ := colAlign,
                 rowAlign_ := rowAlign }
      exact ⟨h3.trans hXs.1, h4.trans hXs.2, Or.inl ⟨trivial, h1, h2⟩⟩

/-- The alignments `AlignCols` leaves. -/
theorem ElementalMatrix.AlignCols_alignments {α : Type} (debug : Bool)
    (A : ElementalMatrix α) (mem : Int → α) (colAlign : Int) (constrain : Bool) :
    (A.AlignCols debug mem colAlign constrain).self.colStride = A.colStride ∧
    (A.AlignCols debug mem colAlign constrain).self.rowStride = A.rowStride ∧
    (A.AlignCols debug mem colAlign constrain).self.rowAlign_ = A.rowAlign_ ∧
    (((A.AlignCols debug mem colAlign constrain).raised = none ∧
        (A.AlignCols debug mem colAlign constrain).self.colAlign_ = colAlign) ∨
      ((A.AlignCols debug mem colAlign constrain).raised = some "Tried to realign a view" ∧
        (A.AlignCols debug mem colAlign constrain).self = A)) := by
  unfold ElementalMatrix.AlignCols
  split
  · exact ⟨rfl, rfl, rfl, Or.inr ⟨rfl, rfl⟩⟩
  · simp only
    generalize hX : (if A.colAlign_ ≠ colAlign then A.EmptyData mem else A) = X
    have hXs : X.colStride = A.colStride ∧ X.rowStride = A.rowStride ∧
        X.rowAlign_ = A.rowAlign_ := by
      rw [← hX]
      split
      · exact ⟨rfl, rfl, rfl⟩
      · exact ⟨rfl, rfl, rfl⟩
    cases constrain
    · simp only [Bool.false_eq_true, if_false]
      obtain ⟨h1, h2, h3, h4, -⟩ := ElementalMatrix.SetShifts_fields
        { X with colAlign_ := colAlign }
      exact ⟨h3.trans hXs.1, h4.trans hXs.2.1, h2.trans hXs.2.2, Or.inl ⟨trivial, h1⟩⟩
    · simp only [if_true]
      obtain ⟨h1, h2, h3, h4, -⟩ := ElementalMatrix.SetShifts_fields
        { X with colConstrained_ := true, colAlign_ := colAlign }
      exact ⟨h3.trans hXs.1, h4.trans hXs.2.1, h2.trans hXs.2.2, Or.inl ⟨trivial, h1⟩⟩

/-- The alignments `AlignRows` leaves. -/
theorem ElementalMatrix.AlignRows_alignments {α : Type} (debug : Bool)
    (A : ElementalMatrix α) (mem : Int → α) (rowAlign : Int) (constrain : Bool) :
    (A.AlignRows debug mem rowAlign constrain).self.colStride = A.colStride ∧
    (A.AlignRows debug mem rowAlign constrain).self.rowStride = A.rowStride ∧
    (A.AlignRows debug mem rowAlign constrain).self.colAlign_ = A.colAlign_ ∧
    (((A.AlignRows debug mem rowAlign constrain).raised = none ∧
        (A.AlignRows debug mem rowAlign constrain).self.rowAlign_ = rowAlign) ∨
      ((A.AlignRows debug mem rowAlign constrain).raised = some "Tried to realign a view" ∧
        (A.AlignRows debug mem rowAlign constrain).self = A)) := by
  unfold ElementalMatrix.AlignRows
  split
  · exact ⟨rfl, rfl, rfl, Or.inr ⟨rfl, rfl⟩⟩
  · simp only
    generalize hX : (if A.rowAlign_ ≠ rowAlign then A.EmptyData mem else A) = X
    have hXs : X.colStride = A.colStride ∧ X.rowStride = A.rowStride ∧
        X.colAlign_ = A.colAlign_ := by
      rw [← hX]
      split
      · exact ⟨rfl, rfl, rfl⟩
      · exact ⟨rfl, rfl, rfl⟩
    cases constrain
    · simp only [Bool.false_eq_true, if_false]
      obtain ⟨h1, h2, h3, h4, -⟩ := ElementalMatrix.SetShifts_fields
        { X with rowAlign_ := rowAlign }
      exact ⟨h3.trans hXs.1, h4.trans hXs.2.1, h1.trans hXs.2.2, Or.inl ⟨trivial, h2⟩⟩
    · simp only [if_true]
      obtain ⟨h1, h2, h3, h4, -⟩ := ElementalMatrix.SetShifts_fields
        { X with rowConstrained_ := true, rowAlign_ := rowAlign }
      exact ⟨h3.trans hXs.1, h4.trans hXs.2.1, h1.trans hXs.2.2, Or.inl ⟨trivial, h2⟩⟩

theorem ElementalMatrix.SetColShift_colAlign {α : Type} (A : ElementalMatrix α) :
    A.SetColShift.colAlign_ = A.colAlign_ := (ElementalMatrix.SetColShift_fields A).1

theorem ElementalMatrix.SetColShift_rowAlign {α : Type} (A : ElementalMatrix α) :
    A.SetColShift.rowAlign_ = A.rowAlign_ := (ElementalMatrix.SetColShift_fields A).2.1

theorem ElementalMatrix.SetColShift_colStride {α : Type} (A : ElementalMatrix α) :
    A.SetColShift.colStride = A.colStride := (ElementalMatrix.SetColShift_fields A).2.2.1

theorem ElementalMatrix.SetColShift_rowStride {α : Type} (A : ElementalMatrix α) :
    A.SetColShift.rowStride = A.rowStride := (ElementalMatrix.SetColShift_fields A).2.2.2.1

theorem ElementalMatrix.SetColShift_rowConstrained {α : Type} (A : ElementalMatrix α) :
    A.SetColShift.rowConstrained_ = A.rowConstrained_ :=
  (ElementalMatrix.SetColShift_fields A).2.2.2.2.2.2.2.2

theorem ElementalMatrix.SetRowShift_colAlign {α : Type} (A : ElementalMatrix α) :
    A.SetRowShift.colAlign_ = A.colAlign_ := (ElementalMatrix.SetRowShift_fields A).1

theorem ElementalMatrix.SetRowShift_rowAlign {α : Type} (A : ElementalMatrix α) :
    A.SetRowShift.rowAlign_ = A.rowAlign_ := (ElementalMatrix.SetRowShift_fields A).2.1

theorem ElementalMatrix.SetRowShift_colStride {α : Type} (A : ElementalMatrix α) :
    A.SetRowShift.colStride = A.colStride := (ElementalMatrix.SetRowShift_fields A).2.2.1

theorem ElementalMatrix.SetRowShift_rowStride {α : Type} (A : ElementalMatrix α) :
    A.SetRowShift.rowStride = A.rowStride := (ElementalMatrix.SetRowShift_fields A).2.2.2.1

/-- The end of the three `Align...AndResize` functions: the check after `force` and the
call of `Resize` leave alignments and strides as they are. -/
theorem ElementalMatrix.force_Resize_fields {α : Type} (debug : Bool)
    (X : ElementalMatrix α) (mem : Int → α) (height width : Int) (c : Prop) [Decidable c]
    (msg : String) :
    (if c then ({ self := X, raised := some msg } : MemberOutcome α)
      else X.Resize_outcome debug mem height width).self.colAlign_ = X.colAlign_ ∧
    (if c then ({ self := X, raised := some msg } : MemberOutcome α)
      else X.Resize_outcome debug mem height width).self.rowAlign_ = X.rowAlign_ ∧
    (if c then ({ self := X, raised := some msg } : MemberOutcome α)
      else X.Resize_outcome debug mem height width).self.colStride = X.colStride ∧
    (if c then ({ self := X, raised := some msg } : MemberOutcome α)
      else X.Resize_outcome debug mem height width).self.rowStride = X.rowStride := by
  obtain ⟨h1, h2, h3, h4, -⟩ := ElementalMatrix.Resize_outcome_fields debug X mem height width
  split
  · exact ⟨rfl, rfl, rfl, rfl⟩
  · exact ⟨h1, h2, h3, h4⟩

/-- The alignments `AlignAndResize` leaves: each is the requested or the old one. -/
theorem ElementalMatrix.AlignAndResize_alignments {α : Type} (debug : Bool)
    (A : ElementalMatrix α) (mem : Int → α) (colAlign rowAlign height width : Int)
    (force constrain : Bool) :
    (A.AlignAndResize debug mem colAlign rowAlign height width force constrain).self.colStride
      = A.colStride ∧
    (A.AlignAndResize debug mem colAlign rowAlign height width force constrain).self.rowStride
      = A.rowStride ∧
    ((A.AlignAndResize debug mem colAlign rowAlign height width force
          constrain).self.colAlign_ = colAlign ∨
      (A.AlignAndResize debug mem colAlign rowAlign height width force
          constrain).self.colAlign_ = A.colAlign_) ∧
    ((A.AlignAndResize debug mem colAlign rowAlign height width force
          constrain).self.rowAlign_ = rowAlign ∨
      (A.AlignAndResize debug mem colAlign rowAlign height width force
          constrain).self.rowAlign_ = A.rowAlign_) := by
  unfold ElementalMatrix.AlignAndResize
  simp only
  generalize hY : (if (!A.Viewing) = true then
      (if force = true ∨ (!(if force = true ∨ (!A.ColConstrained) = true then
            ElementalMatrix.SetColShift { A with colAlign_ := colAlign }
          else A).RowConstrained) = true then
        ElementalMatrix.SetRowShift
          { (if force = true ∨ (!A.ColConstrained) = true then
              ElementalMatrix.SetColShift { A with colAlign_ := colAlign }
            else A) with rowAlign_ := rowAlign }
      else
        (if force = true ∨ (!A.ColConstrained) = true then
          ElementalMatrix.SetColShift { A with colAlign_ := colAlign }
        else A))
    else A) = Y
  have hYf : Y.colStride = A.colStride ∧ Y.rowStride = A.rowStride ∧
      (Y.colAlign_ = colAlign ∨ Y.colAlign_ = A.colAlign_) ∧
      (Y.rowAlign_ = rowAlign ∨ Y.rowAlign_ = A.rowAlign_) := by
    rw [← hY]
    repeat' split
    all_goals
      simp only [ElementalMatrix.SetRowShift_colAlign, ElementalMatrix.SetRowShift_rowAlign,
        ElementalMatrix.SetRowShift_colStride, ElementalMatrix.SetRowShift_rowStride,
        ElementalMatrix.SetColShift_colAlign, ElementalMatrix.SetColShift_rowAlign,
        ElementalMatrix.SetColShift_colStride, ElementalMatrix.SetColShift_rowStride,
        true_or, or_true, and_self]
  generalize hX : (if constrain = true then
      { Y with colConstrained_ := true, rowConstrained_ := true } else Y) = X
  have hXf : X.colStride = Y.colStride ∧ X.rowStride = Y.rowStride ∧
      X.colAlign_ = Y.colAlign_ ∧ X.rowAlign_ = Y.rowAlign_ := by
    rw [← hX]
    split <;> exact ⟨rfl, rfl, rfl, rfl⟩
  obtain ⟨t1, t2, t3, t4⟩ := ElementalMatrix.force_Resize_fields debug X mem height width
    (force = true ∧ (X.colAlign_ ≠ colAlign ∨ X.rowAlign_ ≠ rowAlign))
    "Could not set alignments"
  rw [t1, t2, t3, t4, hXf.1, hXf.2.1, hXf.2.2.1, hXf.2.2.2]
  exact hYf

/-- The alignments `AlignColsAndResize` leaves. -/
theorem ElementalMatrix.AlignColsAndResize_alignments {α : Type} (debug : Bool)
    (A : ElementalMatrix α) (mem : Int → α) (colAlign height width : Int)
    (force constrain : Bool) :
    (A.AlignColsAndResize debug mem colAlign height width force constrain).self.colStride
      = A.colStride ∧
    (A.AlignColsAndResize debug mem colAlign height width force constrain).self.rowStride
      = A.rowStride ∧
    ((A.AlignColsAndResize debug mem colAlign height width force constrain).self.colAlign_
        = colAlign ∨
      (A.AlignColsAndResize debug mem colAlign height width force constrain).self.colAlign_
        = A.colAlign_) ∧
    (A.AlignColsAndResize debug mem colAlign height width force constrain).self.rowAlign_
      = A.rowAlign_ := by
  unfold ElementalMatrix.AlignColsAndResize
  simp only
  generalize hY : (if (!A.Viewing) = true ∧ (force = true ∨ (!A.ColConstrained) = true) then
      ElementalMatrix.SetColShift { A with colAlign_ := colAlign } else A) = Y
  have hYf : Y.colStride = A.colStride ∧ Y.rowStride = A.rowStride ∧
      (Y.colAlign_ = colAlign ∨ Y.colAlign_ = A.colAlign_) ∧ Y.rowAlign_ = A.rowAlign_ := by
    rw [← hY]
    split
    · simp only [ElementalMatrix.SetColShift_colAlign, ElementalMatrix.SetColShift_rowAlign,
        ElementalMatrix.SetColShift_colStride, ElementalMatrix.SetColShift_rowStride,
        true_or, and_self]
    · simp only [or_true, and_self]
  generalize hX : (if constrain = true then { Y with colConstrained_ := true } else Y) = X
  have hXf : X.colStride = Y.colStride ∧ X.rowStride = Y.rowStride ∧
      X.colAlign_ = Y.colAlign_ ∧ X.rowAlign_ = Y.rowAlign_ := by
    rw [← hX]
    split <;> exact ⟨rfl, rfl, rfl, rfl⟩
  obtain ⟨t1, t2, t3, t4⟩ := ElementalMatrix.force_Resize_fields debug X mem height width
    (force = true ∧ X.colAlign_ ≠ colAlign) "Could not set col alignment"
  rw [t1, t2, t3, t4, hXf.1, hXf.2.1, hXf.2.2.1, hXf.2.2.2]
  exact hYf

/-- The alignments `AlignRowsAndResize` leaves. -/
theorem ElementalMatrix.AlignRowsAndResize_alignments {α : Type} (debug : Bool)
    (A : ElementalMatrix α) (mem : Int → α) (rowAlign height width : Int)
    (force constrain : Bool) :
    (A.AlignRowsAndResize debug mem rowAlign height width force constrain).self.colStride
      = A.colStride ∧
    (A.AlignRowsAndResize debug mem rowAlign height width force constrain).self.rowStride
      = A.rowStride ∧
    (A.AlignRowsAndResize debug mem rowAlign height width force constrain).self.colAlign_
      = A.colAlign_ ∧
    ((A.AlignRowsAndResize debug mem rowAlign height width force constrain).self.rowAlign_
        = rowAlign ∨
      (A.AlignRowsAndResize debug mem rowAlign height width force constrain).self.rowAlign_
        = A.rowAlign_) := by
  unfold ElementalMatrix.AlignRowsAndResize
  simp only
  generalize hY : (if (!A.Viewing) = true ∧ (force = true ∨ (!A.RowConstrained) = true) then
      ElementalMatrix.SetRowShift { A with rowAlign_ := rowAlign } else A) = Y
  have hYf : Y.colStride = A.colStride ∧ Y.rowStride = A.rowStride ∧
      Y.colAlign_ = A.colAlign_ ∧ (Y.rowAlign_ = rowAlign ∨ Y.rowAlign_ = A.rowAlign_) := by
    rw [← hY]
    split
    · simp only [ElementalMatrix.SetRowShift_colAlign, ElementalMatrix.SetRowShift_rowAlign,
        ElementalMatrix.SetRowShift_colStride, ElementalMatrix.SetRowShift_rowStride,
        true_or, and_self]
    · simp only [or_true, and_self]
  generalize hX : (if constrain = true then { Y with rowConstrained_ := true } else Y) = X
  have hXf : X.colStride = Y.colStride ∧ X.rowStride = Y.rowStride ∧
      X.colAlign_ = Y.colAlign_ ∧ X.rowAlign_ = Y.rowAlign_ := by
    rw [← hX]
    split <;> exact ⟨rfl, rfl, rfl, rfl⟩
  obtain ⟨t1, t2, t3, t4⟩ := ElementalMatrix.force_Resize_fields debug X mem height width
    (force = true ∧ X.rowAlign_ ≠ rowAlign) "Could not set row alignment"
  rw [t1, t2, t3, t4, hXf.1, hXf.2.1, hXf.2.2.1, hXf.2.2.2]
  exact hYf

/-- The alignments and strides after `Attach` or `LockedAttach`: the requested alignments
and the strides of the new grid. -/
theorem ElementalMatrix.attach_alignments {α : Type} (K : DistQueries) (v : El.ViewType)
    (A : ElementalMatrix α) (mem : Int → α) (height width : Int) (g : El.Grid)
    (colAlign rowAlign : Int) (buffer : Int → α) (ldim root : Int) :
    (ElementalMatrix.attach K v A mem height width g colAlign rowAlign buffer ldim
        root).colAlign_ = colAlign ∧
    (ElementalMatrix.attach K v A mem height width g colAlign rowAlign buffer ldim
        root).rowAlign_ = rowAlign ∧
    (ElementalMatrix.attach K v A mem height width g colAlign rowAlign buffer ldim
        root).colStride = K.ColStride g ∧
    (ElementalMatrix.attach K v A mem height width g colAlign rowAlign buffer ldim
        root).rowStride = K.RowStride g := by
  unfold ElementalMatrix.attach
  simp only
  generalize hX : ElementalMatrix.SetShifts _ = X
  have hXf : X.colAlign_ = colAlign ∧ X.rowAlign_ = rowAlign ∧
      X.colStride = K.ColStride g ∧ X.rowStride = K.RowStride g := by
    rw [← hX]
    refine ⟨(ElementalMatrix.SetShifts_fields _).1, (ElementalMatrix.SetShifts_fields _).2.1,
      (ElementalMatrix.SetShifts_fields _).2.2.1, (ElementalMatrix.SetShifts_fields _).2.2.2.1⟩
  split
  · exact hXf
  · exact hXf

/-- The alignments and strides after `SetGrid`. -/
theorem ElementalMatrix.SetGrid_alignments {α : Type} (K : DistQueries)
    (A : ElementalMatrix α) (mem : Int → α) (g : El.Grid) :
    (A.grid_ = g ∧ A.SetGrid K mem g = A) ∨
    (A.grid_ ≠ g ∧ (A.SetGrid K mem g).colAlign_ = 0 ∧ (A.SetGrid K mem g).rowAlign_ = 0 ∧
      (A.SetGrid K mem g).colStride = K.ColStride g ∧
      (A.SetGrid K mem g).rowStride = K.RowStride g) := by
  unfold ElementalMatrix.SetGrid
  by_cases h : A.grid_ = g
  · left
    exact ⟨h, by simp [h]⟩
  · right
    have hne : A.grid_ ≠ g := h
    simp only [if_pos hne]
    obtain ⟨h1, h2, h3, h4⟩ := ElementalMatrix.Empty_fields (A.assignGrid K g) mem
    exact ⟨hne, h1, h2, h3, h4⟩

/-- `SetRoot` leaves alignments and strides as they are. -/
theorem ElementalMatrix.SetRoot_alignments {α : Type} (debug : Bool) (K : DistQueries)
    (A : ElementalMatrix α) (mem : Int → α) (root : Int) (constrain : Bool) :
    (A.SetRoot debug K mem root constrain).self.colAlign_ = A.colAlign_ ∧
    (A.SetRoot debug K mem root constrain).self.rowAlign_ = A.rowAlign_ ∧
    (A.SetRoot debug K mem root constrain).self.colStride = A.colStride ∧
    (A.SetRoot debug K mem root constrain).self.rowStride = A.rowStride := by
  unfold ElementalMatrix.SetRoot
  split
  · exact ⟨rfl, rfl, rfl, rfl⟩
  · simp only
    generalize hX : ElementalMatrix.SetShifts _ = X
    rw [← hX]
    obtain ⟨h1, h2, h3, h4, -⟩ := ElementalMatrix.SetShifts_fields
      (if constrain = true then
        { (ElementalMatrix.assignRoot (if root ≠ A.root_ then A.EmptyData mem else A) root)
            with rootConstrained_ := true }
      else ElementalMatrix.assignRoot (if root ≠ A.root_ then A.EmptyData mem else A) root)
    rw [h1, h2, h3, h4]
    cases constrain <;> by_cases hr : root = A.root_ <;>
      simp [ElementalMatrix.assignRoot, ElementalMatrix.EmptyData, hr]

theorem ElementalMatrix.Align_InRange {α : Type} (debug : Bool) (A : ElementalMatrix α)
    (mem : Int → α) (colAlign rowAlign : Int) (constrain : Bool)
    (hA : A.AlignmentsInRange)
    (hc : 0 ≤ colAlign ∧ colAlign < A.ColStride) (hr : 0 ≤ rowAlign ∧ rowAlign < A.RowStride) :
    (A.Align debug mem colAlign rowAlign constrain).self.AlignmentsInRange := by
  obtain ⟨s1, s2, h | h⟩ := ElementalMatrix.Align_alignments debug A mem colAlign rowAlign
    constrain
  · unfold ElementalMatrix.AlignmentsInRange ElementalMatrix.ColStride
      ElementalMatrix.RowStride at *
    rw [s1, s2, h.2.1, h.2.2]
    exact ⟨hc, hr⟩
  · rw [h.2]
    exact hA

theorem ElementalMatrix.AlignCols_InRange {α : Type} (debug : Bool) (A : ElementalMatrix α)
    (mem : Int → α) (colAlign : Int) (constrain : Bool)
    (hA : A.AlignmentsInRange) (hc : 0 ≤ colAlign ∧ colAlign < A.ColStride) :
    (A.AlignCols debug mem colAlign constrain).self.AlignmentsInRange := by
  obtain ⟨s1, s2, s3, h | h⟩ := ElementalMatrix.AlignCols_alignments debug A mem colAlign
    constrain
  · unfold ElementalMatrix.AlignmentsInRange ElementalMatrix.ColStride
      ElementalMatrix.RowStride at *
    rw [s1, s2, s3, h.2]
    exact ⟨hc, hA.2⟩
  · rw [h.2]
    exact hA

theorem ElementalMatrix.AlignRows_InRange {α : Type} (debug : Bool) (A : ElementalMatrix α)
    (mem : Int → α) (rowAlign : Int) (constrain : Bool)
    (hA : A.AlignmentsInRange) (hr : 0 ≤ rowAlign ∧ rowAlign < A.RowStride) :
    (A.AlignRows debug mem rowAlign constrain).self.AlignmentsInRange := by
  obtain ⟨s1, s2, s3, h | h⟩ := ElementalMatrix.AlignRows_alignments debug A mem rowAlign
    constrain
  · unfold ElementalMatrix.AlignmentsInRange ElementalMatrix.ColStride
      ElementalMatrix.RowStride at *
    rw [s1, s2, s3, h.2]
    exact ⟨hA.1, hr⟩
  · rw [h.2]
    exact hA

theorem ElementalMatrix.AlignAndResize_InRange {α : Type} (debug : Bool)
    (A : ElementalMatrix α) (mem : Int → α) (colAlign rowAlign height width : Int)
    (force constrain : Bool) (hA : A.AlignmentsInRange)
    (hc : 0 ≤ colAlign ∧ colAlign < A.ColStride) (hr : 0 ≤ rowAlign ∧ rowAlign < A.RowStride) :
    (A.AlignAndResize debug mem colAlign rowAlign height width force
      constrain).self.AlignmentsInRange := by
  obtain ⟨s1, s2, h1, h2⟩ := ElementalMatrix.AlignAndResize_alignments debug A mem colAlign
    rowAlign height width force constrain
  unfold ElementalMatrix.AlignmentsInRange ElementalMatrix.ColStride
    ElementalMatrix.RowStride at *
  rw [s1, s2]
  constructor
  · rcases h1 with h | h <;> rw [h]
    · exact hc
    · exact hA.1
  · rcases h2 with h | h <;> rw [h]
    · exact hr
    · exact hA.2

theorem ElementalMatrix.AlignColsAndResize_InRange {α : Type} (debug : Bool)
    (A : ElementalMatrix α) (mem : Int → α) (colAlign height width : Int)
    (force constrain : Bool) (hA : A.AlignmentsInRange)
    (hc : 0 ≤ colAlign ∧ colAlign < A.ColStride) :
    (A.AlignColsAndResize debug mem colAlign height width force
      constrain).self.AlignmentsInRange := by
  obtain ⟨s1, s2, h1, h2⟩ := ElementalMatrix.AlignColsAndResize_alignments debug A mem
    colAlign height width force constrain
  unfold ElementalMatrix.AlignmentsInRange ElementalMatrix.ColStride
    ElementalMatrix.RowStride at *
  rw [s1, s2, h2]
  refine ⟨?_, hA.2⟩
  rcases h1 with h | h <;> rw [h]
  · exact hc
  · exact hA.1

theorem ElementalMatrix.AlignRowsAndResize_InRange {α : Type} (debug : Bool)
    (A : ElementalMatrix α) (mem : Int → α) (rowAlign height width : Int)
    (force constrain : Bool) (hA : A.AlignmentsInRange)
    (hr : 0 ≤ rowAlign ∧ rowAlign < A.RowStride) :
    (A.AlignRowsAndResize debug mem rowAlign height width force
      constrain).self.AlignmentsInRange := by
  obtain ⟨s1, s2, h1, h2⟩ := ElementalMatrix.AlignRowsAndResize_alignments debug A mem
    rowAlign height width force constrain
  unfold ElementalMatrix.AlignmentsInRange ElementalMatrix.ColStride
    ElementalMatrix.RowStride at *
  rw [s1, s2, h1]
  refine ⟨hA.1, ?_⟩
  rcases h2 with h | h <;> rw [h]
  · exact hr
  · exact hA.2

theorem ElementalMatrix.attach_InRange {α : Type} (K : DistQueries) (v : El.ViewType)
    (A : ElementalMatrix α) (mem : Int → α) (height width : Int) (g : El.Grid)
    (colAlign rowAlign : Int) (buffer : Int → α) (ldim root : Int)
    (hc : 0 ≤ colAlign ∧ colAlign < K.ColStride g)
    (hr : 0 ≤ rowAlign ∧ rowAlign < K.RowStride g) :
    (ElementalMatrix.attach K v A mem height width g colAlign rowAlign buffer ldim
      root).AlignmentsInRange := by
  obtain ⟨h1, h2, h3, h4⟩ := ElementalMatrix.attach_alignments K v A mem height width g
    colAlign rowAlign buffer ldim root
  unfold ElementalMatrix.AlignmentsInRange ElementalMatrix.ColStride
    ElementalMatrix.RowStride
  rw [h1, h2, h3, h4]
  exact ⟨hc, hr⟩

theorem ElementalMatrix.SetGrid_InRange {α : Type} (K : DistQueries)
    (A : ElementalMatrix α) (mem : Int → α) (g : El.Grid) (hA : A.AlignmentsInRange)
    (hpos : A.grid_ ≠ g → 0 < K.ColStride g ∧ 0 < K.RowStride g) :
    (A.SetGrid K mem g).AlignmentsInRange := by
  rcases ElementalMatrix.SetGrid_alignments K A mem g with ⟨-, h⟩ | ⟨hne, h1, h2, h3, h4⟩
  · rw [h]
    exact hA
  · unfold ElementalMatrix.AlignmentsInRange ElementalMatrix.ColStride
      ElementalMatrix.RowStride
    rw [h1, h2, h3, h4]
    exact ⟨⟨le_refl _, (hpos hne).1⟩, ⟨le_refl _, (hpos hne).2⟩⟩

theorem ElementalMatrix.SetRoot_InRange {α : Type} (debug : Bool) (K : DistQueries)
    (A : ElementalMatrix α) (mem : Int → α) (root : Int) (constrain : Bool)
    (hA : A.AlignmentsInRange) :
    (A.SetRoot debug K mem root constrain).self.AlignmentsInRange := by
  obtain ⟨h1, h2, h3, h4⟩ := ElementalMatrix.SetRoot_alignments debug K A mem root constrain
  exact ElementalMatrix.AlignmentsInRange_congr A _ h1 h2 h3 h4 hA

theorem tmod_in_range (a s : Int) (ha : 0 ≤ a) (hs : 0 < s) :
    0 ≤ Int.tmod a s ∧ Int.tmod a s < s :=
  ⟨Int.tmod_nonneg s ha, Int.tmod_lt_of_pos a hs⟩

theorem ElementalMatrix.AlignColsWith_InRange {α : Type} (debug : Bool) (K : DistQueries)
    (A : ElementalMatrix α) (mem : Int → α) (data : ElementalData)
    (constrain allowMismatch : Bool) (hA : A.AlignmentsInRange)
    (hpos : A.grid_ ≠ data.grid → 0 < K.ColStride data.grid ∧ 0 < K.RowStride data.grid)
    (h0 : 0 ≤ data.colAlign ∧ 0 ≤ data.rowAlign)
    (h1 : (data.colDist = K.ColDist ∨ data.colDist = K.PartialColDist) →
      data.colAlign < (A.SetGrid K mem data.grid).ColStride)
    (h2 : (data.rowDist = K.ColDist ∨ data.rowDist = K.PartialColDist) →
      data.rowAlign < (A.SetGrid K mem data.grid).ColStride) :
    (A.AlignColsWith debug K mem data constrain allowMismatch).self.AlignmentsInRange := by
  have hA1 := ElementalMatrix.SetGrid_InRange K A mem data.grid hA hpos
  have hA2 := ElementalMatrix.SetRoot_InRange debug K (A.SetGrid K mem data.grid) mem
    data.root true hA1
  have hs : ((A.SetGrid K mem data.grid).SetRoot debug K mem data.root true).self.ColStride
      = (A.SetGrid K mem data.grid).ColStride :=
    (ElementalMatrix.SetRoot_alignments debug K _ mem data.root true).2.2.1
  have hspos : 0 < ((A.SetGrid K mem data.grid).SetRoot debug K mem data.root
      true).self.ColStride := lt_of_le_of_lt hA2.1.1 hA2.1.2
  unfold ElementalMatrix.AlignColsWith
  simp only
  split
  · exact hA2
  · split
    · rename_i hc
      exact ElementalMatrix.AlignCols_InRange debug _ mem _ constrain hA2
        ⟨h0.1, by rw [hs]; exact h1 hc⟩
    · split
      · rename_i hc
        exact ElementalMatrix.AlignCols_InRange debug _ mem _ constrain hA2
          ⟨h0.2, by rw [hs]; exact h2 hc⟩
      · split
        · exact ElementalMatrix.AlignCols_InRange debug _ mem _ constrain hA2
            (tmod_in_range _ _ h0.1 hspos)
        · split
          · exact ElementalMatrix.AlignCols_InRange debug _ mem _ constrain hA2
              (tmod_in_range _ _ h0.2 hspos)
          · split
            · exact hA2
            · exact hA2

theorem ElementalMatrix.AlignRowsWith_InRange {α : Type} (debug : Bool) (K : DistQueries)
    (A : ElementalMatrix α) (mem : Int → α) (data : ElementalData)
    (constrain allowMismatch : Bool) (hA : A.AlignmentsInRange)
    (hpos : A.grid_ ≠ data.grid → 0 < K.ColStride data.grid ∧ 0 < K.RowStride data.grid)
    (h0 : 0 ≤ data.colAlign ∧ 0 ≤ data.rowAlign)
    (h1 : (data.colDist = K.RowDist ∨ data.colDist = K.PartialRowDist) →
      data.colAlign < (A.SetGrid K mem data.grid).RowStride)
    (h2 : (data.rowDist = K.RowDist ∨ data.rowDist = K.PartialRowDist) →
      data.rowAlign < (A.SetGrid K mem data.grid).RowStride) :
    (A.AlignRowsWith debug K mem data constrain allowMismatch).self.AlignmentsInRange := by
  have hA1 := ElementalMatrix.SetGrid_InRange K A mem data.grid hA hpos
  have hA2 := ElementalMatrix.SetRoot_InRange debug K (A.SetGrid K mem data.grid) mem
    data.root true hA1
  have hs : ((A.SetGrid K mem data.grid).SetRoot debug K mem data.root true).self.RowStride
      = (A.SetGrid K mem data.grid).RowStride :=
    (ElementalMatrix.SetRoot_alignments debug K _ mem data.root true).2.2.2
  have hspos : 0 < ((A.SetGrid K mem data.grid).SetRoot debug K mem data.root
      true).self.RowStride := lt_of_le_of_lt hA2.2.1 hA2.2.2
  unfold ElementalMatrix.AlignRowsWith
  simp only
  split
  · exact hA2
  · split
    · rename_i hc
      exact ElementalMatrix.AlignRows_InRange debug _ mem _ constrain hA2
        ⟨h0.1, by rw [hs]; exact h1 hc⟩
    · split
      · rename_i hc
        exact ElementalMatrix.AlignRows_InRange debug _ mem _ constrain hA2
          ⟨h0.2, by rw [hs]; exact h2 hc⟩
      · split
        · exact ElementalMatrix.AlignRows_InRange debug _ mem _ constrain hA2
            (tmod_in_range _ _ h0.1 hspos)
        · split
          · exact ElementalMatrix.AlignRows_InRange debug _ mem _ constrain hA2
              (tmod_in_range _ _ h0.2 hspos)
          · split
            · exact hA2
            · exact hA2

/-- The alignments `MakeConsistent` leaves: those of the decoded message, or the old ones
on a process that may not call it. -/
theorem ElementalMatrix.MakeConsistent_alignments {α : Type} (debug : Bool)
    (A : ElementalMatrix α) (mem : Int → α) (includingViewers : Bool)
    (uninit crossMsg viewMsg : Int → Int) (isViewRoot : Bool) :
    (A.MakeConsistent debug mem includingViewers uninit crossMsg viewMsg
        isViewRoot).self.colStride = A.colStride ∧
    (A.MakeConsistent debug mem includingViewers uninit crossMsg viewMsg
        isViewRoot).self.rowStride = A.rowStride ∧
    (((A.MakeConsistent debug mem includingViewers uninit crossMsg viewMsg
          isViewRoot).self.colAlign_
        = (MakeConsistent_decode (MakeConsistent_message A includingViewers uninit crossMsg
            viewMsg isViewRoot)).colAlign ∧
      (A.MakeConsistent debug mem includingViewers uninit crossMsg viewMsg
          isViewRoot).self.rowAlign_
        = (MakeConsistent_decode (MakeConsistent_message A includingViewers uninit crossMsg
            viewMsg isViewRoot)).rowAlign) ∨
      (A.MakeConsistent debug mem includingViewers uninit crossMsg viewMsg isViewRoot).self
        = A) := by
  unfold ElementalMatrix.MakeConsistent
  simp only
  split
  · exact ⟨rfl, rfl, Or.inr rfl⟩
  · generalize hX : ElementalMatrix.SetShifts _ = X
    obtain ⟨r1, r2, r3, r4, -⟩ := ElementalMatrix.Resize_outcome_fields debug X mem
      (MakeConsistent_decode (MakeConsistent_message A includingViewers uninit crossMsg
        viewMsg isViewRoot)).height
      (MakeConsistent_decode (MakeConsistent_message A includingViewers uninit crossMsg
        viewMsg isViewRoot)).width
    rw [r1, r2, r3, r4, ← hX]
    refine ⟨(ElementalMatrix.SetShifts_fields _).2.2.1,
      (ElementalMatrix.SetShifts_fields _).2.2.2.1,
      Or.inl ⟨(ElementalMatrix.SetShifts_fields _).1, (ElementalMatrix.SetShifts_fields _).2.1⟩⟩

theorem ElementalMatrix.MakeConsistent_InRange {α : Type} (debug : Bool)
    (A : ElementalMatrix α) (mem : Int → α) (includingViewers : Bool)
    (uninit crossMsg viewMsg : Int → Int) (isViewRoot : Bool) (hA : A.AlignmentsInRange)
    (hc : 0 ≤ (MakeConsistent_decode (MakeConsistent_message A includingViewers uninit
          crossMsg viewMsg isViewRoot)).colAlign ∧
      (MakeConsistent_decode (MakeConsistent_message A includingViewers uninit crossMsg
          viewMsg isViewRoot)).colAlign < A.ColStride)
    (hr : 0 ≤ (MakeConsistent_decode (MakeConsistent_message A includingViewers uninit
          crossMsg viewMsg isViewRoot)).rowAlign ∧
      (MakeConsistent_decode (MakeConsistent_message A includingViewers uninit crossMsg
          viewMsg isViewRoot)).rowAlign < A.RowStride) :
    (A.MakeConsistent debug mem includingViewers uninit crossMsg viewMsg
      isViewRoot).self.AlignmentsInRange := by
  obtain ⟨s1, s2, h | h⟩ := ElementalMatrix.MakeConsistent_alignments debug A mem
    includingViewers uninit crossMsg viewMsg isViewRoot
  · unfold ElementalMatrix.AlignmentsInRange ElementalMatrix.ColStride
      ElementalMatrix.RowStride at *
    rw [s1, s2, h.1, h.2]
    exact ⟨hc, hr⟩
  · rw [h]
    exact hA

/-- `Align` in a release build, and on an owner in a debug build, installs the alignments
it is given without comparing them with the strides. -/
theorem ElementalMatrix.Align_installs {α : Type} (debug : Bool) (A : ElementalMatrix α)
    (mem : Int → α) (colAlign rowAlign : Int) (constrain : Bool)
    (h : debug = false ∨ A.Viewing = false) :
    (A.Align debug mem colAlign rowAlign constrain).raised = none ∧
    (A.Align debug mem colAlign rowAlign constrain).self.colAlign_ = colAlign ∧
    (A.Align debug mem colAlign rowAlign constrain).self.rowAlign_ = rowAlign ∧
    (A.Align debug mem colAlign rowAlign constrain).self.ColStride = A.ColStride ∧
    (A.Align debug mem colAlign rowAlign constrain).self.RowStride = A.RowStride := by
  obtain ⟨s1, s2, h1 | h1⟩ := ElementalMatrix.Align_alignments debug A mem colAlign rowAlign
    constrain
  · exact ⟨h1.1, h1.2.1, h1.2.2, s1, s2⟩
  · exfalso
    have hr := h1.1
    unfold ElementalMatrix.Align at hr
    rcases h with h | h
    · subst h
      simp at hr
    · simp [h] at hr

/-- C13 (amended): no alignment-changing operation compares an alignment with a stride;
`Align` in a release build or on an owner installs whatever it is given.  What holds is
preservation: from a matrix whose alignments lie in `[0, ColStride())` and
`[0, RowStride())`, each of `Align`, `AlignCols`, `AlignRows`, `AlignAndResize`,
`AlignColsAndResize`, `AlignRowsAndResize` and `MakeConsistent` ends with alignments in
range when the alignments it is given (for `MakeConsistent`: those of the message) lie in
the range of the strides, however the call ends; `Attach` and `LockedAttach` do when the
given alignments lie in the range of the strides on the grid attached to; `AlignColsWith`
and `AlignRowsWith` do when the alignments of `data` are not negative, the one copied
without reduction lies below the stride, and the strides on a new grid are positive. -/
theorem C13_alignment_invariant {α : Type} (debug : Bool) (K : DistQueries)
    (A : ElementalMatrix α) (mem buffer : Int → α)
    (colAlign rowAlign height width ldim root : Int) (g : El.Grid) (data : ElementalData)
    (force constrain allowMismatch includingViewers isViewRoot : Bool)
    (uninit crossMsg viewMsg : Int → Int)
    (hA : A.AlignmentsInRange) :
    ((debug = false ∨ A.Viewing = false) →
      (A.Align debug mem colAlign rowAlign constrain).raised = none ∧
      (A.Align debug mem colAlign rowAlign constrain).self.colAlign_ = colAlign ∧
      (A.Align debug mem colAlign rowAlign constrain).self.rowAlign_ = rowAlign ∧
      (A.Align debug mem colAlign rowAlign constrain).self.ColStride = A.ColStride ∧
      (A.Align debug mem colAlign rowAlign constrain).self.RowStride = A.RowStride) ∧
    ((0 ≤ colAlign ∧ colAlign < A.ColStride) → (0 ≤ rowAlign ∧ rowAlign < A.RowStride) →
      (A.Align debug mem colAlign rowAlign constrain).self.AlignmentsInRange ∧
      (A.AlignCols debug mem colAlign constrain).self.AlignmentsInRange ∧
      (A.AlignRows debug mem rowAlign constrain).self.AlignmentsInRange ∧
      (A.AlignAndResize debug mem colAlign rowAlign height width force
        constrain).self.AlignmentsInRange ∧
      (A.AlignColsAndResize debug mem colAlign height width force
        constrain).self.AlignmentsInRange ∧
      (A.AlignRowsAndResize debug mem rowAlign height width force
        constrain).self.AlignmentsInRange) ∧
    ((0 ≤ colAlign ∧ colAlign < K.ColStride g) → (0 ≤ rowAlign ∧ rowAlign < K.RowStride g) →
      (A.Attach K mem height width g colAlign rowAlign buffer ldim root).AlignmentsInRange ∧
      (A.LockedAttach K mem height width g colAlign rowAlign buffer ldim
        root).AlignmentsInRange) ∧
    ((A.grid_ ≠ data.grid → 0 < K.ColStride data.grid ∧ 0 < K.RowStride data.grid) →
      (0 ≤ data.colAlign ∧ 0 ≤ data.rowAlign) →
      (((data.colDist = K.ColDist ∨ data.colDist = K.PartialColDist) →
          data.colAlign < (A.SetGrid K mem data.grid).ColStride) →
        ((data.rowDist = K.ColDist ∨ data.rowDist = K.PartialColDist) →
          data.rowAlign < (A.SetGrid K mem data.grid).ColStride) →
        (A.AlignColsWith debug K mem data constrain allowMismatch).self.AlignmentsInRange) ∧
      (((data.colDist = K.RowDist ∨ data.colDist = K.PartialRowDist) →
          data.colAlign < (A.SetGrid K mem data.grid).RowStride) →
        ((data.rowDist = K.RowDist ∨ data.rowDist = K.PartialRowDist) →
          data.rowAlign < (A.SetGrid K mem data.grid).RowStride) →
        (A.AlignRowsWith debug K mem data constrain allowMismatch).self.AlignmentsInRange)) ∧
    ((0 ≤ (MakeConsistent_decode (MakeConsistent_message A includingViewers uninit
            crossMsg viewMsg isViewRoot)).colAlign ∧
        (MakeConsistent_decode (MakeConsistent_message A includingViewers uninit crossMsg
            viewMsg isViewRoot)).colAlign < A.ColStride) →
      (0 ≤ (MakeConsistent_decode (MakeConsistent_message A includingViewers uninit
            crossMsg viewMsg isViewRoot)).rowAlign ∧
        (MakeConsistent_decode (MakeConsistent_message A includingViewers uninit crossMsg
            viewMsg isViewRoot)).rowAlign < A.RowStride) →
      (A.MakeConsistent debug mem includingViewers uninit crossMsg viewMsg
        isViewRoot).self.AlignmentsInRange) := by
  refine ⟨?_, fun hc hr => ⟨?_, ?_, ?_, ?_, ?_, ?_⟩, fun hc hr => ⟨?_, ?_⟩,
    fun hpos h0 => ⟨fun h1 h2 => ?_, fun h1 h2 => ?_⟩, fun hc hr => ?_⟩
  · exact ElementalMatrix.Align_installs debug A mem colAlign rowAlign constrain
  · exact ElementalMatrix.Align_InRange debug A mem colAlign rowAlign constrain hA hc hr
  · exact ElementalMatrix.AlignCols_InRange debug A mem colAlign constrain hA hc
  · exact ElementalMatrix.AlignRows_InRange debug A mem rowAlign constrain hA hr
  · exact ElementalMatrix.AlignAndResize_InRange debug A mem colAlign rowAlign height width
      force constrain hA hc hr
  · exact ElementalMatrix.AlignColsAndResize_InRange debug A mem colAlign height width force
      constrain hA hc
  · exact ElementalMatrix.AlignRowsAndResize_InRange debug A mem rowAlign height width force
      constrain hA hr
  · exact ElementalMatrix.attach_InRange K El.ViewType.VIEW A mem height width g colAlign
      rowAlign buffer ldim root hc hr
  · exact ElementalMatrix.attach_InRange K El.ViewType.LOCKED_VIEW A mem height width g
      colAlign rowAlign buffer ldim root hc hr
  · exact ElementalMatrix.AlignColsWith_InRange debug K A mem data constrain allowMismatch hA
      hpos h0 h1 h2
  · exact ElementalMatrix.AlignRowsWith_InRange debug K A mem data constrain allowMismatch hA
      hpos h0 h1 h2
  · exact ElementalMatrix.MakeConsistent_InRange debug A mem includingViewers uninit crossMsg
      viewMsg isViewRoot hA hc hr

/-- C13 on the sample matrix (column stride 4, row stride 1) with column alignment 3. -/
theorem C13_alignment_invariant_witness :
    (sampleA 0 0).AlignmentsInRange ∧
    (((sampleA 0 0).Align true sampleMem 3 0 true).self.AlignmentsInRange ∧
      ((sampleA 0 0).AlignCols true sampleMem 3 true).self.AlignmentsInRange ∧
      ((sampleA 0 0).AlignRows true sampleMem 0 true).self.AlignmentsInRange ∧
      ((sampleA 0 0).AlignAndResize true sampleMem 3 0 5 2 false
        true).self.AlignmentsInRange ∧
      ((sampleA 0 0).AlignColsAndResize true sampleMem 3 5 2 false
        true).self.AlignmentsInRange ∧
      ((sampleA 0 0).AlignRowsAndResize true sampleMem 0 5 2 false
        true).self.AlignmentsInRange) :=
  have hA : (sampleA 0 0).AlignmentsInRange :=
    ⟨⟨by decide, by decide⟩, ⟨by decide, by decide⟩⟩
  ⟨hA, (C13_alignment_invariant true sampleQueries (sampleA 0 0) sampleMem sampleMem 3 0 5 2 1
    0 { height_ := 2, width_ := 2, mcRank := 0, mrRank := 0 }
    { colDist := Dist.VC, rowDist := Dist.STAR, colAlign := 3, rowAlign := 0, root := 0,
      grid := { height_ := 2, width_ := 2, mcRank := 0, mrRank := 0 } }
    false true false false false sampleMem sampleMem sampleMem hA).2.1
    ⟨by decide, by decide⟩ ⟨by decide, by decide⟩⟩

/-- The calls that refute the unamended C13: on the sample matrix, whose column stride is
4, `Align` with column alignment 4 raises nothing in a debug build and leaves
`colAlign_ = 4 = ColStride()`; `Attach` with column alignment `-1` leaves `colAlign_ = -1`. -/
theorem C13_alignment_invariant_counterexample :
    (sampleA 0 0).AlignmentsInRange ∧
    ((sampleA 0 0).Align true sampleMem 4 0 true).raised = none ∧
    ((sampleA 0 0).Align true sampleMem 4 0 true).self.colAlign_ = 4 ∧
    ((sampleA 0 0).Align true sampleMem 4 0 true).self.ColStride = 4 ∧
    ¬ ((sampleA 0 0).Align true sampleMem 4 0 true).self.AlignmentsInRange ∧
    ((sampleA 0 0).Attach sampleQueries sampleMem 5 2
        { height_ := 2, width_ := 2, mcRank := 0, mrRank := 0 } (-1) 0 sampleMem 2
        0).colAlign_ = -1 ∧
    ¬ ((sampleA 0 0).Attach sampleQueries sampleMem 5 2
        { height_ := 2, width_ := 2, mcRank := 0, mrRank := 0 } (-1) 0 sampleMem 2
        0).AlignmentsInRange := by
  refine ⟨⟨⟨by decide, by decide⟩, ⟨by decide, by decide⟩⟩, rfl, rfl, rfl, ?_, rfl, ?_⟩
  · intro h
    exact absurd h.1.2 (by decide)
  · intro h
    exact absurd h.1.1 (by decide)

/-! ## C11: `MakeConsistent` -/

theorem ViewType.ofInt_toInt (v : El.ViewType) : El.ViewType.ofInt v.toInt = v := by
  cases v <;> rfl

theorem intToBool_boolToInt (b : Bool) : intToBool (boolToInt b) = b := by
  cases b <;> rfl

/-- Decoding the message that was encoded from a matrix gives back its nine fields. -/
theorem MakeConsistent_round_trip {α : Type} (A : ElementalMatrix α) (message : Int → Int) :
    MakeConsistent_decode (MakeConsistent_encode A message) = A.metadata := by
  simp [MakeConsistent_decode, MakeConsistent_encode, ElementalMatrix.metadata, setCell,
    ViewType.ofInt_toInt, intToBool_boolToInt]

/-- Decoding reads the cells 0 to 8 only. -/
theorem MakeConsistent_decode_congr (m m' : Int → Int)
    (h : ∀ k : Int, 0 ≤ k → k < 9 → m k = m' k) :
    MakeConsistent_decode m = MakeConsistent_decode m' := by
  unfold MakeConsistent_decode
  rw [h 0 (by decide) (by decide), h 1 (by decide) (by decide), h 2 (by decide) (by decide),
    h 3 (by decide) (by decide), h 4 (by decide) (by decide), h 5 (by decide) (by decide),
    h 6 (by decide) (by decide), h 7 (by decide) (by decide), h 8 (by decide) (by decide)]

/-- The message on the root of the cross communicator, when no viewing broadcast replaces
it: its own record. -/
theorem MakeConsistent_message_root {α : Type} (A : ElementalMatrix α)
    (includingViewers : Bool) (uninit crossMsg viewMsg : Int → Int) (isViewRoot : Bool)
    (hroot : A.CrossRank = A.Root)
    (hview : includingViewers = true → isViewRoot = true) :
    MakeConsistent_message A includingViewers uninit crossMsg viewMsg isViewRoot
      = MakeConsistent_encode A uninit := by
  unfold MakeConsistent_message Broadcast
  cases includingViewers
  · simp [hroot]
  · simp [hroot, hview rfl]

/-- The message on another process of the cross communicator, without viewers: the first
nine cells of what the root sent. -/
theorem MakeConsistent_message_cross {α : Type} (A : ElementalMatrix α)
    (uninit crossMsg viewMsg : Int → Int) (isViewRoot : Bool)
    (hroot : A.CrossRank ≠ A.Root) (hin : A.grid_.InGrid = true) :
    ∀ k : Int, 0 ≤ k → k < 9 →
      MakeConsistent_message A false uninit crossMsg viewMsg isViewRoot k = crossMsg k := by
  intro k h0 h9
  unfold MakeConsistent_message Broadcast
  simp [hroot, hin, MemCopy, h0, h9]

/-- The message on a process that receives the viewing broadcast: the first nine cells of
what the process of column-major rank 0 sent. -/
theorem MakeConsistent_message_viewing {α : Type} (A : ElementalMatrix α)
    (uninit crossMsg viewMsg : Int → Int) :
    ∀ k : Int, 0 ≤ k → k < 9 →
      MakeConsistent_message A true uninit crossMsg viewMsg false k = viewMsg k := by
  intro k h0 h9
  unfold MakeConsistent_message Broadcast
  simp [MemCopy, h0, h9]

theorem ElementalMatrix.Resize_outcome_ok {α : Type} (debug : Bool) (A : ElementalMatrix α)
    (mem : Int → α) (h w : Int) (hok : A.ResizeAllowed debug h w) :
    A.Resize_outcome debug mem h w = { self := A.Resize mem h w, raised := none } := by
  unfold ElementalMatrix.Resize_outcome
  rw [ElementalMatrix.Resize_checked_ok debug A mem h w hok]

/-- A process that may call `MakeConsistent` and passes the assertions of `Resize` ends
with the nine fields of the decoded message. -/
theorem ElementalMatrix.MakeConsistent_spec {α : Type} (debug : Bool)
    (A : ElementalMatrix α) (mem : Int → α) (includingViewers : Bool)
    (uninit crossMsg viewMsg : Int → Int) (isViewRoot : Bool) (m : Metadata)
    (hm : MakeConsistent_decode (MakeConsistent_message A includingViewers uninit crossMsg
      viewMsg isViewRoot) = m)
    (hpart : A.grid_.InGrid = true ∨ includingViewers = true)
    (hres : debug = true → IsLocked m.viewType = false ∧
      (IsViewing m.viewType = true → m.height ≤ A.height_ ∧ m.width ≤ A.width_)) :
    (A.MakeConsistent debug mem includingViewers uninit crossMsg viewMsg isViewRoot).raised
      = none ∧
    (A.MakeConsistent debug mem includingViewers uninit crossMsg viewMsg
      isViewRoot).self.metadata = m := by
  have hnot : ¬ ((!A.grid_.InGrid) = true ∧ (!includingViewers) = true) := by
    rintro ⟨h1, h2⟩
    rcases hpart with h | h
    · rw [h] at h1
      exact absurd h1 (by decide)
    · rw [h] at h2
      exact absurd h2 (by decide)
  unfold ElementalMatrix.MakeConsistent
  simp only [if_neg hnot, hm]
  generalize hX : ElementalMatrix.SetShifts _ = X
  have hXf := ElementalMatrix.SetShifts_fields
    { A.assignRoot m.root with
      viewType_ := m.viewType
      colConstrained_ := m.colConstrained
      rowConstrained_ := m.rowConstrained
      rootConstrained_ := m.rootConstrained
      colAlign_ := m.colAlign
      rowAlign_ := m.rowAlign }
  rw [hX] at hXf
  obtain ⟨x1, x2, -, -, x5, x6, x7, x8, x9, x10, x11, -⟩ := hXf
  have hok : X.ResizeAllowed debug m.height m.width := by
    intro hd
    obtain ⟨l, v⟩ := hres hd
    unfold ElementalMatrix.Locked ElementalMatrix.Viewing
    rw [x5, x6, x7]
    exact ⟨l, v⟩
  rw [ElementalMatrix.Resize_outcome_ok debug X mem m.height m.width hok]
  refine ⟨rfl, ?_⟩
  obtain ⟨r1, r2, -, -, r5, r6, r7, r8, r9⟩ := ElementalMatrix.Resize_fields X mem m.height
    m.width
  obtain ⟨rh, rw'⟩ := ElementalMatrix.Resize_Height X mem m.height m.width
  unfold ElementalMatrix.metadata
  simp only
  rw [r1, r2, r5, r6, r7, r8, r9, rh, rw', x1, x2, x5, x8, x9, x10, x11]
  rfl

/-- C11 (amended): encoding the nine fields into the message and decoding them again is
the identity.  A process that may call `MakeConsistent` and holds, after the broadcasts,
the record of a root `R` ends without error and with the nine fields of `R`, provided
that the build is a release build or that `R` is not locked and, if `R` is a view, not
larger than the matrix of the process.  The root of the cross communicator, when no
viewing broadcast replaces its message, holds its own record, and under the same
provision keeps all nine fields; any other process in the grid holds, without viewers,
the first nine cells the root sent, and a process that receives the viewing broadcast
those of the process of column-major rank 0. -/
theorem C11_MakeConsistent {α : Type} (debug : Bool) (A R : ElementalMatrix α)
    (mem : Int → α) (includingViewers : Bool)
    (uninit rootUninit crossMsg viewMsg : Int → Int) (isViewRoot : Bool) :
    MakeConsistent_decode (MakeConsistent_encode A uninit) = A.metadata ∧
    ((A.grid_.InGrid = true ∨ includingViewers = true) →
      (∀ k : Int, 0 ≤ k → k < 9 →
        MakeConsistent_message A includingViewers uninit crossMsg viewMsg isViewRoot k
          = MakeConsistent_encode R rootUninit k) →
      (debug = true → IsLocked R.viewType_ = false ∧
        (IsViewing R.viewType_ = true → R.height_ ≤ A.height_ ∧ R.width_ ≤ A.width_)) →
      (A.MakeConsistent debug mem includingViewers uninit crossMsg viewMsg isViewRoot).raised
        = none ∧
      (A.MakeConsistent debug mem includingViewers uninit crossMsg viewMsg
        isViewRoot).self.metadata = R.metadata) ∧
    (A.CrossRank = A.Root → A.grid_.InGrid = true →
      (includingViewers = true → isViewRoot = true) →
      MakeConsistent_message A includingViewers uninit crossMsg viewMsg isViewRoot
        = MakeConsistent_encode A uninit ∧
      ((debug = true → A.Locked = false) →
        (A.MakeConsistent debug mem includingViewers uninit crossMsg viewMsg
          isViewRoot).raised = none ∧
        (A.MakeConsistent debug mem includingViewers uninit crossMsg viewMsg
          isViewRoot).self.metadata = A.metadata)) ∧
    (A.CrossRank ≠ A.Root → A.grid_.InGrid = true →
      ∀ k : Int, 0 ≤ k → k < 9 →
        MakeConsistent_message A false uninit crossMsg viewMsg isViewRoot k = crossMsg k) ∧
    (∀ k : Int, 0 ≤ k → k < 9 →
      MakeConsistent_message A true uninit crossMsg viewMsg false k = viewMsg k) := by
  refine ⟨MakeConsistent_round_trip A uninit, fun hpart hmsg hres => ?_,
    fun hroot hin hview => ⟨?_, fun hl => ?_⟩,
    fun hroot hin => MakeConsistent_message_cross A uninit crossMsg viewMsg isViewRoot hroot
      hin,
    MakeConsistent_message_viewing A uninit crossMsg viewMsg⟩
  · have hm : MakeConsistent_decode (MakeConsistent_message A includingViewers uninit
        crossMsg viewMsg isViewRoot) = R.metadata := by
      rw [MakeConsistent_decode_congr _ _ hmsg]
      exact MakeConsistent_round_trip R rootUninit
    exact ElementalMatrix.MakeConsistent_spec debug A mem includingViewers uninit crossMsg
      viewMsg isViewRoot R.metadata hm hpart hres
  · exact MakeConsistent_message_root A includingViewers uninit crossMsg viewMsg isViewRoot
      hroot hview
  · have hm : MakeConsistent_decode (MakeConsistent_message A includingViewers uninit
        crossMsg viewMsg isViewRoot) = A.metadata := by
      rw [MakeConsistent_message_root A includingViewers uninit crossMsg viewMsg isViewRoot
        hroot hview]
      exact MakeConsistent_round_trip A uninit
    exact ElementalMatrix.MakeConsistent_spec debug A mem includingViewers uninit crossMsg
      viewMsg isViewRoot A.metadata hm (Or.inl hin)
      (fun hd => ⟨hl hd, fun _ => ⟨le_refl _, le_refl _⟩⟩)

/-- An instance in a release build: the process of cross rank 1 of the sample receives the
record of the root and ends with its nine fields. -/
theorem sample_MakeConsistent :
    ((sampleCirc 1).MakeConsistent false sampleMem false sampleMem
        (MakeConsistent_encode (sampleCirc 0) sampleMem) sampleMem false).raised = none ∧
    ((sampleCirc 1).MakeConsistent false sampleMem false sampleMem
        (MakeConsistent_encode (sampleCirc 0) sampleMem) sampleMem false).self.metadata
      = (sampleCirc 0).metadata := by
  constructor
  · rfl
  · decide

/-- The call that refutes the unamended C11: in a debug build the process of cross rank 1
of the sample, an empty owner, receives the record of the root, a `2 x 2` view.  The
assertion of `Resize` fails, the call raises, and the height and width of the process
stay 0 instead of 2. -/
theorem C11_MakeConsistent_counterexample :
    (sampleCirc 1).grid_.InGrid = true ∧ (sampleCirc 1).CrossRank ≠ (sampleCirc 1).Root ∧
    (sampleCirc 0).CrossRank = (sampleCirc 0).Root ∧
    (sampleCirc 0).height_ = 2 ∧ (sampleCirc 0).width_ = 2 ∧
    ((sampleCirc 1).MakeConsistent true sampleMem false sampleMem
        (MakeConsistent_encode (sampleCirc 0) sampleMem) sampleMem false).raised
      = some "Tried to increase the size of a view" ∧
    ((sampleCirc 1).MakeConsistent true sampleMem false sampleMem
        (MakeConsistent_encode (sampleCirc 0) sampleMem) sampleMem false).self.height_ = 0 ∧
    ((sampleCirc 1).MakeConsistent true sampleMem false sampleMem
        (MakeConsistent_encode (sampleCirc 0) sampleMem) sampleMem false).self.width_ = 0 := by
  refine ⟨rfl, by decide, rfl, rfl, rfl, ?_, ?_, ?_⟩
  · rfl
  · rfl
  · rfl

/-! ## C12: `CopyFromRoot` and `CopyFromNonRoot` -/

/-- The local copy between CPU matrices of one type: case 1 for a type stored on the CPU,
and `LogicError` otherwise. -/
theorem Copy_same_CPU {α : Type} (cfg : BuildConfig) (tr : TypeTraits α) (mem : Int → α)
    (fuel : Nat) (T : ElemType) (src tgt : Matrix α) :
    Copy cfg tr mem (fuel + 1) T Device.CPU T Device.CPU src tgt
      = if tr.IsStorageType T Device.CPU = true then
          CallResult.returned (CopyImpl_case1_CPU src tgt mem).2
        else CallResult.logicError "Cannot dispatch Copy." := by
  unfold Copy CopyImpl
  rw [CopyImpl_select_CPU_CPU]
  cases hst : tr.IsStorageType T Device.CPU <;> simp [CopyImpl_table, hst]

/-- The errors `MakeSizeConsistent` can raise. -/
theorem ElementalMatrix.MakeSizeConsistent_raised {α : Type} (debug : Bool)
    (A : ElementalMatrix α) (mem : Int → α) (includingViewers : Bool)
    (uninit crossMsg viewMsg : Int → Int) (isViewRoot : Bool) :
    (A.MakeSizeConsistent debug mem includingViewers uninit crossMsg viewMsg
        isViewRoot).raised = none ∨
    (A.MakeSizeConsistent debug mem includingViewers uninit crossMsg viewMsg
        isViewRoot).raised = some "Non-participating process called MakeSizeConsistent" ∨
    (A.MakeSizeConsistent debug mem includingViewers uninit crossMsg viewMsg
        isViewRoot).raised = some "Assertion that matrix not be a locked view failed" ∨
    (A.MakeSizeConsistent debug mem includingViewers uninit crossMsg viewMsg
        isViewRoot).raised = some "Tried to increase the size of a view" := by
  unfold ElementalMatrix.MakeSizeConsistent
  simp only
  split
  · exact Or.inr (Or.inl rfl)
  · rcases ElementalMatrix.Resize_outcome_cases debug A mem _ _ with ⟨-, h⟩ | ⟨-, -, h | h⟩
    · exact Or.inl h
    · exact Or.inr (Or.inr (Or.inl h))
    · exact Or.inr (Or.inr (Or.inr h))

/-- `MakeSizeConsistent` on the root of the cross communicator, when the viewing
broadcast, if it replaces the message, brings the extents of the root: the matrix is
resized to its own extents. -/
theorem ElementalMatrix.MakeSizeConsistent_root {α : Type} (debug : Bool)
    (A : ElementalMatrix α) (mem : Int → α) (includingViewers : Bool)
    (uninit crossMsg viewMsg : Int → Int) (isViewRoot : Bool)
    (hroot : A.CrossRank = A.Root)
    (hpart : A.grid_.InGrid = true ∨ includingViewers = true)
    (hview : includingViewers = true → isViewRoot = false →
      viewMsg 0 = A.height_ ∧ viewMsg 1 = A.width_) :
    A.MakeSizeConsistent debug mem includingViewers uninit crossMsg viewMsg isViewRoot
      = A.Resize_outcome debug mem A.height_ A.width_ := by
  have hnot : ¬ ((!A.grid_.InGrid) = true ∧ (!includingViewers) = true) := by
    rintro ⟨h1, h2⟩
    rcases hpart with h | h
    · rw [h] at h1
      exact absurd h1 (by decide)
    · rw [h] at h2
      exact absurd h2 (by decide)
  unfold ElementalMatrix.MakeSizeConsistent
  simp only [if_neg hnot, if_pos hroot]
  have h01 : ∀ m : Int → Int, m 0 = A.height_ → m 1 = A.width_ →
      (if includingViewers = true then Broadcast m 2 isViewRoot viewMsg else m) 0
        = A.height_ ∧
      (if includingViewers = true then Broadcast m 2 isViewRoot viewMsg else m) 1
        = A.width_ := by
    intro m h0 h1
    cases hi : includingViewers
    · exact ⟨h0, h1⟩
    · cases hv : isViewRoot
      · obtain ⟨v0, v1⟩ := hview hi hv
        simp [Broadcast, MemCopy, v0, v1]
      · simp [Broadcast, h0, h1]
  have hc : ∀ m : Int → Int, m 0 = A.height_ → m 1 = A.width_ →
      (if A.grid_.InGrid = true then Broadcast m 2 (decide (A.CrossRank = A.Root)) crossMsg
        else m) 0 = A.height_ ∧
      (if A.grid_.InGrid = true then Broadcast m 2 (decide (A.CrossRank = A.Root)) crossMsg
        else m) 1 = A.width_ := by
    intro m h0 h1
    cases hg : A.grid_.InGrid
    · exact ⟨h0, h1⟩
    · simp [Broadcast, hroot, h0, h1]
  have hs : setCell (setCell uninit 0 A.height_) 1 A.width_ 0 = A.height_ ∧
      setCell (setCell uninit 0 A.height_) 1 A.width_ 1 = A.width_ := by
    simp [setCell]
  obtain ⟨c0, c1⟩ := hc _ hs.1 hs.2
  obtain ⟨v0, v1⟩ := h01 _ c0 c1
  rw [v0, v1]

theorem ElementalMatrix.Resize_crossRank {α : Type} (A : ElementalMatrix α) (mem : Int → α)
    (h w : Int) :
    (A.Resize mem h w).crossRank = A.crossRank ∧ (A.Resize mem h w).grid_ = A.grid_ := by
  unfold ElementalMatrix.Resize
  simp only
  split <;> simp

/-- The outcomes of `CopyFromRoot` on the root of the cross communicator. -/
theorem CopyFromRoot_root_cases {α : Type} (debug : Bool) (cfg : BuildConfig)
    (tr : TypeTraits α) (fuel : Nat) (T : ElemType) (M : Matrix α) (B : ElementalMatrix α)
    (includingViewers : Bool) (mem : Int → α) (uninit crossMsg viewMsg : Int → Int)
    (isViewRoot : Bool) (hroot : B.CrossRank = B.Root) :
    (∃ B1 : ElementalMatrix α,
      CopyFromRoot debug cfg tr fuel T M B includingViewers mem uninit crossMsg viewMsg
        isViewRoot = CallResult.returned B1) ∨
    CopyFromRoot debug cfg tr fuel T M B includingViewers mem uninit crossMsg viewMsg
      isViewRoot = CallResult.outOfFuel ∨
    CopyFromRoot debug cfg tr fuel T M B includingViewers mem uninit crossMsg viewMsg
      isViewRoot = CallResult.logicError "Assertion that matrix not be a locked view failed" ∨
    CopyFromRoot debug cfg tr fuel T M B includingViewers mem uninit crossMsg viewMsg
      isViewRoot = CallResult.logicError "Tried to increase the size of a view" ∨
    CopyFromRoot debug cfg tr fuel T M B includingViewers mem uninit crossMsg viewMsg
      isViewRoot
      = CallResult.logicError "Non-participating process called MakeSizeConsistent" ∨
    CopyFromRoot debug cfg tr fuel T M B includingViewers mem uninit crossMsg viewMsg
      isViewRoot = CallResult.logicError "Cannot dispatch Copy." := by
  have hne : ¬ B.CrossRank ≠ B.Root := fun h => h hroot
  unfold CopyFromRoot
  simp only [if_neg hne]
  rcases ElementalMatrix.Resize_checked_cases debug B mem M.Height M.Width with
    h | ⟨-, h | h⟩
  · rw [h]
    simp only
    rcases ElementalMatrix.MakeSizeConsistent_raised debug (B.Resize mem M.Height M.Width) mem
      includingViewers uninit crossMsg viewMsg isViewRoot with h2 | h2 | h2 | h2
    · rw [h2]
      simp only
      cases fuel with
      | zero =>
        right; left
        simp [Copy, CopyImpl]
      | succ f =>
        rw [Copy_same_CPU]
        cases hst : tr.IsStorageType T Device.CPU
        · right; right; right; right; right
          simp
        · left
          exact ⟨_, by rw [if_pos rfl]⟩
    · rw [h2]
      right; right; right; right; left
      rfl
    · rw [h2]
      right; right; left
      rfl
    · rw [h2]
      right; right; right; left
      rfl
  · rw [h]
    right; right; left
    rfl
  · rw [h]
    right; right; right; left
    rfl

/-- The outcomes of `CopyFromNonRoot` on a process that is not the root. -/
theorem CopyFromNonRoot_nonroot_cases {α : Type} (debug : Bool) (B : ElementalMatrix α)
    (includingViewers : Bool) (mem : Int → α) (uninit crossMsg viewMsg : Int → Int)
    (isViewRoot : Bool) (hroot : B.CrossRank ≠ B.Root) :
    (∃ B1 : ElementalMatrix α,
      CopyFromNonRoot debug B includingViewers mem uninit crossMsg viewMsg isViewRoot
        = CallResult.returned B1) ∨
    CopyFromNonRoot debug B includingViewers mem uninit crossMsg viewMsg isViewRoot
      = CallResult.logicError "Assertion that matrix not be a locked view failed" ∨
    CopyFromNonRoot debug B includingViewers mem uninit crossMsg viewMsg isViewRoot
      = CallResult.logicError "Tried to increase the size of a view" ∨
    CopyFromNonRoot debug B includingViewers mem uninit crossMsg viewMsg isViewRoot
      = CallResult.logicError "Non-participating process called MakeSizeConsistent" := by
  unfold CopyFromNonRoot
  simp only [if_neg hroot]
  rcases ElementalMatrix.MakeSizeConsistent_raised debug B mem includingViewers uninit
    crossMsg viewMsg isViewRoot with h2 | h2 | h2 | h2
  · rw [h2]
    left
    exact ⟨_, rfl⟩
  · rw [h2]
    right; right; right
    rfl
  · rw [h2]
    right; left
    rfl
  · rw [h2]
    right; right; left
    rfl

/-- `CopyFromRoot` raises its own error exactly on a process that is not the root. -/
theorem CopyFromRoot_guard_iff {α : Type} (debug : Bool) (cfg : BuildConfig)
    (tr : TypeTraits α) (fuel : Nat) (T : ElemType) (M : Matrix α) (B : ElementalMatrix α)
    (includingViewers : Bool) (mem : Int → α) (uninit crossMsg viewMsg : Int → Int)
    (isViewRoot : Bool) :
    CopyFromRoot debug cfg tr fuel T M B includingViewers mem uninit crossMsg viewMsg
        isViewRoot = CallResult.logicError "Called CopyFromRoot from non-root" ↔
      B.CrossRank ≠ B.Root := by
  constructor
  · intro h hroot
    rcases CopyFromRoot_root_cases debug cfg tr fuel T M B includingViewers mem uninit
      crossMsg viewMsg isViewRoot hroot with ⟨B1, h1⟩ | h1 | h1 | h1 | h1 | h1 <;>
      rw [h1] at h <;> simp at h
  · intro hne
    simp only [CopyFromRoot, if_pos hne]

/-- `CopyFromNonRoot` raises its own error exactly on the root. -/
theorem CopyFromNonRoot_guard_iff {α : Type} (debug : Bool) (B : ElementalMatrix α)
    (includingViewers : Bool) (mem : Int → α) (uninit crossMsg viewMsg : Int → Int)
    (isViewRoot : Bool) :
    CopyFromNonRoot debug B includingViewers mem uninit crossMsg viewMsg isViewRoot
        = CallResult.logicError "Called CopyFromNonRoot from root" ↔
      B.CrossRank = B.Root := by
  constructor
  · intro h
    by_contra hroot
    rcases CopyFromNonRoot_nonroot_cases debug B includingViewers mem uninit crossMsg
      viewMsg isViewRoot hroot with ⟨B1, h1⟩ | h1 | h1 | h1 <;>
      rw [h1] at h <;> simp at h
  · intro heq
    simp only [CopyFromNonRoot, if_pos heq]

/-- When `CopyFromRoot` returns, the destination has the global extents of the local
matrix `M`, and its local matrix has the extents and entries of `M`. -/
theorem CopyFromRoot_returned {α : Type} (debug : Bool) (cfg : BuildConfig)
    (tr : TypeTraits α) (fuel : Nat) (T : ElemType) (M : Matrix α)
    (B B1 : ElementalMatrix α) (includingViewers : Bool) (mem : Int → α)
    (uninit crossMsg viewMsg : Int → Int) (isViewRoot : Bool)
    (hret : CopyFromRoot debug cfg tr fuel T M B includingViewers mem uninit crossMsg viewMsg
      isViewRoot = CallResult.returned B1)
    (hview : includingViewers = true → isViewRoot = false →
      viewMsg 0 = M.Height ∧ viewMsg 1 = M.Width) :
    B.CrossRank = B.Root ∧
    B1.Height = M.Height ∧ B1.Width = M.Width ∧
    B1.LocalHeight = M.Height ∧ B1.LocalWidth = M.Width ∧
    (∀ i j : Int, 0 ≤ i → i < M.Height → 0 ≤ j → j < M.Width →
      B1.matrix_.Get i j = M.Get i j) := by
  have hroot : B.CrossRank = B.Root := by
    by_contra hne
    rw [(CopyFromRoot_guard_iff debug cfg tr fuel T M B includingViewers mem uninit crossMsg
      viewMsg isViewRoot).2 hne] at hret
    cases hret
  refine ⟨hroot, ?_⟩
  have hne : ¬ B.CrossRank ≠ B.Root := fun h => h hroot
  unfold CopyFromRoot at hret
  simp only [if_neg hne] at hret
  rcases ElementalMatrix.Resize_checked_cases debug B mem M.Height M.Width with
    h | ⟨-, h | h⟩
  · rw [h] at hret
    simp only at hret
    generalize hB2 : B.Resize mem M.Height M.Width = B2 at hret
    have hB2h : B2.height_ = M.Height ∧ B2.width_ = M.Width := by
      rw [← hB2]
      exact ElementalMatrix.Resize_Height B mem M.Height M.Width
    have hB2r : B2.CrossRank = B2.Root := by
      rw [← hB2]
      unfold ElementalMatrix.CrossRank ElementalMatrix.Root
      rw [(ElementalMatrix.Resize_crossRank B mem M.Height M.Width).1,
        (ElementalMatrix.Resize_fields B mem M.Height M.Width).2.2.2.2.2.2.2.2]
      exact hroot
    by_cases hpart : B2.grid_.InGrid = true ∨ includingViewers = true
    · have hv2 : includingViewers = true → isViewRoot = false →
          viewMsg 0 = B2.height_ ∧ viewMsg 1 = B2.width_ := by
        intro h1 h2
        rw [hB2h.1, hB2h.2]
        exact hview h1 h2
      rw [ElementalMatrix.MakeSizeConsistent_root debug B2 mem includingViewers uninit
        crossMsg viewMsg isViewRoot hB2r hpart hv2] at hret
      rcases ElementalMatrix.Resize_outcome_cases debug B2 mem B2.height_ B2.width_ with
        ⟨s1, s2⟩ | ⟨-, -, s2 | s2⟩
      · rw [s2] at hret
        simp only at hret
        rw [s1] at hret
        generalize hB3 : B2.Resize mem B2.height_ B2.width_ = B3 at hret
        have hB3h : B3.height_ = M.Height ∧ B3.width_ = M.Width := by
          rw [← hB3, ← hB2h.1, ← hB2h.2]
          exact ElementalMatrix.Resize_Height B2 mem B2.height_ B2.width_
        cases fuel with
        | zero => simp [Copy, CopyImpl] at hret
        | succ f =>
          rw [Copy_same_CPU] at hret
          cases hst : tr.IsStorageType T Device.CPU
          · rw [hst] at hret
            simp at hret
          · rw [hst] at hret
            simp only [if_true] at hret
            have hB1 := CallResult.returned.inj hret
            obtain ⟨c1, c2, -, c4, -⟩ := CopyImpl_case1_CPU_spec M B3.matrix_ mem
            rw [← hB1]
            exact ⟨hB3h.1, hB3h.2, c1, c2, c4⟩
      · rw [s2] at hret
        cases hret
      · rw [s2] at hret
        cases hret
    · have hnp : (!B2.grid_.InGrid) = true ∧ (!includingViewers) = true := by
        push_neg at hpart
        obtain ⟨p1, p2⟩ := hpart
        constructor
        · cases hg : B2.grid_.InGrid
          · rfl
          · exact absurd hg p1
        · cases hi : includingViewers
          · rfl
          · exact absurd hi p2
      have hr : (B2.MakeSizeConsistent debug mem includingViewers uninit crossMsg viewMsg
          isViewRoot).raised = some "Non-participating process called MakeSizeConsistent" := by
        unfold ElementalMatrix.MakeSizeConsistent
        simp only [if_pos hnp]
      rw [hr] at hret
      cases hret
  · rw [h] at hret
    cases hret
  · rw [h] at hret
    cases hret

/-- C12 (amended): `CopyFromRoot` raises `LogicError("Called CopyFromRoot from non-root")`
exactly when `B.CrossRank() != B.Root()`, and `CopyFromNonRoot` raises
`LogicError("Called CopyFromNonRoot from root")` exactly when
`B.CrossRank() == B.Root()`, so on every process exactly one of the two calls passes its
guard; a call that passes its guard can still raise from `Resize`, `MakeSizeConsistent`
or the local copy.  When `CopyFromRoot` returns (the viewing broadcast, if it replaces
the message of the root, carrying the extents of `A`), `B` has the global height and
width of `A` and the local matrix of `B` has the extents and entries of `A`. -/
theorem C12_CopyFromRoot {α : Type} (debug : Bool) (cfg : BuildConfig)
    (tr : TypeTraits α) (fuel : Nat) (T : ElemType) (M : Matrix α)
    (B B1 : ElementalMatrix α) (includingViewers : Bool) (mem : Int → α)
    (uninit crossMsg viewMsg : Int → Int) (isViewRoot : Bool) :
    (CopyFromRoot debug cfg tr fuel T M B includingViewers mem uninit crossMsg viewMsg
        isViewRoot = CallResult.logicError "Called CopyFromRoot from non-root" ↔
      B.CrossRank ≠ B.Root) ∧
    (CopyFromNonRoot debug B includingViewers mem uninit crossMsg viewMsg isViewRoot
        = CallResult.logicError "Called CopyFromNonRoot from root" ↔
      B.CrossRank = B.Root) ∧
    ((CopyFromRoot debug cfg tr fuel T M B includingViewers mem uninit crossMsg viewMsg
          isViewRoot = CallResult.logicError "Called CopyFromRoot from non-root" ∧
        CopyFromNonRoot debug B includingViewers mem uninit crossMsg viewMsg isViewRoot
          ≠ CallResult.logicError "Called CopyFromNonRoot from root") ∨
      (CopyFromRoot debug cfg tr fuel T M B includingViewers mem uninit crossMsg viewMsg
          isViewRoot ≠ CallResult.logicError "Called CopyFromRoot from non-root" ∧
        CopyFromNonRoot debug B includingViewers mem uninit crossMsg viewMsg isViewRoot
          = CallResult.logicError "Called CopyFromNonRoot from root")) ∧
    (CopyFromRoot debug cfg tr fuel T M B includingViewers mem uninit crossMsg viewMsg
        isViewRoot = CallResult.returned B1 →
      (includingViewers = true → isViewRoot = false →
        viewMsg 0 = M.Height ∧ viewMsg 1 = M.Width) →
      B.CrossRank = B.Root ∧
      B1.Height = M.Height ∧ B1.Width = M.Width ∧
      B1.LocalHeight = M.Height ∧ B1.LocalWidth = M.Width ∧
      (∀ i j : Int, 0 ≤ i → i < M.Height → 0 ≤ j → j < M.Width →
        B1.matrix_.Get i j = M.Get i j)) := by
  have hR := CopyFromRoot_guard_iff debug cfg tr fuel T M B includingViewers mem uninit
    crossMsg viewMsg isViewRoot
  have hN := CopyFromNonRoot_guard_iff debug B includingViewers mem uninit crossMsg viewMsg
    isViewRoot
  refine ⟨hR, hN, ?_, fun hret hview => CopyFromRoot_returned debug cfg tr fuel T M B B1
    includingViewers mem uninit crossMsg viewMsg isViewRoot hret hview⟩
  by_cases hroot : B.CrossRank = B.Root
  · right
    exact ⟨fun h => (hR.1 h) hroot, hN.2 hroot⟩
  · left
    exact ⟨hR.2 hroot, fun h => hroot (hN.1 h)⟩

/-- An instance: on the root of the sample, an empty owner, `CopyFromRoot` of the `2 x 2`
sample matrix returns, and the destination holds the matrix. -/
theorem sample_CopyFromRoot :
    ∃ B1 : ElementalMatrix Int,
      CopyFromRoot true sampleConfig sampleTraits 2 ElemType.float sampleSrc
        { sampleCirc 0 with viewType_ := El.ViewType.OWNER } false sampleMem sampleMem
        sampleMem sampleMem false = CallResult.returned B1 ∧
      B1.Height = 2 ∧ B1.Width = 2 ∧ B1.matrix_.Get 1 1 = 11 :=
  ⟨_, rfl, rfl, rfl, rfl⟩

/-- The call that refutes the unamended C12: in a debug build on the root of the sample,
whose matrix is a `2 x 2` view, `CopyFromRoot` of a `3 x 5` matrix raises `LogicError`
from `Resize` although `B.CrossRank() == B.Root()`. -/
theorem C12_CopyFromRoot_counterexample :
    (sampleCirc 0).CrossRank = (sampleCirc 0).Root ∧
    CopyFromRoot true sampleConfig sampleTraits 2 ElemType.float (sampleExA 0).matrix_
        (sampleCirc 0) false sampleMem sampleMem sampleMem sampleMem false
      = CallResult.logicError "Tried to increase the size of a view" := by
  constructor
  · rfl
  · rfl

/-- The debug check of `syr2k::UT` on operands of one grid with nonconformal extents: the
message is the headline followed by the `DimsString` of the three operands. -/
theorem syr2k_UT_DEBUG_ONLY_nonconformal {α : Type}
    (DimsString : ElementalMatrix α → String → String) (A B C : ElementalMatrix α)
    (hAB : A.Grid = B.Grid) (hAC : A.Grid = C.Grid)
    (hdim : A.Width ≠ C.Height ∨ A.Width ≠ C.Width ∨ B.Width ≠ C.Height ∨
      B.Width ≠ C.Width ∨ A.Height ≠ B.Height) :
    syr2k_UT_DEBUG_ONLY DimsString A B C
      = Except.error ("Nonconformal:\n" ++ (DimsString A "A" ++ ("\n" ++
          (DimsString B "B" ++ ("\n" ++ DimsString C "C"))))) := by
  have hBC : B.Grid = C.Grid := hAB.symm.trans hAC
  simp only [syr2k_UT_DEBUG_ONLY, AssertSameGrids, hAB, hAC, ne_eq, not_true_eq_false,
    if_false, if_pos hdim, LogicError, bind, Except.bind, BuildString_cons, BuildString_nil,
    String.append_empty]
  simp [hBC]

/-! ## C30: `RelativeIndices` and `Find` on sorted vectors -/

theorem IsSorted_adjacent (x : List Int) (h : IsSorted x = true) (k : Nat)
    (hk : k + 1 < x.length) : x.getD k 0 ≤ x.getD (k + 1) 0 := by
  unfold IsSorted at h
  rw [List.all_eq_true] at h
  have := h k (List.mem_range.2 (by omega))
  simpa using this

/-- A vector that passes `IsSorted` is ordered between any two positions. -/
theorem IsSorted_le (x : List Int) (h : IsSorted x = true) (i j : Nat) (hij : i ≤ j)
    (hj : j < x.length) : x.getD i 0 ≤ x.getD j 0 := by
  induction j with
  | zero =>
    have : i = 0 := by omega
    subst this
    exact le_refl _
  | succ n ih =>
    rcases Nat.eq_or_lt_of_le hij with e | hlt
    · subst e
      exact le_refl _
    · exact le_trans (ih (by omega) (by omega)) (IsSorted_adjacent x h n hj)

/-- What the scan returns. -/
theorem lower_bound_scan_spec (v : List Int) (value : Int) (count first : Nat) :
    first ≤ lower_bound_scan v value count first ∧
    lower_bound_scan v value count first ≤ first + count ∧
    (∀ j : Nat, first ≤ j → j < lower_bound_scan v value count first →
      v.getD j 0 < value) ∧
    (lower_bound_scan v value count first < first + count →
      ¬ v.getD (lower_bound_scan v value count first) 0 < value) := by
  induction count generalizing first with
  | zero =>
    refine ⟨le_refl _, le_refl _, fun j h1 h2 => ?_, fun h => ?_⟩
    · simp only [lower_bound_scan] at h2
      omega
    · simp only [lower_bound_scan] at h
      omega
  | succ n ih =>
    by_cases hlt : v.getD first 0 < value
    · simp only [lower_bound_scan, if_pos hlt]
      obtain ⟨h1, h2, h3, h4⟩ := ih (first + 1)
      refine ⟨by omega, by omega, fun j hj1 hj2 => ?_, fun h => h4 (by omega)⟩
      rcases Nat.eq_or_lt_of_le hj1 with e | hl
      · rw [← e]
        exact hlt
      · exact h3 j (by omega) hj2
    · simp only [lower_bound_scan, if_neg hlt]
      exact ⟨le_refl _, by omega, fun j hj1 hj2 => by omega, fun _ => hlt⟩

/-- On a sorted vector that contains `value`, a search that starts at a position before
which every element is smaller returns the first position of `value`. -/
theorem lower_bound_first (v : List Int) (hs : IsSorted v = true) (value : Int)
    (hmem : value ∈ v) (it : Nat) (hit : it ≤ v.length)
    (hpre : ∀ j : Nat, j < it → v.getD j 0 < value) :
    it ≤ lower_bound v it v.length value ∧
    lower_bound v it v.length value < v.length ∧
    v.getD (lower_bound v it v.length value) 0 = value ∧
    (∀ j : Nat, j < lower_bound v it v.length value → v.getD j 0 < value) := by
  obtain ⟨h1, h2, h3, h4⟩ := lower_bound_scan_spec v value (v.length - it) it
  unfold lower_bound
  generalize lower_bound_scan v value (v.length - it) it = k at *
  have hall : ∀ j : Nat, j < k → v.getD j 0 < value := by
    intro j hj
    by_cases hj2 : j < it
    · exact hpre j hj2
    · exact h3 j (by omega) hj
  obtain ⟨m, hm, hmv⟩ := List.getElem_of_mem hmem
  have hmD : v.getD m 0 = value := by
    rw [List.getD_eq_getElem v 0 hm]
    exact hmv
  have hkm : k ≤ m := by
    by_contra hc
    have := hall m (by omega)
    rw [hmD] at this
    exact lt_irrefl _ this
  have hklt : k < v.length := by omega
  have hge : ¬ v.getD k 0 < value := h4 (by omega)
  have hle : v.getD k 0 ≤ value := by
    rw [← hmD]
    exact IsSorted_le v hs k m hkm hm
  exact ⟨h1, hklt, le_antisymm hle (not_lt.1 hge), hall⟩

theorem getD_set_int (l : List Int) (i k : Nat) (x : Int) (hi : i < l.length) :
    (l.set i x).getD k 0 = if k = i then x else l.getD k 0 := by
  by_cases h : k = i
  · subst h
    simp [List.getD_eq_getElem?_getD, hi]
  · simp only [if_neg h, List.getD_eq_getElem?_getD]
    rw [List.getElem?_set_ne (fun e => h e.symm)]

/-- The loop of `RelativeIndices` on sorted vectors, `sub` drawn from `full`: every entry
of the result is the first position of the entry of `sub` in `full`. -/
theorem RelativeIndices_loop_spec (debug : Bool) (sub full : List Int)
    (hfull : IsSorted full = true) (hsub : IsSorted sub = true)
    (hmem : ∀ x ∈ sub, x ∈ full) :
    ∀ (remaining i it : Nat) (relInds : List Int),
      i + remaining = sub.length → relInds.length = sub.length → it ≤ full.length →
      (∀ j : Nat, j < it → ∀ i' : Nat, i ≤ i' → i' < sub.length →
        full.getD j 0 < sub.getD i' 0) →
      (∀ k : Nat, k < i → ∃ x : Nat, relInds.getD k 0 = (x : Int) ∧ x < full.length ∧
        full.getD x 0 = sub.getD k 0 ∧ ∀ j : Nat, j < x → full.getD j 0 < sub.getD k 0) →
      ∃ out : List Int,
        RelativeIndices_loop debug sub full remaining i it relInds = Except.ok out ∧
        out.length = sub.length ∧
        ∀ k : Nat, k < sub.length → ∃ x : Nat, out.getD k 0 = (x : Int) ∧ x < full.length ∧
          full.getD x 0 = sub.getD k 0 ∧ ∀ j : Nat, j < x → full.getD j 0 < sub.getD k 0 := by
  intro remaining
  induction remaining with
  | zero =>
    intro i it relInds hi hlen _ _ hdone
    refine ⟨relInds, rfl, hlen, fun k hk => hdone k (by omega)⟩
  | succ n ih =>
    intro i it relInds hi hlen hit hpre hdone
    have hi_lt : i < sub.length := by omega
    have hin : sub.getD i 0 ∈ full := by
      apply hmem
      rw [List.getD_eq_getElem sub 0 hi_lt]
      exact List.getElem_mem _
    obtain ⟨b1, b2, b3, b4⟩ := lower_bound_first full hfull (sub.getD i 0) hin it hit
      (fun j hj => hpre j hj i (le_refl _) hi_lt)
    have hnot : ¬ (debug = true ∧
        lower_bound full it full.length (sub.getD i 0) = full.length) := by
      intro h
      omega
    simp only [RelativeIndices_loop, if_neg hnot]
    apply ih (i + 1) _ _ (by omega) (by rw [List.length_set]; exact hlen) (le_of_lt b2)
    · intro j hj i' hi' hi'lt
      exact lt_of_lt_of_le (b4 j hj) (IsSorted_le sub hsub i i' (by omega) hi'lt)
    · intro k hk
      rw [getD_set_int relInds i k _ (by omega)]
      by_cases hki : k = i
      · subst hki
        simp only [if_true]
        exact ⟨_, rfl, b2, b3, b4⟩
      · simp only [if_neg hki]
        exact hdone k (by omega)

/-- `Find` on a sorted vector that contains `index` returns its first position. -/
theorem Find_spec (debug : Bool) (sortedInds : List Int) (index : Int)
    (hs : IsSorted sortedInds = true) (hmem : index ∈ sortedInds) :
    ∃ k : Nat, Find debug sortedInds index = Except.ok (k : Int) ∧ k < sortedInds.length ∧
      sortedInds.getD k 0 = index ∧ ∀ j : Nat, j < k → sortedInds.getD j 0 < index := by
  obtain ⟨-, b2, b3, b4⟩ := lower_bound_first sortedInds hs index hmem 0 (Nat.zero_le _)
    (fun j hj => absurd hj (Nat.not_lt_zero _))
  have h1 : ¬ (debug = true ∧
      lower_bound sortedInds 0 sortedInds.length index = sortedInds.length) := by
    intro h
    omega
  have h2 : ¬ (debug = true ∧
      sortedInds.getD (lower_bound sortedInds 0 sortedInds.length index) 0 ≠ index) :=
    fun h => h.2 b3
  refine ⟨_, ?_, b2, b3, b4⟩
  simp only [Find, if_neg h1, if_neg h2]

/-- C30: for sorted `full` and sorted `sub` whose elements all occur in `full`,
`RelativeIndices(sub, full)` returns, in either build, a vector `relInds` of the length of
`sub` with `0 <= relInds[i] < full.size()` and `full[relInds[i]] == sub[i]` for every `i`,
and `relInds` is non-decreasing; for a sorted vector that contains `index`, `Find` returns
the first position `k` with `sortedInds[k] == index`. -/
theorem C30_RelativeIndices_Find (debug : Bool) (sub full : List Int) (index : Int)
    (hfull : IsSorted full = true) (hsub : IsSorted sub = true)
    (hmem : ∀ x ∈ sub, x ∈ full) :
    (∃ relInds : List Int,
      RelativeIndices debug sub full = Except.ok relInds ∧
      relInds.length = sub.length ∧
      (∀ i : Nat, i < sub.length →
        0 ≤ relInds.getD i 0 ∧ relInds.getD i 0 < (full.length : Int) ∧
        full.getD (relInds.getD i 0).toNat 0 = sub.getD i 0) ∧
      (∀ i i' : Nat, i ≤ i' → i' < sub.length → relInds.getD i 0 ≤ relInds.getD i' 0)) ∧
    (index ∈ full →
      ∃ k : Nat, Find debug full index = Except.ok (k : Int) ∧ k < full.length ∧
        full.getD k 0 = index ∧ ∀ j : Nat, j < k → full.getD j 0 ≠ index) := by
  constructor
  · obtain ⟨out, h1, h2, h3⟩ := RelativeIndices_loop_spec debug sub full hfull hsub hmem
      sub.length 0 0 (List.replicate sub.length 0) (by omega) (by simp) (Nat.zero_le _)
      (fun j hj => absurd hj (Nat.not_lt_zero _)) (fun k hk => absurd hk (Nat.not_lt_zero _))
    refine ⟨out, h1, h2, fun i hi => ?_, fun i i' hii hi' => ?_⟩
    · obtain ⟨x, e, hx, hv, -⟩ := h3 i hi
      rw [e]
      refine ⟨Int.natCast_nonneg x, by exact_mod_cast hx, ?_⟩
      rw [Int.toNat_ofNat]
      exact hv
    · obtain ⟨x, e, hx, hv, hpre⟩ := h3 i (by omega)
      obtain ⟨x', e', hx', hv', hpre'⟩ := h3 i' hi'
      rw [e, e']
      have hle : sub.getD i 0 ≤ sub.getD i' 0 := IsSorted_le sub hsub i i' hii hi'
      have : x ≤ x' := by
        by_contra hc
        have h := hpre x' (by omega)
        rw [hv'] at h
        exact absurd hle (not_le.2 h)
      exact_mod_cast this
  · intro hin
    obtain ⟨k, e, hk, hv, hpre⟩ := Find_spec debug full index hfull hin
    exact ⟨k, e, hk, hv, fun j hj => ne_of_lt (hpre j hj)⟩

/-- C30 on `sub = [2, 5, 5, 9]` and `full = [1, 2, 2, 5, 7, 9]`. -/
theorem C30_RelativeIndices_Find_witness :
    IsSorted [1, 2, 2, 5, 7, 9] = true ∧ IsSorted [2, 5, 5, 9] = true ∧
    RelativeIndices true [2, 5, 5, 9] [1, 2, 2, 5, 7, 9] = Except.ok [1, 3, 3, 5] ∧
    Find true [1, 2, 2, 5, 7, 9] 2 = Except.ok 1 ∧
    (∃ relInds : List Int,
      RelativeIndices true [2, 5, 5, 9] [1, 2, 2, 5, 7, 9] = Except.ok relInds ∧
      relInds.length = 4) :=
  have h := C30_RelativeIndices_Find true [2, 5, 5, 9] [1, 2, 2, 5, 7, 9] 2 (by decide)
    (by decide) (by decide)
  ⟨by decide, by decide, rfl, rfl,
    h.1.elim fun relInds hr => ⟨relInds, hr.1, hr.2.1⟩⟩

/-! ## C22: the sequential `ldl::Inertia` -/

theorem inertiaOfPivots_nil {R : Type} [LinearOrder R] [Zero R] (d : Int → R) :
    inertiaOfPivots d [] = { numPositive := 0, numNegative := 0, numZero := 0 } := by
  simp [inertiaOfPivots]

theorem inertiaOfPivots_cons_two {R : Type} [LinearOrder R] [Zero R] (d : Int → R) (k : Int)
    (ps : List (Int × Bool)) :
    inertiaOfPivots d ((k, true) :: ps)
      = Inertia.add { numPositive := 1, numNegative := 1, numZero := 0 }
          (inertiaOfPivots d ps) := by
  simp only [inertiaOfPivots, Inertia.add, List.filter_cons, Bool.not_true, Bool.false_and,
    if_true, Bool.false_eq_true, if_false, List.length_cons, Nat.cast_add, Nat.cast_one,
    Inertia.mk.injEq]
  refine ⟨by ring, by ring, by ring⟩

theorem inertiaOfPivots_cons_one {R : Type} [LinearOrder R] [Zero R] (d : Int → R) (k : Int)
    (ps : List (Int × Bool)) :
    inertiaOfPivots d ((k, false) :: ps)
      = Inertia.add
          (if d k > 0 then { numPositive := 1, numNegative := 0, numZero := 0 }
            else if d k < 0 then { numPositive := 0, numNegative := 1, numZero := 0 }
            else { numPositive := 0, numNegative := 0, numZero := 1 })
          (inertiaOfPivots d ps) := by
  rcases lt_trichotomy (d k) 0 with h | h | h
  · have h1 : ¬ d k > 0 := not_lt.2 (le_of_lt h)
    have h2 : ¬ d k = 0 := ne_of_lt h
    simp only [inertiaOfPivots, Inertia.add, List.filter_cons, Bool.not_false, Bool.true_and,
      Bool.false_eq_true, if_false, decide_eq_true_eq, h, h1, h2, if_true, List.length_cons,
      Nat.cast_add, Nat.cast_one, Inertia.mk.injEq]
    refine ⟨by ring, by ring, by ring⟩
  · have h1 : ¬ d k > 0 := by rw [h]; exact lt_irrefl _
    have h2 : ¬ d k < 0 := by rw [h]; exact lt_irrefl _
    simp only [inertiaOfPivots, Inertia.add, List.filter_cons, Bool.not_false, Bool.true_and,
      Bool.false_eq_true, if_false, decide_eq_true_eq, h, gt_iff_lt, lt_self_iff_false,
      if_true, List.length_cons, Nat.cast_add, Nat.cast_one, Inertia.mk.injEq]
    refine ⟨by ring, by ring, by ring⟩
  · have h1 : ¬ d k < 0 := not_lt.2 (le_of_lt h)
    have h2 : ¬ d k = 0 := ne_of_gt h
    have h3 : d k > 0 := h
    simp only [inertiaOfPivots, Inertia.add, List.filter_cons, Bool.not_false, Bool.true_and,
      Bool.false_eq_true, if_false, decide_eq_true_eq, h3, h1, h2, if_true, List.length_cons,
      Nat.cast_add, Nat.cast_one, Inertia.mk.injEq]
    refine ⟨by ring, by ring, by ring⟩

theorem Inertia.add_zero (x : Inertia) :
    x.add { numPositive := 0, numNegative := 0, numZero := 0 } = x := by
  cases x
  simp [Inertia.add]

theorem Inertia.add_assoc (x y z : Inertia) : (x.add y).add z = x.add (y.add z) := by
  simp only [Inertia.add, Inertia.mk.injEq]
  refine ⟨by ring, by ring, by ring⟩

theorem Inertia.total_add (x y : Inertia) : (x.add y).total = x.total + y.total := by
  simp only [Inertia.add, Inertia.total]
  ring

/-- The list of pivots does not depend on the bound once the bound suffices. -/
theorem pivotsFrom_stable (n : Int) (two : Int → Bool) :
    ∀ (f1 f2 : Nat) (k : Int), (n - k).toNat ≤ f1 → (n - k).toNat ≤ f2 →
      pivotsFrom n two f1 k = pivotsFrom n two f2 k := by
  intro f1
  induction f1 with
  | zero =>
    intro f2 k h1 _
    have hk : ¬ k < n := by omega
    cases f2 with
    | zero => rfl
    | succ m => simp only [pivotsFrom, if_neg hk]
  | succ m ih =>
    intro f2 k h1 h2
    by_cases hk : k < n
    · cases f2 with
      | zero => omega
      | succ m2 =>
        simp only [pivotsFrom, if_pos hk]
        split
        · rw [ih m2 (k + 2) (by omega) (by omega)]
        · rw [ih m2 (k + 1) (by omega) (by omega)]
    · cases f2 with
      | zero => simp only [pivotsFrom, if_neg hk]
      | succ m2 => simp only [pivotsFrom, if_neg hk]

/-- The loop of the sequential `ldl::Inertia` adds the inertia of the pivots read from
its position on, and ends within `n - k` iterations. -/
theorem ldl.Inertia_loop_spec {R F : Type} [LinearOrder R] [Zero R] [Zero F] [DecidableEq F]
    (n : Int) (d : Matrix R) (dSub : Matrix F) :
    ∀ (fuel : Nat) (k : Int) (inertia : El.Inertia), (n - k).toNat ≤ fuel →
      ldl.Inertia_loop n d dSub fuel k inertia
        = some (inertia.add (inertiaOfPivots (fun i => d.Get i 0)
            (pivotsFrom n (fun i => decide (dSub.Get i 0 ≠ 0)) fuel k))) := by
  intro fuel
  induction fuel with
  | zero =>
    intro k inertia h
    have hk : ¬ k < n := by omega
    simp only [ldl.Inertia_loop, if_neg hk, pivotsFrom, inertiaOfPivots_nil,
      Inertia.add_zero]
  | succ m ih =>
    intro k inertia h
    by_cases hk : k < n
    · simp only [ldl.Inertia_loop, if_pos hk, pivotsFrom]
      by_cases h2 : k < n - 1 ∧ dSub.Get k 0 ≠ 0
      · have h2' : k < n - 1 ∧ decide (dSub.Get k 0 ≠ 0) = true :=
          ⟨h2.1, decide_eq_true h2.2⟩
        rw [if_pos h2, if_pos h2']
        simp only [show ¬ ((2 : Int) = 1) by decide, if_false]
        rw [ih (k + 2) _ (by omega), inertiaOfPivots_cons_two, ← Inertia.add_assoc]
        simp only [Inertia.add, add_zero]
      · have h2' : ¬ (k < n - 1 ∧ decide (dSub.Get k 0 ≠ 0) = true) := by
          intro hc
          exact h2 ⟨hc.1, of_decide_eq_true hc.2⟩
        rw [if_neg h2, if_neg h2']
        simp only [if_true]
        rw [ih (k + 1) _ (by omega), inertiaOfPivots_cons_one, ← Inertia.add_assoc]
        congr 2
        by_cases hp : d.Get k 0 > 0
        · simp only [if_pos hp, Inertia.add]
          simp
        · by_cases hn : d.Get k 0 < 0
          · simp only [if_neg hp, if_pos hn, Inertia.add]
            simp
          · simp only [if_neg hp, if_neg hn, Inertia.add]
            simp
    · simp only [ldl.Inertia_loop, if_neg hk, pivotsFrom, inertiaOfPivots_nil,
        Inertia.add_zero]

/-- The pivots from position `k` cover the remaining `n - k` indices: the counts add up. -/
theorem inertiaOfPivots_total {R : Type} [LinearOrder R] [Zero R] (n : Int) (d : Int → R)
    (two : Int → Bool) :
    ∀ (fuel : Nat) (k : Int), k ≤ n → (n - k).toNat ≤ fuel →
      (inertiaOfPivots d (pivotsFrom n two fuel k)).total = n - k := by
  intro fuel
  induction fuel with
  | zero =>
    intro k hk h
    have : n = k := by omega
    simp [pivotsFrom, inertiaOfPivots_nil, Inertia.total, this]
  | succ m ih =>
    intro k hk h
    by_cases hlt : k < n
    · simp only [pivotsFrom, if_pos hlt]
      by_cases h2 : k < n - 1 ∧ two k = true
      · rw [if_pos h2, inertiaOfPivots_cons_two, Inertia.total_add,
          ih (k + 2) (by omega) (by omega)]
        simp only [Inertia.total]
        ring
      · rw [if_neg h2, inertiaOfPivots_cons_one, Inertia.total_add,
          ih (k + 1) (by omega) (by omega)]
        by_cases hp : d k > 0
        · simp only [if_pos hp, Inertia.total]
          ring
        · by_cases hn : d k < 0
          · simp only [if_neg hp, if_pos hn, Inertia.total]
            ring
          · simp only [if_neg hp, if_neg hn, Inertia.total]
            ring
    · have : n = k := by omega
      simp [pivotsFrom, if_neg hlt, inertiaOfPivots_nil, Inertia.total, this]

/-- The sequential `ldl::Inertia` returns, given `n` iterations, the inertia of the
pivots read left to right, and its three counts add up to `n`. -/
theorem ldl.Inertia_sequential {R F : Type} [LinearOrder R] [Zero R] [Zero F]
    [DecidableEq F] (debug : Bool) (fuel : Nat) (d : Matrix R) (dSub : Matrix F)
    (hn : 0 ≤ d.Height) (hlen : d.Height = 0 ∨ dSub.Height = d.Height - 1)
    (hfuel : d.Height.toNat ≤ fuel) :
    ldl.Inertia debug fuel d dSub
        = CallResult.returned (inertiaOfPivots (fun k => d.Get k 0)
            (pivots d.Height (fun k => decide (dSub.Get k 0 ≠ 0))))
      ∧ (inertiaOfPivots (fun k => d.Get k 0)
            (pivots d.Height (fun k => decide (dSub.Get k 0 ≠ 0)))).total = d.Height := by
  have hcheck : ¬ (debug = true ∧ d.Height ≠ 0 ∧ dSub.Height ≠ d.Height - 1) := by
    rintro ⟨_, h0, h1⟩
    rcases hlen with h | h
    · exact h0 h
    · exact h1 h
  constructor
  · unfold ldl.Inertia
    simp only [if_neg hcheck]
    rw [ldl.Inertia_loop_spec d.Height d dSub fuel 0 _ (by simpa using hfuel)]
    simp only [pivots]
    rw [pivotsFrom_stable d.Height _ fuel d.Height.toNat 0 (by simpa using hfuel)
      (by simp)]
    congr 1
    simp [Inertia.add]
  · have h := inertiaOfPivots_total d.Height (fun k => d.Get k 0)
      (fun k => decide (dSub.Get k 0 ≠ 0)) d.Height.toNat 0 hn (by simp)
    simpa [pivots] using h

/-- C22: for a real vector `d` of length `n` and a sub-diagonal `dSub` of length `n-1`
(any length when `n = 0`), the sequential `ldl::Inertia(d, dSub)` ends within `n`
iterations of its loop, in debug and release builds alike, and returns `(a+q, b+q, c)`
for the pivots read left to right: a `2 x 2` pivot at `k` exactly when `k < n-1` and
`dSub[k] != 0`, `q` the number of `2 x 2` pivots and `a`, `b`, `c` the numbers of
positive, negative and zero entries of `d` at the `1 x 1` pivots; the three counts add up
to `n`. -/
theorem C22_Inertia_sequential {R F : Type} [LinearOrder R] [Zero R] [Zero F]
    [DecidableEq F] (debug : Bool) (fuel : Nat) (d : Matrix R) (dSub : Matrix F)
    (hn : 0 ≤ d.Height) (hlen : d.Height = 0 ∨ dSub.Height = d.Height - 1)
    (hfuel : d.Height.toNat ≤ fuel) :
    ldl.Inertia debug fuel d dSub
        = CallResult.returned (inertiaOfPivots (fun k => d.Get k 0)
            (pivots d.Height (fun k => decide (dSub.Get k 0 ≠ 0))))
      ∧ (inertiaOfPivots (fun k => d.Get k 0)
            (pivots d.Height (fun k => decide (dSub.Get k 0 ≠ 0)))).numPositive
        + (inertiaOfPivots (fun k => d.Get k 0)
            (pivots d.Height (fun k => decide (dSub.Get k 0 ≠ 0)))).numNegative
        + (inertiaOfPivots (fun k => d.Get k 0)
            (pivots d.Height (fun k => decide (dSub.Get k 0 ≠ 0)))).numZero = d.Height :=
  ldl.Inertia_sequential debug fuel d dSub hn hlen hfuel

/-- C22 at a vector of length five with one `2 x 2` pivot at position 1: the pivots are
`0`, `(1,2)`, `3`, `4` and the inertia is `(3, 2, 0)`. -/
theorem C22_Inertia_sequential_witness :
    (ldl.Inertia true 5 (sampleVector [1, 1, 1, -1, 1]) (sampleVector [0, 1, 0, 0])
        = CallResult.returned (inertiaOfPivots
            (fun k => (sampleVector [1, 1, 1, -1, 1]).Get k 0)
            (pivots (sampleVector [1, 1, 1, -1, 1]).Height
              (fun k => decide ((sampleVector [0, 1, 0, 0]).Get k 0 ≠ 0))))
      ∧ (inertiaOfPivots (fun k => (sampleVector [1, 1, 1, -1, 1]).Get k 0)
            (pivots (sampleVector [1, 1, 1, -1, 1]).Height
              (fun k => decide ((sampleVector [0, 1, 0, 0]).Get k 0 ≠ 0)))).numPositive
        + (inertiaOfPivots (fun k => (sampleVector [1, 1, 1, -1, 1]).Get k 0)
            (pivots (sampleVector [1, 1, 1, -1, 1]).Height
              (fun k => decide ((sampleVector [0, 1, 0, 0]).Get k 0 ≠ 0)))).numNegative
        + (inertiaOfPivots (fun k => (sampleVector [1, 1, 1, -1, 1]).Get k 0)
            (pivots (sampleVector [1, 1, 1, -1, 1]).Height
              (fun k => decide ((sampleVector [0, 1, 0, 0]).Get k 0 ≠ 0)))).numZero
          = (sampleVector [1, 1, 1, -1, 1]).Height)
      ∧ pivots 5 (fun k => decide ((sampleVector [0, 1, 0, 0]).Get k 0 ≠ 0))
          = [(0, false), (1, true), (3, false), (4, false)]
      ∧ inertiaOfPivots (fun k => (sampleVector [1, 1, 1, -1, 1]).Get k 0)
          [(0, false), (1, true), (3, false), (4, false)]
          = { numPositive := 3, numNegative := 2, numZero := 0 } :=
  ⟨C22_Inertia_sequential true 5 (sampleVector [1, 1, 1, -1, 1])
      (sampleVector [0, 1, 0, 0]) (by decide) (Or.inr (by decide)) (by decide),
    by decide, by decide⟩

/-! ## The pool of synchronisation objects only grows (SyncInfoPool.hpp) -/

/-- Whatever the CUDA calls report, the loop of `EnsureSize` only appends elements. -/
theorem SyncInfoPool.EnsureSize_loop_appends (cs ce : Nat → Option Nat) :
    ∀ (remaining ii : Nat) (P : SyncInfoPool),
      ∃ ys : List SyncInfo, ys.length ≤ remaining ∧
        (SyncInfoPool.EnsureSize_loop cs ce remaining ii P).self.pool_ = P.pool_ ++ ys := by
  intro remaining
  induction remaining with
  | zero =>
    intro ii P
    exact ⟨[], le_refl _, by simp [SyncInfoPool.EnsureSize_loop]⟩
  | succ m ih =>
    intro ii P
    unfold SyncInfoPool.EnsureSize_loop
    cases hs : cs ii with
    | none => exact ⟨[], Nat.zero_le _, by simp⟩
    | some stream =>
      cases he : ce ii with
      | none => exact ⟨[], Nat.zero_le _, by simp⟩
      | some event =>
        obtain ⟨ys, hlen, hys⟩ :=
          ih (ii + 1) (P.emplace_back { stream_ := stream, event_ := event })
        refine ⟨{ stream_ := stream, event_ := event } :: ys, by simpa using hlen, ?_⟩
        simp only [hys]
        have : (P.emplace_back { stream_ := stream, event_ := event }).pool_
            = P.pool_ ++ [{ stream_ := stream, event_ := event }] := by
          unfold SyncInfoPool.emplace_back
          split <;> rfl
        rw [this]
        simp

/-- When the CUDA calls succeed and the capacity holds the new elements, the loop of
`EnsureSize` appends exactly `remaining` elements and leaves the allocation, the capacity
and the position as they are. -/
theorem SyncInfoPool.EnsureSize_loop_ok (cs ce : Nat → Option Nat) :
    ∀ (remaining ii : Nat) (P : SyncInfoPool),
      P.Size + remaining ≤ P.capacity →
      (∀ k, ii ≤ k → k < ii + remaining → (cs k).isSome = true ∧ (ce k).isSome = true) →
      ∃ ys : List SyncInfo, ys.length = remaining ∧
        SyncInfoPool.EnsureSize_loop cs ce remaining ii P
          = { self := { P with pool_ := P.pool_ ++ ys }, raised := none } := by
  intro remaining
  induction remaining with
  | zero =>
    intro ii P _ _
    exact ⟨[], rfl, by simp [SyncInfoPool.EnsureSize_loop]⟩
  | succ m ih =>
    intro ii P hcap hok
    unfold SyncInfoPool.EnsureSize_loop
    have h0 := hok ii (le_refl _) (by omega)
    obtain ⟨stream, hs⟩ := Option.isSome_iff_exists.mp h0.1
    obtain ⟨event, he⟩ := Option.isSome_iff_exists.mp h0.2
    simp only [hs, he]
    have hemp : P.emplace_back { stream_ := stream, event_ := event }
        = { P with pool_ := P.pool_ ++ [{ stream_ := stream, event_ := event }] } := by
      unfold SyncInfoPool.emplace_back
      rw [if_pos (by omega)]
    obtain ⟨ys, hlen, hys⟩ :=
      ih (ii + 1) (P.emplace_back { stream_ := stream, event_ := event })
        (by
          rw [hemp]
          simp only [SyncInfoPool.Size, List.length_append, List.length_singleton]
          simp only [SyncInfoPool.Size] at hcap
          omega)
        (fun k hk1 hk2 => hok k (by omega) (by omega))
    refine ⟨{ stream_ := stream, event_ := event } :: ys, by simp [hlen], ?_⟩
    rw [hys, hemp]
    simp

theorem SyncInfoPool.reserve_fields (P : SyncInfoPool) (n : Nat) :
    (P.reserve n).pool_ = P.pool_ ∧ n ≤ (P.reserve n).capacity
      ∧ (P.reserve n).Size = P.Size := by
  unfold SyncInfoPool.reserve
  split
  · exact ⟨rfl, le_refl _, rfl⟩
  · exact ⟨rfl, by omega, rfl⟩

/-- The pool never shrinks and keeps its elements, also when `EnsureSize` raises. -/
theorem SyncInfoPool.EnsureSize_appends (cs ce : Nat → Option Nat) (P : SyncInfoPool)
    (n : Nat) :
    ∃ ys : List SyncInfo, (SyncInfoPool.EnsureSize cs ce P n).self.pool_ = P.pool_ ++ ys := by
  unfold SyncInfoPool.EnsureSize
  by_cases hn : n ≤ P.Size
  · rw [if_pos hn]
    exact ⟨[], by simp⟩
  · rw [if_neg hn]
    obtain ⟨ys, _, hys⟩ :=
      SyncInfoPool.EnsureSize_loop_appends cs ce (n - (P.reserve n).Size) 0 (P.reserve n)
    refine ⟨ys, ?_⟩
    simp only
    split
    · simp only [hys, (SyncInfoPool.reserve_fields P n).1]
    · simp only [hys, (SyncInfoPool.reserve_fields P n).1]

/-- What `EnsureSize` does when the CUDA calls it makes succeed. -/
theorem SyncInfoPool.EnsureSize_spec (cs ce : Nat → Option Nat) (P : SyncInfoPool)
    (n : Nat) (hvalid : P.Valid)
    (hcuda : ∀ k, k < n - P.Size → (cs k).isSome = true ∧ (ce k).isSome = true) :
    (SyncInfoPool.EnsureSize cs ce P n).raised = none
      ∧ (SyncInfoPool.EnsureSize cs ce P n).self.Size = max P.Size n
      ∧ (∃ ys : List SyncInfo,
          (SyncInfoPool.EnsureSize cs ce P n).self.pool_ = P.pool_ ++ ys)
      ∧ (∀ k, k < P.Size →
          (SyncInfoPool.EnsureSize cs ce P n).self.pool_[k]? = P.pool_[k]?)
      ∧ (P.Size ≠ 0 →
          (SyncInfoPool.EnsureSize cs ce P n).self.pos_.storage
              = (SyncInfoPool.EnsureSize cs ce P n).self.storage
            ∧ (SyncInfoPool.EnsureSize cs ce P n).self.pos_.offset = P.pos_.offset
            ∧ (SyncInfoPool.EnsureSize cs ce P n).self.deref
                (SyncInfoPool.EnsureSize cs ce P n).self.pos_ = P.deref P.pos_
            ∧ (P.deref P.pos_).isSome = true)
      ∧ (SyncInfoPool.EnsureSize cs ce P n).self.Valid := by
  have hderef : P.Size ≠ 0 → (P.deref P.pos_).isSome = true := by
    intro h0
    obtain ⟨h1, h2, h3⟩ := hvalid h0
    unfold SyncInfoPool.deref
    rw [if_pos ⟨h1, h2⟩]
    rw [Option.isSome_iff_exists]
    have hlt : P.pos_.offset.toNat < P.pool_.length := by
      simp only [SyncInfoPool.Size] at h3
      omega
    exact ⟨_, List.getElem?_eq_getElem hlt⟩
  by_cases hn : n ≤ P.Size
  · have hE : SyncInfoPool.EnsureSize cs ce P n = { self := P, raised := none } := by
      unfold SyncInfoPool.EnsureSize
      rw [if_pos hn]
    rw [hE]
    refine ⟨rfl, (max_eq_left hn).symm, ⟨[], by simp⟩, fun _ _ => rfl, ?_, hvalid⟩
    intro h0
    exact ⟨(hvalid h0).1, rfl, rfl, hderef h0⟩
  · obtain ⟨hr1, hr2, hr3⟩ := SyncInfoPool.reserve_fields P n
    obtain ⟨ys, hlen, hys⟩ :=
      SyncInfoPool.EnsureSize_loop_ok cs ce (n - (P.reserve n).Size) 0 (P.reserve n)
        (by omega)
        (fun k _ hk => hcuda k (by
          rw [hr3] at hk
          omega))
    have hE : SyncInfoPool.EnsureSize cs ce P n
        = { self := { pool_ := P.pool_ ++ ys, storage := (P.reserve n).storage
                      capacity := (P.reserve n).capacity
                      pos_ := { storage := (P.reserve n).storage
                                offset := 0 + (if P.Size = 0 then 0
                                  else PoolIterator.distance P.cbegin P.pos_) } }
            raised := none } := by
      unfold SyncInfoPool.EnsureSize
      rw [if_neg hn]
      simp only [hys, hr1, SyncInfoPool.cbegin, PoolIterator.advance]
    rw [hE]
    have hsize : (P.pool_ ++ ys).length = max P.Size n := by
      rw [List.length_append, hlen, hr3]
      simp only [SyncInfoPool.Size] at hn ⊢
      omega
    refine ⟨rfl, hsize, ⟨ys, rfl⟩, ?_, ?_, ?_⟩
    · intro k hk
      have hk2 : k < P.pool_.length := hk
      exact List.getElem?_append_left hk2
    · intro h0
      obtain ⟨h1, h2, h3⟩ := hvalid h0
      refine ⟨rfl, ?_, ?_, hderef h0⟩
      · simp only [if_neg h0, PoolIterator.distance, SyncInfoPool.cbegin]
        omega
      · simp only [SyncInfoPool.deref, if_neg h0, PoolIterator.distance,
          SyncInfoPool.cbegin]
        have e : (0 : Int) + (P.pos_.offset - 0) = P.pos_.offset := by omega
        rw [e, if_pos ⟨trivial, h2⟩, if_pos ⟨h1, h2⟩]
        have hlt : P.pos_.offset.toNat < P.pool_.length := by
          simp only [SyncInfoPool.Size] at h3
          omega
        exact List.getElem?_append_left hlt
    · intro _
      refine ⟨rfl, ?_, ?_⟩
      · by_cases h0 : P.Size = 0
        · simp [h0]
        · simp only [if_neg h0, PoolIterator.distance, SyncInfoPool.cbegin]
          have := (hvalid h0).2.1
          omega
      · show (0 + (if P.Size = 0 then 0 else PoolIterator.distance P.cbegin P.pos_) : Int)
            < (((P.pool_ ++ ys).length : Nat) : Int)
        rw [hsize]
        by_cases h0 : P.Size = 0
        · simp only [if_pos h0]
          omega
        · simp only [if_neg h0, PoolIterator.distance, SyncInfoPool.cbegin]
          have := (hvalid h0).2.2
          omega

/-- The invariant of `pos_` holds for the pool the default constructor builds and after
`Reset`. -/
theorem SyncInfoPool.Valid_empty_Reset (P : SyncInfoPool) :
    SyncInfoPool.empty.Valid ∧ P.Reset.Valid := by
  refine ⟨fun h => absurd rfl h, ?_⟩
  intro h
  refine ⟨rfl, le_refl _, ?_⟩
  have h2 : P.pool_.length ≠ 0 := h
  show (0 : Int) < ((P.pool_.length : Nat) : Int)
  omega

/-- On a pool that satisfies the invariant, `Next` keeps it and returns an element. -/
theorem SyncInfoPool.Next_Valid (P : SyncInfoPool) (hvalid : P.Valid) (h0 : P.Size ≠ 0) :
    ∃ P2 x, P.Next = Except.ok (P2, some x) ∧ P2.Valid ∧ P2.pool_ = P.pool_ := by
  obtain ⟨h1, h2, h3⟩ := hvalid h0
  unfold SyncInfoPool.Next
  rw [if_neg h0]
  by_cases hend : P.pos_.advance 1 = P.cend
  · simp only [if_pos hend]
    have hlt : 0 < P.pool_.length := Nat.pos_of_ne_zero h0
    refine ⟨{ P with pos_ := P.cbegin }, P.pool_[0], ?_, ?_, rfl⟩
    · simp only [SyncInfoPool.deref, SyncInfoPool.cbegin, le_refl, and_self, if_true,
        Int.toNat_zero]
      rw [List.getElem?_eq_getElem hlt]
    · intro _
      refine ⟨rfl, le_refl _, ?_⟩
      show (0 : Int) < ((P.pool_.length : Nat) : Int)
      omega
  · simp only [if_neg hend]
    have hne : P.pos_.offset + 1 ≠ P.Size := by
      intro hc
      apply hend
      simp only [PoolIterator.advance, SyncInfoPool.cend, hc, h1]
    have hlt : (P.pos_.offset + 1).toNat < P.pool_.length := by
      simp only [SyncInfoPool.Size] at h3 hne
      omega
    refine ⟨{ P with pos_ := P.pos_.advance 1 }, P.pool_[(P.pos_.offset + 1).toNat],
      ?_, ?_, rfl⟩
    · simp only [SyncInfoPool.deref, PoolIterator.advance]
      rw [if_pos ⟨h1, by omega⟩, List.getElem?_eq_getElem hlt]
    · intro _
      refine ⟨h1, ?_, ?_⟩
      · show 0 ≤ P.pos_.offset + 1
        omega
      · show P.pos_.offset + 1 < ((P.pool_.length : Nat) : Int)
        omega

/-- The loop of `EnsureSize` ends without an exception exactly when the CUDA calls of its
iterations succeed. -/
theorem SyncInfoPool.EnsureSize_loop_raised (cs ce : Nat → Option Nat) :
    ∀ (remaining ii : Nat) (P : SyncInfoPool),
      (SyncInfoPool.EnsureSize_loop cs ce remaining ii P).raised = none ↔
        ∀ k, ii ≤ k → k < ii + remaining → (cs k).isSome = true ∧ (ce k).isSome = true := by
  intro remaining
  induction remaining with
  | zero =>
    intro ii P
    simp only [SyncInfoPool.EnsureSize_loop, true_iff]
    intro k h1 h2
    omega
  | succ m ih =>
    intro ii P
    unfold SyncInfoPool.EnsureSize_loop
    cases hs : cs ii with
    | none =>
      constructor
      · intro h
        cases h
      · intro h
        have := (h ii (le_refl _) (by omega)).1
        rw [hs] at this
        cases this
    | some stream =>
      cases he : ce ii with
      | none =>
        constructor
        · intro h
          cases h
        · intro h
          have := (h ii (le_refl _) (by omega)).2
          rw [he] at this
          cases this
      | some event =>
        simp only []
        rw [ih (ii + 1) _]
        constructor
        · intro h k h1 h2
          by_cases hk : k = ii
          · subst hk
            rw [hs, he]
            exact ⟨rfl, rfl⟩
          · exact h k (by omega) (by omega)
        · intro h k h1 h2
          exact h k (by omega) (by omega)

/-- `EnsureSize` returns exactly when the CUDA calls it makes succeed; it makes none when
the pool already has the requested size. -/
theorem SyncInfoPool.EnsureSize_raised (cs ce : Nat → Option Nat) (P : SyncInfoPool)
    (n : Nat) :
    (SyncInfoPool.EnsureSize cs ce P n).raised = none ↔
      ∀ k, k < n - P.Size → (cs k).isSome = true ∧ (ce k).isSome = true := by
  unfold SyncInfoPool.EnsureSize
  by_cases hn : n ≤ P.Size
  · rw [if_pos hn]
    simp only [true_iff]
    intro k hk
    omega
  · rw [if_neg hn]
    have hr3 := (SyncInfoPool.reserve_fields P n).2.2
    have hl := SyncInfoPool.EnsureSize_loop_raised cs ce (n - (P.reserve n).Size) 0
      (P.reserve n)
    rw [hr3] at hl
    simp only [hr3]
    constructor
    · intro h k hk
      refine hl.mp ?_ k (Nat.zero_le _) (by omega)
      cases hraised : (SyncInfoPool.EnsureSize_loop cs ce (n - P.Size) 0
          (P.reserve n)).raised with
      | none => rfl
      | some msg =>
        rw [hraised] at h
        cases h
    · intro h
      have := hl.mpr (fun k _ hk => h k (by omega))
      rw [this]

/-- What `EnsureSize` does on every pool and for every requested size, whether it returns
or leaves through the exception of a failed CUDA call. -/
theorem SyncInfoPool.EnsureSize_total (cs ce : Nat → Option Nat) (P : SyncInfoPool)
    (n : Nat) :
    (∃ ys : List SyncInfo, (SyncInfoPool.EnsureSize cs ce P n).self.pool_ = P.pool_ ++ ys) ∧
    P.Size ≤ (SyncInfoPool.EnsureSize cs ce P n).self.Size ∧
    (∀ k, k < P.Size → (SyncInfoPool.EnsureSize cs ce P n).self.pool_[k]? = P.pool_[k]?) ∧
    ((SyncInfoPool.EnsureSize cs ce P n).raised = none ↔
      ∀ k, k < n - P.Size → (cs k).isSome = true ∧ (ce k).isSome = true) ∧
    ((SyncInfoPool.EnsureSize cs ce P n).raised = none →
      (SyncInfoPool.EnsureSize cs ce P n).self.Size = max P.Size n ∧
      (P.Valid →
        (SyncInfoPool.EnsureSize cs ce P n).self.Valid ∧
        (P.Size ≠ 0 →
          (SyncInfoPool.EnsureSize cs ce P n).self.pos_.storage
              = (SyncInfoPool.EnsureSize cs ce P n).self.storage
            ∧ (SyncInfoPool.EnsureSize cs ce P n).self.pos_.offset = P.pos_.offset
            ∧ (SyncInfoPool.EnsureSize cs ce P n).self.deref
                (SyncInfoPool.EnsureSize cs ce P n).self.pos_ = P.deref P.pos_
            ∧ (P.deref P.pos_).isSome = true))) := by
  obtain ⟨ys, hys⟩ := SyncInfoPool.EnsureSize_appends cs ce P n
  have hsize : P.Size ≤ (SyncInfoPool.EnsureSize cs ce P n).self.Size := by
    simp only [SyncInfoPool.Size, hys, List.length_append]
    omega
  refine ⟨⟨ys, hys⟩, hsize, ?_, SyncInfoPool.EnsureSize_raised cs ce P n, ?_⟩
  · intro k hk
    rw [hys]
    have hk2 : k < P.pool_.length := hk
    exact List.getElem?_append_left hk2
  · intro hret
    have hcuda := (SyncInfoPool.EnsureSize_raised cs ce P n).mp hret
    by_cases hn : n ≤ P.Size
    · have hE : SyncInfoPool.EnsureSize cs ce P n = { self := P, raised := none } := by
        unfold SyncInfoPool.EnsureSize
        rw [if_pos hn]
      rw [hE]
      refine ⟨(max_eq_left hn).symm, fun hvalid => ?_⟩
      obtain ⟨-, -, -, -, h5, h6⟩ := SyncInfoPool.EnsureSize_spec cs ce P n hvalid hcuda
      rw [hE] at h5 h6
      exact ⟨h6, h5⟩
    · obtain ⟨hr1, hr2, hr3⟩ := SyncInfoPool.reserve_fields P n
      obtain ⟨zs, hlen, hzs⟩ :=
        SyncInfoPool.EnsureSize_loop_ok cs ce (n - (P.reserve n).Size) 0 (P.reserve n)
          (by omega)
          (fun k _ hk => hcuda k (by
            rw [hr3] at hk
            omega))
      refine ⟨?_, fun hvalid => ?_⟩
      · have hpool : (SyncInfoPool.EnsureSize cs ce P n).self.pool_ = P.pool_ ++ zs := by
          unfold SyncInfoPool.EnsureSize
          rw [if_neg hn]
          simp only [hzs, hr1]
        have hlen2 : zs.length = n - P.pool_.length := by
          rw [hlen, hr3]
          rfl
        show (SyncInfoPool.EnsureSize cs ce P n).self.pool_.length = max P.pool_.length n
        rw [hpool, List.length_append, hlen2]
        have hn2 : ¬ n ≤ P.pool_.length := hn
        omega
      · obtain ⟨-, -, -, -, h5, h6⟩ := SyncInfoPool.EnsureSize_spec cs ce P n hvalid hcuda
        exact ⟨h6, h5⟩

/-- C23 (amended): on every pool and for every requested size `n`, `EnsureSize(n)` never
shrinks the pool: the previous elements stay, unchanged and in the same order, at the
front of the vector, also when the call leaves through the exception of a failed CUDA
call.  The call returns exactly when the CUDA calls it makes succeed (it makes none when
`n <= Size()`); then `Size()` is the maximum of the previous size and `n`, and on a pool
that satisfies the documented invariant of `pos_` the invariant holds again and, for a
previously nonempty pool, the position is an iterator of the current storage at the same
offset as before, referring to the same element, reallocated or not. -/
theorem C23_EnsureSize_grows (cudaStreamCreate cudaEventCreate : Nat → Option Nat)
    (P : SyncInfoPool) (n : Nat) :
    (∃ ys : List SyncInfo,
      (SyncInfoPool.EnsureSize cudaStreamCreate cudaEventCreate P n).self.pool_
        = P.pool_ ++ ys) ∧
    P.Size ≤ (SyncInfoPool.EnsureSize cudaStreamCreate cudaEventCreate P n).self.Size ∧
    (∀ k, k < P.Size →
      (SyncInfoPool.EnsureSize cudaStreamCreate cudaEventCreate P n).self.pool_[k]?
        = P.pool_[k]?) ∧
    ((SyncInfoPool.EnsureSize cudaStreamCreate cudaEventCreate P n).raised = none ↔
      ∀ k, k < n - P.Size →
        (cudaStreamCreate k).isSome = true ∧ (cudaEventCreate k).isSome = true) ∧
    ((SyncInfoPool.EnsureSize cudaStreamCreate cudaEventCreate P n).raised = none →
      (SyncInfoPool.EnsureSize cudaStreamCreate cudaEventCreate P n).self.Size
        = max P.Size n ∧
      (P.Valid →
        (SyncInfoPool.EnsureSize cudaStreamCreate cudaEventCreate P n).self.Valid ∧
        (P.Size ≠ 0 →
          (SyncInfoPool.EnsureSize cudaStreamCreate cudaEventCreate P n).self.pos_.storage
              = (SyncInfoPool.EnsureSize cudaStreamCreate cudaEventCreate P n).self.storage
            ∧ (SyncInfoPool.EnsureSize cudaStreamCreate cudaEventCreate P n).self.pos_.offset
              = P.pos_.offset
            ∧ (SyncInfoPool.EnsureSize cudaStreamCreate cudaEventCreate P n).self.deref
                (SyncInfoPool.EnsureSize cudaStreamCreate cudaEventCreate P n).self.pos_
              = P.deref P.pos_
            ∧ (P.deref P.pos_).isSome = true))) :=
  SyncInfoPool.EnsureSize_total cudaStreamCreate cudaEventCreate P n

/-- C23 at a full pool of two elements positioned at the second one, grown to four with
CUDA calls that succeed: the call returns, the pool has four elements, the storage is
reallocated and the position is offset 1 of the new storage, at the same element. -/
theorem C23_EnsureSize_grows_witness :
    (SyncInfoPool.EnsureSize (fun i => some (100 + i)) (fun i => some (200 + i))
        SyncInfoPool.sample 4).raised = none ∧
    ((SyncInfoPool.EnsureSize (fun i => some (100 + i)) (fun i => some (200 + i))
        SyncInfoPool.sample 4).self.Size = max SyncInfoPool.sample.Size 4 ∧
      (SyncInfoPool.sample.Valid →
        (SyncInfoPool.EnsureSize (fun i => some (100 + i)) (fun i => some (200 + i))
          SyncInfoPool.sample 4).self.Valid ∧
        (SyncInfoPool.sample.Size ≠ 0 →
          (SyncInfoPool.EnsureSize (fun i => some (100 + i)) (fun i => some (200 + i))
              SyncInfoPool.sample 4).self.pos_.storage
            = (SyncInfoPool.EnsureSize (fun i => some (100 + i)) (fun i => some (200 + i))
              SyncInfoPool.sample 4).self.storage
          ∧ (SyncInfoPool.EnsureSize (fun i => some (100 + i)) (fun i => some (200 + i))
              SyncInfoPool.sample 4).self.pos_.offset = SyncInfoPool.sample.pos_.offset
          ∧ (SyncInfoPool.EnsureSize (fun i => some (100 + i)) (fun i => some (200 + i))
              SyncInfoPool.sample 4).self.deref
              (SyncInfoPool.EnsureSize (fun i => some (100 + i)) (fun i => some (200 + i))
                SyncInfoPool.sample 4).self.pos_
            = SyncInfoPool.sample.deref SyncInfoPool.sample.pos_
          ∧ (SyncInfoPool.sample.deref SyncInfoPool.sample.pos_).isSome = true))) ∧
    SyncInfoPool.sample.Valid ∧
    SyncInfoPool.EnsureSize (fun i => some (100 + i)) (fun i => some (200 + i))
        SyncInfoPool.sample 4
      = { self := { pool_ := [{ stream_ := 10, event_ := 20 }, { stream_ := 11, event_ := 21 },
                              { stream_ := 100, event_ := 200 },
                              { stream_ := 101, event_ := 201 }]
                    storage := 4, capacity := 4, pos_ := { storage := 4, offset := 1 } }
          raised := none } :=
  ⟨by decide,
    (C23_EnsureSize_grows (fun i => some (100 + i)) (fun i => some (200 + i))
      SyncInfoPool.sample 4).2.2.2.2 (by decide),
    by decide, by decide⟩

/-- The call that refutes the unamended C23: on the full pool of two elements, whose
position is valid, `EnsureSize(5)` with a CUDA call that fails in the second iteration
leaves through the exception with three elements, not `max(2, 5) = 5`.  The pool that
call leaves is nonempty with a position that refers to none of its elements, and
`EnsureSize(2)` on it returns with the position as it was. -/
theorem C23_EnsureSize_grows_counterexample :
    SyncInfoPool.sample.Valid ∧
    SyncInfoPool.EnsureSize (fun i => some (100 + i))
        (fun i => if i = 1 then none else some (200 + i)) SyncInfoPool.sample 5
      = { self := { pool_ := [{ stream_ := 10, event_ := 20 }, { stream_ := 11, event_ := 21 },
                              { stream_ := 100, event_ := 200 }]
                    storage := 4, capacity := 5, pos_ := { storage := 3, offset := 1 } }
          raised := some "CUDA error" } ∧
    ¬ ((SyncInfoPool.EnsureSize (fun i => some (100 + i))
          (fun i => if i = 1 then none else some (200 + i)) SyncInfoPool.sample 5).self.Size
        = max SyncInfoPool.sample.Size 5) ∧
    (SyncInfoPool.EnsureSize (fun i => some (100 + i)) (fun i => some (200 + i))
        (SyncInfoPool.EnsureSize (fun i => some (100 + i))
          (fun i => if i = 1 then none else some (200 + i)) SyncInfoPool.sample 5).self
        2).raised = none ∧
    (SyncInfoPool.EnsureSize (fun i => some (100 + i)) (fun i => some (200 + i))
        (SyncInfoPool.EnsureSize (fun i => some (100 + i))
          (fun i => if i = 1 then none else some (200 + i)) SyncInfoPool.sample 5).self
        2).self.deref
      (SyncInfoPool.EnsureSize (fun i => some (100 + i)) (fun i => some (200 + i))
        (SyncInfoPool.EnsureSize (fun i => some (100 + i))
          (fun i => if i = 1 then none else some (200 + i)) SyncInfoPool.sample 5).self
        2).self.pos_ = none :=
  ⟨by decide, by decide, by decide, by decide, by decide⟩

/-! ## What `ReportException` reports (Exception.cpp) -/

/-- The handler of `UnrecoverableException` takes nothing the `try` block of
`ReportException` throws: the block throws `std::bad_cast` only. -/
theorem dynamic_cast_ArgException_throws (badCastWhat : String) (e thrown : ExceptionObject)
    (h : dynamic_cast_ArgException badCastWhat e = Except.error thrown) :
    catches_UnrecoverableException thrown = false := by
  unfold dynamic_cast_ArgException at h
  split at h
  · cases h
  · cases h
    rfl

/-- The behaviour of `ReportException` by the dynamic type of `e`: an `ArgException` has
its message printed when it is not empty; every other exception, an
`UnrecoverableException` included, has the "caught error message" report printed when its
message is not empty; a debug build adds the call stack; no case calls `mpi::Abort`. -/
theorem ReportException_cases (debug : Bool) (rank : Int) (callStack badCastWhat : String)
    (e : ExceptionObject) (os : String) :
    (ReportException debug rank callStack badCastWhat e os).aborted = none
      ∧ (e.cls = ExceptionClass.ArgException →
          (ReportException debug rank callStack badCastWhat e os).os
            = (if e.what ≠ "" then os ++ e.what ++ "\n" else os)
                ++ (if debug then callStack else ""))
      ∧ (e.cls ≠ ExceptionClass.ArgException →
          (ReportException debug rank callStack badCastWhat e os).os
            = (if e.what ≠ "" then
                  os ++ "Process " ++ toString rank ++ " caught error message:\n"
                    ++ e.what ++ "\n"
                else os)
                ++ (if debug then callStack else "")) := by
  by_cases hc : e.cls = ExceptionClass.ArgException
  · refine ⟨?_, fun _ => ?_, fun h => absurd hc h⟩
    · simp [ReportException, dynamic_cast_ArgException, hc]
    · cases debug <;> simp [ReportException, dynamic_cast_ArgException, hc]
  · refine ⟨?_, fun h => absurd h hc, fun _ => ?_⟩
    · simp [ReportException, dynamic_cast_ArgException, hc, catches_UnrecoverableException]
    · cases debug <;>
        simp [ReportException, dynamic_cast_ArgException, hc, catches_UnrecoverableException]

/-- C21 (the code departs from it): `ReportException` never calls `mpi::Abort`, whatever
the exception; for the `UnrecoverableException` that `UnrecoverableError` throws with a
non-empty message, the release build on process 3 writes the "caught error message"
report, not the "caught an unrecoverable exception with message" one, and returns. -/
theorem C21_ReportException_unrecoverable :
    (∀ (debug : Bool) (rank : Int) (callStack badCastWhat : String) (e : ExceptionObject)
        (os : String),
        (ReportException debug rank callStack badCastWhat e os).aborted = none)
      ∧ ReportException false 3 "" "std::bad_cast"
          (UnrecoverableError ["device transfer failed"]) ""
        = { os := "Process 3 caught error message:\ndevice transfer failed\n"
            aborted := none }
      ∧ ReportException false 3 "" "std::bad_cast" (ArgException "usage: ...") ""
        = { os := "usage: ...\n", aborted := none }
      ∧ ReportException false 3 "" "std::bad_cast"
          { cls := ExceptionClass.logic_error, what := "Grids did not match" } ""
        = { os := "Process 3 caught error message:\nGrids did not match\n"
            aborted := none } :=
  ⟨fun debug rank callStack badCastWhat e os =>
      (ReportException_cases debug rank callStack badCastWhat e os).1,
    by decide, by decide, by decide⟩

/-! ## The auxiliary buffer of `[VR,*] = [VC,*]` (VR_STAR.cpp) -/

/-- Columns of length `n <= m` packed back to back stay below `m * w`. -/
theorem packed_index_bound (j k n m w : Int) (hj : 0 ≤ j ∧ j < w) (hk : 0 ≤ k ∧ k < n)
    (hnm : n ≤ m) : 0 ≤ j * n + k ∧ j * n + k < m * w := by
  have h1 : 0 ≤ j * n := mul_nonneg hj.1 (by omega)
  have h2 : (j + 1) * n ≤ w * n := mul_le_mul_of_nonneg_right (by omega) (by omega)
  have h3 : w * n ≤ w * m := mul_le_mul_of_nonneg_left hnm (by omega)
  have h4 : (j + 1) * n = j * n + n := by ring
  have h5 : w * m = m * w := by ring
  omega

/-- The buffer indices of one process of `[VR,*] = [VC,*]`: the pack loop writes only
below `portionSize`, the unpack loop reads only below `portionSize` in `recvBuf`, and
`portionSize` is the same number on every process. -/
theorem VR_STAR_assign_pack_bounds {α : Type} (debug : Bool) (r c row col aA aB h w : Int)
    (hr : 1 ≤ r) (hc : 1 ≤ c) (hrow : 0 ≤ row ∧ row < r) (hcol : 0 ≤ col ∧ col < c)
    (haA : 0 ≤ aA ∧ aA < r * c) (haB : 0 ≤ aB ∧ aB < r * c)
    (A B : ElementalMatrix α)
    (hA : IsVC_STAR { height_ := r, width_ := c, mcRank := row, mrRank := col } A)
    (hA2 : A.colAlign_ = aA ∧ A.height_ = h ∧ A.width_ = w)
    (hB : IsVR_STAR { height_ := r, width_ := c, mcRank := row, mrRank := col } B)
    (hB2 : B.colAlign_ = aB) (mem aux : Int → α) :
    ∃ st : VRFromVCState α,
      VR_STAR_assign_pack debug B A mem aux = Except.ok (Sum.inr st) ∧
      st.width = w ∧
      st.portionSize = MaxLength h (r * c) * w ∧
      (∀ j k : Int, 0 ≤ j → j < w → 0 ≤ k → k < A.LocalHeight →
        0 ≤ j * A.LocalHeight + k ∧ j * A.LocalHeight + k < st.portionSize) ∧
      (∀ k : Int, ¬ (0 ≤ k ∧ k < st.portionSize) → st.buffer k = aux k) ∧
      (∀ j k : Int, 0 ≤ j → j < w → 0 ≤ k → k < st.localHeight →
        0 ≤ j * st.localHeight + k ∧ j * st.localHeight + k < st.portionSize) := by
  obtain ⟨st, hst, -, hw, hlh, hps, -, -, -⟩ :=
    VR_STAR_assign_pack_spec debug r c row col aA aB h w hr hc hrow hcol haA haB A B hA hA2
      hB hB2 mem aux
  obtain ⟨hA_g, hA_cs, hA_rs, hA_sh, hA_rsh, hA_ra, hA_p, hA_lh, hA_lw, hA_ld⟩ := hA
  obtain ⟨hB_g, hB_l, hB_cs, hB_rs, hB_sh, hB_rsh, hB_ra, hB_p, hB_v⟩ := hB
  obtain ⟨hA_a, hA_h, hA_w⟩ := hA2
  have hp : 0 < r * c := mul_pos (by omega) (by omega)
  have hVR := VRRank_bounds r c row col hrow hcol
  have hVC := VRRank_bounds c r col row hcol hrow
  rw [mul_comm c r] at hVC
  simp only [Grid.VCSize, Grid.VRSize, Grid.Size, Grid.VCRank, Grid.VRRank] at hA_cs hA_sh
  rw [hA_a] at hA_sh
  have hsA := Shift_bounds (row + col * r) aA (r * c) hp hVC.1 haA.2
  have hsB := Shift_bounds (col + row * c) aB (r * c) hp hVR.1 haB.2
  have hlhA : A.LocalHeight = Length h (Shift (row + col * r) aA (r * c)) (r * c) := by
    simp only [ElementalMatrix.LocalHeight, Matrix.Height, hA_lh, hA_h, hA_sh, hA_cs]
  have hleA := Length_le_MaxLength h (Shift (row + col * r) aA (r * c)) (r * c) hp hsA.1
  have hleB := Length_le_MaxLength h (Shift (col + row * c) aB (r * c)) (r * c) hp hsB.1
  have hpack : ∀ j k : Int, 0 ≤ j → j < w → 0 ≤ k → k < A.LocalHeight →
      0 ≤ j * A.LocalHeight + k ∧ j * A.LocalHeight + k < st.portionSize := by
    intro j k hj0 hj1 hk0 hk1
    rw [hps]
    exact packed_index_bound j k _ _ w ⟨hj0, hj1⟩ ⟨hk0, hk1⟩ (hlhA ▸ hleA)
  refine ⟨st, hst, hw, hps, hpack, ?_, ?_⟩
  · intro k hk
    -- the buffer of the state is the result of the pack loop
    have hbuf : st.buffer = forLoop w
        (fun j buf => MemCopy buf (0 + j * A.LocalHeight) A.LockedBuffer (j * A.LDim)
          A.LocalHeight) aux := by
      have hpart : (B.Resize mem A.Height A.Width).Participating = true := by
        simp only [ElementalMatrix.Resize_participating B mem _ _ hB_p,
          ElementalMatrix.Participating, hB_p]
      have hWidth : (B.Resize mem A.Height A.Width).Width = w := by
        simp only [ElementalMatrix.Resize_participating B mem _ _ hB_p,
          ElementalMatrix.Width, hA_w]
      unfold VR_STAR_assign_pack at hst
      cases debug
      · simp only [ElementalMatrix.Resize_checked, hpart, Bool.not_true,
          Bool.false_eq_true, if_false, pure, bind, Except.bind, Except.pure,
          Except.ok.injEq, Sum.inr.injEq] at hst
        rw [← hst]
        simp only [hWidth]
      · simp only [ElementalMatrix.Resize_checked, ElementalMatrix.Resize_DEBUG_ONLY,
          AssertSameGrids, AssertNotLocked, ElementalMatrix.Grid, hA_g, hB_g, hB_l, hB_v,
          hpart, ne_eq, not_true_eq_false, Bool.not_true, Bool.false_eq_true, if_false,
          if_true, false_and, pure, bind, Except.bind, Except.pure,
          Except.ok.injEq, Sum.inr.injEq] at hst
        rw [← hst]
        simp only [hWidth]
    rw [hbuf]
    apply forLoop_MemCopy_other
    intro j hj0 hj1 hc
    apply hk
    have hlt : 0 ≤ k - (0 + j * A.LocalHeight) ∧ k - (0 + j * A.LocalHeight) < A.LocalHeight := by
      omega
    have := hpack j (k - (0 + j * A.LocalHeight)) hj0 hj1 hlt.1 hlt.2
    have e : j * A.LocalHeight + (k - (0 + j * A.LocalHeight)) = k := by ring
    rw [e] at this
    exact this
  · intro j k hj0 hj1 hk0 hk1
    rw [hps]
    rw [hlh] at hk1 ⊢
    exact packed_index_bound j k _ _ w ⟨hj0, hj1⟩ ⟨hk0, hk1⟩ hleB

/-- C28: in `[VR,*] = [VC,*]` on an `r x c` grid (`p = r*c >= 1`), for every height and
width and all alignments in range, every process reaches `mpi::SendRecv` with
`portionSize = MaxLength(height,p) * width`, the same number on every process, which is
the count it sends and the count it receives; every index `j*localHeightOfA + k` the
pack loop writes in `sendBuf` and every index `j*localHeight + k` the unpack loop reads
in `recvBuf` lies in `[0, portionSize)`, and the pack loop leaves the cells of the
auxiliary buffer outside `sendBuf` as they were. -/
theorem C28_VR_STAR_buffer_bounds {α : Type} (debug : Bool) (r c row col aA aB h w : Int)
    (hr : 1 ≤ r) (hc : 1 ≤ c) (hrow : 0 ≤ row ∧ row < r) (hcol : 0 ≤ col ∧ col < c)
    (haA : 0 ≤ aA ∧ aA < r * c) (haB : 0 ≤ aB ∧ aB < r * c)
    (A B : ElementalMatrix α)
    (hA : IsVC_STAR { height_ := r, width_ := c, mcRank := row, mrRank := col } A)
    (hA2 : A.colAlign_ = aA ∧ A.height_ = h ∧ A.width_ = w)
    (hB : IsVR_STAR { height_ := r, width_ := c, mcRank := row, mrRank := col } B)
    (hB2 : B.colAlign_ = aB) (mem aux : Int → α) :
    ∃ st : VRFromVCState α,
      VR_STAR_assign_pack debug B A mem aux = Except.ok (Sum.inr st) ∧
      st.width = w ∧
      st.portionSize = MaxLength h (r * c) * w ∧
      (∀ j k : Int, 0 ≤ j → j < w → 0 ≤ k → k < A.LocalHeight →
        0 ≤ j * A.LocalHeight + k ∧ j * A.LocalHeight + k < st.portionSize) ∧
      (∀ k : Int, ¬ (0 ≤ k ∧ k < st.portionSize) → st.buffer k = aux k) ∧
      (∀ j k : Int, 0 ≤ j → j < w → 0 ≤ k → k < st.localHeight →
        0 ≤ j * st.localHeight + k ∧ j * st.localHeight + k < st.portionSize) :=
  VR_STAR_assign_pack_bounds debug r c row col aA aB h w hr hc hrow hcol haA haB A B hA hA2
    hB hB2 mem aux

/-- C28 on the sample data: the process at grid position `(0,1)` of the `2 x 2` grid,
for the `5 x 2` source. -/
theorem C28_VR_STAR_buffer_bounds_witness :
    ∃ st : VRFromVCState Int,
      VR_STAR_assign_pack true (sampleB 0 1) (sampleA 0 1) sampleMem sampleMem
        = Except.ok (Sum.inr st) ∧
      st.width = 2 ∧
      st.portionSize = MaxLength 5 (2 * 2) * 2 ∧
      (∀ j k : Int, 0 ≤ j → j < 2 → 0 ≤ k → k < (sampleA 0 1).LocalHeight →
        0 ≤ j * (sampleA 0 1).LocalHeight + k
          ∧ j * (sampleA 0 1).LocalHeight + k < st.portionSize) ∧
      (∀ k : Int, ¬ (0 ≤ k ∧ k < st.portionSize) → st.buffer k = sampleMem k) ∧
      (∀ j k : Int, 0 ≤ j → j < 2 → 0 ≤ k → k < st.localHeight →
        0 ≤ j * st.localHeight + k ∧ j * st.localHeight + k < st.portionSize) :=
  C28_VR_STAR_buffer_bounds true 2 2 0 1 1 2 5 2 (by decide) (by decide) (by decide)
    (by decide) (by decide) (by decide) (sampleA 0 1) (sampleB 0 1)
    (by unfold IsVC_STAR; decide) ⟨by decide, by decide, by decide⟩
    (by unfold IsVR_STAR; decide) (by decide) sampleMem sampleMem

/-! ## Partner ranks of `[VR,*] = [VC,*]` and of the vector exchanges -/

/-- In the branch of `[MC,MR]` the block of `DiagonalRoot` and `DiagonalAlign` yields a
grid position and its column-major rank: on an `r x c` grid with alignments in range and
for every offset, `0 <= procRow < r`, `0 <= procCol < c` and
`owner = procRow + r*procCol` lies in `[0, r*c)`. -/
theorem ElementalMatrix.DiagonalOwner_MC_MR {α : Type} (A : ElementalMatrix α) (r c : Int)
    (offset : Int) (hr : 1 ≤ r) (hc : 1 ≤ c) (hcs : A.ColStride = r) (hrs : A.RowStride = c)
    (hca : 0 ≤ A.ColAlign ∧ A.ColAlign < r) (hra : 0 ≤ A.RowAlign ∧ A.RowAlign < c) :
    (0 ≤ (A.DiagonalOwner true offset).1 ∧ (A.DiagonalOwner true offset).1 < r) ∧
    (0 ≤ (A.DiagonalOwner true offset).2.1 ∧ (A.DiagonalOwner true offset).2.1 < c) ∧
    (A.DiagonalOwner true offset).2.2
      = (A.DiagonalOwner true offset).1 + r * (A.DiagonalOwner true offset).2.1 ∧
    (0 ≤ (A.DiagonalOwner true offset).2.2 ∧ (A.DiagonalOwner true offset).2.2 < r * c) := by
  have key : ∀ x y : Int, (0 ≤ x ∧ x < r) → (0 ≤ y ∧ y < c) →
      0 ≤ x + r * y ∧ x + r * y < r * c := by
    intro x y hx hy
    have := VRRank_bounds c r y x hy hx
    rw [mul_comm c r, mul_comm y r] at this
    exact this
  by_cases ho : offset ≥ 0
  · have hb := tmod_in_range (A.RowAlign + offset) c (by omega) (by omega)
    simp only [ElementalMatrix.DiagonalOwner, if_true, if_pos ho, hcs, hrs]
    exact ⟨hca, hb, trivial, key _ _ hca hb⟩
  · have hb := tmod_in_range (A.ColAlign - offset) r (by omega) (by omega)
    simp only [ElementalMatrix.DiagonalOwner, if_true, if_neg ho, hcs, hrs]
    exact ⟨hb, hra, trivial, key _ _ hb hra⟩

/-- In the branch of `[MR,MC]`, whose column stride is the grid width `c` and whose row
stride is the grid height `r`, the block yields a grid position, and as `owner` the
number `procRow + c*procCol`: the column-major rank of the position when the grid is
square. -/
theorem ElementalMatrix.DiagonalOwner_MR_MC {α : Type} (A : ElementalMatrix α) (r c : Int)
    (offset : Int) (hr : 1 ≤ r) (hc : 1 ≤ c) (hcs : A.ColStride = c) (hrs : A.RowStride = r)
    (hca : 0 ≤ A.ColAlign ∧ A.ColAlign < c) (hra : 0 ≤ A.RowAlign ∧ A.RowAlign < r) :
    (0 ≤ (A.DiagonalOwner false offset).1 ∧ (A.DiagonalOwner false offset).1 < r) ∧
    (0 ≤ (A.DiagonalOwner false offset).2.1 ∧ (A.DiagonalOwner false offset).2.1 < c) ∧
    (A.DiagonalOwner false offset).2.2
      = (A.DiagonalOwner false offset).1 + c * (A.DiagonalOwner false offset).2.1 ∧
    (r = c →
      (A.DiagonalOwner false offset).2.2
        = (A.DiagonalOwner false offset).1 + r * (A.DiagonalOwner false offset).2.1 ∧
      0 ≤ (A.DiagonalOwner false offset).2.2 ∧ (A.DiagonalOwner false offset).2.2 < r * c) := by
  have key : ∀ x y : Int, (0 ≤ x ∧ x < r) → (0 ≤ y ∧ y < c) → r = c →
      x + c * y = x + r * y ∧ 0 ≤ x + c * y ∧ x + c * y < r * c := by
    intro x y hx hy hrc
    subst hrc
    have := VRRank_bounds r r y x hy hx
    rw [mul_comm y r] at this
    exact ⟨rfl, this⟩
  by_cases ho : offset ≥ 0
  · have hb := tmod_in_range (A.RowAlign + offset) r (by omega) (by omega)
    simp only [ElementalMatrix.DiagonalOwner, Bool.false_eq_true, if_false, if_pos ho, hcs,
      hrs]
    exact ⟨hb, hca, trivial, key _ _ hb hca⟩
  · have hb := tmod_in_range (A.ColAlign - offset) c (by omega) (by omega)
    simp only [ElementalMatrix.DiagonalOwner, Bool.false_eq_true, if_false, if_neg ho, hcs,
      hrs]
    exact ⟨hra, hb, trivial, key _ _ hra hb⟩

/-- C29 (the code departs from it): for the matrix `[MR,MC]` with alignments `(2, 1)` on
a `2 x 3` grid and offset 0, `DiagonalRoot` and `DiagonalAlign` compute the grid position
`(procRow, procCol) = (1, 2)` and pass `owner = 7` to `grid.Diag` and `grid.DiagRank`:
not the column-major rank `1 + 2*2 = 5` of that position, and not a rank of the grid of
six processes.  The same matrix as `[MC,MR]` on the `3 x 2` grid gets the column-major
rank of its position. -/
theorem C29_DiagonalOwner_MR_MC_not_square :
    sampleMRMC_2x3.DiagonalOwner false 0 = (1, 2, 7) ∧
    ¬ ((sampleMRMC_2x3.DiagonalOwner false 0).2.2
        = (sampleMRMC_2x3.DiagonalOwner false 0).1
          + sampleMRMC_2x3.Grid.Height * (sampleMRMC_2x3.DiagonalOwner false 0).2.1) ∧
    ¬ ((sampleMRMC_2x3.DiagonalOwner false 0).2.2
        < sampleMRMC_2x3.Grid.Height * sampleMRMC_2x3.Grid.Width) ∧
    (∀ Diag : Int → Int,
      sampleMRMC_2x3.DiagonalRoot (queriesOf Dist.MR Dist.MC) Diag 0 = Diag 7) ∧
    (∀ DiagRank : Int → Int,
      sampleMRMC_2x3.DiagonalAlign (queriesOf Dist.MR Dist.MC) DiagRank 0 = DiagRank 7) ∧
    sampleMRMC_2x3.DiagonalOwner true 0 = (2, 1, 2 + 3 * 1) :=
  ⟨by decide, by decide, by decide, fun _ => rfl, fun _ => rfl, by decide⟩

/-! ## The previous sub-diagonal entry in the distributed `ldl::Inertia` (LDL/Inertia.hpp) -/

/-- The shift of rank `k` under alignment `a`, by cases. -/
theorem Shift_cases (k a s : Int) (hs : 0 < s) (hk : 0 ≤ k ∧ k < s) (ha : 0 ≤ a ∧ a < s) :
    Shift k a s = if a ≤ k then k - a else k - a + s := by
  rw [Shift_eq _ _ _ hs hk.1 ha.2]
  split
  · have e : k - a + s = (k - a) + s * 1 := by ring
    rw [e, Int.add_mul_emod_self_left]
    exact Int.emod_eq_of_lt (by omega) (by omega)
  · exact Int.emod_eq_of_lt (by omega) (by omega)

/-- The alignment `(colAlign + colStride - 1) % colStride` of the distributed
`ldl::Inertia`, by cases. -/
theorem colAlignPrev_cases (a s : Int) (hs : 0 < s) (ha : 0 ≤ a ∧ a < s) :
    Int.tmod (a + s - 1) s = if a = 0 then s - 1 else a - 1 := by
  rw [Int.tmod_eq_emod (by omega) (by omega)]
  split
  · rename_i h
    subst h
    have e : (0 : Int) + s - 1 = s - 1 := by ring
    rw [e]
    exact Int.emod_eq_of_lt (by omega) (by omega)
  · have e : a + s - 1 = (a - 1) + s * 1 := by ring
    rw [e, Int.add_mul_emod_self_left]
    exact Int.emod_eq_of_lt (by omega) (by omega)

/-- Where the distributed `ldl::Inertia` reads the previous sub-diagonal entry.  With the
alignment `(colAlign + colStride - 1) % colStride` the function asserts, the shift of
`dSubPrev` is one more than that of `d` (modulo the stride `s`), and `prevOff` is 0 only
for `s = 2` and `colShift = 1`.  The local row `iLoc + prevOff` of `dSubPrev` is the
global row `i - 1` when `s = 2`; for `s >= 3` it is the global row `i + 1 - s`, or
`i + 1 - 2s` on the process with `colShift = s - 1`, never `i - 1`; there
`i = colShift + iLoc*s`. -/
theorem ldl.Inertia_prev_row {R F : Type} (d dPrev : ElementalMatrix R)
    (dSubPrev : ElementalMatrix F) (END s a k : Int) (hEND : END < 0) (hs : 2 ≤ s)
    (ha : 0 ≤ a ∧ a < s) (hk : 0 ≤ k ∧ k < s)
    (hd : d.ColShift = Shift k a s)
    (hdPrev : dPrev.ColShift = Shift k (Int.tmod (a + s - 1) s) s)
    (hdSubPrev : dSubPrev.ColShift = Shift k (Int.tmod (a + s - 1) s) s
      ∧ dSubPrev.ColStride = s) :
    (0 ≤ d.ColShift ∧ d.ColShift < s) ∧
    dPrev.ColShift = (if d.ColShift = s - 1 then 0 else d.ColShift + 1) ∧
    ldl.Inertia_prevOff d dPrev = (if s = 2 ∧ d.ColShift = 1 then 0 else -1) ∧
    (∀ iLoc : Int, 0 ≤ iLoc + ldl.Inertia_prevOff d dPrev →
      dSubPrev.GlobalRow END (iLoc + ldl.Inertia_prevOff d dPrev)
        = if s = 2 then (d.ColShift + iLoc * s) - 1
          else if d.ColShift = s - 1 then (d.ColShift + iLoc * s) + 1 - 2 * s
          else (d.ColShift + iLoc * s) + 1 - s) := by
  have hp : 0 < s := by omega
  have hap := colAlignPrev_cases a s hp ha
  have hsh := Shift_cases k a s hp hk ha
  have hb := Shift_bounds k a s hp hk.1 ha.2
  have hshPrev : Shift k (Int.tmod (a + s - 1) s) s
      = if Shift k a s = s - 1 then 0 else Shift k a s + 1 := by
    rw [hap]
    by_cases h0 : a = 0
    · rw [if_pos h0, Shift_cases k (s - 1) s hp hk (by omega), hsh]
      subst h0
      simp only [if_pos hk.1]
      by_cases h1 : s - 1 ≤ k
      · rw [if_pos h1, if_pos (by omega)]
        omega
      · rw [if_neg h1, if_neg (by omega)]
        omega
    · rw [if_neg h0, Shift_cases k (a - 1) s hp hk (by omega), hsh]
      by_cases h1 : a ≤ k
      · rw [if_pos h1, if_pos (by omega), if_neg (by omega)]
        omega
      · rw [if_neg h1]
        by_cases h2 : a - 1 ≤ k
        · rw [if_pos h2, if_pos (by omega)]
          omega
        · rw [if_neg h2, if_neg (by omega)]
          omega
  have hoff : ldl.Inertia_prevOff d dPrev = (if s = 2 ∧ d.ColShift = 1 then 0 else -1) := by
    simp only [ldl.Inertia_prevOff, hdPrev, hd, hshPrev]
    by_cases h1 : Shift k a s = s - 1
    · rw [if_pos h1]
      by_cases h2 : s = 2 ∧ Shift k a s = 1
      · rw [if_pos h2, if_pos (by omega)]
      · rw [if_neg h2, if_neg (by omega)]
    · rw [if_neg h1, if_neg (by omega), if_neg (by omega)]
  refine ⟨hd ▸ hb, ?_, hoff, ?_⟩
  · rw [hdPrev, hd]
    exact hshPrev
  · intro iLoc hi
    have hne : ¬ (iLoc + ldl.Inertia_prevOff d dPrev = END) := by omega
    simp only [ElementalMatrix.GlobalRow, if_neg hne, hdSubPrev.1, hdSubPrev.2, hshPrev]
    rw [hoff, hd]
    by_cases h2 : s = 2
    · subst h2
      simp only [true_and, if_true]
      by_cases h1 : Shift k a 2 = 1
      · rw [if_pos h1, if_pos (by omega)]
        omega
      · rw [if_neg h1, if_neg (by omega)]
        have : Shift k a 2 = 0 := by omega
        rw [this]
        ring
    · simp only [h2, false_and, if_false]
      by_cases h1 : Shift k a s = s - 1
      · rw [if_pos h1, if_pos h1, h1]
        ring
      · rw [if_neg h1, if_neg h1]
        ring

/-- C26 (the code departs from it): on a column communicator of three processes, with
`d` and `dSub` aligned at 0 and `dPrev` and `dSubPrev` at `(0 + 3 - 1) % 3 = 2` as the
function asserts, the process of rank 1 has `colShift = 1` and `prevOff = -1`, so for its
local row `iLoc = 0`, global row `i = 1 > 0`, the index `iLocPrev` is `-1`, outside the
local matrix; on the process of rank 0 the local row `iLoc = 1`, global row `i = 3`, has
`iLocPrev = 0`, and the entry read there is the global entry `dSub(1) = 1`, not
`dSub(2) = 0`. -/
theorem C26_Inertia_previous_entry :
    ldl.Inertia_DEBUG_ONLY (sampleInertia_d 0 1) (sampleInertia_d 2 1)
        (sampleInertia_dSub 0 1 0) (sampleInertia_dSub 2 1 0) = Except.ok () ∧
    (sampleInertia_d 0 1).ColStride = 3 ∧
    (0 : Int) < (sampleInertia_d 0 1).LocalHeight ∧
    (sampleInertia_d 0 1).ColShift + 0 * (sampleInertia_d 0 1).ColStride = 1 ∧
    0 + ldl.Inertia_prevOff (sampleInertia_d 0 1) (sampleInertia_d 2 1) = -1 ∧
    (1 : Int) < (sampleInertia_d 0 0).LocalHeight ∧
    (sampleInertia_d 0 0).ColShift + 1 * (sampleInertia_d 0 0).ColStride = 3 ∧
    1 + ldl.Inertia_prevOff (sampleInertia_d 0 0) (sampleInertia_d 2 0) = 0 ∧
    (sampleInertia_dSub 2 0 0).LocalHeight = 1 ∧
    (sampleInertia_dSub 2 0 0).GetLocal 0 0 = vectorOf [0, 1, 0, 0] 1 ∧
    (sampleInertia_dSub 2 0 0).GetLocal 0 0 ≠ vectorOf [0, 1, 0, 0] (3 - 1) :=
  ⟨rfl, by decide, by decide, by decide, by decide, by decide, by decide, by decide,
    by decide, by decide, by decide⟩

/-! ## The distributed `ldl::Inertia` against the sequential one (LDL/Inertia.hpp) -/

/-- The loop over a single local row. -/
theorem forLoop_one {σ : Type} (body : Int → σ → σ) (init : σ) :
    forLoop 1 body init = body 0 init := rfl

/-- The loop over two local rows. -/
theorem forLoop_two {σ : Type} (body : Int → σ → σ) (init : σ) :
    forLoop 2 body init = body 1 (body 0 init) := rfl

/-- On the sample data over three processes, the local counts of the processes of ranks
0 and 1 whatever the memory around the local buffers holds, and those of the process of
rank 2, which reads the cell before the local buffer of `dSubPrev`. -/
theorem sampleInertia_locInert (outside : Int) :
    ldl.Inertia_locInert (sampleInertia_d 0 0) (sampleInertia_d 2 0)
        (sampleInertia_dSub 0 0 outside) (sampleInertia_dSub 2 0 outside)
      = { numPositive := 1, numNegative := 0, numZero := 0 } ∧
    ldl.Inertia_locInert (sampleInertia_d 0 1) (sampleInertia_d 2 1)
        (sampleInertia_dSub 0 1 outside) (sampleInertia_dSub 2 1 outside)
      = { numPositive := 2, numNegative := 1, numZero := 0 } ∧
    ldl.Inertia_locInert (sampleInertia_d 0 2) (sampleInertia_d 2 2)
        (sampleInertia_dSub 0 2 outside) (sampleInertia_dSub 2 2 outside)
      = (if outside ≠ 0 then { numPositive := 0, numNegative := 0, numZero := 0 }
         else { numPositive := 1, numNegative := 0, numZero := 0 }) := by
  have l50 : Length 5 0 3 = 2 := by decide
  have l51 : Length 5 1 3 = 2 := by decide
  have l52 : Length 5 2 3 = 1 := by decide
  have l40 : Length 4 0 3 = 2 := by decide
  have l41 : Length 4 1 3 = 1 := by decide
  have l42 : Length 4 2 3 = 1 := by decide
  have s00 : Shift 0 0 3 = 0 := by decide
  have s10 : Shift 1 0 3 = 1 := by decide
  have s20 : Shift 2 0 3 = 2 := by decide
  have s02 : Shift 0 2 3 = 1 := by decide
  have s12 : Shift 1 2 3 = 2 := by decide
  have s22 : Shift 2 2 3 = 0 := by decide
  refine ⟨?_, ?_, ?_⟩
  · simp only [ldl.Inertia_locInert, ldl.Inertia_prevOff, sampleInertia_d,
      sampleInertia_dSub, MC_STAR_vector, sampleGrid3, Grid.Height,
      ElementalMatrix.Height, ElementalMatrix.ColShift, ElementalMatrix.ColStride,
      ElementalMatrix.LocalHeight, ElementalMatrix.GetLocal, Matrix.Height, Matrix.Get,
      s00, s02, l50, l40, l41, forLoop_two]
    simp [vectorOf]
  · simp only [ldl.Inertia_locInert, ldl.Inertia_prevOff, sampleInertia_d,
      sampleInertia_dSub, MC_STAR_vector, sampleGrid3, Grid.Height,
      ElementalMatrix.Height, ElementalMatrix.ColShift, ElementalMatrix.ColStride,
      ElementalMatrix.LocalHeight, ElementalMatrix.GetLocal, Matrix.Height, Matrix.Get,
      s10, s12, l51, l41, l42, forLoop_two]
    simp [vectorOf]
  · simp only [ldl.Inertia_locInert, ldl.Inertia_prevOff, sampleInertia_d,
      sampleInertia_dSub, MC_STAR_vector, sampleGrid3, Grid.Height,
      ElementalMatrix.Height, ElementalMatrix.ColShift, ElementalMatrix.ColStride,
      ElementalMatrix.LocalHeight, ElementalMatrix.GetLocal, Matrix.Height, Matrix.Get,
      s20, s22, l52, l42, l40, forLoop_one]
    simp [vectorOf]

/-- The sample operands pass the assertions of the distributed `ldl::Inertia` on every
process. -/
theorem sampleInertia_checks (k outside : Int) :
    ldl.Inertia_DEBUG_ONLY (sampleInertia_d 0 k) (sampleInertia_d 2 k)
      (sampleInertia_dSub 0 k outside) (sampleInertia_dSub 2 k outside) = Except.ok () :=
  rfl

/-- The sum over a communicator of three processes. -/
theorem AllReduce_three (value : Int → Int) :
    AllReduce 3 value = value 0 + value 1 + value 2 := by
  simp [AllReduce, List.range_succ]
  ring

/-- On the sample data, whose sub-diagonal has the single nonzero entry `dSub(1)`, the
distributed `ldl::Inertia` over three processes returns `(3, 1, 0)` when the cell before
the local buffer of `dSubPrev` holds a nonzero value and `(4, 1, 0)` when it holds
zero. -/
theorem sampleInertia_distributed (outside k : Int) :
    ldl.Inertia_DistMatrix true 5 sampleGrid3 5 (vectorOf [1, 1, 1, -1, 1]) 4
        (vectorOf [0, 1, 0, 0]) 0 outside k
      = CallResult.returned
          (if outside ≠ 0 then { numPositive := 3, numNegative := 1, numZero := 0 }
           else { numPositive := 4, numNegative := 1, numZero := 0 }) := by
  obtain ⟨h0, h1, h2⟩ := sampleInertia_locInert outside
  have hd : ∀ a j, MC_STAR_vector sampleGrid3 a j 5 (vectorOf [1, 1, 1, -1, 1]) 0
      = sampleInertia_d a j := fun _ _ => rfl
  have hs : ∀ a j, MC_STAR_vector sampleGrid3 a j 4 (vectorOf [0, 1, 0, 0]) outside
      = sampleInertia_dSub a j outside := fun _ _ => rfl
  have hstride : ∀ a j, (sampleInertia_d a j).ColStride = 3 := fun _ _ => rfl
  have hg : sampleGrid3.Height = 3 := rfl
  simp only [ldl.Inertia_DistMatrix, hg, hd, hs, ldl.Inertia_dist, if_true,
    sampleInertia_checks, hstride, show ¬ ((3 : Int) = 1) by decide, if_false,
    show (3 : Int) - 1 = 2 by decide, AllReduce_three, h0, h1, h2]
  by_cases ho : outside = 0
  · subst ho
    simp [List.range_succ]
  · simp [List.range_succ, ho]

/-- C27 (the code departs from it): for `d = (1, 1, 1, -1, 1)` and
`dSub = (0, 1, 0, 0)`, in which no two consecutive entries are nonzero, the sequential
`ldl::Inertia` returns `(3, 2, 0)`, and the distributed one over a column communicator of
three processes returns on every process the sum `(3, 1, 0)` or `(4, 1, 0)` of the local
counts, by what the cell before the local buffer of `dSubPrev` holds on the process of
rank 2: the negative entry `d(3)` is counted by no process. -/
theorem C27_Inertia_distributed_sum :
    (∀ i : Int, 0 ≤ i → i < 3 →
      vectorOf [0, 1, 0, 0] i = 0 ∨ vectorOf [0, 1, 0, 0] (i + 1) = 0) ∧
    ldl.Inertia true 5 (sampleVector [1, 1, 1, -1, 1]) (sampleVector [0, 1, 0, 0])
      = CallResult.returned { numPositive := 3, numNegative := 2, numZero := 0 } ∧
    (∀ outside k : Int,
      ldl.Inertia_DistMatrix true 5 sampleGrid3 5 (vectorOf [1, 1, 1, -1, 1]) 4
          (vectorOf [0, 1, 0, 0]) 0 outside k
        = CallResult.returned
            (if outside ≠ 0 then { numPositive := 3, numNegative := 1, numZero := 0 }
             else { numPositive := 4, numNegative := 1, numZero := 0 })) ∧
    (∀ outside k : Int,
      ldl.Inertia_DistMatrix true 5 sampleGrid3 5 (vectorOf [1, 1, 1, -1, 1]) 4
          (vectorOf [0, 1, 0, 0]) 0 outside k
        ≠ ldl.Inertia true 5 (sampleVector [1, 1, 1, -1, 1])
            (sampleVector [0, 1, 0, 0])) := by
  have hseq : ldl.Inertia true 5 (sampleVector [1, 1, 1, -1, 1]) (sampleVector [0, 1, 0, 0])
      = CallResult.returned { numPositive := 3, numNegative := 2, numZero := 0 } := rfl
  refine ⟨?_, hseq, sampleInertia_distributed, ?_⟩
  · intro i h0 h3
    have hi : i = 0 ∨ i = 1 ∨ i = 2 := by omega
    rcases hi with rfl | rfl | rfl
    · exact Or.inl (by decide)
    · exact Or.inr (by decide)
    · exact Or.inl (by decide)
  · intro outside k
    rw [hseq, sampleInertia_distributed outside k]
    intro hc
    by_cases ho : outside = 0
    · subst ho
      simp at hc
    · simp [ho] at hc

end El
